import Mathlib

/-!
# PE image loader (`src/pelib/ImageLoader.cpp`): shallow embedding and verified properties

The loader state of `PeLib::ImageLoader` is a record; member functions become functions on
that record.  `uint32_t` values are natural numbers, and every place where the C++
arithmetic can wrap is written with an explicit reduction modulo `2^32` (`u32`).
Byte buffers (`std::vector<uint8_t>`) are lists of natural numbers.

A function whose C++ original can index a vector or copy memory outside its bounds returns
an `Option`; `none` stands for that undefined behaviour.
-/

namespace PeLib

/-! ## Machine arithmetic -/

/-- Truncation of a natural number to `uint32_t`. -/
def u32 (n : Nat) : Nat := n % 2 ^ 32

/-- Truncation of a natural number to `uint16_t`. -/
def u16 (n : Nat) : Nat := n % 2 ^ 16

/-- Truncation of a natural number to `uint64_t`. -/
def u64 (n : Nat) : Nat := n % 2 ^ 64

/-- Bitwise complement `~n` on `uint32_t`. -/
def not32 (n : Nat) : Nat := 0xFFFFFFFF ^^^ (n % 2 ^ 32)

/-- Wrapping subtraction `a - b` on `uint32_t`. -/
def sub32 (a b : Nat) : Nat := (a % 2 ^ 32 + (2 ^ 32 - b % 2 ^ 32)) % 2 ^ 32

/-! ## Byte buffers -/

/-- The effect of `memcpy(dst + pos, src, src.length)` on the list `dst`. -/
def copyInto (dst : List Nat) (pos : Nat) (src : List Nat) : List Nat :=
  dst.take pos ++ src ++ dst.drop (pos + src.length)

/-- The bytes `memcpy` reads from `src + pos` for a length of `length`. -/
def copyFrom (src : List Nat) (pos length : Nat) : List Nat :=
  (src.drop pos).take length

/-- The `width` bytes of the little-endian encoding of `n`. -/
def bytesLE (n : Nat) : Nat → List Nat
  | 0 => []
  | width + 1 => n % 256 :: bytesLE (n / 256) width

/-- The library function `memchr(data, c, n)`: the position of the first `c` among the
first `n` bytes of `data`, if there is one. -/
def memchr : List Nat → Nat → Nat → Option Nat
  | [], _, _ => none
  | _ :: _, _, 0 => none
  | b :: rest, c, n + 1 =>
    if b = c then some 0
    else match memchr rest c n with
      | none => none
      | some i => some (i + 1)

/-! ## Constants and types of the headers `ImageLoader.h` / `PeLibAux.h` -/

/-- Modelled from the spec: `PELIB_PAGE_SIZE` is declared in a header that is not part of the
sources; the spec fixes the page at 4096 bytes. -/
def PELIB_PAGE_SIZE : Nat := 4096

/-- Modelled from the spec: `PELIB_SECTOR_SIZE` is declared in a header that is not part of the
sources; the spec names the 512-byte sector size. -/
def PELIB_SECTOR_SIZE : Nat := 512

/-- The value `UINT32_MAX`, returned by the translator as "not found". -/
def UINT32_MAX : Nat := 0xFFFFFFFF

/-- Modelled from the spec: `AlignToSize` is an inline function of `ImageLoader.h`, which is
not part of the sources.  The spec calls it rounding a size up to an alignment; it is taken
in the mask form `(ByteSize + (AlignSize - 1)) & ~(AlignSize - 1)` on `uint32_t`, which is
that rounding whenever `AlignSize` is a power of two. -/
def AlignToSize (ByteSize AlignSize : Nat) : Nat :=
  u32 (ByteSize + sub32 AlignSize 1) &&& not32 (sub32 AlignSize 1)

/-- Modelled from the spec: `BytesToPages` is an inline function of `ImageLoader.h`, which is
not part of the sources; the number of 4096-byte pages needed to hold `ByteSize` bytes
(`ceil(ByteSize / pageSize)`). -/
def BytesToPages (ByteSize : Nat) : Nat :=
  ByteSize / PELIB_PAGE_SIZE + (if ByteSize % PELIB_PAGE_SIZE ≠ 0 then 1 else 0)

/-- The loader error codes that `ImageLoader.cpp` uses (the enumeration itself is declared in
a header that is not part of the sources; only the identity of the codes matters). -/
inductive LoaderError where
  | LDR_ERROR_NONE
  | LDR_ERROR_FILE_TOO_BIG
  | LDR_ERROR_E_LFANEW_UNALIGNED
  | LDR_ERROR_E_LFANEW_OUT_OF_FILE
  | LDR_ERROR_NTHEADER_OFFSET_OVERFLOW
  | LDR_ERROR_NTHEADER_OUT_OF_FILE
  | LDR_ERROR_NO_NT_SIGNATURE
  | LDR_ERROR_FILE_HEADER_INVALID
  | LDR_ERROR_IMAGE_NON_EXECUTABLE
  | LDR_ERROR_NO_OPTHDR_MAGIC
  | LDR_ERROR_SIZE_OF_HEADERS_ZERO
  | LDR_ERROR_FILE_ALIGNMENT_ZERO
  | LDR_ERROR_FILE_ALIGNMENT_NOT_POW2
  | LDR_ERROR_SECTION_ALIGNMENT_ZERO
  | LDR_ERROR_SECTION_ALIGNMENT_NOT_POW2
  | LDR_ERROR_SECTION_ALIGNMENT_TOO_SMALL
  | LDR_ERROR_SECTION_ALIGNMENT_INVALID
  | LDR_ERROR_SIZE_OF_IMAGE_TOO_BIG
  | LDR_ERROR_INVALID_MACHINE32
  | LDR_ERROR_INVALID_MACHINE64
  | LDR_ERROR_SIZE_OF_HEADERS_INVALID
  | LDR_ERROR_SIZE_OF_OPTHDR_NOT_ALIGNED
  | LDR_ERROR_SIZE_OF_IMAGE_ZERO
  | LDR_ERROR_IMAGE_BASE_NOT_ALIGNED
  | LDR_ERROR_RAW_DATA_OVERFLOW
  | LDR_ERROR_SECTION_HEADERS_OUT_OF_IMAGE
  | LDR_ERROR_SECTION_HEADERS_OVERFLOW
  | LDR_ERROR_SECTION_SIZE_MISMATCH
  | LDR_ERROR_INVALID_SECTION_VA
  | LDR_ERROR_INVALID_SECTION_VSIZE
  | LDR_ERROR_INVALID_SECTION_RAWSIZE
  | LDR_ERROR_INVALID_SIZE_OF_IMAGE
  | LDR_ERROR_FILE_IS_CUT
  | LDR_ERROR_FILE_IS_CUT_LOADABLE
  deriving DecidableEq, Repr

/-- The status codes returned by `Load` and the section mutators. -/
inductive FileError where
  | ERROR_NONE
  | ERROR_OPENING_FILE
  | ERROR_INVALID_FILE
  | ERROR_ENTRY_NOT_FOUND
  | ERROR_NOT_ENOUGH_SPACE
  | ERROR_NO_FILE_ALIGNMENT
  | ERROR_NO_SECTION_ALIGNMENT
  deriving DecidableEq, Repr

/-- The two fields of `PELIB_IMAGE_DOS_HEADER` that the loader reads. -/
structure PELIB_IMAGE_DOS_HEADER where
  e_magic : Nat := 0
  e_lfanew : Nat := 0
  deriving DecidableEq, Repr

/-- The COFF file header `PELIB_IMAGE_FILE_HEADER`. -/
structure PELIB_IMAGE_FILE_HEADER where
  Machine : Nat := 0
  NumberOfSections : Nat := 0
  TimeDateStamp : Nat := 0
  PointerToSymbolTable : Nat := 0
  NumberOfSymbols : Nat := 0
  SizeOfOptionalHeader : Nat := 0
  Characteristics : Nat := 0
  deriving DecidableEq, Repr

/-- One entry of the data directory. -/
structure PELIB_IMAGE_DATA_DIRECTORY where
  VirtualAddress : Nat := 0
  Size : Nat := 0
  deriving DecidableEq, Repr

/-- The normalized, bitness-independent optional header `PELIB_IMAGE_OPTIONAL_HEADER`. -/
structure PELIB_IMAGE_OPTIONAL_HEADER where
  Magic : Nat := 0
  MajorLinkerVersion : Nat := 0
  MinorLinkerVersion : Nat := 0
  SizeOfCode : Nat := 0
  SizeOfInitializedData : Nat := 0
  SizeOfUninitializedData : Nat := 0
  AddressOfEntryPoint : Nat := 0
  BaseOfCode : Nat := 0
  BaseOfData : Nat := 0
  ImageBase : Nat := 0
  SectionAlignment : Nat := 0
  FileAlignment : Nat := 0
  MajorOperatingSystemVersion : Nat := 0
  MinorOperatingSystemVersion : Nat := 0
  MajorImageVersion : Nat := 0
  MinorImageVersion : Nat := 0
  MajorSubsystemVersion : Nat := 0
  MinorSubsystemVersion : Nat := 0
  Win32VersionValue : Nat := 0
  SizeOfImage : Nat := 0
  SizeOfHeaders : Nat := 0
  CheckSum : Nat := 0
  Subsystem : Nat := 0
  DllCharacteristics : Nat := 0
  SizeOfStackReserve : Nat := 0
  SizeOfStackCommit : Nat := 0
  SizeOfHeapReserve : Nat := 0
  SizeOfHeapCommit : Nat := 0
  LoaderFlags : Nat := 0
  NumberOfRvaAndSizes : Nat := 0
  DataDirectory : List PELIB_IMAGE_DATA_DIRECTORY := List.replicate 16 {}
  deriving DecidableEq, Repr

/-- A section header `PELIB_SECTION_HEADER`: the on-disk `PELIB_IMAGE_SECTION_HEADER` plus
the resolved section name. -/
structure PELIB_SECTION_HEADER where
  Name : List Nat := List.replicate 8 0
  VirtualSize : Nat := 0
  VirtualAddress : Nat := 0
  SizeOfRawData : Nat := 0
  PointerToRawData : Nat := 0
  PointerToRelocations : Nat := 0
  PointerToLinenumbers : Nat := 0
  NumberOfRelocations : Nat := 0
  NumberOfLinenumbers : Nat := 0
  Characteristics : Nat := 0
  sectionName : List Nat := []
  deriving DecidableEq, Repr

/-- One page of the mapped image, `PELIB_FILE_PAGE`: a buffer that is either empty or holds
the page content, and the two markers. A default-constructed page is "invalid" (not yet
visited) and has no buffer. -/
structure PELIB_FILE_PAGE where
  buffer : List Nat := []
  isInvalidPage : Bool := true
  isZeroPage : Bool := false
  deriving DecidableEq, Repr

/-- The state of a `PeLib::ImageLoader` object. -/
structure ImageLoader where
  sections : List PELIB_SECTION_HEADER := []
  pages : List PELIB_FILE_PAGE := []
  rawFileData : List Nat := []
  dosHeader : PELIB_IMAGE_DOS_HEADER := {}
  fileHeader : PELIB_IMAGE_FILE_HEADER := {}
  optionalHeader : PELIB_IMAGE_OPTIONAL_HEADER := {}
  ldrError : LoaderError := LoaderError.LDR_ERROR_NONE
  ntSignature : Nat := 0
  loaderMode : Nat := 0
  maxSectionCount : Nat := 255
  realNumberOfRvaAndSizes : Nat := 0
  checkSumFileOffset : Nat := 0
  securityDirFileOffset : Nat := 0
  ssiImageAlignment32 : Nat := 4096
  is64BitWindows : Bool := false
  ntHeadersSizeCheck : Bool := false
  sizeofImageMustMatch : Bool := false
  appContainerCheck : Bool := false
  headerSizeCheck : Bool := false
  loadArmImages : Bool := true
  deriving DecidableEq, Repr

/-! ## RVA to file offset translation -/

/-- The section loop of `getFileOffsetFromRva` (lines 424-447): `some offset` when the loop
returns from inside a section, `none` when it runs to the end of the table. -/
def getFileOffsetFromRva.loop (optionalHeader : PELIB_IMAGE_OPTIONAL_HEADER) (rva : Nat) :
    List PELIB_SECTION_HEADER → Option Nat
  | [] => none
  | sectHdr :: rest =>
    if sectHdr.PointerToRawData ≠ 0 ∧ sectHdr.SizeOfRawData ≠ 0 then
      let realPointerToRawData :=
        if optionalHeader.SectionAlignment ≥ PELIB_PAGE_SIZE then
          sectHdr.PointerToRawData &&& not32 (PELIB_SECTOR_SIZE - 1)
        else sectHdr.PointerToRawData
      let sectionRvaStart :=
        if optionalHeader.SectionAlignment ≠ 0 then
          AlignToSize sectHdr.VirtualAddress optionalHeader.SectionAlignment
        else sectHdr.VirtualAddress
      let virtualSize :=
        if sectHdr.VirtualSize ≠ 0 then sectHdr.VirtualSize else sectHdr.SizeOfRawData
      if sectionRvaStart ≤ rva ∧ rva < u32 (sectionRvaStart + virtualSize) then
        some (u32 (realPointerToRawData + (rva - sectionRvaStart)))
      else getFileOffsetFromRva.loop optionalHeader rva rest
    else getFileOffsetFromRva.loop optionalHeader rva rest

/-- `ImageLoader::getFileOffsetFromRva` (lines 418-455). -/
def getFileOffsetFromRva (self : ImageLoader) (rva : Nat) : Nat :=
  if self.sections.length ≠ 0 then
    match getFileOffsetFromRva.loop self.optionalHeader rva self.sections with
    | some fileOffset => fileOffset
    | none => if rva < self.optionalHeader.SizeOfHeaders then rva else UINT32_MAX
  else rva

/-- `ImageLoader::getRealPointerToRawData` (lines 491-499). -/
def getRealPointerToRawData (self : ImageLoader) (sectionIndex : Nat) : Nat :=
  match self.sections.get? sectionIndex with
  | none => UINT32_MAX
  | some sectHdr =>
    if self.optionalHeader.SectionAlignment < PELIB_PAGE_SIZE then sectHdr.PointerToRawData
    else sectHdr.PointerToRawData &&& not32 (PELIB_SECTOR_SIZE - 1)

/-! ### The translation in the words of the specification -/

/-- Start of a section's virtual range: `VirtualAddress` rounded to `SectionAlignment`
(`VirtualAddress` itself when `SectionAlignment` is 0). -/
def sectionStart (optionalHeader : PELIB_IMAGE_OPTIONAL_HEADER) (S : PELIB_SECTION_HEADER) : Nat :=
  if optionalHeader.SectionAlignment = 0 then S.VirtualAddress
  else AlignToSize S.VirtualAddress optionalHeader.SectionAlignment

/-- Size of a section's virtual range: `VirtualSize`, or `SizeOfRawData` when `VirtualSize`
is 0. -/
def sectionSize (S : PELIB_SECTION_HEADER) : Nat :=
  if S.VirtualSize = 0 then S.SizeOfRawData else S.VirtualSize

/-- `PointerToRawData` rounded down to the 512-byte sector size when
`SectionAlignment >= 4096`, and `PointerToRawData` itself otherwise. -/
def alignedPointerToRawData (optionalHeader : PELIB_IMAGE_OPTIONAL_HEADER)
    (S : PELIB_SECTION_HEADER) : Nat :=
  if 4096 ≤ optionalHeader.SectionAlignment then S.PointerToRawData / 512 * 512
  else S.PointerToRawData

/-- The virtual range `[start, start + size)` of a section contains `rva`, the end being
computed as the code computes it, in 32 bits. -/
def inVirtualRange (optionalHeader : PELIB_IMAGE_OPTIONAL_HEADER) (S : PELIB_SECTION_HEADER)
    (rva : Nat) : Prop :=
  sectionStart optionalHeader S ≤ rva ∧
    rva < u32 (sectionStart optionalHeader S + sectionSize S)

instance (optionalHeader : PELIB_IMAGE_OPTIONAL_HEADER) (S : PELIB_SECTION_HEADER) (rva : Nat) :
    Decidable (inVirtualRange optionalHeader S rva) := by
  unfold inVirtualRange; infer_instance

/-- The virtual range of a section as the claim words it, over unbounded integers. -/
def inVirtualRangeExact (optionalHeader : PELIB_IMAGE_OPTIONAL_HEADER)
    (S : PELIB_SECTION_HEADER) (rva : Nat) : Prop :=
  sectionStart optionalHeader S ≤ rva ∧ rva < sectionStart optionalHeader S + sectionSize S

instance (optionalHeader : PELIB_IMAGE_OPTIONAL_HEADER) (S : PELIB_SECTION_HEADER) (rva : Nat) :
    Decidable (inVirtualRangeExact optionalHeader S rva) := by
  unfold inVirtualRangeExact; infer_instance

/-- The section has raw data in the file as far as the translator is concerned: neither
`PointerToRawData` nor `SizeOfRawData` is zero (the guard at line 427). -/
def hasRawData (S : PELIB_SECTION_HEADER) : Prop :=
  S.PointerToRawData ≠ 0 ∧ S.SizeOfRawData ≠ 0

instance (S : PELIB_SECTION_HEADER) : Decidable (hasRawData S) := by
  unfold hasRawData; infer_instance

/-- The RVA of the file offset `f` of section `S`: `start(S) + (f - alignedPointerToRawData(S))`. -/
def rvaFromOffset (optionalHeader : PELIB_IMAGE_OPTIONAL_HEADER) (S : PELIB_SECTION_HEADER)
    (f : Nat) : Nat :=
  sectionStart optionalHeader S + (f - alignedPointerToRawData optionalHeader S)

/-- The sections have pairwise disjoint virtual ranges. -/
def disjointVirtualRanges (self : ImageLoader) : Prop :=
  self.sections.Pairwise fun A B =>
    ∀ rva, ¬ (inVirtualRangeExact self.optionalHeader A rva ∧
      inVirtualRangeExact self.optionalHeader B rva)

/-- No section's virtual range runs over the end of the 32-bit address space. -/
def noVirtualRangeOverflow (self : ImageLoader) : Prop :=
  ∀ T ∈ self.sections,
    sectionStart self.optionalHeader T + sectionSize T < 2 ^ 32

/-- Modelled from the spec: `getSizeOfImageAligned` is an inline member of `ImageLoader.h`,
which is not part of the sources; `SizeOfImage` rounded up to the page size. -/
def getSizeOfImageAligned (self : ImageLoader) : Nat :=
  AlignToSize self.optionalHeader.SizeOfImage PELIB_PAGE_SIZE

/-! ## Loader configuration and loader error -/

/-- Modelled from the spec: the loader-flag constant for Windows XP behaviour, declared in
`ImageLoader.h`, which is not part of the sources (value of the upstream header, on which
no theorem depends). -/
def LoaderModeWindowsXP : Nat := 0x51

/-- Modelled from the spec: the loader-flag constant for Windows 7 behaviour, declared in
`ImageLoader.h`, which is not part of the sources (value of the upstream header). -/
def LoaderModeWindows7 : Nat := 0x61

/-- Modelled from the spec: the loader-flag constant for Windows 10 behaviour, declared in
`ImageLoader.h`, which is not part of the sources (value of the upstream header). -/
def LoaderModeWindows10 : Nat := 0xA0

/-- Modelled from the spec: the mask that extracts the Windows version from the loader
flags, declared in `ImageLoader.h`, which is not part of the sources. -/
def WindowsVerMask : Nat := 0x0FFF

/-- Modelled from the spec: the loader flag that selects 64-bit Windows, declared in
`ImageLoader.h`, which is not part of the sources. -/
def LoaderMode64BitWindows : Nat := 0x1000

/-- Modelled from the spec: the section-count ceiling of Windows XP (96). -/
def PE_MAX_SECTION_COUNT_XP : Nat := 96

/-- Modelled from the spec: the section-count ceiling of Windows 7 and later (192). -/
def PE_MAX_SECTION_COUNT_7 : Nat := 192

/-- The constructor `ImageLoader::ImageLoader(loaderFlags)` (lines 63-111): a fresh loader
with zeroed headers, no sections, no pages, no raw data and no error. -/
def ImageLoader.new (loaderFlags : Nat) : ImageLoader :=
  let self : ImageLoader :=
    { ssiImageAlignment32 := PELIB_PAGE_SIZE,
      sizeofImageMustMatch := false,
      ntHeadersSizeCheck := false,
      appContainerCheck := false,
      maxSectionCount := 255,
      is64BitWindows := decide (loaderFlags &&& LoaderMode64BitWindows ≠ 0),
      headerSizeCheck := false,
      loadArmImages := true,
      loaderMode := loaderFlags &&& WindowsVerMask }
  if self.loaderMode = LoaderModeWindowsXP then
    { self with
      ssiImageAlignment32 := PELIB_SECTOR_SIZE,
      maxSectionCount := PE_MAX_SECTION_COUNT_XP,
      sizeofImageMustMatch := true,
      headerSizeCheck := true,
      loadArmImages := false }
  else if self.loaderMode = LoaderModeWindows7 then
    { self with
      ssiImageAlignment32 := 1,
      maxSectionCount := PE_MAX_SECTION_COUNT_7,
      ntHeadersSizeCheck := true,
      sizeofImageMustMatch := true,
      loadArmImages := false }
  else if self.loaderMode = LoaderModeWindows10 then
    { self with
      ssiImageAlignment32 := 1,
      maxSectionCount := PE_MAX_SECTION_COUNT_7,
      ntHeadersSizeCheck := true,
      appContainerCheck := true,
      loadArmImages := true }
  else self

/-- `ImageLoader::setLoaderError` (lines 758-766): the returned status, which is always
`ERROR_NONE`, and the loader afterwards. -/
def setLoaderError (self : ImageLoader) (ldrErr : LoaderError) : FileError × ImageLoader :=
  if self.ldrError = LoaderError.LDR_ERROR_NONE then
    (FileError.ERROR_NONE, { self with ldrError := ldrErr })
  else (FileError.ERROR_NONE, self)

/-- `ImageLoader::loaderError` (lines 768-771). -/
def loaderError (self : ImageLoader) : LoaderError := self.ldrError

/-- A statement `if(cond) setLoaderError(ldrErr);`. -/
def setLoaderErrorIf (cond : Bool) (ldrErr : LoaderError) (self : ImageLoader) : ImageLoader :=
  if cond then (setLoaderError self ldrErr).2 else self

/-- `ImageLoader::isImageLoadable` (lines 2176-2179). -/
def isImageLoadable (self : ImageLoader) : Bool :=
  self.ldrError = LoaderError.LDR_ERROR_NONE ||
    self.ldrError = LoaderError.LDR_ERROR_FILE_IS_CUT_LOADABLE

/-- The first error code of a sequence that is not `LDR_ERROR_NONE`, and `LDR_ERROR_NONE`
when there is none. -/
def firstError : List LoaderError → LoaderError
  | [] => LoaderError.LDR_ERROR_NONE
  | e :: rest => if e = LoaderError.LDR_ERROR_NONE then firstError rest else e

/-! ## Header capture -/

/-- Modelled from the spec: `sizeof(PELIB_IMAGE_DOS_HEADER)`; the structure is declared in a
header that is not part of the sources, the DOS header is 64 bytes. -/
def sizeof_PELIB_IMAGE_DOS_HEADER : Nat := 64

/-- Modelled from the spec: `sizeof(PELIB_IMAGE_FILE_HEADER)`; the structure is declared in a
header that is not part of the sources, the COFF file header is 20 bytes. -/
def sizeof_PELIB_IMAGE_FILE_HEADER : Nat := 20

/-- Modelled from the spec: `sizeof(PELIB_IMAGE_OPTIONAL_HEADER32)`; the structure is declared
in a header that is not part of the sources, the 32-bit optional header is 224 bytes. -/
def sizeof_PELIB_IMAGE_OPTIONAL_HEADER32 : Nat := 224

/-- Modelled from the spec: `sizeof(PELIB_IMAGE_OPTIONAL_HEADER64)`; the structure is declared
in a header that is not part of the sources, the 64-bit optional header is 240 bytes. -/
def sizeof_PELIB_IMAGE_OPTIONAL_HEADER64 : Nat := 240

/-- Modelled from the spec: `sizeof(PELIB_IMAGE_SECTION_HEADER)`; the structure is declared in
a header that is not part of the sources, a section header is 40 bytes. -/
def sizeof_PELIB_IMAGE_SECTION_HEADER : Nat := 40

/-- Modelled from the spec: `sizeof(PELIB_IMAGE_DATA_DIRECTORY)`, an (RVA, size) pair of 8
bytes. -/
def sizeof_PELIB_IMAGE_DATA_DIRECTORY : Nat := 8

/-- Modelled from the spec: `PELIB_IMAGE_NUMBEROF_DIRECTORY_ENTRIES`, the capacity of the
data-directory array (16). -/
def PELIB_IMAGE_NUMBEROF_DIRECTORY_ENTRIES : Nat := 16

/-- Modelled from the spec: the DOS signature `MZ` (constant of a header that is not part of
the sources). -/
def PELIB_IMAGE_DOS_SIGNATURE : Nat := 0x5A4D

/-- Modelled from the spec: the NT signature `PE\0\0` (constant of a header that is not part
of the sources). -/
def PELIB_IMAGE_NT_SIGNATURE : Nat := 0x00004550

/-- Modelled from the spec: the magic of the 32-bit optional header (constant of a header
that is not part of the sources). -/
def PELIB_IMAGE_NT_OPTIONAL_HDR32_MAGIC : Nat := 0x10B

/-- Modelled from the spec: the magic of the 64-bit optional header (constant of a header
that is not part of the sources). -/
def PELIB_IMAGE_NT_OPTIONAL_HDR64_MAGIC : Nat := 0x20B

/-- Modelled from the spec: the file characteristic "relocations stripped" (constant of a
header that is not part of the sources). -/
def PELIB_IMAGE_FILE_RELOCS_STRIPPED : Nat := 0x0001

/-- Modelled from the spec: the file characteristic "executable image" (constant of a header
that is not part of the sources). -/
def PELIB_IMAGE_FILE_EXECUTABLE_IMAGE : Nat := 0x0002

/-- Modelled from the spec: the DLL characteristic "app container" (constant of a header that
is not part of the sources). -/
def PELIB_IMAGE_DLLCHARACTERISTICS_APPCONTAINER : Nat := 0x1000

/-- Modelled from the spec: machine type I386 (constant of a header that is not part of the
sources). -/
def PELIB_IMAGE_FILE_MACHINE_I386 : Nat := 0x014C

/-- Modelled from the spec: machine type IA64 (constant of a header that is not part of the
sources). -/
def PELIB_IMAGE_FILE_MACHINE_IA64 : Nat := 0x0200

/-- Modelled from the spec: machine type AMD64 (constant of a header that is not part of the
sources). -/
def PELIB_IMAGE_FILE_MACHINE_AMD64 : Nat := 0x8664

/-- Modelled from the spec: machine type ARMNT (constant of a header that is not part of the
sources). -/
def PELIB_IMAGE_FILE_MACHINE_ARMNT : Nat := 0x01C4

/-- Modelled from the spec: machine type ARM64 (constant of a header that is not part of the
sources). -/
def PELIB_IMAGE_FILE_MACHINE_ARM64 : Nat := 0xAA64

/-- Modelled from the spec: `PELIB_MM_SIZE_OF_LARGEST_IMAGE`, the maximum image size accepted
by the loader (constant of a header that is not part of the sources). -/
def PELIB_MM_SIZE_OF_LARGEST_IMAGE : Nat := 0x77000000

/-- Modelled from the spec: `PELIB_SIZE_64KB`, the 64 KB granularity of the image base. -/
def PELIB_SIZE_64KB : Nat := 0x10000

/-- The conversion `(uint32_t)` of a pointer difference, which can be negative. -/
def u32OfInt (i : Int) : Nat := (i % 2 ^ 32).toNat

/-- A little-endian field of `width` bytes at offset `off` of a byte buffer; a byte that is
not there reads as 0, as in a zero-initialised structure that was only partly filled. -/
def readLE (data : List Nat) (off : Nat) : Nat → Nat
  | 0 => 0
  | width + 1 => data.getD off 0 + 256 * readLE data (off + 1) width

/-- Modelled from the spec: the layout of `PELIB_IMAGE_DOS_HEADER`, declared in a header that
is not part of the sources: `e_magic` at offset 0 and `e_lfanew` at offset 0x3C. -/
def decodeDosHeader (bytes : List Nat) : PELIB_IMAGE_DOS_HEADER :=
  { e_magic := readLE bytes 0 2, e_lfanew := readLE bytes 0x3C 4 }

/-- Modelled from the spec: the layout of `PELIB_IMAGE_FILE_HEADER`, declared in a header that
is not part of the sources (the COFF file header). -/
def decodeFileHeader (bytes : List Nat) : PELIB_IMAGE_FILE_HEADER :=
  { Machine := readLE bytes 0 2,
    NumberOfSections := readLE bytes 2 2,
    TimeDateStamp := readLE bytes 4 4,
    PointerToSymbolTable := readLE bytes 8 4,
    NumberOfSymbols := readLE bytes 12 4,
    SizeOfOptionalHeader := readLE bytes 16 2,
    Characteristics := readLE bytes 18 2 }

/-- The data directory of an optional-header image: 16 entries of 8 bytes from offset `off`. -/
def decodeDataDirectory (bytes : List Nat) (off : Nat) : List PELIB_IMAGE_DATA_DIRECTORY :=
  (List.range PELIB_IMAGE_NUMBEROF_DIRECTORY_ENTRIES).map fun i =>
    { VirtualAddress := readLE bytes (off + 8 * i) 4, Size := readLE bytes (off + 8 * i + 4) 4 }

/-- `ImageLoader::verifyDosHeader(hdr, fileSize)` (lines 1764-1774). -/
def verifyDosHeader (self : ImageLoader) (hdr : PELIB_IMAGE_DOS_HEADER) (fileSize : Nat) :
    FileError × ImageLoader :=
  if hdr.e_magic ≠ PELIB_IMAGE_DOS_SIGNATURE then (FileError.ERROR_INVALID_FILE, self)
  else if hdr.e_lfanew &&& 3 ≠ 0 then
    setLoaderError self LoaderError.LDR_ERROR_E_LFANEW_UNALIGNED
  else if hdr.e_lfanew > fileSize then
    setLoaderError self LoaderError.LDR_ERROR_E_LFANEW_OUT_OF_FILE
  else (FileError.ERROR_NONE, self)

/-- `ImageLoader::captureDosHeader` (lines 1340-1352). -/
def captureDosHeader (self : ImageLoader) (fileData : List Nat) : FileError × ImageLoader :=
  if sizeof_PELIB_IMAGE_DOS_HEADER ≥ fileData.length then (FileError.ERROR_INVALID_FILE, self)
  else
    let self := { self with
      dosHeader := decodeDosHeader (copyFrom fileData 0 sizeof_PELIB_IMAGE_DOS_HEADER) }
    verifyDosHeader self self.dosHeader fileData.length

/-- `ImageLoader::isLegacyImageArchitecture` (lines 2114-2121). -/
def isLegacyImageArchitecture (Machine : Nat) : Bool :=
  if Machine = PELIB_IMAGE_FILE_MACHINE_I386 then true
  else if Machine = PELIB_IMAGE_FILE_MACHINE_AMD64 then true
  else false

/-- `ImageLoader::checkForValid64BitMachine` (lines 2123-2129). -/
def checkForValid64BitMachine (self : ImageLoader) : Bool :=
  if self.loadArmImages ∧ self.fileHeader.Machine = PELIB_IMAGE_FILE_MACHINE_ARM64 then true
  else
    self.fileHeader.Machine = PELIB_IMAGE_FILE_MACHINE_AMD64 ||
      self.fileHeader.Machine = PELIB_IMAGE_FILE_MACHINE_IA64

/-- `ImageLoader::checkForValid32BitMachine` (lines 2131-2137). -/
def checkForValid32BitMachine (self : ImageLoader) : Bool :=
  if self.loadArmImages ∧ self.fileHeader.Machine = PELIB_IMAGE_FILE_MACHINE_ARMNT then true
  else decide (self.fileHeader.Machine = PELIB_IMAGE_FILE_MACHINE_I386)

/-- `ImageLoader::checkForBadAppContainer` (lines 2142-2156). -/
def checkForBadAppContainer (self : ImageLoader) : Bool :=
  if isLegacyImageArchitecture self.fileHeader.Machine then
    if self.optionalHeader.DllCharacteristics &&& PELIB_IMAGE_DLLCHARACTERISTICS_APPCONTAINER ≠ 0
    then
      if self.fileHeader.Characteristics &&& PELIB_IMAGE_FILE_RELOCS_STRIPPED ≠ 0 then true
      else false
    else false
  else false

/-- The conversion of a captured 64-bit optional header to the common optional header
(lines 1821-1855).  Modelled from the spec: the field offsets of
`PELIB_IMAGE_OPTIONAL_HEADER64`, declared in a header that is not part of the sources (the
PE32+ optional header). -/
def convertOptionalHeader64 (old : PELIB_IMAGE_OPTIONAL_HEADER) (optionalHeader64 : List Nat) :
    PELIB_IMAGE_OPTIONAL_HEADER :=
  let numberOfRvaAndSizes :=
    if readLE optionalHeader64 108 4 > PELIB_IMAGE_NUMBEROF_DIRECTORY_ENTRIES then
      PELIB_IMAGE_NUMBEROF_DIRECTORY_ENTRIES
    else readLE optionalHeader64 108 4
  { old with
    Magic := readLE optionalHeader64 0 2,
    MajorLinkerVersion := readLE optionalHeader64 2 1,
    MinorLinkerVersion := readLE optionalHeader64 3 1,
    SizeOfCode := readLE optionalHeader64 4 4,
    SizeOfInitializedData := readLE optionalHeader64 8 4,
    SizeOfUninitializedData := readLE optionalHeader64 12 4,
    AddressOfEntryPoint := readLE optionalHeader64 16 4,
    BaseOfCode := readLE optionalHeader64 20 4,
    ImageBase := readLE optionalHeader64 24 8,
    SectionAlignment := readLE optionalHeader64 32 4,
    FileAlignment := readLE optionalHeader64 36 4,
    MajorOperatingSystemVersion := readLE optionalHeader64 40 2,
    MinorOperatingSystemVersion := readLE optionalHeader64 42 2,
    MajorImageVersion := readLE optionalHeader64 44 2,
    MinorImageVersion := readLE optionalHeader64 46 2,
    MajorSubsystemVersion := readLE optionalHeader64 48 2,
    MinorSubsystemVersion := readLE optionalHeader64 50 2,
    Win32VersionValue := readLE optionalHeader64 52 4,
    SizeOfImage := readLE optionalHeader64 56 4,
    SizeOfHeaders := readLE optionalHeader64 60 4,
    CheckSum := readLE optionalHeader64 64 4,
    Subsystem := readLE optionalHeader64 68 2,
    DllCharacteristics := readLE optionalHeader64 70 2,
    SizeOfStackReserve := readLE optionalHeader64 72 8,
    SizeOfStackCommit := readLE optionalHeader64 80 8,
    SizeOfHeapReserve := readLE optionalHeader64 88 8,
    SizeOfHeapCommit := readLE optionalHeader64 96 8,
    LoaderFlags := readLE optionalHeader64 104 4,
    NumberOfRvaAndSizes := readLE optionalHeader64 108 4,
    DataDirectory :=
      (decodeDataDirectory optionalHeader64 112).take numberOfRvaAndSizes ++
        old.DataDirectory.drop numberOfRvaAndSizes }

/-- The conversion of a captured 32-bit optional header to the common optional header
(lines 1889-1924).  Modelled from the spec: the field offsets of
`PELIB_IMAGE_OPTIONAL_HEADER32`, declared in a header that is not part of the sources (the
PE32 optional header). -/
def convertOptionalHeader32 (old : PELIB_IMAGE_OPTIONAL_HEADER) (optionalHeader32 : List Nat) :
    PELIB_IMAGE_OPTIONAL_HEADER :=
  let numberOfRvaAndSizes :=
    if readLE optionalHeader32 92 4 > PELIB_IMAGE_NUMBEROF_DIRECTORY_ENTRIES then
      PELIB_IMAGE_NUMBEROF_DIRECTORY_ENTRIES
    else readLE optionalHeader32 92 4
  { old with
    Magic := readLE optionalHeader32 0 2,
    MajorLinkerVersion := readLE optionalHeader32 2 1,
    MinorLinkerVersion := readLE optionalHeader32 3 1,
    SizeOfCode := readLE optionalHeader32 4 4,
    SizeOfInitializedData := readLE optionalHeader32 8 4,
    SizeOfUninitializedData := readLE optionalHeader32 12 4,
    AddressOfEntryPoint := readLE optionalHeader32 16 4,
    BaseOfCode := readLE optionalHeader32 20 4,
    BaseOfData := readLE optionalHeader32 24 4,
    ImageBase := readLE optionalHeader32 28 4,
    SectionAlignment := readLE optionalHeader32 32 4,
    FileAlignment := readLE optionalHeader32 36 4,
    MajorOperatingSystemVersion := readLE optionalHeader32 40 2,
    MinorOperatingSystemVersion := readLE optionalHeader32 42 2,
    MajorImageVersion := readLE optionalHeader32 44 2,
    MinorImageVersion := readLE optionalHeader32 46 2,
    MajorSubsystemVersion := readLE optionalHeader32 48 2,
    MinorSubsystemVersion := readLE optionalHeader32 50 2,
    Win32VersionValue := readLE optionalHeader32 52 4,
    SizeOfImage := readLE optionalHeader32 56 4,
    SizeOfHeaders := readLE optionalHeader32 60 4,
    CheckSum := readLE optionalHeader32 64 4,
    Subsystem := readLE optionalHeader32 68 2,
    DllCharacteristics := readLE optionalHeader32 70 2,
    SizeOfStackReserve := readLE optionalHeader32 72 4,
    SizeOfStackCommit := readLE optionalHeader32 76 4,
    SizeOfHeapReserve := readLE optionalHeader32 80 4,
    SizeOfHeapCommit := readLE optionalHeader32 84 4,
    LoaderFlags := readLE optionalHeader32 88 4,
    NumberOfRvaAndSizes := readLE optionalHeader32 92 4,
    DataDirectory :=
      (decodeDataDirectory optionalHeader32 96).take numberOfRvaAndSizes ++
        old.DataDirectory.drop numberOfRvaAndSizes }

/-- The number of data-directory entries cut by the file size (lines 1853-1864 and
1922-1933); `dataDirectoryPtr` is the file offset of the data directory. -/
def realNumberOfRvaAndSizesOf (NumberOfRvaAndSizes dataDirectoryPtr fileEnd : Nat) : Nat :=
  let numberOfRvaAndSizes :=
    if NumberOfRvaAndSizes > PELIB_IMAGE_NUMBEROF_DIRECTORY_ENTRIES then
      PELIB_IMAGE_NUMBEROF_DIRECTORY_ENTRIES
    else NumberOfRvaAndSizes
  if dataDirectoryPtr < fileEnd then
    if dataDirectoryPtr + numberOfRvaAndSizes * sizeof_PELIB_IMAGE_DATA_DIRECTORY > fileEnd then
      u32 ((fileEnd - dataDirectoryPtr + sizeof_PELIB_IMAGE_DATA_DIRECTORY - 1) /
        sizeof_PELIB_IMAGE_DATA_DIRECTORY)
    else numberOfRvaAndSizes
  else numberOfRvaAndSizes

/-- `ImageLoader::captureOptionalHeader64` (lines 1804-1870); `filePtr` is a file offset.
`none` when the `memcpy` into the local header is longer than that header, which happens
when `filePtr` lies beyond the end of the file and the length `(uint32_t)(fileEnd - filePtr)`
wraps around. -/
def captureOptionalHeader64 (self : ImageLoader) (fileData : List Nat) (filePtr : Nat) :
    Option (FileError × ImageLoader) :=
  let fileEnd := fileData.length
  let sizeOfOptionalHeader :=
    if filePtr + sizeof_PELIB_IMAGE_OPTIONAL_HEADER64 > fileEnd then
      u32OfInt ((fileEnd : Int) - (filePtr : Int))
    else sizeof_PELIB_IMAGE_OPTIONAL_HEADER64
  if sizeOfOptionalHeader > sizeof_PELIB_IMAGE_OPTIONAL_HEADER64 then none
  else
    let optionalHeader64 := copyFrom fileData filePtr sizeOfOptionalHeader
    if readLE optionalHeader64 0 2 ≠ PELIB_IMAGE_NT_OPTIONAL_HDR64_MAGIC then
      some (setLoaderError self LoaderError.LDR_ERROR_NO_OPTHDR_MAGIC)
    else
      some (FileError.ERROR_NONE,
        { self with
          optionalHeader := convertOptionalHeader64 self.optionalHeader optionalHeader64,
          realNumberOfRvaAndSizes :=
            realNumberOfRvaAndSizesOf (readLE optionalHeader64 108 4) (filePtr + 112) fileEnd,
          checkSumFileOffset := filePtr + 64,
          securityDirFileOffset := filePtr + 112 + sizeof_PELIB_IMAGE_DATA_DIRECTORY * 4 })

/-- `ImageLoader::captureOptionalHeader32` (lines 1872-1939); `filePtr` is a file offset.
`none` when the `memcpy` into the local header is longer than that header, which happens
when `filePtr` lies beyond the end of the file and the length `(uint32_t)(fileEnd - filePtr)`
wraps around. -/
def captureOptionalHeader32 (self : ImageLoader) (fileData : List Nat) (filePtr : Nat) :
    Option (FileError × ImageLoader) :=
  let fileEnd := fileData.length
  let sizeOfOptionalHeader :=
    if filePtr + sizeof_PELIB_IMAGE_OPTIONAL_HEADER32 > fileEnd then
      u32OfInt ((fileEnd : Int) - (filePtr : Int))
    else sizeof_PELIB_IMAGE_OPTIONAL_HEADER32
  if sizeOfOptionalHeader > sizeof_PELIB_IMAGE_OPTIONAL_HEADER32 then none
  else
    let optionalHeader32 := copyFrom fileData filePtr sizeOfOptionalHeader
    let self :=
      setLoaderErrorIf (readLE optionalHeader32 0 2 ≠ PELIB_IMAGE_NT_OPTIONAL_HDR32_MAGIC)
        LoaderError.LDR_ERROR_NO_OPTHDR_MAGIC self
    some (FileError.ERROR_NONE,
      { self with
        optionalHeader := convertOptionalHeader32 self.optionalHeader optionalHeader32,
        realNumberOfRvaAndSizes :=
          realNumberOfRvaAndSizesOf (readLE optionalHeader32 92 4) (filePtr + 96) fileEnd,
        checkSumFileOffset := filePtr + 64,
        securityDirFileOffset := filePtr + 96 + sizeof_PELIB_IMAGE_DATA_DIRECTORY * 4 })

/-- The structural checks of `captureNtHeaders` on the captured headers (lines 1419-1477);
every failed check records its error code and the cascade goes on.  `setLoaderError` changes
nothing but the loader error, so every condition is evaluated on the headers of `self`. -/
def verifyNtHeaders (self : ImageLoader) : ImageLoader :=
  self
  |> setLoaderErrorIf (self.appContainerCheck && checkForBadAppContainer self)
      LoaderError.LDR_ERROR_IMAGE_NON_EXECUTABLE
  |> setLoaderErrorIf
      (self.optionalHeader.SectionAlignment ≥ PELIB_PAGE_SIZE ∧
        self.optionalHeader.SizeOfHeaders = 0)
      LoaderError.LDR_ERROR_SIZE_OF_HEADERS_ZERO
  |> setLoaderErrorIf (self.optionalHeader.FileAlignment = 0)
      LoaderError.LDR_ERROR_FILE_ALIGNMENT_ZERO
  |> setLoaderErrorIf
      (self.optionalHeader.FileAlignment &&& sub32 self.optionalHeader.FileAlignment 1 ≠ 0)
      LoaderError.LDR_ERROR_FILE_ALIGNMENT_NOT_POW2
  |> setLoaderErrorIf (self.optionalHeader.SectionAlignment = 0)
      LoaderError.LDR_ERROR_SECTION_ALIGNMENT_ZERO
  |> setLoaderErrorIf
      (self.optionalHeader.SectionAlignment &&& sub32 self.optionalHeader.SectionAlignment 1 ≠ 0)
      LoaderError.LDR_ERROR_SECTION_ALIGNMENT_NOT_POW2
  |> setLoaderErrorIf
      (self.optionalHeader.SectionAlignment < self.optionalHeader.FileAlignment)
      LoaderError.LDR_ERROR_SECTION_ALIGNMENT_TOO_SMALL
  |> setLoaderErrorIf
      (self.optionalHeader.FileAlignment &&& 511 ≠ 0 ∧
        self.optionalHeader.SectionAlignment ≠ self.optionalHeader.FileAlignment)
      LoaderError.LDR_ERROR_SECTION_ALIGNMENT_INVALID
  |> setLoaderErrorIf (self.optionalHeader.SizeOfImage > PELIB_MM_SIZE_OF_LARGEST_IMAGE)
      LoaderError.LDR_ERROR_SIZE_OF_IMAGE_TOO_BIG
  |> setLoaderErrorIf
      (self.optionalHeader.Magic = PELIB_IMAGE_NT_OPTIONAL_HDR32_MAGIC ∧
        checkForValid32BitMachine self = false)
      LoaderError.LDR_ERROR_INVALID_MACHINE32
  |> setLoaderErrorIf
      (self.optionalHeader.Magic = PELIB_IMAGE_NT_OPTIONAL_HDR64_MAGIC ∧
        checkForValid64BitMachine self = false)
      LoaderError.LDR_ERROR_INVALID_MACHINE64
  |> setLoaderErrorIf
      (self.optionalHeader.SizeOfHeaders > self.optionalHeader.SizeOfImage)
      LoaderError.LDR_ERROR_SIZE_OF_HEADERS_INVALID
  |> setLoaderErrorIf
      (self.is64BitWindows ∧ self.fileHeader.SizeOfOptionalHeader &&& 0x07 ≠ 0)
      LoaderError.LDR_ERROR_SIZE_OF_OPTHDR_NOT_ALIGNED
  |> setLoaderErrorIf (BytesToPages self.optionalHeader.SizeOfImage = 0)
      LoaderError.LDR_ERROR_SIZE_OF_IMAGE_ZERO
  |> setLoaderErrorIf (self.optionalHeader.ImageBase &&& (PELIB_SIZE_64KB - 1) ≠ 0)
      LoaderError.LDR_ERROR_IMAGE_BASE_NOT_ALIGNED

/-- The capture and the checks of the file header in `captureNtHeaders` (lines 1387-1408);
`filePtr` is the file offset of the file header. -/
def captureFileHeader (self : ImageLoader) (fileData : List Nat) (filePtr : Nat) : ImageLoader :=
  let fileHeader :=
    if filePtr + sizeof_PELIB_IMAGE_FILE_HEADER < fileData.length then
      decodeFileHeader (copyFrom fileData filePtr sizeof_PELIB_IMAGE_FILE_HEADER)
    else self.fileHeader
  let ntHeaderSize := 4 + sizeof_PELIB_IMAGE_FILE_HEADER + fileHeader.SizeOfOptionalHeader
  { self with fileHeader := fileHeader }
  |> setLoaderErrorIf (¬ (filePtr + sizeof_PELIB_IMAGE_FILE_HEADER < fileData.length))
      LoaderError.LDR_ERROR_NTHEADER_OUT_OF_FILE
  |> setLoaderErrorIf (fileHeader.Machine = 0 ∧ fileHeader.SizeOfOptionalHeader = 0)
      LoaderError.LDR_ERROR_FILE_HEADER_INVALID
  |> setLoaderErrorIf (fileHeader.Characteristics &&& PELIB_IMAGE_FILE_EXECUTABLE_IMAGE = 0)
      LoaderError.LDR_ERROR_IMAGE_NON_EXECUTABLE
  |> setLoaderErrorIf (fileHeader.NumberOfSections > self.maxSectionCount)
      LoaderError.LDR_ERROR_IMAGE_NON_EXECUTABLE
  |> setLoaderErrorIf (u64 (self.dosHeader.e_lfanew + ntHeaderSize) < self.dosHeader.e_lfanew)
      LoaderError.LDR_ERROR_NTHEADER_OFFSET_OVERFLOW

/-- The choice between the two optional-header captures in `captureNtHeaders` (lines
1410-1417) by the 16-bit magic at the optional-header offset `filePtr`. -/
def captureOptionalHeader (self : ImageLoader) (fileData : List Nat) (filePtr : Nat) :
    Option (FileError × ImageLoader) :=
  let optionalHeaderMagic :=
    if filePtr + 2 < fileData.length then readLE fileData filePtr 2
    else PELIB_IMAGE_NT_OPTIONAL_HDR32_MAGIC
  if optionalHeaderMagic = PELIB_IMAGE_NT_OPTIONAL_HDR64_MAGIC then
    captureOptionalHeader64 self fileData filePtr
  else captureOptionalHeader32 self fileData filePtr

/-- `ImageLoader::captureNtHeaders` (lines 1354-1480); `none` when the capture of the
optional header copies outside its bounds. -/
def captureNtHeaders (self : ImageLoader) (fileData : List Nat) :
    Option (FileError × ImageLoader) :=
  let filePtr := self.dosHeader.e_lfanew
  let fileEnd := fileData.length
  let minFileSize := u32 (self.dosHeader.e_lfanew + 4 + sizeof_PELIB_IMAGE_FILE_HEADER +
    sizeof_PELIB_IMAGE_OPTIONAL_HEADER32)
  if self.ntHeadersSizeCheck ∧ filePtr + minFileSize > fileEnd then
    some (setLoaderError self LoaderError.LDR_ERROR_NTHEADER_OUT_OF_FILE)
  else if filePtr + 4 ≥ fileEnd then
    some (FileError.ERROR_INVALID_FILE,
      (setLoaderError self LoaderError.LDR_ERROR_NTHEADER_OUT_OF_FILE).2)
  else if readLE fileData filePtr 4 ≠ PELIB_IMAGE_NT_SIGNATURE then
    some (FileError.ERROR_INVALID_FILE,
      (setLoaderError { self with ntSignature := readLE fileData filePtr 4 }
        LoaderError.LDR_ERROR_NO_NT_SIGNATURE).2)
  else
    let headers :=
      captureFileHeader { self with ntSignature := readLE fileData filePtr 4 } fileData
        (filePtr + 4)
    match captureOptionalHeader headers fileData
        (filePtr + 4 + sizeof_PELIB_IMAGE_FILE_HEADER) with
    | none => none
    | some (_, captured) => some (FileError.ERROR_NONE, verifyNtHeaders captured)

/-! ## Section table capture -/

/-- Modelled from the spec: `PELIB_IMAGE_SIZEOF_SHORT_NAME`, the 8 raw bytes of a section
name. -/
def PELIB_IMAGE_SIZEOF_SHORT_NAME : Nat := 8

/-- Modelled from the spec: `PELIB_IMAGE_SIZEOF_MAX_NAME`, the longest section name read from
the string table (constant of a header that is not part of the sources). -/
def PELIB_IMAGE_SIZEOF_MAX_NAME : Nat := 1024

/-- Modelled from the spec: `PELIB_IMAGE_SIZEOF_COFF_SYMBOL`, the size of one COFF symbol
(constant of a header that is not part of the sources). -/
def PELIB_IMAGE_SIZEOF_COFF_SYMBOL : Nat := 18

/-- Modelled from the spec: `isPrintableChar` is declared in a header that is not part of the
sources; a printable ASCII character. -/
def isPrintableChar (c : Nat) : Bool := 0x20 ≤ c && c < 0x7F

/-- The library function `isdigit`. -/
def isdigit (c : Nat) : Bool := 0x30 ≤ c && c ≤ 0x39

/-- Modelled from the spec: the layout of `PELIB_IMAGE_SECTION_HEADER`, declared in a header
that is not part of the sources (the COFF section header; line 2103 of the source places
`PointerToRawData` at offset 0x14). -/
def decodeSectionHeader (bytes : List Nat) : PELIB_SECTION_HEADER :=
  { Name := (List.range PELIB_IMAGE_SIZEOF_SHORT_NAME).map fun i => bytes.getD i 0,
    VirtualSize := readLE bytes 8 4,
    VirtualAddress := readLE bytes 12 4,
    SizeOfRawData := readLE bytes 16 4,
    PointerToRawData := readLE bytes 20 4,
    PointerToRelocations := readLE bytes 24 4,
    PointerToLinenumbers := readLE bytes 28 4,
    NumberOfRelocations := readLE bytes 32 2,
    NumberOfLinenumbers := readLE bytes 34 2,
    Characteristics := readLE bytes 36 4 }

/-- `ImageLoader::readStringRaw` (lines 338-383): the returned length and the string `str`
afterwards. -/
def readStringRaw (fileData : List Nat) (str : List Nat) (offset maxLength : Nat)
    (mustBePrintable mustNotBeTooLong : Bool) : Nat × List Nat :=
  if offset < fileData.length then
    let maxLength :=
      if offset + maxLength > fileData.length then fileData.length - offset else maxLength
    match memchr (fileData.drop offset) 0 maxLength with
    | none =>
      if mustNotBeTooLong then (0, str)
      else
        let str := copyFrom fileData offset maxLength
        if mustBePrintable ∧ ¬ str.all isPrintableChar then (0, []) else (maxLength, str)
    | some length =>
      let str := copyFrom fileData offset length
      if mustBePrintable ∧ ¬ str.all isPrintableChar then (0, []) else (length, str)
  else (0, str)

/-- The loop of `captureSectionName` that converts the digits after `/` to a number (lines
1493-1494), from index `i` on. -/
def captureSectionName.index (Name : List Nat) : Nat → Nat → Nat → Nat
  | 0, _, stringTableIndex => stringTableIndex
  | steps + 1, i, stringTableIndex =>
    if i < PELIB_IMAGE_SIZEOF_SHORT_NAME ∧ isdigit (Name.getD i 0) then
      captureSectionName.index Name steps (i + 1)
        (u32 (stringTableIndex * 10 + (Name.getD i 0 - 0x30)))
    else stringTableIndex

/-- `ImageLoader::captureSectionName` (lines 1482-1514): the resolved section name. -/
def captureSectionName (self : ImageLoader) (fileData : List Nat) (Name : List Nat) : List Nat :=
  let shortName := Name.filter fun c => c ≠ 0
  if self.fileHeader.PointerToSymbolTable ≠ 0 ∧ Name.getD 0 0 = 0x2F then
    let stringTableOffset := u32 (self.fileHeader.PointerToSymbolTable +
      self.fileHeader.NumberOfSymbols * PELIB_IMAGE_SIZEOF_COFF_SYMBOL)
    let stringTableIndex := captureSectionName.index Name PELIB_IMAGE_SIZEOF_SHORT_NAME 1 0
    let r := readStringRaw fileData [] (u32 (stringTableOffset + stringTableIndex))
      PELIB_IMAGE_SIZEOF_MAX_NAME true true
    if r.1 ≠ 0 then r.2 else shortName
  else shortName

/-- `ImageLoader::processSectionHeader` (lines 997-1011), applied to the section header at
file offset `filePtr`: the file data afterwards. -/
def processSectionHeader (self : ImageLoader) (fileData : List Nat) (filePtr : Nat) : List Nat :=
  if self.loaderMode ≠ 0 then
    if readLE fileData (filePtr + 20) 4 ≠ 0 ∧ readLE fileData (filePtr + 16) 4 = 0 then
      copyInto fileData (filePtr + 20) [0, 0, 0, 0]
    else fileData
  else fileData

/-- The local variables of `captureSectionHeaders` that live across the section loop,
together with the loader and the file data. -/
structure SectionCapture where
  loader : ImageLoader
  fileData : List Nat
  filePtr : Nat
  NextVirtualAddress : Nat
  NumberOfPTEs : Nat
  NumberOfSectionPTEs : Nat
  bRawDataBeyondEOF : Bool

/-- The checks of the section loop of `captureSectionHeaders` on the section header `sectHdr`
with index `i` (lines 1573-1616), in source order.  `setLoaderError` changes nothing but the
loader error, so every condition is evaluated on the headers of `cap.loader`. -/
def captureSectionHeaders.verify (i : Nat) (cap : SectionCapture)
    (sectHdr : PELIB_SECTION_HEADER) : ImageLoader :=
  let self := cap.loader
  let fileEnd := cap.fileData.length
  let FileAlignmentMask := sub32 self.optionalHeader.FileAlignment 1
  let SingleSubsection : Bool := self.optionalHeader.SectionAlignment < PELIB_PAGE_SIZE
  let PointerToRawData := if sectHdr.SizeOfRawData ≠ 0 then sectHdr.PointerToRawData else 0
  let VirtualSize := if sectHdr.VirtualSize ≠ 0 then sectHdr.VirtualSize else sectHdr.SizeOfRawData
  let NumberOfSectionPTEs :=
    AlignToSize VirtualSize self.optionalHeader.SectionAlignment / PELIB_PAGE_SIZE
  if SingleSubsection then
    self
    |> setLoaderErrorIf (u32 (PointerToRawData + sectHdr.SizeOfRawData) < PointerToRawData)
        LoaderError.LDR_ERROR_RAW_DATA_OVERFLOW
    |> setLoaderErrorIf
        (sectHdr.VirtualAddress ≠ PointerToRawData ∨ sectHdr.SizeOfRawData < VirtualSize)
        LoaderError.LDR_ERROR_SECTION_SIZE_MISMATCH
  else
    self
    |> setLoaderErrorIf (u32 (PointerToRawData + sectHdr.SizeOfRawData) < PointerToRawData)
        LoaderError.LDR_ERROR_RAW_DATA_OVERFLOW
    |> setLoaderErrorIf (cap.NextVirtualAddress ≠ sectHdr.VirtualAddress)
        LoaderError.LDR_ERROR_INVALID_SECTION_VA
    |> setLoaderErrorIf (u64 (cap.NextVirtualAddress + VirtualSize) ≤ cap.NextVirtualAddress)
        LoaderError.LDR_ERROR_INVALID_SECTION_VSIZE
    |> setLoaderErrorIf (u32 (VirtualSize + (PELIB_PAGE_SIZE - 1)) ≤ VirtualSize)
        LoaderError.LDR_ERROR_INVALID_SECTION_VSIZE
    |> setLoaderErrorIf (NumberOfSectionPTEs > cap.NumberOfPTEs)
        LoaderError.LDR_ERROR_INVALID_SECTION_VSIZE
    |> setLoaderErrorIf
        ((u32 (PointerToRawData + sectHdr.SizeOfRawData + FileAlignmentMask) &&&
          not32 FileAlignmentMask) < PointerToRawData)
        LoaderError.LDR_ERROR_INVALID_SECTION_RAWSIZE
    |> setLoaderErrorIf
        (i + 1 = self.fileHeader.NumberOfSections ∧ sectHdr.SizeOfRawData ≠ 0 ∧
          u32 (sectHdr.PointerToRawData + sectHdr.SizeOfRawData) > fileEnd)
        LoaderError.LDR_ERROR_FILE_IS_CUT

/-- One pass through the body of the section loop of `captureSectionHeaders` (lines
1563-1632) for the section index `i`, the header being inside the file. -/
def captureSectionHeaders.body (i : Nat) (cap : SectionCapture) : SectionCapture :=
  let fileEnd := cap.fileData.length
  let SingleSubsection : Bool := cap.loader.optionalHeader.SectionAlignment < PELIB_PAGE_SIZE
  let sectHdr :=
    decodeSectionHeader (copyFrom cap.fileData cap.filePtr sizeof_PELIB_IMAGE_SECTION_HEADER)
  let fileData := processSectionHeader cap.loader cap.fileData cap.filePtr
  let PointerToRawData := if sectHdr.SizeOfRawData ≠ 0 then sectHdr.PointerToRawData else 0
  let EndOfRawData := u32 (PointerToRawData + sectHdr.SizeOfRawData)
  let VirtualSize := if sectHdr.VirtualSize ≠ 0 then sectHdr.VirtualSize else sectHdr.SizeOfRawData
  let NumberOfSectionPTEs :=
    AlignToSize VirtualSize cap.loader.optionalHeader.SectionAlignment / PELIB_PAGE_SIZE
  let self := captureSectionHeaders.verify i cap sectHdr
  let sectHdr := { sectHdr with
    sectionName := captureSectionName cap.loader fileData sectHdr.Name }
  { loader := { self with sections := self.sections ++ [sectHdr] },
    fileData := fileData,
    filePtr := cap.filePtr + sizeof_PELIB_IMAGE_SECTION_HEADER,
    NextVirtualAddress :=
      if SingleSubsection then cap.NextVirtualAddress
      else u64 (cap.NextVirtualAddress + u32 (NumberOfSectionPTEs * PELIB_PAGE_SIZE)),
    NumberOfPTEs :=
      if SingleSubsection then cap.NumberOfPTEs else sub32 cap.NumberOfPTEs NumberOfSectionPTEs,
    NumberOfSectionPTEs :=
      if SingleSubsection then cap.NumberOfSectionPTEs else NumberOfSectionPTEs,
    bRawDataBeyondEOF :=
      if PointerToRawData ≠ 0 ∧ EndOfRawData > fileEnd then true else cap.bRawDataBeyondEOF }

/-- The section loop of `captureSectionHeaders` (lines 1556-1633): `remaining` section
indices are still to be visited, the next one being `i`. -/
def captureSectionHeaders.loop : Nat → Nat → SectionCapture → SectionCapture
  | 0, _, cap => cap
  | remaining + 1, i, cap =>
    if cap.filePtr + sizeof_PELIB_IMAGE_SECTION_HEADER > cap.fileData.length then cap
    else captureSectionHeaders.loop remaining (i + 1) (captureSectionHeaders.body i cap)

/-- The decision about a trimmed file at the end of `captureSectionHeaders` (lines
1645-1681). -/
def captureSectionHeaders.cutFile (self : ImageLoader) (fileEnd : Nat) : ImageLoader :=
  let SingleSubsection : Bool := self.optionalHeader.SectionAlignment < PELIB_PAGE_SIZE
  if SingleSubsection = false then
    match self.sections.getLast? with
    | some lastSection =>
      let PointerToRawData :=
        if lastSection.SizeOfRawData ≠ 0 then lastSection.PointerToRawData else 0
      let EndOfRawData := u32 (PointerToRawData + lastSection.SizeOfRawData)
      if lastSection.SizeOfRawData = 0 ∨ EndOfRawData ≤ fileEnd then
        (setLoaderError self LoaderError.LDR_ERROR_FILE_IS_CUT_LOADABLE).2
      else (setLoaderError self LoaderError.LDR_ERROR_FILE_IS_CUT).2
    | none => (setLoaderError self LoaderError.LDR_ERROR_FILE_IS_CUT).2
  else (setLoaderError self LoaderError.LDR_ERROR_FILE_IS_CUT_LOADABLE).2

/-- The counters of `captureSectionHeaders` before the section loop, with the checks of the
image header (lines 1528-1553); `filePtr` is the file offset of the section table. -/
def captureSectionHeaders.init (self : ImageLoader) (fileData : List Nat) (filePtr : Nat) :
    SectionCapture :=
  let NumberOfSectionPTEs :=
    AlignToSize self.optionalHeader.SizeOfHeaders self.optionalHeader.SectionAlignment /
      PELIB_PAGE_SIZE
  let NumberOfPTEs := BytesToPages self.optionalHeader.SizeOfImage
  let SingleSubsection : Bool := self.optionalHeader.SectionAlignment < PELIB_PAGE_SIZE
  if SingleSubsection = false then
    { loader :=
        self
        |> setLoaderErrorIf
            (u32 (self.optionalHeader.SizeOfHeaders +
              sub32 self.optionalHeader.SectionAlignment 1) <
                self.optionalHeader.SizeOfHeaders)
            LoaderError.LDR_ERROR_SECTION_HEADERS_OVERFLOW
        |> setLoaderErrorIf (NumberOfSectionPTEs > NumberOfPTEs)
            LoaderError.LDR_ERROR_SIZE_OF_HEADERS_INVALID,
      fileData := fileData, filePtr := filePtr,
      NextVirtualAddress := u32 (NumberOfSectionPTEs * PELIB_PAGE_SIZE),
      NumberOfPTEs := sub32 NumberOfPTEs NumberOfSectionPTEs,
      NumberOfSectionPTEs := NumberOfSectionPTEs,
      bRawDataBeyondEOF := false }
  else
    { loader := self, fileData := fileData, filePtr := filePtr,
      NextVirtualAddress := 0,
      NumberOfPTEs := sub32 NumberOfPTEs
        (AlignToSize self.optionalHeader.SizeOfImage PELIB_PAGE_SIZE / PELIB_PAGE_SIZE),
      NumberOfSectionPTEs :=
        AlignToSize self.optionalHeader.SizeOfImage PELIB_PAGE_SIZE / PELIB_PAGE_SIZE,
      bRawDataBeyondEOF := false }

/-- The end of `captureSectionHeaders` after the section loop (lines 1635-1681): the check
of the image size and the decision about a trimmed file. -/
def captureSectionHeaders.finish (cap : SectionCapture) (fileEnd : Nat) : ImageLoader :=
  let self := cap.loader
  let SingleSubsection : Bool := self.optionalHeader.SectionAlignment < PELIB_PAGE_SIZE
  let ThresholdNumberOfPTEs :=
    if SingleSubsection = false then self.optionalHeader.SectionAlignment / PELIB_PAGE_SIZE
    else 1
  let checked := setLoaderErrorIf
    (self.sizeofImageMustMatch ∧ cap.NumberOfPTEs ≥ ThresholdNumberOfPTEs)
    LoaderError.LDR_ERROR_INVALID_SIZE_OF_IMAGE self
  if cap.bRawDataBeyondEOF then captureSectionHeaders.cutFile checked fileEnd else checked

/-- `ImageLoader::captureSectionHeaders` (lines 1516-1684): the status, the loader and the
file data afterwards (the section loop can patch the file data). -/
def captureSectionHeaders (self : ImageLoader) (fileData : List Nat) :
    FileError × ImageLoader × List Nat :=
  let fileEnd := fileData.length
  let filePtr := self.dosHeader.e_lfanew + 4 + sizeof_PELIB_IMAGE_FILE_HEADER +
    self.fileHeader.SizeOfOptionalHeader
  if filePtr > fileEnd then
    ((setLoaderError self LoaderError.LDR_ERROR_SECTION_HEADERS_OUT_OF_IMAGE).1,
      (setLoaderError self LoaderError.LDR_ERROR_SECTION_HEADERS_OUT_OF_IMAGE).2, fileData)
  else
    let cap := captureSectionHeaders.loop self.fileHeader.NumberOfSections 0
      (captureSectionHeaders.init self fileData filePtr)
    (FileError.ERROR_NONE, captureSectionHeaders.finish cap fileEnd, cap.fileData)

/-! ## Page-based image mapping -/

/-- Modelled from the spec: section characteristic "shared" (constant of a header that is
not part of the sources). -/
def PELIB_IMAGE_SCN_MEM_SHARED : Nat := 0x10000000

/-- Modelled from the spec: section characteristic "executable" (constant of a header that
is not part of the sources). -/
def PELIB_IMAGE_SCN_MEM_EXECUTE : Nat := 0x20000000

/-- Modelled from the spec: section characteristic "readable" (constant of a header that is
not part of the sources). -/
def PELIB_IMAGE_SCN_MEM_READ : Nat := 0x40000000

/-- Modelled from the spec: section characteristic "writable" (constant of a header that is
not part of the sources). -/
def PELIB_IMAGE_SCN_MEM_WRITE : Nat := 0x80000000

/-- Modelled from the spec: page protection `PAGE_NOACCESS` (constant of a header that is
not part of the sources). -/
def PELIB_PAGE_NOACCESS : Nat := 0x01

/-- Modelled from the spec: page protection `PAGE_READONLY` (constant of a header that is
not part of the sources). -/
def PELIB_PAGE_READONLY : Nat := 0x02

/-- Modelled from the spec: page protection `PAGE_READWRITE` (constant of a header that is
not part of the sources). -/
def PELIB_PAGE_READWRITE : Nat := 0x04

/-- Modelled from the spec: page protection `PAGE_WRITECOPY` (constant of a header that is
not part of the sources). -/
def PELIB_PAGE_WRITECOPY : Nat := 0x08

/-- Modelled from the spec: page protection `PAGE_EXECUTE` (constant of a header that is not
part of the sources). -/
def PELIB_PAGE_EXECUTE : Nat := 0x10

/-- Modelled from the spec: page protection `PAGE_EXECUTE_READ` (constant of a header that is
not part of the sources). -/
def PELIB_PAGE_EXECUTE_READ : Nat := 0x20

/-- Modelled from the spec: page protection `PAGE_EXECUTE_READWRITE` (constant of a header
that is not part of the sources). -/
def PELIB_PAGE_EXECUTE_READWRITE : Nat := 0x40

/-- Modelled from the spec: page protection `PAGE_EXECUTE_WRITECOPY` (constant of a header
that is not part of the sources). -/
def PELIB_PAGE_EXECUTE_WRITECOPY : Nat := 0x80

/-- The table `ImageLoader::ImageProtectionArray` (lines 31-49). -/
def ImageProtectionArray : List Nat :=
  [PELIB_PAGE_NOACCESS, PELIB_PAGE_EXECUTE, PELIB_PAGE_READONLY, PELIB_PAGE_EXECUTE_READ,
   PELIB_PAGE_WRITECOPY, PELIB_PAGE_EXECUTE_WRITECOPY, PELIB_PAGE_WRITECOPY,
   PELIB_PAGE_EXECUTE_WRITECOPY, PELIB_PAGE_NOACCESS, PELIB_PAGE_EXECUTE, PELIB_PAGE_READONLY,
   PELIB_PAGE_EXECUTE_READ, PELIB_PAGE_READWRITE, PELIB_PAGE_EXECUTE_READWRITE,
   PELIB_PAGE_READWRITE, PELIB_PAGE_EXECUTE_READWRITE]

/-- `ImageLoader::getImageProtection` (lines 501-518). -/
def getImageProtection (sectionCharacteristics : Nat) : Nat :=
  let Index := 0
  let Index := if sectionCharacteristics &&& PELIB_IMAGE_SCN_MEM_EXECUTE ≠ 0 then Index ||| 1
    else Index
  let Index := if sectionCharacteristics &&& PELIB_IMAGE_SCN_MEM_READ ≠ 0 then Index ||| 2
    else Index
  let Index := if sectionCharacteristics &&& PELIB_IMAGE_SCN_MEM_WRITE ≠ 0 then Index ||| 4
    else Index
  let Index := if sectionCharacteristics &&& PELIB_IMAGE_SCN_MEM_SHARED ≠ 0 then Index ||| 8
    else Index
  ImageProtectionArray.getD Index 0

/-- Modelled from the spec: `PELIB_FILE_PAGE::setValidPage` is declared in a header that is
not part of the sources.  The page owns a page-sized buffer that starts with the given
bytes and is zero after them; it is neither invalid nor a zero page. -/
def PELIB_FILE_PAGE.setValidPage (_page : PELIB_FILE_PAGE) (data : List Nat) : PELIB_FILE_PAGE :=
  { buffer := data.take PELIB_PAGE_SIZE ++ List.replicate (PELIB_PAGE_SIZE - data.length) 0,
    isInvalidPage := false, isZeroPage := false }

/-- Modelled from the spec: `PELIB_FILE_PAGE::setZeroPage` is declared in a header that is
not part of the sources.  The page is a zero page: its content is all-zero and it is not
backed by a buffer. -/
def PELIB_FILE_PAGE.setZeroPage (_page : PELIB_FILE_PAGE) : PELIB_FILE_PAGE :=
  { buffer := [], isInvalidPage := false, isZeroPage := true }

/-- The effect of `pages.resize(n)`: new pages are default-constructed. -/
def resizePages (pages : List PELIB_FILE_PAGE) (n : Nat) : List PELIB_FILE_PAGE :=
  pages.take n ++ List.replicate (n - pages.length) ({} : PELIB_FILE_PAGE)

/-- The first loop of `captureImageSection` (lines 2006-2032), run on the pages from
`pageIndex` on: the pages it has filled, the pages after them and the final `pageOffset`.
`none` when the loop indexes `pages` past its end or computes a negative `bytesToCopy`. -/
def captureImageSection.dataPages (fileData : List Nat) (rawDataEnd sizeOfInitializedPages : Nat) :
    List PELIB_FILE_PAGE → Nat → Nat → Option (List PELIB_FILE_PAGE × List PELIB_FILE_PAGE × Nat)
  | [], _, pageOffset =>
    if pageOffset < sizeOfInitializedPages then none else some ([], [], pageOffset)
  | filePage :: rest, rawDataPtr, pageOffset =>
    if pageOffset < sizeOfInitializedPages then
      let fileEnd := fileData.length
      if rawDataPtr < fileEnd then
        let bytesToCopy : Int := PELIB_PAGE_SIZE
        let bytesToCopy : Int :=
          if (rawDataPtr : Int) + bytesToCopy > fileEnd then (fileEnd : Int) - rawDataPtr
          else bytesToCopy
        let bytesToCopy : Int :=
          if (rawDataPtr : Int) + bytesToCopy > rawDataEnd then (rawDataEnd : Int) - rawDataPtr
          else bytesToCopy
        if bytesToCopy < 0 then none
        else
          match captureImageSection.dataPages fileData rawDataEnd sizeOfInitializedPages rest
              (rawDataPtr + PELIB_PAGE_SIZE) (u32 (pageOffset + PELIB_PAGE_SIZE)) with
          | none => none
          | some (filled, after, pageOffset') =>
            some (filePage.setValidPage (copyFrom fileData rawDataPtr bytesToCopy.toNat) :: filled,
              after, pageOffset')
      else
        match captureImageSection.dataPages fileData rawDataEnd sizeOfInitializedPages rest
            (rawDataPtr + PELIB_PAGE_SIZE) (u32 (pageOffset + PELIB_PAGE_SIZE)) with
        | none => none
        | some (filled, after, pageOffset') => some (filePage.setZeroPage :: filled, after, pageOffset')
    else some ([], filePage :: rest, pageOffset)

/-- The second loop of `captureImageSection` (lines 2036-2042), run on the pages from the
current `pageIndex` on: these pages afterwards.  `none` when the loop indexes `pages` past
its end. -/
def captureImageSection.zeroPages (sizeOfValidPages : Nat) :
    List PELIB_FILE_PAGE → Nat → Option (List PELIB_FILE_PAGE)
  | [], pageOffset => if pageOffset < sizeOfValidPages then none else some []
  | filePage :: rest, pageOffset =>
    if pageOffset < sizeOfValidPages then
      match captureImageSection.zeroPages sizeOfValidPages rest
          (u32 (pageOffset + PELIB_PAGE_SIZE)) with
      | none => none
      | some rest' => some (filePage.setZeroPage :: rest')
    else some (filePage :: rest)

/-- The body of `captureImageSection` (lines 1960-2046) on the page table `pages`: the
returned virtual address and the page table afterwards; `none` when a page loop leaves the
page table. -/
def captureImageSection.run (optionalHeader : PELIB_IMAGE_OPTIONAL_HEADER)
    (pages : List PELIB_FILE_PAGE) (fileData : List Nat)
    (virtualAddress virtualSize pointerToRawData sizeOfRawData characteristics : Nat)
    (isImageHeader : Bool) : Option (Nat × List PELIB_FILE_PAGE) :=
  let virtualSize := if virtualSize = 0 then sizeOfRawData else virtualSize
  let virtualSize := AlignToSize virtualSize PELIB_PAGE_SIZE
  let sizeOfRawData := if sizeOfRawData > virtualSize then virtualSize else sizeOfRawData
  let sizeOfInitializedPages := AlignToSize sizeOfRawData PELIB_PAGE_SIZE
  let sizeOfValidPages := AlignToSize virtualSize PELIB_PAGE_SIZE
  let sizeOfSection := AlignToSize virtualSize optionalHeader.SectionAlignment
  let rawDataPtr := pointerToRawData &&& not32 (PELIB_SECTOR_SIZE - 1)
  let rawDataEnd :=
    if isImageHeader = false then
      AlignToSize (u32 (pointerToRawData + sizeOfRawData)) optionalHeader.FileAlignment
    else rawDataPtr + sizeOfRawData
  let pageIndex := virtualAddress / PELIB_PAGE_SIZE
  if getImageProtection characteristics ≠ PELIB_PAGE_NOACCESS then
    let filled :=
      if pointerToRawData ≠ 0 ∨ isImageHeader then
        captureImageSection.dataPages fileData rawDataEnd sizeOfInitializedPages
          (pages.drop pageIndex) rawDataPtr 0
      else some ([], pages.drop pageIndex, 0)
    match filled with
    | none => none
    | some (filled, after, pageOffset) =>
      match captureImageSection.zeroPages sizeOfValidPages after pageOffset with
      | none => none
      | some after' =>
        some (u32 (virtualAddress + sizeOfSection), pages.take pageIndex ++ filled ++ after')
  else some (u32 (virtualAddress + sizeOfSection), pages)

/-- `ImageLoader::captureImageSection` (lines 1941-2047): the returned virtual address and
the loader afterwards; `none` when a page loop leaves the page table. -/
def captureImageSection (self : ImageLoader) (fileData : List Nat)
    (virtualAddress virtualSize pointerToRawData sizeOfRawData characteristics : Nat)
    (isImageHeader : Bool) : Option (Nat × ImageLoader) :=
  match captureImageSection.run self.optionalHeader self.pages fileData virtualAddress
      virtualSize pointerToRawData sizeOfRawData characteristics isImageHeader with
  | none => none
  | some (virtualAddress, pages) => some (virtualAddress, { self with pages := pages })

/-- `ImageLoader::checkForSectionTablesWithinHeader` (lines 2159-2171). -/
def checkForSectionTablesWithinHeader (self : ImageLoader) (e_lfanew : Nat) : Bool :=
  let OffsetToSectionTable :=
    u32 (4 + sizeof_PELIB_IMAGE_FILE_HEADER + self.fileHeader.SizeOfOptionalHeader)
  let NumberOfSubsections := self.fileHeader.NumberOfSections
  let NtHeaderSize := sub32 PELIB_PAGE_SIZE e_lfanew
  if u32 (e_lfanew + OffsetToSectionTable) +
      u32 (NumberOfSubsections + 1) * sizeof_PELIB_IMAGE_SECTION_HEADER ≤ NtHeaderSize then false
  else true

/-- The section loop of `captureImageSections` (lines 1715-1727). -/
def captureImageSections.loop (fileData : List Nat) :
    List PELIB_SECTION_HEADER → ImageLoader → Option ImageLoader
  | [], self => some self
  | sectionHeader :: rest, self =>
    match captureImageSection self fileData sectionHeader.VirtualAddress
        sectionHeader.VirtualSize sectionHeader.PointerToRawData sectionHeader.SizeOfRawData
        sectionHeader.Characteristics false with
    | none => none
    | some (virtualAddress, self) =>
      if virtualAddress = 0 then
        some (setLoaderError self LoaderError.LDR_ERROR_INVALID_SECTION_VA).2
      else captureImageSections.loop fileData rest self

/-- `ImageLoader::captureImageSections` (lines 1686-1762); `none` when the mapping leaves
the page table. -/
def captureImageSections (self : ImageLoader) (fileData : List Nat) :
    Option (FileError × ImageLoader) :=
  let sizeOfHeaders := self.optionalHeader.SizeOfHeaders
  let sizeOfImage := self.optionalHeader.SizeOfImage
  if self.optionalHeader.SectionAlignment ≥ PELIB_PAGE_SIZE then
    let sizeOfImage := AlignToSize sizeOfImage PELIB_PAGE_SIZE
    let self := { self with pages := resizePages self.pages (sizeOfImage / PELIB_PAGE_SIZE) }
    let sizeOfHeaders :=
      if self.headerSizeCheck ∧ checkForSectionTablesWithinHeader self self.dosHeader.e_lfanew
      then AlignToSize sizeOfHeaders self.optionalHeader.SectionAlignment
      else sizeOfHeaders
    match captureImageSection self fileData 0 sizeOfHeaders 0 sizeOfHeaders
        PELIB_IMAGE_SCN_MEM_READ true with
    | none => none
    | some (virtualAddress, self) =>
      if virtualAddress = 0 then some (FileError.ERROR_INVALID_FILE, self)
      else if self.sections.length ≠ 0 then
        match captureImageSections.loop fileData self.sections self with
        | none => none
        | some self => some (FileError.ERROR_NONE, self)
      else
        some (FileError.ERROR_NONE,
          setLoaderErrorIf
            (virtualAddress > self.optionalHeader.SizeOfImage ∨
              self.optionalHeader.SizeOfImage - virtualAddress >
                self.optionalHeader.SectionAlignment)
            LoaderError.LDR_ERROR_INVALID_SIZE_OF_IMAGE self)
  else
    let sizeOfImage := AlignToSize sizeOfImage self.ssiImageAlignment32
    let sizeOfImage :=
      if self.is64BitWindows then AlignToSize sizeOfImage PELIB_PAGE_SIZE else sizeOfImage
    let sizeOfImage := if sizeOfImage < PELIB_PAGE_SIZE then PELIB_PAGE_SIZE else sizeOfImage
    let self := { self with
      pages := resizePages self.pages
        (u32 (sizeOfImage + PELIB_PAGE_SIZE - 1) / PELIB_PAGE_SIZE) }
    match captureImageSection self fileData 0 sizeOfImage 0 sizeOfImage
        (PELIB_IMAGE_SCN_MEM_WRITE ||| PELIB_IMAGE_SCN_MEM_READ ||| PELIB_IMAGE_SCN_MEM_EXECUTE)
        true with
    | none => none
    | some (virtualAddress, self) =>
      if virtualAddress = 0 then some (FileError.ERROR_INVALID_FILE, self)
      else some (FileError.ERROR_NONE, self)

/-- `ImageLoader::loadImageAsIs` (lines 1798-1802). -/
def loadImageAsIs (self : ImageLoader) (fileData : List Nat) : FileError × ImageLoader :=
  (FileError.ERROR_NONE, { self with rawFileData := fileData })

/-- `ImageLoader::Load(fileData, loadHeadersOnly)` (lines 776-822): the status, the loader
and the file data afterwards.  Memory is taken to be unlimited, so the `bad_alloc` handler
is never entered; `none` when a capture step copies or indexes outside its bounds. -/
def Load (self : ImageLoader) (fileData : List Nat) (loadHeadersOnly : Bool) :
    Option (FileError × ImageLoader × List Nat) :=
  match captureDosHeader self fileData with
  | (fileError, self) =>
    if fileError ≠ FileError.ERROR_NONE then some (fileError, self, fileData)
    else
      match captureNtHeaders self fileData with
      | none => none
      | some (fileError, self) =>
        if fileError ≠ FileError.ERROR_NONE then some (fileError, self, fileData)
        else
          match captureSectionHeaders self fileData with
          | (fileError, self, fileData) =>
            if fileError ≠ FileError.ERROR_NONE then some (fileError, self, fileData)
            else if loadHeadersOnly = false then
              let mapped :=
                if isImageLoadable self then captureImageSections self fileData
                else some (fileError, self)
              match mapped with
              | none => none
              | some (fileError, self) =>
                if self.pages.length = 0 then
                  some ((loadImageAsIs self fileData).1, (loadImageAsIs self fileData).2, fileData)
                else some (fileError, self, fileData)
            else some (fileError, self, fileData)

/-! ## Reading and writing the image -/

/-- The result of a read or write: the returned byte count, the loader state afterwards and
the caller's buffer afterwards. -/
structure Transfer where
  count : Nat
  loader : ImageLoader
  buffer : List Nat
  deriving DecidableEq, Repr

/-- The type `READWRITE` of the page callbacks: page, caller's buffer, position of
`bufferPtr` in that buffer, offset in the page and number of bytes; the callback gives back
the page and the buffer. -/
abbrev READWRITE := PELIB_FILE_PAGE → List Nat → Nat → Nat → Nat → PELIB_FILE_PAGE × List Nat

/-- Modelled from the spec: `PELIB_FILE_PAGE::writeToPage` is declared in a header that is
not part of the sources.  A write that fits in the page is absorbed by the page buffer; the
buffer is brought to one page (zero-filled) first when it is not allocated. -/
def PELIB_FILE_PAGE.writeToPage (page : PELIB_FILE_PAGE) (data : List Nat)
    (offset length : Nat) : PELIB_FILE_PAGE :=
  if offset + length ≤ PELIB_PAGE_SIZE then
    let buffer :=
      if page.buffer.length ≠ PELIB_PAGE_SIZE then
        page.buffer.take PELIB_PAGE_SIZE ++
          List.replicate (PELIB_PAGE_SIZE - page.buffer.length) 0
      else page.buffer
    { page with buffer := copyInto buffer offset (data.take length) }
  else page

/-- `ImageLoader::readFromPage` (lines 891-902). -/
def readFromPage : READWRITE := fun page buffer bufferPos offsetInPage bytesInPage =>
  if page.buffer.length ≠ 0 then
    (page, copyInto buffer bufferPos (copyFrom page.buffer offsetInPage bytesInPage))
  else
    (page, copyInto buffer bufferPos (List.replicate bytesInPage 0))

/-- `ImageLoader::writeToPage` (lines 904-908). -/
def writeToPage : READWRITE := fun page buffer bufferPos offsetInPage bytesInPage =>
  (page.writeToPage (buffer.drop bufferPos) offsetInPage bytesInPage, buffer)

/-- The page loop of `readWriteImage` (lines 928-945), run on the pages from `pageIndex` on.
The result is the final `bytesRead`, these pages after the loop and the buffer; `none` when
the loop indexes `pages` past its end. -/
def readWriteImage.loop (ReadWrite : READWRITE) (rvaEnd : Nat) :
    List PELIB_FILE_PAGE → List Nat → Nat → Nat → Option (Nat × List PELIB_FILE_PAGE × List Nat)
  | [], buffer, bytesRead, rva =>
    if rva < rvaEnd then none else some (bytesRead, [], buffer)
  | page :: rest, buffer, bytesRead, rva =>
    if rva < rvaEnd then
      let offsetInPage := rva &&& (PELIB_PAGE_SIZE - 1)
      let bytesInPage := PELIB_PAGE_SIZE - offsetInPage
      let bytesInPage := if bytesInPage > rvaEnd - rva then rvaEnd - rva else bytesInPage
      let r := ReadWrite page buffer bytesRead offsetInPage bytesInPage
      match readWriteImage.loop ReadWrite rvaEnd rest r.2 (u32 (bytesRead + bytesInPage))
          (u32 (rva + bytesInPage)) with
      | none => none
      | some (n, rest', buffer') => some (n, r.1 :: rest', buffer')
    else some (bytesRead, page :: rest, buffer)

/-- `ImageLoader::readWriteImage` (lines 910-951). -/
def readWriteImage (self : ImageLoader) (buffer : List Nat) (rva bytesToRead : Nat)
    (ReadWrite : READWRITE) : Option Transfer :=
  let rvaEnd := u32 (rva + bytesToRead)
  let rvaEnd := if rvaEnd > getSizeOfImageAligned self then getSizeOfImageAligned self else rvaEnd
  if rva < rvaEnd then
    let pageIndex := rva / PELIB_PAGE_SIZE
    if pageIndex < self.pages.length then
      match readWriteImage.loop ReadWrite rvaEnd (self.pages.drop pageIndex) buffer 0 rva with
      | none => none
      | some (bytesRead, pages', buffer') =>
        some { count := bytesRead,
               loader := { self with pages := self.pages.take pageIndex ++ pages' },
               buffer := buffer' }
    else some { count := 0, loader := self, buffer := buffer }
  else some { count := 0, loader := self, buffer := buffer }

/-- The clipping of the request in `readWriteImageFile` (lines 960-961): the number of bytes
that is then copied and returned. -/
def readWriteImageFile.clip (self : ImageLoader) (fileOffset bytesToRead : Nat) : Nat :=
  if u32 (fileOffset + bytesToRead) > self.rawFileData.length then
    u32 (self.rawFileData.length - fileOffset)
  else bytesToRead

/-- `ImageLoader::readWriteImageFile` (lines 953-974); `none` when the `memcpy` reaches
outside `rawFileData`. -/
def readWriteImageFile (self : ImageLoader) (buffer : List Nat) (rva bytesToRead : Nat)
    (bReadOperation : Bool) : Option Transfer :=
  let fileOffset := getFileOffsetFromRva self rva
  if fileOffset > self.rawFileData.length then
    some { count := 0, loader := self, buffer := buffer }
  else
    let bytesToRead := readWriteImageFile.clip self fileOffset bytesToRead
    if bytesToRead ≠ 0 then
      if fileOffset + bytesToRead ≤ self.rawFileData.length then
        if bReadOperation then
          some { count := bytesToRead, loader := self,
                 buffer := copyInto buffer 0 (copyFrom self.rawFileData fileOffset bytesToRead) }
        else
          some { count := bytesToRead,
                 loader := { self with
                   rawFileData := copyInto self.rawFileData fileOffset (buffer.take bytesToRead) },
                 buffer := buffer }
      else none
    else some { count := bytesToRead, loader := self, buffer := buffer }

/-- `ImageLoader::readImage` (lines 169-181). -/
def readImage (self : ImageLoader) (buffer : List Nat) (rva bytesToRead : Nat) :
    Option Transfer :=
  if self.rawFileData.length = 0 then readWriteImage self buffer rva bytesToRead readFromPage
  else readWriteImageFile self buffer rva bytesToRead true

/-- `ImageLoader::writeImage` (lines 183-192). -/
def writeImage (self : ImageLoader) (buffer : List Nat) (rva bytesToRead : Nat) :
    Option Transfer :=
  if self.rawFileData.length = 0 then readWriteImage self buffer rva bytesToRead writeToPage
  else readWriteImageFile self buffer rva bytesToRead false

/-- Page mode: the page table is non-empty and covers the image, and no raw file buffer is
retained. -/
def pageMode (self : ImageLoader) : Prop :=
  self.pages ≠ [] ∧ getSizeOfImageAligned self ≤ self.pages.length * PELIB_PAGE_SIZE ∧
    self.rawFileData = []

/-- Raw fallback mode: the raw file buffer is retained and there are no pages. -/
def rawMode (self : ImageLoader) : Prop :=
  self.rawFileData ≠ [] ∧ self.pages = []

/-! ## Strings -/

/-- The page loop of `stringLength` (lines 215-239), run on the pages from `pageIndex` on.
The result is the value returned from inside the loop, or `rva - rvaBegin` (line 244) when
the loop runs to its end; `none` when the loop indexes `pages` past its end. -/
def stringLength.loop (rvaBegin rvaEnd : Nat) :
    List PELIB_FILE_PAGE → Nat → Nat → Option Nat
  | [], _, rva => if rva < rvaEnd then none else some (sub32 rva rvaBegin)
  | page :: rest, pageIndex, rva =>
    if rva < rvaEnd then
      let rvaEndPage := u32 ((pageIndex + 1) * PELIB_PAGE_SIZE)
      if page.buffer.isEmpty then some rva
      else
        let dataBegin := rva &&& (PELIB_PAGE_SIZE - 1)
        let rvaEndPage := if rvaEndPage > rvaEnd then rvaEnd else rvaEndPage
        match memchr (page.buffer.drop dataBegin) 0 (sub32 rvaEndPage rva) with
        | some found => some (sub32 (u32 (rva + found)) rvaBegin)
        | none => stringLength.loop rvaBegin rvaEnd rest (pageIndex + 1) rvaEndPage
    else some (sub32 rva rvaBegin)

/-- `ImageLoader::stringLength` (lines 194-263). -/
def stringLength (self : ImageLoader) (rva maxLength : Nat) : Option Nat :=
  let rvaBegin := rva
  let rvaEnd := u32 (rva + maxLength)
  if self.pages.length ≠ 0 then
    let rvaEnd := if rvaEnd > getSizeOfImageAligned self then getSizeOfImageAligned self else rvaEnd
    if rva < rvaEnd then
      let pageIndex := rva / PELIB_PAGE_SIZE
      if pageIndex < self.pages.length then
        stringLength.loop rvaBegin rvaEnd (self.pages.drop pageIndex) pageIndex rva
      else some (sub32 rva rvaBegin)
    else some (sub32 rva rvaBegin)
  else
    let rva := getFileOffsetFromRva self rva
    if rva < self.rawFileData.length then
      let length := u32 (self.rawFileData.length - rva)
      match memchr (self.rawFileData.drop rva) 0 length with
      | some stringEnd => some stringEnd
      | none => some length
    else some 0

/-- `ImageLoader::readString` (lines 265-276): the returned length and the string. -/
def readString (self : ImageLoader) (rva maxLength : Nat) : Option (Nat × List Nat) :=
  match stringLength self rva maxLength with
  | none => none
  | some length =>
    match readImage self (List.replicate length 0) rva length with
    | none => none
    | some r => some (length, r.buffer)

/-- The byte of the mapped image at `rva`; a page without a buffer reads as zero. -/
def imageByte (self : ImageLoader) (rva : Nat) : Nat :=
  match self.pages.get? (rva / PELIB_PAGE_SIZE) with
  | none => 0
  | some page => page.buffer.getD (rva % PELIB_PAGE_SIZE) 0

/-- The number of consecutive non-zero bytes of the mapped image from `rva` on, looking at
no more than `limit` bytes. -/
def nonZeroRun (self : ImageLoader) (rva : Nat) : Nat → Nat
  | 0 => 0
  | limit + 1 => if imageByte self rva = 0 then 0 else nonZeroRun self (rva + 1) limit + 1

/-! ## Predicates of the loader state used in the statements -/

/-- The step from loader `a` to loader `b` kept the optional header and did not overwrite a
recorded loader error. -/
def Keeps (a b : ImageLoader) : Prop :=
  b.optionalHeader = a.optionalHeader ∧
    (a.ldrError ≠ LoaderError.LDR_ERROR_NONE → b.ldrError = a.ldrError)

/-- A byte buffer: every element is below 256. -/
def isByteBuffer (data : List Nat) : Prop := ∀ b ∈ data, b < 256

/-- The optional header passed the checks that C9 lists. -/
def goodOptionalHeader (optionalHeader : PELIB_IMAGE_OPTIONAL_HEADER) : Prop :=
  optionalHeader.FileAlignment ≠ 0 ∧
    optionalHeader.FileAlignment &&& sub32 optionalHeader.FileAlignment 1 = 0 ∧
    optionalHeader.SectionAlignment ≠ 0 ∧
    optionalHeader.SectionAlignment &&& sub32 optionalHeader.SectionAlignment 1 = 0 ∧
    optionalHeader.FileAlignment ≤ optionalHeader.SectionAlignment ∧
    optionalHeader.SizeOfHeaders ≤ optionalHeader.SizeOfImage ∧
    BytesToPages optionalHeader.SizeOfImage ≠ 0 ∧
    optionalHeader.ImageBase &&& (PELIB_SIZE_64KB - 1) = 0

/-- The loader has not recorded "file is cut but loadable". -/
def NotCut (self : ImageLoader) : Prop :=
  self.ldrError ≠ LoaderError.LDR_ERROR_FILE_IS_CUT_LOADABLE

/-- The step from loader `a` to loader `b` did not overwrite a recorded loader error. -/
def Latched (a b : ImageLoader) : Prop :=
  a.ldrError ≠ LoaderError.LDR_ERROR_NONE → b.ldrError = a.ldrError

/-- The DOS header at the start of a file, as `captureDosHeader` copies it. -/
def dosHeaderOf (fileData : List Nat) : PELIB_IMAGE_DOS_HEADER :=
  decodeDosHeader (copyFrom fileData 0 sizeof_PELIB_IMAGE_DOS_HEADER)

/-- The loader error that the DOS header check records for an `e_lfanew` that is unaligned
or beyond the end of the file. -/
def badLfanewError (fileData : List Nat) : LoaderError :=
  if (dosHeaderOf fileData).e_lfanew &&& 3 ≠ 0 then LoaderError.LDR_ERROR_E_LFANEW_UNALIGNED
  else LoaderError.LDR_ERROR_E_LFANEW_OUT_OF_FILE

/-- The step from loader `a` to loader `b` left the page table, the raw file buffer and the
section table alone. -/
def Untouched (a b : ImageLoader) : Prop :=
  b.pages = a.pages ∧ b.rawFileData = a.rawFileData ∧ b.sections = a.sections

/-- The step from loader `a` to loader `b` left the page table and the raw file buffer
alone. -/
def SameImage (a b : ImageLoader) : Prop :=
  b.pages = a.pages ∧ b.rawFileData = a.rawFileData

/-! ## Base relocations -/

/-- Modelled from the spec: the index of the base relocation directory in the data
directory (constant of a header that is not part of the sources). -/
def PELIB_IMAGE_DIRECTORY_ENTRY_BASERELOC : Nat := 5

/-- Modelled from the spec: ten megabytes (constant of a header that is not part of the
sources). -/
def PELIB_SIZE_10MB : Nat := 0x00A00000

/-- Modelled from the spec: `sizeof(PELIB_IMAGE_BASE_RELOCATION)`, a structure of a header
that is not part of the sources: `VirtualAddress` and `SizeOfBlock`, 32 bits each. -/
def sizeof_PELIB_IMAGE_BASE_RELOCATION : Nat := 8

/-- Modelled from the spec: relocation type "absolute" (constant of a header that is not part
of the sources). -/
def PELIB_IMAGE_REL_BASED_ABSOLUTE : Nat := 0

/-- Modelled from the spec: relocation type "high" (constant of a header that is not part of
the sources). -/
def PELIB_IMAGE_REL_BASED_HIGH : Nat := 1

/-- Modelled from the spec: relocation type "low" (constant of a header that is not part of
the sources). -/
def PELIB_IMAGE_REL_BASED_LOW : Nat := 2

/-- Modelled from the spec: relocation type "highlow" (constant of a header that is not part
of the sources). -/
def PELIB_IMAGE_REL_BASED_HIGHLOW : Nat := 3

/-- Modelled from the spec: relocation type "highadj" (constant of a header that is not part
of the sources). -/
def PELIB_IMAGE_REL_BASED_HIGHADJ : Nat := 4

/-- Modelled from the spec: relocation type "MIPS jump address" (constant of a header that is
not part of the sources). -/
def PELIB_IMAGE_REL_BASED_MIPS_JMPADDR : Nat := 5

/-- Modelled from the spec: relocation type "IA64 immediate" (constant of a header that is
not part of the sources). -/
def PELIB_IMAGE_REL_BASED_IA64_IMM64 : Nat := 9

/-- Modelled from the spec: relocation type "dir64" (constant of a header that is not part of
the sources). -/
def PELIB_IMAGE_REL_BASED_DIR64 : Nat := 10

/-- Modelled from the spec: `offsetof(PELIB_IMAGE_OPTIONAL_HEADER64, DataDirectory)`, the
value of `getCopySizeOfOptionalHeader<PELIB_IMAGE_OPTIONAL_HEADER64>()` (lines 54-58); the
structure is declared in a header that is not part of the sources. -/
def copySizeOfOptionalHeader64 : Nat := 112

/-- Modelled from the spec: `offsetof(PELIB_IMAGE_OPTIONAL_HEADER32, DataDirectory)`, the
value of `getCopySizeOfOptionalHeader<PELIB_IMAGE_OPTIONAL_HEADER32>()` (lines 54-58); the
structure is declared in a header that is not part of the sources. -/
def copySizeOfOptionalHeader32 : Nat := 96

/-- Modelled from the spec: the offset of `ImageBase`, a field of 8 bytes, in
`PELIB_IMAGE_OPTIONAL_HEADER64`. -/
def offsetOfImageBase64 : Nat := 24

/-- Modelled from the spec: the offset of `ImageBase`, a field of 4 bytes, in
`PELIB_IMAGE_OPTIONAL_HEADER32`. -/
def offsetOfImageBase32 : Nat := 28

/-- `ImageLoader::isZeroPage` (lines 2081-2086). -/
def isZeroPage (self : ImageLoader) (rva : Nat) : Bool :=
  let pageIndex := rva / PELIB_PAGE_SIZE
  match self.pages.get? pageIndex with
  | some page => page.isZeroPage
  | none => false

/-- `ImageLoader::isValidImageBlock` (lines 2191-2200). -/
def isValidImageBlock (self : ImageLoader) (Rva Size : Nat) : Bool :=
  if Rva ≥ self.optionalHeader.SizeOfImage ∨ Size ≥ self.optionalHeader.SizeOfImage then false
  else if u32 (Rva + Size) < Rva then false
  else if u32 (Rva + Size) > self.optionalHeader.SizeOfImage then false
  else true

/-- `ImageLoader::writeNewImageBase` (lines 1313-1338); `none` when a read or write indexes
`pages` past its end.  The local header is zero-initialised, read from the image up to the
data directory, patched and written back. -/
def writeNewImageBase (self : ImageLoader) (newImageBase : Nat) : Option ImageLoader :=
  let offset := u32 (self.dosHeader.e_lfanew + 4 + sizeof_PELIB_IMAGE_FILE_HEADER)
  let after64 : Option ImageLoader :=
    if self.optionalHeader.Magic = PELIB_IMAGE_NT_OPTIONAL_HDR64_MAGIC then
      match readImage self (List.replicate sizeof_PELIB_IMAGE_OPTIONAL_HEADER64 0) offset
          copySizeOfOptionalHeader64 with
      | none => none
      | some r =>
        let header64 := copyInto r.buffer offsetOfImageBase64 (bytesLE newImageBase 8)
        match writeImage r.loader header64 offset copySizeOfOptionalHeader64 with
        | none => none
        | some w => some w.loader
    else some self
  match after64 with
  | none => none
  | some self =>
    if self.optionalHeader.Magic = PELIB_IMAGE_NT_OPTIONAL_HDR32_MAGIC then
      match readImage self (List.replicate sizeof_PELIB_IMAGE_OPTIONAL_HEADER32 0) offset
          copySizeOfOptionalHeader32 with
      | none => none
      | some r =>
        let header32 := copyInto r.buffer offsetOfImageBase32 (bytesLE (u32 newImageBase) 4)
        match writeImage r.loader header32 offset copySizeOfOptionalHeader32 with
        | none => none
        | some w => some w.loader
    else some self

/-- The macro `EXT_IMM64` (lines 1056-1057): the new `Value`. -/
def EXT_IMM64 (Value SourceValue32 Size InstPos ValPos : Nat) : Nat :=
  Value ||| u64 (((SourceValue32 >>> InstPos) &&& (2 ^ Size - 1)) <<< ValPos)

/-- The macro `INS_IMM64` (lines 1059-1061): the new `TargetValue32`. -/
def INS_IMM64 (Value TargetValue32 Size InstPos ValPos : Nat) : Nat :=
  (TargetValue32 &&& not32 (u32 ((2 ^ Size - 1) <<< InstPos))) |||
    u32 (u32 ((Value >>> ValPos) &&& (2 ^ Size - 1)) <<< InstPos)

/-- The extraction of the 64-bit immediate from the four words of a bundle (lines
1079-1110). -/
def extractImm64 (BundleBlock : List Nat) : Nat :=
  let Value64 := 0
  let Value64 := EXT_IMM64 Value64 (BundleBlock.getD 3 0) 7 4 0
  let Value64 := EXT_IMM64 Value64 (BundleBlock.getD 3 0) 9 18 7
  let Value64 := EXT_IMM64 Value64 (BundleBlock.getD 3 0) 5 13 16
  let Value64 := EXT_IMM64 Value64 (BundleBlock.getD 3 0) 1 12 21
  let Value64 := EXT_IMM64 Value64 (BundleBlock.getD 1 0) 10 14 22
  let Value64 := EXT_IMM64 Value64 (BundleBlock.getD 1 0) 8 24 32
  let Value64 := EXT_IMM64 Value64 (BundleBlock.getD 2 0) 23 0 40
  EXT_IMM64 Value64 (BundleBlock.getD 3 0) 1 27 63

/-- The insertion of the 64-bit immediate into the four words of a bundle (lines
1121-1152): the four words afterwards. -/
def insertImm64 (Value64 : Nat) (BundleBlock : List Nat) : List Nat :=
  let w3 := INS_IMM64 Value64 (BundleBlock.getD 3 0) 7 4 0
  let w3 := INS_IMM64 Value64 w3 9 18 7
  let w3 := INS_IMM64 Value64 w3 5 13 16
  let w3 := INS_IMM64 Value64 w3 1 12 21
  let w1 := INS_IMM64 Value64 (BundleBlock.getD 1 0) 10 14 22
  let w1 := INS_IMM64 Value64 w1 8 24 32
  let w2 := INS_IMM64 Value64 (BundleBlock.getD 2 0) 23 0 40
  let w3 := INS_IMM64 Value64 w3 1 27 63
  [BundleBlock.getD 0 0, w1, w2, w3]

/-- `ImageLoader::processImageRelocation_IA64_IMM64` (lines 1063-1156): the returned flag and
the loader afterwards; `none` when a read or write indexes `pages` past its end. -/
def processImageRelocation_IA64_IMM64 (self : ImageLoader) (fixupAddress difference : Nat) :
    Option (Bool × ImageLoader) :=
  let fixupAddress := fixupAddress &&& not32 0x0F
  match readImage self (List.replicate 16 0) fixupAddress 16 with
  | none => none
  | some r =>
    if r.count ≠ 16 then some (false, r.loader)
    else
      let BundleBlock :=
        [readLE r.buffer 0 4, readLE r.buffer 4 4, readLE r.buffer 8 4, readLE r.buffer 12 4]
      let Value64 := u64 (extractImm64 BundleBlock + difference)
      let BundleBlock := insertImm64 Value64 BundleBlock
      match writeImage r.loader (BundleBlock.flatMap fun w => bytesLE w 4) fixupAddress 16 with
      | none => none
      | some w => some (decide (w.count = 16), w.loader)

/-- The pattern shared by the cases of the relocation switch (lines 1216-1288): a local
variable of `size` bytes is zero-initialised and read from the image at `fixupAddress`; when
the read is short the case is left by `break`; otherwise the value is updated and written
back.  `none` when a read or write indexes `pages` past its end. -/
def processImageRelocations.fixup (self : ImageLoader) (fixupAddress size : Nat)
    (update : Nat → Nat) : Option ImageLoader :=
  match readImage self (List.replicate size 0) fixupAddress size with
  | none => none
  | some r =>
    if r.count ≠ size then some r.loader
    else
      match writeImage r.loader (bytesLE (update (readLE r.buffer 0 size)) size) fixupAddress
          size with
      | none => none
      | some w => some w.loader

/-- The relocation entries of one block, the loop of lines 1209-1300 from index `i` on:
`typeAndOffset` is the offset of the entries in `buffer`, `bufferEnd` the number of bytes of
`buffer` that were read from the image, `blockVirtualAddress` the `VirtualAddress` of the
block, and the first argument bounds the number of passes.  The result is `false` with the
loader when the switch returns `false`, and `true` with the loader when the loop runs to its
end.  Signed additions wrap around in two's complement.  `none` when a read or write indexes
`pages` past its end, or when the addend of a `HIGHADJ` entry is read outside the bytes that
were read into `buffer`. -/
def processImageRelocations.entries (buffer : List Nat) (bufferEnd typeAndOffset : Nat)
    (blockVirtualAddress difference numRelocations : Nat) :
    Nat → Nat → ImageLoader → Option (Bool × ImageLoader)
  | 0, i, self => if i < numRelocations then none else some (true, self)
  | passes + 1, i, self =>
    if i < numRelocations then
      let entry := readLE buffer (typeAndOffset + 2 * i) 2
      let fixupAddress := u32 (blockVirtualAddress + (entry &&& 0x0FFF))
      let type := entry >>> 12
      if type = PELIB_IMAGE_REL_BASED_DIR64 then
        match processImageRelocations.fixup self fixupAddress 8
            (fun fixupValue => u64 (fixupValue + difference)) with
        | none => none
        | some self =>
          processImageRelocations.entries buffer bufferEnd typeAndOffset blockVirtualAddress
            difference numRelocations passes (i + 1) self
      else if type = PELIB_IMAGE_REL_BASED_HIGHLOW then
        match processImageRelocations.fixup self fixupAddress 4
            (fun fixupValue => u32 (fixupValue + u32 difference)) with
        | none => none
        | some self =>
          processImageRelocations.entries buffer bufferEnd typeAndOffset blockVirtualAddress
            difference numRelocations passes (i + 1) self
      else if type = PELIB_IMAGE_REL_BASED_HIGH then
        match processImageRelocations.fixup self fixupAddress 2
            (fun fixupValue =>
              let temp := u32 (fixupValue <<< 16)
              let temp := u32 (temp + u32 difference)
              u16 (temp >>> 16)) with
        | none => none
        | some self =>
          processImageRelocations.entries buffer bufferEnd typeAndOffset blockVirtualAddress
            difference numRelocations passes (i + 1) self
      else if type = PELIB_IMAGE_REL_BASED_HIGHADJ then
        match readImage self (List.replicate 2 0) fixupAddress 2 with
        | none => none
        | some r =>
          if r.count ≠ 2 then
            processImageRelocations.entries buffer bufferEnd typeAndOffset blockVirtualAddress
              difference numRelocations passes (i + 1) r.loader
          else if typeAndOffset + 2 * (i + 1) + 2 > bufferEnd then none
          else
            let temp := u32 (readLE r.buffer 0 2 <<< 16)
            let temp := u32 (temp + readLE buffer (typeAndOffset + 2 * (i + 1)) 2)
            let temp := u32 (temp + u32 difference)
            let temp := u32 (temp + 0x8000)
            match writeImage r.loader (bytesLE (u16 (temp >>> 16)) 2) fixupAddress 2 with
            | none => none
            | some w =>
              processImageRelocations.entries buffer bufferEnd typeAndOffset
                blockVirtualAddress difference numRelocations passes (i + 2) w.loader
      else if type = PELIB_IMAGE_REL_BASED_LOW then
        match processImageRelocations.fixup self fixupAddress 2
            (fun fixupValue => u16 (fixupValue + difference)) with
        | none => none
        | some self =>
          processImageRelocations.entries buffer bufferEnd typeAndOffset blockVirtualAddress
            difference numRelocations passes (i + 1) self
      else if type = PELIB_IMAGE_REL_BASED_MIPS_JMPADDR then
        match processImageRelocations.fixup self fixupAddress 4
            (fun fixupValue =>
              let temp := u32 ((fixupValue &&& 0x3ffffff) <<< 2)
              let temp := u32 (temp + u32 difference)
              (fixupValue &&& not32 0x3ffffff) ||| ((temp >>> 2) &&& 0x3ffffff)) with
        | none => none
        | some self =>
          processImageRelocations.entries buffer bufferEnd typeAndOffset blockVirtualAddress
            difference numRelocations passes (i + 1) self
      else if type = PELIB_IMAGE_REL_BASED_IA64_IMM64 then
        match processImageRelocation_IA64_IMM64 self fixupAddress difference with
        | none => none
        | some (_, self) =>
          processImageRelocations.entries buffer bufferEnd typeAndOffset blockVirtualAddress
            difference numRelocations passes (i + 1) self
      else if type = PELIB_IMAGE_REL_BASED_ABSOLUTE then
        processImageRelocations.entries buffer bufferEnd typeAndOffset blockVirtualAddress
          difference numRelocations passes (i + 1) self
      else some (false, self)
    else some (true, self)

/-- The block loop of `processImageRelocations` (lines 1178-1304) from the buffer offset
`bufferPtr` on; the first argument bounds the number of passes, each of which moves
`bufferPtr` forward.  The result is the value that `processImageRelocations` returns, with
the loader; `none` when the relocation entries give `none` or the passes run out. -/
def processImageRelocations.loop (buffer : List Nat) (bufferEnd difference : Nat) :
    Nat → Nat → ImageLoader → Option (Bool × ImageLoader)
  | 0, bufferPtr, self =>
    if bufferPtr + sizeof_PELIB_IMAGE_BASE_RELOCATION ≤ bufferEnd then none
    else some (true, self)
  | passes + 1, bufferPtr, self =>
    if bufferPtr + sizeof_PELIB_IMAGE_BASE_RELOCATION ≤ bufferEnd then
      let VirtualAddress := readLE buffer bufferPtr 4
      let SizeOfBlock := readLE buffer (bufferPtr + 4) 4
      let typeAndOffset := bufferPtr + sizeof_PELIB_IMAGE_BASE_RELOCATION
      if isValidImageBlock self VirtualAddress SizeOfBlock = false then some (true, self)
      else if SizeOfBlock ≤ sizeof_PELIB_IMAGE_BASE_RELOCATION then
        processImageRelocations.loop buffer bufferEnd difference passes
          (bufferPtr + sizeof_PELIB_IMAGE_BASE_RELOCATION) self
      else if isZeroPage self VirtualAddress then
        processImageRelocations.loop buffer bufferEnd difference passes
          (bufferPtr + SizeOfBlock) self
      else
        let SizeOfBlock :=
          if bufferPtr + SizeOfBlock > bufferEnd then bufferEnd - bufferPtr else SizeOfBlock
        let numRelocations := (SizeOfBlock - sizeof_PELIB_IMAGE_BASE_RELOCATION) / 2
        match processImageRelocations.entries buffer bufferEnd typeAndOffset VirtualAddress
            difference numRelocations numRelocations 0 self with
        | none => none
        | some (false, self) => some (false, self)
        | some (true, self) =>
          processImageRelocations.loop buffer bufferEnd difference passes
            (bufferPtr + SizeOfBlock) self
    else some (true, self)

/-- `ImageLoader::processImageRelocations` (lines 1158-1311): the returned flag and the
loader afterwards.  The relocation buffer is read from the image; the clamped `SizeOfBlock`
that line 1205 stores into the buffer is not read again.  `none` when a read or write
indexes `pages` past its end or the addend of a `HIGHADJ` entry lies outside the bytes read. -/
def processImageRelocations (self : ImageLoader)
    (oldImageBase newImageBase VirtualAddress Size : Nat) : Option (Bool × ImageLoader) :=
  let difference := u64 (newImageBase + (2 ^ 64 - u64 oldImageBase))
  if Size < sizeof_PELIB_IMAGE_BASE_RELOCATION ∨ Size > PELIB_SIZE_10MB then some (false, self)
  else
    match readImage self (List.replicate Size 0) VirtualAddress Size with
    | none => none
    | some r =>
      processImageRelocations.loop r.buffer r.count difference r.count 0 r.loader

/-- `ImageLoader::relocateImage` (lines 119-167): the returned flag and the loader
afterwards; `none` when a read or write indexes `pages` past its end or the addend of a
`HIGHADJ` entry lies outside the bytes read. -/
def relocateImage (self : ImageLoader) (newImageBase : Nat) : Option (Bool × ImageLoader) :=
  if newImageBase ≠ self.optionalHeader.ImageBase then
    if self.pages.length = 0 then some (false, self)
    else if self.fileHeader.Characteristics &&& PELIB_IMAGE_FILE_RELOCS_STRIPPED ≠ 0 then
      some (false, self)
    else if self.appContainerCheck ∧ checkForBadAppContainer self then some (false, self)
    else if self.optionalHeader.Magic = PELIB_IMAGE_NT_OPTIONAL_HDR32_MAGIC ∧
        newImageBase >>> 32 ≠ 0 then some (false, self)
    else
      match writeNewImageBase self newImageBase with
      | none => none
      | some self =>
        let directory := self.optionalHeader.DataDirectory.getD
          PELIB_IMAGE_DIRECTORY_ENTRY_BASERELOC {}
        if self.optionalHeader.NumberOfRvaAndSizes ≤ PELIB_IMAGE_DIRECTORY_ENTRY_BASERELOC then
          some (false, self)
        else if directory.VirtualAddress = 0 ∨ directory.Size = 0 then some (false, self)
        else if isValidImageBlock self directory.VirtualAddress directory.Size = false then
          some (false, self)
        else
          processImageRelocations self self.optionalHeader.ImageBase newImageBase
            directory.VirtualAddress directory.Size
  else some (true, self)

/-- The byte at offset `x` of the memory that a list of pages maps; a page without a buffer
reads as zero. -/
def pageListByte (pages : List PELIB_FILE_PAGE) (x : Nat) : Nat :=
  match pages.get? (x / PELIB_PAGE_SIZE) with
  | none => 0
  | some page => page.buffer.getD (x % PELIB_PAGE_SIZE) 0

/-- Every page either has no buffer or owns a buffer of one page. -/
def wellFormedPages (pages : List PELIB_FILE_PAGE) : Prop :=
  ∀ page ∈ pages, page.buffer = [] ∨ page.buffer.length = PELIB_PAGE_SIZE

/-- A mapped image: the loader is in page mode and every page either has no buffer or owns
a buffer of one page. -/
def mappedImage (self : ImageLoader) : Prop :=
  pageMode self ∧ wellFormedPages self.pages

/-- The number of bytes that a read or write of `bytesToRead` bytes at `rva` transfers in
page mode (lines 912-917): the distance from `rva` to the end `rva + bytesToRead`, computed
in 32 bits and clipped to `getSizeOfImageAligned()`. -/
def transferCount (self : ImageLoader) (rva bytesToRead : Nat) : Nat :=
  min (u32 (rva + bytesToRead)) (getSizeOfImageAligned self) - rva

/-- The rva of the optional header in the image, as `writeNewImageBase` computes it (line
1315). -/
def optionalHeaderRva (self : ImageLoader) : Nat :=
  u32 (self.dosHeader.e_lfanew + 4 + sizeof_PELIB_IMAGE_FILE_HEADER)

/-- The rva of the field `ImageBase` of the optional header stored in the image. -/
def imageBaseRva (self : ImageLoader) : Nat :=
  optionalHeaderRva self +
    (if self.optionalHeader.Magic = PELIB_IMAGE_NT_OPTIONAL_HDR64_MAGIC then offsetOfImageBase64
     else offsetOfImageBase32)

/-- The width in bytes of the field `ImageBase` of the optional header stored in the image:
8 for PE32+, 4 for PE32; no such field is written for another magic. -/
def imageBaseWidth (self : ImageLoader) : Nat :=
  if self.optionalHeader.Magic = PELIB_IMAGE_NT_OPTIONAL_HDR64_MAGIC then 8
  else if self.optionalHeader.Magic = PELIB_IMAGE_NT_OPTIONAL_HDR32_MAGIC then 4
  else 0

/-- The number of bytes of the optional header that `writeNewImageBase` reads and writes:
the header up to the data directory. -/
def copySizeOfOptionalHeader (self : ImageLoader) : Nat :=
  if self.optionalHeader.Magic = PELIB_IMAGE_NT_OPTIONAL_HDR64_MAGIC then
    copySizeOfOptionalHeader64
  else copySizeOfOptionalHeader32
/-- The `n` bytes of the mapped image from `rva` on. -/
def imageBytes (self : ImageLoader) (rva n : Nat) : List Nat :=
  (List.range n).map fun i => imageByte self (rva + i)

/-- The base relocation directory of the optional header. -/
def baseRelocationDirectory (self : ImageLoader) : PELIB_IMAGE_DATA_DIRECTORY :=
  self.optionalHeader.DataDirectory.getD PELIB_IMAGE_DIRECTORY_ENTRY_BASERELOC {}

/-- The image `b` is the image `a` with other bytes in its pages: the headers, the sections
and the raw buffer are those of `a`, and there are as many pages, each with a buffer of one
page or none and with the flag `isZeroPage` it has in `a`. -/
def Rewritten (a b : ImageLoader) : Prop :=
  ∃ pages', b = { a with pages := pages' } ∧ pages'.length = a.pages.length ∧
    wellFormedPages pages' ∧
    pages'.map (fun page => page.isZeroPage) = a.pages.map (fun page => page.isZeroPage)

/-- The rva that the entry `i` of a relocation block at offset `blockOffset` of the
relocation data targets (lines 1186 and 1211-1213): the `VirtualAddress` of the block plus
the low 12 bits of the entry. -/
def fixupAddressAt (data : List Nat) (blockOffset i : Nat) : Nat :=
  u32 (readLE data blockOffset 4 +
    (readLE data (blockOffset + sizeof_PELIB_IMAGE_BASE_RELOCATION + 2 * i) 2 &&& 0x0FFF))

/-- The relocation data as `processImageRelocations` reads them (lines 1171-1173): the
bytes of the image from `VirtualAddress` on, as many as the read transfers, in a buffer of
`Size` zero bytes. -/
def relocationData (self : ImageLoader) (VirtualAddress Size : Nat) : List Nat :=
  (List.range Size).map fun j =>
    if j < transferCount self VirtualAddress Size then imageByte self (VirtualAddress + j)
    else 0

/-- The addend of every `HIGHADJ` entry that lies in the relocation data lies in the
relocation data too; an entry is any 16-bit word behind the 8 bytes of a block header at any
offset of the data. -/
def addendsInside (self : ImageLoader) (VirtualAddress Size : Nat) : Prop :=
  ∀ p k, p + sizeof_PELIB_IMAGE_BASE_RELOCATION + 2 * k + 2 ≤
      transferCount self VirtualAddress Size →
    readLE (relocationData self VirtualAddress Size)
        (p + sizeof_PELIB_IMAGE_BASE_RELOCATION + 2 * k) 2 >>> 12 =
      PELIB_IMAGE_REL_BASED_HIGHADJ →
    p + sizeof_PELIB_IMAGE_BASE_RELOCATION + 2 * (k + 1) + 2 ≤
      transferCount self VirtualAddress Size

/-- No relocation entry targets the `n` bytes at `rva`: the address of every entry that lies
in the relocation data is 16 bytes or more away from each of them (a relocation writes at
most the 16 bytes of the bundle around its address); an entry is any 16-bit word behind the
8 bytes of a block header at any offset of the data. -/
def untargeted (self : ImageLoader) (VirtualAddress Size rva n : Nat) : Prop :=
  ∀ p i x, p + sizeof_PELIB_IMAGE_BASE_RELOCATION + 2 * i + 2 ≤
      transferCount self VirtualAddress Size →
    rva ≤ x → x < rva + n →
    x + 16 ≤ fixupAddressAt (relocationData self VirtualAddress Size) p i ∨
    fixupAddressAt (relocationData self VirtualAddress Size) p i + 16 ≤ x

/-! ## Editing the section table -/

/-- Modelled from the spec: the section flag "contains code" (constant of a header that is
not part of the sources). -/
def PELIB_IMAGE_SCN_CNT_CODE : Nat := 0x00000020

/-- Modelled from the spec: the section flag "contains initialized data" (constant of a
header that is not part of the sources). -/
def PELIB_IMAGE_SCN_CNT_INITIALIZED_DATA : Nat := 0x00000040

/-- Modelled from the spec: the flag "32-bit machine" of the file header (constant of a
header that is not part of the sources). -/
def PELIB_IMAGE_FILE_32BIT_MACHINE : Nat := 0x0100

/-- The value `UINT16_MAX`. -/
def UINT16_MAX : Nat := 0xFFFF

/-- Modelled from the spec: `PELIB_SECTION_HEADER::setName` is declared in a header that is
not part of the sources: the fixed array `Name` takes the first 8 characters of the name,
padded with zeros, and `sectionName` takes the name. -/
def PELIB_SECTION_HEADER.setName (S : PELIB_SECTION_HEADER) (newName : List Nat) :
    PELIB_SECTION_HEADER :=
  { S with
    Name := newName.take PELIB_IMAGE_SIZEOF_SHORT_NAME ++
      List.replicate (PELIB_IMAGE_SIZEOF_SHORT_NAME - newName.length) 0,
    sectionName := newName }

/-- Modelled from the spec: `PELIB_SECTION_HEADER::setVirtualRange` is declared in a header
that is not part of the sources.  An argument `UINT32_MAX` leaves the field alone, as the
setters of lines 535-558 do and as the calls of lines 664-665 and 700 need it. -/
def PELIB_SECTION_HEADER.setVirtualRange (S : PELIB_SECTION_HEADER)
    (newVirtualAddress newVirtualSize : Nat) : PELIB_SECTION_HEADER :=
  let S := if newVirtualAddress ≠ UINT32_MAX then { S with VirtualAddress := newVirtualAddress }
    else S
  if newVirtualSize ≠ UINT32_MAX then { S with VirtualSize := newVirtualSize } else S

/-- Modelled from the spec: `PELIB_SECTION_HEADER::setRawDataRange` is declared in a header
that is not part of the sources.  An argument `UINT32_MAX` leaves the field alone, as the
setters of lines 535-558 do and as the calls of lines 664-665 and 701 need it. -/
def PELIB_SECTION_HEADER.setRawDataRange (S : PELIB_SECTION_HEADER)
    (newPointerToRawData newSizeOfRawData : Nat) : PELIB_SECTION_HEADER :=
  let S := if newPointerToRawData ≠ UINT32_MAX then
      { S with PointerToRawData := newPointerToRawData }
    else S
  if newSizeOfRawData ≠ UINT32_MAX then { S with SizeOfRawData := newSizeOfRawData } else S

/-- Modelled from the spec: `ImageLoader::getSectionHeader` is declared in a header that is
not part of the sources: the section header of the given index, null when there is none. -/
def getSectionHeader (self : ImageLoader) (sectionIndex : Nat) : Option PELIB_SECTION_HEADER :=
  self.sections.get? sectionIndex

/-- Modelled from the spec: `ImageLoader::getNumberOfSections` is declared in a header that
is not part of the sources: the size of the section table. -/
def getNumberOfSections (self : ImageLoader) : Nat := self.sections.length

/-- Modelled from the spec: `ImageLoader::getSectionAlignment` is declared in a header that
is not part of the sources. -/
def getSectionAlignment (self : ImageLoader) : Nat := self.optionalHeader.SectionAlignment

/-- Modelled from the spec: `ImageLoader::getFileAlignment` is declared in a header that is
not part of the sources. -/
def getFileAlignment (self : ImageLoader) : Nat := self.optionalHeader.FileAlignment

/-- The loop of `calcNewSectionAddresses` (lines 592-598): `NewRva` and `NewRawOffset`
after the sections. -/
def calcNewSectionAddresses.loop : List PELIB_SECTION_HEADER → Nat × Nat → Nat × Nat
  | [], new => new
  | sectHdr :: rest, (NewRva, NewRawOffset) =>
    let NewRva :=
      if u32 (sectHdr.VirtualAddress + sectHdr.VirtualSize) > NewRva then
        u32 (sectHdr.VirtualAddress + sectHdr.VirtualSize)
      else NewRva
    let NewRawOffset :=
      if u32 (sectHdr.PointerToRawData + sectHdr.SizeOfRawData) > NewRawOffset then
        u32 (sectHdr.PointerToRawData + sectHdr.SizeOfRawData)
      else NewRawOffset
    calcNewSectionAddresses.loop rest (NewRva, NewRawOffset)

/-- `ImageLoader::calcNewSectionAddresses` (lines 587-602): `Rva` and `RawOffset`. -/
def calcNewSectionAddresses (self : ImageLoader) : Nat × Nat :=
  let new := calcNewSectionAddresses.loop self.sections
    (self.optionalHeader.SizeOfHeaders, self.optionalHeader.SizeOfHeaders)
  (AlignToSize new.1 self.optionalHeader.SectionAlignment,
   AlignToSize new.2 self.optionalHeader.FileAlignment)

/-- `ImageLoader::addSection` (lines 561-585): the returned section header, `none` for a
null pointer, and the loader afterwards. -/
def addSection (self : ImageLoader) (name : List Nat) (sectionSize : Nat) :
    Option PELIB_SECTION_HEADER × ImageLoader :=
  if self.optionalHeader.FileAlignment = 0 then (none, self)
  else if self.optionalHeader.SectionAlignment = 0 then (none, self)
  else if self.sections.length ≥ UINT16_MAX then (none, self)
  else
    let new := calcNewSectionAddresses self
    let SectHdr : PELIB_SECTION_HEADER := {}
    let SectHdr := SectHdr.setName name
    let SectHdr := SectHdr.setVirtualRange new.1
      (AlignToSize sectionSize self.optionalHeader.SectionAlignment)
    let SectHdr := SectHdr.setRawDataRange new.2
      (AlignToSize sectionSize self.optionalHeader.FileAlignment)
    let SectHdr := { SectHdr with
      Characteristics := PELIB_IMAGE_SCN_MEM_WRITE ||| PELIB_IMAGE_SCN_MEM_READ |||
        PELIB_IMAGE_SCN_CNT_INITIALIZED_DATA ||| PELIB_IMAGE_SCN_CNT_CODE }
    let self := { self with sections := self.sections ++ [SectHdr] }
    (getSectionHeader self (self.sections.length - 1), self)

/-- `ImageLoader::setSectionName` (lines 604-610). -/
def setSectionName (self : ImageLoader) (sectionIndex : Nat) (newName : List Nat) :
    ImageLoader :=
  if sectionIndex < self.sections.length then
    { self with sections :=
        (self.sections.set sectionIndex
          ((self.sections.getD sectionIndex {}).setName newName)) }
  else self

/-- `ImageLoader::setSectionVirtualRange` (lines 612-618); the declaration, in a header that
is not part of the sources, gives `VirtualSize` the default `UINT32_MAX`, which the callers
of this definition pass themselves. -/
def setSectionVirtualRange (self : ImageLoader) (sectionIndex VirtualAddress VirtualSize : Nat) :
    ImageLoader :=
  if sectionIndex < self.sections.length then
    { self with sections :=
        (self.sections.set sectionIndex
          ((self.sections.getD sectionIndex {}).setVirtualRange VirtualAddress VirtualSize)) }
  else self

/-- `ImageLoader::setSectionRawDataRange` (lines 620-626); the declaration, in a header that
is not part of the sources, gives `SizeOfRawData` the default `UINT32_MAX`, which the callers
of this definition pass themselves. -/
def setSectionRawDataRange (self : ImageLoader)
    (sectionIndex PointerToRawData SizeOfRawData : Nat) : ImageLoader :=
  if sectionIndex < self.sections.length then
    { self with sections :=
        (self.sections.set sectionIndex
          ((self.sections.getD sectionIndex {}).setRawDataRange PointerToRawData
            SizeOfRawData)) }
  else self

/-- `ImageLoader::setSectionCharacteristics` (lines 628-634). -/
def setSectionCharacteristics (self : ImageLoader) (sectionIndex Characteristics : Nat) :
    ImageLoader :=
  if sectionIndex < self.sections.length then
    { self with sections :=
        (self.sections.set sectionIndex
          { self.sections.getD sectionIndex {} with Characteristics := Characteristics }) }
  else self

/-- The loop of `splitSection` that moves the sections behind `sectionIndex` by one position
(lines 658-659), with `i = sectionIndex + passes` in the next pass; it ends when `i` reaches
`sectionIndex`. -/
def splitSection.move (sectionIndex : Nat) :
    Nat → List PELIB_SECTION_HEADER → List PELIB_SECTION_HEADER
  | 0, sections => sections
  | passes + 1, sections =>
    let i := sectionIndex + (passes + 1)
    splitSection.move sectionIndex passes (sections.set (i + 1) (sections.getD i {}))

/-- `ImageLoader::splitSection` (lines 636-674): the returned status and the loader
afterwards; `none` when the null pointer that `getSectionHeader` gives for an index without
section is dereferenced. -/
def splitSection (self : ImageLoader) (sectionIndex : Nat) (prevSectName nextSectName : List Nat)
    (splitOffset : Nat) : Option (FileError × ImageLoader) :=
  if self.optionalHeader.FileAlignment = 0 then some (FileError.ERROR_NO_FILE_ALIGNMENT, self)
  else if self.optionalHeader.SectionAlignment = 0 then
    some (FileError.ERROR_NO_SECTION_ALIGNMENT, self)
  else if sectionIndex > self.sections.length then some (FileError.ERROR_ENTRY_NOT_FOUND, self)
  else if splitOffset &&& sub32 (getSectionAlignment self) 1 ≠ 0 then
    some (FileError.ERROR_NOT_ENOUGH_SPACE, self)
  else
    match getSectionHeader self sectionIndex with
    | none => none
    | some sectHdr =>
      if splitOffset ≥ sectHdr.VirtualSize then some (FileError.ERROR_NOT_ENOUGH_SPACE, self)
      else
        let resized := self.sections ++ [{}]
        let self := { self with sections :=
          (splitSection.move sectionIndex (resized.length - 2 - sectionIndex) resized) }
        match getSectionHeader self sectionIndex with
        | none => none
        | some sectHdr =>
          let originalSize := sectHdr.SizeOfRawData
          let self := setSectionName self sectionIndex prevSectName
          let self := setSectionRawDataRange self sectionIndex UINT32_MAX splitOffset
          let self := setSectionVirtualRange self sectionIndex UINT32_MAX splitOffset
          let self := setSectionName self (sectionIndex + 1) nextSectName
          let self := setSectionRawDataRange self (sectionIndex + 1)
            (u32 ((self.sections.getD sectionIndex {}).PointerToRawData + splitOffset))
            (sub32 originalSize splitOffset)
          let self := setSectionVirtualRange self (sectionIndex + 1)
            (u32 ((self.sections.getD sectionIndex {}).VirtualAddress + splitOffset))
            (sub32 originalSize splitOffset)
          let self := setSectionCharacteristics self (sectionIndex + 1)
            (PELIB_IMAGE_SCN_MEM_WRITE ||| PELIB_IMAGE_SCN_MEM_READ |||
              PELIB_IMAGE_SCN_CNT_INITIALIZED_DATA ||| PELIB_IMAGE_SCN_CNT_CODE)
          some (FileError.ERROR_NONE, self)
/-- The loop of `removeSection` (lines 696-702) from the index `i` on: the sections behind
the removed one are moved down by `virtualDiff` and `rawDiff`; the first argument bounds the
number of passes. -/
def removeSection.loop (virtualDiff rawDiff : Nat) : Nat → Nat → ImageLoader → ImageLoader
  | 0, _, self => self
  | passes + 1, i, self =>
    if i < getNumberOfSections self then
      match getSectionHeader self i with
      | none => self
      | some sectHdr =>
        let self := setSectionVirtualRange self i (sub32 sectHdr.VirtualAddress virtualDiff)
          UINT32_MAX
        let self := setSectionRawDataRange self i (sub32 sectHdr.PointerToRawData rawDiff)
          UINT32_MAX
        removeSection.loop virtualDiff rawDiff passes (i + 1) self
    else self

/-- `ImageLoader::removeSection` (lines 687-706): the returned status and the loader
afterwards. -/
def removeSection (self : ImageLoader) (sectionIndex : Nat) : FileError × ImageLoader :=
  if sectionIndex ≥ getNumberOfSections self then (FileError.ERROR_ENTRY_NOT_FOUND, self)
  else
    match getSectionHeader self sectionIndex with
    | none => (FileError.ERROR_ENTRY_NOT_FOUND, self)
    | some sectHdr =>
      let virtualDiff := sectHdr.VirtualSize
      let rawDiff := sectHdr.SizeOfRawData
      let self := removeSection.loop virtualDiff rawDiff (getNumberOfSections self)
        (sectionIndex + 1) self
      (FileError.ERROR_NONE, { self with sections := self.sections.eraseIdx sectionIndex })

/-- `ImageLoader::getImageBitability` (lines 409-417). -/
def getImageBitability (self : ImageLoader) : Nat :=
  if self.optionalHeader.Magic = PELIB_IMAGE_NT_OPTIONAL_HDR64_MAGIC then 64 else 32

/-- `ImageLoader::getFieldOffset(OPTHDR_sizeof)` (lines 457-465). -/
def getFieldOffset_OPTHDR_sizeof (self : ImageLoader) : Nat :=
  if getImageBitability self = 64 then sizeof_PELIB_IMAGE_OPTIONAL_HEADER64
  else sizeof_PELIB_IMAGE_OPTIONAL_HEADER32

/-- The section loop of `makeValid` (lines 740-749) from the index `i` on: `sizeOfImage`
grows by the aligned virtual size of every section, and the raw data of every section move
by `dwOffsetDiff` when that is not 0; the first argument bounds the number of passes.  The
result is `sizeOfImage` and the loader. -/
def makeValid.loop (dwOffsetDiff : Nat) : Nat → Nat → Nat → ImageLoader → Nat × ImageLoader
  | 0, _, sizeOfImage, self => (sizeOfImage, self)
  | passes + 1, i, sizeOfImage, self =>
    if i < self.fileHeader.NumberOfSections then
      match getSectionHeader self i with
      | none => (sizeOfImage, self)
      | some sectHdr =>
        let sizeOfImage := u32 (sizeOfImage +
          AlignToSize sectHdr.VirtualSize self.optionalHeader.SectionAlignment)
        let self :=
          if dwOffsetDiff ≠ 0 then
            setSectionRawDataRange self i (u32 (sectHdr.PointerToRawData + dwOffsetDiff))
              UINT32_MAX
          else self
        makeValid.loop dwOffsetDiff passes (i + 1) sizeOfImage self
    else (sizeOfImage, self)

/-- The header part of `makeValid` (lines 710-736): the NT signature, the file header and
the optional header up to `SizeOfHeaders` are fixed.  Every value is written as the source
computes it from the loader it finds: `getFieldOffset(OPTHDR_sizeof)` (line 722) reads
`Magic` before line 726 sets it, line 723 reads the old `Characteristics`, and
`sizeOfHeaders` (line 735) is computed from the new `SizeOfOptionalHeader`,
`NumberOfSections` and `FileAlignment`. -/
def makeValid.headers (self : ImageLoader) : ImageLoader :=
  let imageBitability := getImageBitability self
  let NumberOfSections := u16 self.sections.length
  let SizeOfOptionalHeader := u16 (getFieldOffset_OPTHDR_sizeof self)
  let alignment := AlignToSize self.optionalHeader.SectionAlignment PELIB_PAGE_SIZE
  let SectionAlignment := if alignment ≠ 0 then alignment else PELIB_PAGE_SIZE
  let alignment := AlignToSize self.optionalHeader.FileAlignment PELIB_SECTOR_SIZE
  let FileAlignment := if alignment ≠ 0 then alignment else PELIB_SECTOR_SIZE
  let sizeOfHeaders := u32 (self.dosHeader.e_lfanew + 4 + sizeof_PELIB_IMAGE_FILE_HEADER +
    SizeOfOptionalHeader + NumberOfSections * sizeof_PELIB_IMAGE_SECTION_HEADER)
  { self with
    ntSignature := PELIB_IMAGE_NT_SIGNATURE,
    fileHeader := { self.fileHeader with
      Machine := if imageBitability = 64 then PELIB_IMAGE_FILE_MACHINE_AMD64
        else PELIB_IMAGE_FILE_MACHINE_I386,
      NumberOfSections := NumberOfSections,
      SizeOfOptionalHeader := SizeOfOptionalHeader,
      Characteristics :=
        if self.fileHeader.Characteristics ≠ 0 then self.fileHeader.Characteristics
        else PELIB_IMAGE_FILE_EXECUTABLE_IMAGE ||| PELIB_IMAGE_FILE_32BIT_MACHINE },
    optionalHeader := { self.optionalHeader with
      Magic := if imageBitability = 64 then PELIB_IMAGE_NT_OPTIONAL_HDR64_MAGIC
        else PELIB_IMAGE_NT_OPTIONAL_HDR32_MAGIC,
      NumberOfRvaAndSizes := PELIB_IMAGE_NUMBEROF_DIRECTORY_ENTRIES,
      SectionAlignment := SectionAlignment,
      FileAlignment := FileAlignment,
      SizeOfHeaders := AlignToSize sizeOfHeaders FileAlignment } }

/-- `ImageLoader::makeValid` (lines 708-753): the loader afterwards; `none` when there is no
section and the null pointer that `getSectionHeader(0)` gives is dereferenced. -/
def makeValid (self : ImageLoader) : Option ImageLoader :=
  let self := makeValid.headers self
  let sizeOfHeaders := self.optionalHeader.SizeOfHeaders
  let sizeOfImage := AlignToSize self.optionalHeader.SizeOfHeaders
    self.optionalHeader.SectionAlignment
  match getSectionHeader self 0 with
  | none => none
  | some first =>
    let dwOffsetDiff := sub32 sizeOfHeaders first.PointerToRawData
    let r := makeValid.loop dwOffsetDiff self.fileHeader.NumberOfSections 0 sizeOfImage self
    some { r.2 with optionalHeader := { r.2.optionalHeader with
      SizeOfImage := AlignToSize r.1 r.2.optionalHeader.SectionAlignment } }

/-- Rounding `x` up to a multiple of `a`. -/
def alignUp (x a : Nat) : Nat := (x + a - 1) / a * a

/-- The end of the virtual ranges: the largest of `SizeOfHeaders` and the ends
`VirtualAddress + VirtualSize` of the sections. -/
def virtualEnd (self : ImageLoader) : Nat :=
  (self.sections.map fun s => s.VirtualAddress + s.VirtualSize).foldl max
    self.optionalHeader.SizeOfHeaders

/-- The end of the raw data: the largest of `SizeOfHeaders` and the ends
`PointerToRawData + SizeOfRawData` of the sections. -/
def rawEnd (self : ImageLoader) : Nat :=
  (self.sections.map fun s => s.PointerToRawData + s.SizeOfRawData).foldl max
    self.optionalHeader.SizeOfHeaders

/-- The eight bit fields of the 64-bit immediate of an IA64 bundle (lines 1016-1054): for
each field the word of the bundle, the size in bits, the position in the word and the
position in the value. -/
def imm64Fields : List (Nat × Nat × Nat × Nat) :=
  [(3, 7, 4, 0), (3, 9, 18, 7), (3, 5, 13, 16), (3, 1, 12, 21), (1, 10, 14, 22),
   (1, 8, 24, 32), (2, 23, 0, 40), (3, 1, 27, 63)]

/-- Bit `bit` of word `word` of a bundle belongs to one of the eight fields. -/
def inImm64Field (word bit : Nat) : Bool :=
  imm64Fields.any fun f => f.1 == word && (decide (f.2.2.1 ≤ bit) && decide (bit < f.2.2.1 + f.2.1))

/-- The four 32-bit words of the bundle of 16 bytes at `rva` of the image. -/
def bundleAt (self : ImageLoader) (rva : Nat) : List Nat :=
  [readLE (imageBytes self rva 16) 0 4, readLE (imageBytes self rva 16) 4 4,
   readLE (imageBytes self rva 16) 8 4, readLE (imageBytes self rva 16) 12 4]

/-- The virtual size that `captureImageSection` maps for a section (lines 1960-1966):
`VirtualSize`, or `SizeOfRawData` when `VirtualSize` is 0, aligned to the page size. -/
def mappedVirtualSize (S : PELIB_SECTION_HEADER) : Nat :=
  AlignToSize (if S.VirtualSize = 0 then S.SizeOfRawData else S.VirtualSize) PELIB_PAGE_SIZE

/-- The size of raw data that `captureImageSection` maps for a section (lines 1968-1971):
`SizeOfRawData`, cut to the aligned virtual size. -/
def mappedRawDataSize (S : PELIB_SECTION_HEADER) : Nat :=
  if S.SizeOfRawData > mappedVirtualSize S then mappedVirtualSize S else S.SizeOfRawData

/-- The file offset at which the raw data that `captureImageSection` copies for a section
begin (line 1984): `PointerToRawData`, aligned down to the sector size. -/
def mappedRawDataPtr (S : PELIB_SECTION_HEADER) : Nat :=
  S.PointerToRawData &&& not32 (PELIB_SECTOR_SIZE - 1)

/-- The file offset at which the raw data that `captureImageSection` copies for a section
end (line 1991): the end of the raw data, aligned to the file alignment. -/
def mappedRawDataEnd (optionalHeader : PELIB_IMAGE_OPTIONAL_HEADER) (S : PELIB_SECTION_HEADER) :
    Nat :=
  AlignToSize (u32 (S.PointerToRawData + mappedRawDataSize S)) optionalHeader.FileAlignment

/-- The step from loader `a` to loader `b` left the configuration of the loader alone: the
loader mode, the alignment of a single-subsection image and the 64-bit flag. -/
def SameConfig (a b : ImageLoader) : Prop :=
  b.loaderMode = a.loaderMode ∧ b.ssiImageAlignment32 = a.ssiImageAlignment32 ∧
    b.is64BitWindows = a.is64BitWindows

/-- `ImageLoader::enlargeLastSection` (lines 676-685): the loader afterwards.  The sum
`SizeOfRawData + sizeIncrement` and the new `SizeOfImage` are computed in `uint32_t`; the
page table is not touched. -/
def enlargeLastSection (self : ImageLoader) (sizeIncrement : Nat) : ImageLoader :=
  match self.sections.getLast? with
  | none => self
  | some lastSection =>
    let size := AlignToSize (u32 (lastSection.SizeOfRawData + sizeIncrement))
      (getFileAlignment self)
    { self with
      sections := self.sections.dropLast ++
        [{ lastSection with VirtualSize := size, SizeOfRawData := size }],
      optionalHeader := { self.optionalHeader with
        SizeOfImage := u32 (lastSection.VirtualAddress + size) } }
/-- The loader of `captureSectionHeaders` when the section loop and the check of the image
size are done (lines 1528-1643), before the decision about a trimmed file (lines 1645-1681);
the section table starts inside the file. -/
def captureSectionHeaders.checked (self : ImageLoader) (fileData : List Nat) : ImageLoader :=
  let filePtr := self.dosHeader.e_lfanew + 4 + sizeof_PELIB_IMAGE_FILE_HEADER +
    self.fileHeader.SizeOfOptionalHeader
  let cap := captureSectionHeaders.loop self.fileHeader.NumberOfSections 0
    (captureSectionHeaders.init self fileData filePtr)
  let SingleSubsection : Bool := cap.loader.optionalHeader.SectionAlignment < PELIB_PAGE_SIZE
  let ThresholdNumberOfPTEs :=
    if SingleSubsection = false then cap.loader.optionalHeader.SectionAlignment / PELIB_PAGE_SIZE
    else 1
  setLoaderErrorIf
    (cap.loader.sizeofImageMustMatch ∧ cap.NumberOfPTEs ≥ ThresholdNumberOfPTEs)
    LoaderError.LDR_ERROR_INVALID_SIZE_OF_IMAGE cap.loader

/-! ## Example files and loader states -/

/-- A 64-bit PE file: DOS header with `e_lfanew = 0x40`, NT signature, file header (AMD64,
executable, `SizeOfOptionalHeader = 240`) with the given number of sections, optional header
with `ImageBase = 0x140000000`, `SectionAlignment = 0x1000`, `SizeOfHeaders = 0x200` and the
given `FileAlignment` and `SizeOfImage`; `rest` is the content of the file from the section
table (offset `0x148`) on. -/
def examplePe64 (numberOfSections fileAlignment sizeOfImage : Nat) (rest : List Nat) : List Nat :=
  [0x4D, 0x5A] ++ List.replicate 58 0 ++ bytesLE 0x40 4 ++
  bytesLE 0x4550 4 ++
  bytesLE 0x8664 2 ++ bytesLE numberOfSections 2 ++ List.replicate 12 0 ++
    bytesLE 0xF0 2 ++ bytesLE 0x22 2 ++
  bytesLE 0x20B 2 ++ List.replicate 22 0 ++ bytesLE 0x140000000 8 ++
  bytesLE 0x1000 4 ++ bytesLE fileAlignment 4 ++ List.replicate 16 0 ++
  bytesLE sizeOfImage 4 ++ bytesLE 0x200 4 ++ List.replicate 176 0 ++ rest

/-- A minimal 64-bit PE file of 512 bytes without sections: `FileAlignment = 0x200` and
`SizeOfImage = 0x1000`. -/
def minimalPe64 : List Nat := examplePe64 0 0x200 0x1000 (List.replicate 184 0)

/-- The loader after `Load` of `minimalPe64` on a Windows 10 loader. -/
def minimalPe64Loaded : ImageLoader :=
  match Load (ImageLoader.new 0xA0) minimalPe64 false with
  | some r => r.2.1
  | none => ImageLoader.new 0xA0

/-- A 64-bit PE file of 512 bytes with `SizeOfImage = 0x2000` and one section `.bss` of
uninitialised data: `VirtualAddress = 0x1000`, `VirtualSize = 0x1000`, no raw data,
readable and writable. -/
def bssPe64 : List Nat :=
  examplePe64 1 0x200 0x2000
    ([0x2E, 0x62, 0x73, 0x73, 0, 0, 0, 0] ++ bytesLE 0x1000 4 ++ bytesLE 0x1000 4 ++
      List.replicate 20 0 ++ bytesLE 0xC0000080 4 ++ List.replicate 144 0)

/-- The loader after `Load` of `bssPe64` on a Windows 10 loader (see
`Load_bssPe64`): a mapped image of two pages, the header page and a zero page for the
section `.bss`. -/
def mappedBssImage : ImageLoader :=
  { ImageLoader.new 0xA0 with
    sections :=
      [{ Name := [0x2E, 0x62, 0x73, 0x73, 0, 0, 0, 0], VirtualSize := 0x1000,
         VirtualAddress := 0x1000, Characteristics := 0xC0000080,
         sectionName := [0x2E, 0x62, 0x73, 0x73] }],
    pages :=
      [{ buffer := bssPe64 ++ List.replicate 3584 0, isInvalidPage := false },
       { isInvalidPage := false, isZeroPage := true }],
    dosHeader := { e_magic := 0x5A4D, e_lfanew := 0x40 },
    fileHeader :=
      { Machine := 0x8664, NumberOfSections := 1, SizeOfOptionalHeader := 240,
        Characteristics := 0x22 },
    optionalHeader :=
      { Magic := 0x20B, ImageBase := 0x140000000, SectionAlignment := 0x1000,
        FileAlignment := 0x200, SizeOfImage := 0x2000, SizeOfHeaders := 0x200 },
    ntSignature := 0x4550, checkSumFileOffset := 152, securityDirFileOffset := 232 }

/-- A 64-bit PE file of 512 bytes without sections whose `FileAlignment` is `0x300`, not a
power of two; the file ends with 184 bytes `0x41`. -/
def brokenPe64 : List Nat := examplePe64 0 0x300 0x1000 (List.replicate 184 0x41)

/-- The loader after `Load` of `brokenPe64` on a Windows 10 loader (see `Load_brokenPe64`):
the image is not loadable, so the loader is in raw fallback mode and retains the file. -/
def rawFallback : ImageLoader :=
  { ImageLoader.new 0xA0 with
    rawFileData := brokenPe64,
    dosHeader := { e_magic := 0x5A4D, e_lfanew := 0x40 },
    fileHeader :=
      { Machine := 0x8664, NumberOfSections := 0, SizeOfOptionalHeader := 240,
        Characteristics := 0x22 },
    optionalHeader :=
      { Magic := 0x20B, ImageBase := 0x140000000, SectionAlignment := 0x1000,
        FileAlignment := 0x300, SizeOfImage := 0x1000, SizeOfHeaders := 0x200 },
    ldrError := LoaderError.LDR_ERROR_FILE_ALIGNMENT_NOT_POW2,
    ntSignature := 0x4550, checkSumFileOffset := 152, securityDirFileOffset := 232 }

/-- A section of uninitialised data: it occupies the virtual range `[0x1000, 0x2000)` and
has no raw data in the file. -/
def bssSection : PELIB_SECTION_HEADER :=
  { VirtualAddress := 0x1000, VirtualSize := 0x1000, Characteristics := 0xC0000080 }

/-- An image whose only section is `bssSection`. -/
def bssOnlyImage : ImageLoader :=
  { sections := [bssSection],
    optionalHeader :=
      { SectionAlignment := 0x1000, FileAlignment := 0x200, SizeOfHeaders := 0x400,
        SizeOfImage := 0x2000 } }

/-- A `.text` section at `[0x1000, 0x1050)` stored at file offset `0x400`. -/
def textSection : PELIB_SECTION_HEADER :=
  { VirtualAddress := 0x1000, VirtualSize := 0x50, PointerToRawData := 0x400,
    SizeOfRawData := 0x200 }

/-- A `.data` section at `[0x2000, 0x2100)` stored at file offset `0x600`. -/
def dataSection : PELIB_SECTION_HEADER :=
  { VirtualAddress := 0x2000, VirtualSize := 0x100, PointerToRawData := 0x600,
    SizeOfRawData := 0x200 }

/-- An image with the sections `textSection` and `dataSection`. -/
def twoSectionImage : ImageLoader :=
  { sections := [textSection, dataSection],
    optionalHeader :=
      { SectionAlignment := 0x1000, FileAlignment := 0x200, SizeOfHeaders := 0x400,
        SizeOfImage := 0x3000 } }

/-- A section with virtual range `[0x1000, 0x2000)` whose header announces `0x200` bytes of
raw data but a zero `PointerToRawData`. -/
def zeroPointerSection : PELIB_SECTION_HEADER :=
  { VirtualAddress := 0x1000, VirtualSize := 0x1000, SizeOfRawData := 0x200 }

/-- An image whose only section is `zeroPointerSection`. -/
def zeroPointerImage : ImageLoader :=
  { sections := [zeroPointerSection],
    optionalHeader :=
      { SectionAlignment := 0x1000, FileAlignment := 0x200, SizeOfHeaders := 0x400,
        SizeOfImage := 0x2000 } }

/-- The file `minimalPe64` with two bytes inserted after the DOS header, so that the NT headers
start at `e_lfanew = 0x42`, which is not a multiple of 4. -/
def unalignedPe64 : List Nat :=
  [0x4D, 0x5A] ++ List.replicate 58 0 ++ bytesLE 0x42 4 ++ [0, 0] ++ minimalPe64.drop 64

/-- A file of 80 bytes with the DOS signature whose `e_lfanew = 0x100` points beyond the end
of the file. -/
def outOfFilePe : List Nat :=
  [0x4D, 0x5A] ++ List.replicate 58 0 ++ bytesLE 0x100 4 ++ List.replicate 16 0

/-- The NT headers and the section table of a 64-bit image with `SectionAlignment = 0x1000`,
`FileAlignment = 0x200`, `SizeOfHeaders = 0x400`, `SizeOfImage = 0x2000` and one readable and
executable section `.text` (`VirtualAddress = 0x1000`, `VirtualSize = 0x50`,
`PointerToRawData = 0x400`, `SizeOfRawData = 0x200`): 304 bytes. -/
def textNtHeaders : List Nat :=
  bytesLE 0x4550 4 ++
  bytesLE 0x8664 2 ++ bytesLE 1 2 ++ List.replicate 12 0 ++ bytesLE 0xF0 2 ++ bytesLE 0x22 2 ++
  bytesLE 0x20B 2 ++ List.replicate 22 0 ++ bytesLE 0x140000000 8 ++
  bytesLE 0x1000 4 ++ bytesLE 0x200 4 ++ List.replicate 16 0 ++
  bytesLE 0x2000 4 ++ bytesLE 0x400 4 ++ List.replicate 176 0 ++
  [0x2E, 0x74, 0x65, 0x78, 0x74, 0, 0, 0] ++ bytesLE 0x50 4 ++ bytesLE 0x1000 4 ++
  bytesLE 0x200 4 ++ bytesLE 0x400 4 ++ List.replicate 12 0 ++ bytesLE 0x60000020 4

/-- A 64-bit PE file of `0x600` bytes with the NT headers `textNtHeaders` at
`e_lfanew = 0x40` and the raw data of `.text`, 512 bytes `0xCC`, at file offset `0x400`. -/
def textPe64 : List Nat :=
  [0x4D, 0x5A] ++ List.replicate 58 0 ++ bytesLE 0x40 4 ++ textNtHeaders ++
    List.replicate 656 0 ++ List.replicate 0x200 0xCC

/-- A 64-bit PE file of `0x900` bytes with the raw data of `.text`, 512 bytes `0xCC`, at file
offset `0x400` and the NT headers `textNtHeaders` behind it, at `e_lfanew = 0x758`. -/
def highLfanewPe64 : List Nat :=
  [0x4D, 0x5A] ++ List.replicate 58 0 ++ bytesLE 0x758 4 ++ List.replicate 960 0 ++
    List.replicate 0x200 0xCC ++ List.replicate 344 0 ++ textNtHeaders ++ List.replicate 120 0

/-- The loader after `Load` of the file `textPe64` on a Windows 10 loader. -/
def textPe64Loaded : ImageLoader :=
  match Load (ImageLoader.new 0xA0) textPe64 false with
  | some r => r.2.1
  | none => ImageLoader.new 0xA0

/-- The readable and executable section `.text` of the example: `[0x1000, 0x1050)` with
`0x200` bytes of raw data at file offset `0x400`. -/
def readableTextSection : PELIB_SECTION_HEADER :=
  { VirtualAddress := 0x1000, VirtualSize := 0x50, PointerToRawData := 0x400,
    SizeOfRawData := 0x200, Characteristics := 0x60000020 }

/-- An image with `SectionAlignment = 0x1000`, `FileAlignment = 0x200`,
`SizeOfHeaders = 0x400`, `SizeOfImage = 0x2000` and the section `readableTextSection`,
before it is mapped. -/
def textImage : ImageLoader :=
  { sections := [readableTextSection],
    optionalHeader :=
      { Magic := 0x20B, SectionAlignment := 0x1000, FileAlignment := 0x200,
        SizeOfHeaders := 0x400, SizeOfImage := 0x2000 } }

/-- A 64-bit PE file of `0x600` bytes that is mapped as a single subsection:
`SectionAlignment = FileAlignment = 0x200`, `SizeOfHeaders = 0x200`, `SizeOfImage = 0x600`,
and one section `.text` with the given `VirtualSize`, `VirtualAddress`, `SizeOfRawData` and
`PointerToRawData`; the file ends with `0x400` bytes `0xCC`. -/
def singleSubsectionPe64 (virtualSize virtualAddress sizeOfRawData pointerToRawData : Nat) :
    List Nat :=
  [0x4D, 0x5A] ++ List.replicate 58 0 ++ bytesLE 0x40 4 ++
  bytesLE 0x4550 4 ++
  bytesLE 0x8664 2 ++ bytesLE 1 2 ++ List.replicate 12 0 ++ bytesLE 0xF0 2 ++ bytesLE 0x22 2 ++
  bytesLE 0x20B 2 ++ List.replicate 22 0 ++ bytesLE 0x140000000 8 ++
  bytesLE 0x200 4 ++ bytesLE 0x200 4 ++ List.replicate 16 0 ++
  bytesLE 0x600 4 ++ bytesLE 0x200 4 ++ List.replicate 176 0 ++
  [0x2E, 0x74, 0x65, 0x78, 0x74, 0, 0, 0] ++ bytesLE virtualSize 4 ++
  bytesLE virtualAddress 4 ++ bytesLE sizeOfRawData 4 ++ bytesLE pointerToRawData 4 ++
  List.replicate 12 0 ++ bytesLE 0x60000020 4 ++ List.replicate 144 0 ++
  List.replicate 0x400 0xCC

/-- The file offset that the section loop of `captureSectionHeaders` compares with the
virtual address of a section (line 1569): `PointerToRawData`, and 0 for a section without
raw data. -/
def rawPointerOf (S : PELIB_SECTION_HEADER) : Nat :=
  if S.SizeOfRawData ≠ 0 then S.PointerToRawData else 0

/-- The loader after `Load` of the single-subsection file whose section `.text` has
`VirtualAddress = 0x400` and `PointerToRawData = 0x200`, on a Windows 10 loader. -/
def mismatchLoaded : ImageLoader :=
  match Load (ImageLoader.new 0xA0) (singleSubsectionPe64 0x200 0x400 0x200 0x200) false with
  | some r => r.2.1
  | none => ImageLoader.new 0xA0

/-- The section header `.text` of the file `singleSubsectionPe64 0x200 0x400 0x200 0x200`. -/
def mismatchSection : PELIB_SECTION_HEADER :=
  { Name := [0x2E, 0x74, 0x65, 0x78, 0x74, 0, 0, 0], VirtualSize := 0x200,
    VirtualAddress := 0x400, SizeOfRawData := 0x200, PointerToRawData := 0x200,
    Characteristics := 0x60000020, sectionName := [0x2E, 0x74, 0x65, 0x78, 0x74] }

/-- A 64-bit PE file of `0x400` bytes with `ImageBase = 0x140000000`, `SizeOfImage = 0x2000`,
16 data directories of which the base relocation directory is at rva `0x1000` with the given
size, and one section `.text` at `[0x1000, 0x2000)` whose `0x200` bytes of raw data at file
offset `0x200` start with `sectionData`. -/
def relocPe64 (directorySize : Nat) (sectionData : List Nat) : List Nat :=
  [0x4D, 0x5A] ++ List.replicate 58 0 ++ bytesLE 0x40 4 ++
  bytesLE 0x4550 4 ++
  bytesLE 0x8664 2 ++ bytesLE 1 2 ++ List.replicate 12 0 ++ bytesLE 0xF0 2 ++ bytesLE 0x22 2 ++
  bytesLE 0x20B 2 ++ List.replicate 22 0 ++ bytesLE 0x140000000 8 ++
  bytesLE 0x1000 4 ++ bytesLE 0x200 4 ++ List.replicate 16 0 ++
  bytesLE 0x2000 4 ++ bytesLE 0x200 4 ++ List.replicate 44 0 ++ bytesLE 16 4 ++
  List.replicate 40 0 ++ bytesLE 0x1000 4 ++ bytesLE directorySize 4 ++ List.replicate 80 0 ++
  [0x2E, 0x74, 0x65, 0x78, 0x74, 0, 0, 0] ++ bytesLE 0x1000 4 ++ bytesLE 0x1000 4 ++
  bytesLE 0x200 4 ++ bytesLE 0x200 4 ++ List.replicate 12 0 ++ bytesLE 0x60000020 4 ++
  List.replicate 144 0 ++
  sectionData ++ List.replicate (0x200 - sectionData.length) 0

/-- The raw data of a section that starts with one relocation block for the page at rva
`0x1000` with the given 16-bit entries, followed by the bytes `tail`. -/
def relocBlock (entries : List Nat) (tail : List Nat) : List Nat :=
  bytesLE 0x1000 4 ++ bytesLE (8 + 2 * entries.length) 4 ++
    (entries.flatMap fun entry => bytesLE entry 2) ++ tail

/-- The file of the example of a `HIGHLOW` relocation: the relocation directory is one
block of 10 bytes for the page at rva `0x1000` with the single entry `0x3010` (`HIGHLOW` at
offset `0x10`), and the 32-bit value `0x40001234` is at rva `0x1010`. -/
def highlowPe64 : List Nat :=
  relocPe64 10 (relocBlock [0x3010] (List.replicate 6 0 ++ bytesLE 0x40001234 4))

/-- The loader after `Load` of the file `highlowPe64` on a Windows 10 loader: a mapped image
of two pages with `ImageBase = 0x140000000`. -/
def highlowImage : ImageLoader :=
  match Load (ImageLoader.new 0xA0) highlowPe64 false with
  | some r => r.2.1
  | none => ImageLoader.new 0xA0

/-- The file of the example of a `HIGHADJ` relocation: the relocation directory of
`directorySize` bytes starts with one block of 10 bytes for the page at rva `0x1000` with the
single entry `0x4010` (`HIGHADJ` at offset `0x10`); the two bytes behind the block hold
`follower`, and the 16-bit value `0x1234` is at rva `0x1010`. -/
def highadjPe64 (directorySize follower : Nat) : List Nat :=
  relocPe64 directorySize
    (relocBlock [0x4010] (bytesLE follower 2 ++ List.replicate 4 0 ++ bytesLE 0x1234 2))

/-- The loader after `Load` of the file `highadjPe64 directorySize follower` on a Windows 10
loader. -/
def highadjImage (directorySize follower : Nat) : ImageLoader :=
  match Load (ImageLoader.new 0xA0) (highadjPe64 directorySize follower) false with
  | some r => r.2.1
  | none => ImageLoader.new 0xA0

/-- A section header with the given virtual range and raw data range. -/
def rangeSection (virtualAddress virtualSize pointerToRawData sizeOfRawData : Nat) :
    PELIB_SECTION_HEADER :=
  { VirtualAddress := virtualAddress, VirtualSize := virtualSize,
    PointerToRawData := pointerToRawData, SizeOfRawData := sizeOfRawData }

/-- A loader state for the section editors: `SectionAlignment = 0x1000`,
`FileAlignment = 0x200`, `SizeOfHeaders = 0x400` and two sections, the first at
`[0x1000, 0x4000)` with `0x2000` bytes of raw data at `0x400`, the second at
`[0x4000, 0x5000)` with `0x200` bytes of raw data at `0x2400`. -/
def editImage : ImageLoader :=
  { sections := [rangeSection 0x1000 0x3000 0x400 0x2000, rangeSection 0x4000 0x1000 0x2400 0x200],
    optionalHeader := { SectionAlignment := 0x1000, FileAlignment := 0x200, SizeOfHeaders := 0x400 } }

/-- The state `editImage` with `FileAlignment = 0`. -/
def editImageNoFileAlignment : ImageLoader :=
  { editImage with optionalHeader := { editImage.optionalHeader with FileAlignment := 0 } }

/-- A loader state with two sections in which the second section lies one byte below the
`VirtualSize` of the first: `VirtualAddress = 0xFFF` against `VirtualSize = 0x1000`. -/
def wrapImage : ImageLoader :=
  { sections := [rangeSection 0x1000 0x1000 0x400 0x200, rangeSection 0xFFF 0x10 0x600 0x200],
    optionalHeader := { SectionAlignment := 0x1000, FileAlignment := 0x200, SizeOfHeaders := 0x400 } }

/-- A loader state with two sections whose raw data start at `0x400` and `0x1FF`; the rest
of the state is that of an empty 32-bit image with `e_lfanew = 0`. -/
def lowPointerImage : ImageLoader :=
  { sections := [rangeSection 0x1000 0x1000 0x400 0x200, rangeSection 0x2000 0x1000 0x1FF 0x200] }

/-- A loader state with 65536 sections. -/
def manySectionsImage : ImageLoader :=
  { sections := List.replicate 65536 (rangeSection 0x1000 0x1000 0x400 0x200) }

/-- The file of the example of an invalid relocation block: the relocation directory of 20
bytes at rva `0x1000` holds a block of 10 bytes with `VirtualAddress = 0x5000`, outside the
image of `0x2000` bytes, and behind it a block of 10 bytes for the page at rva `0x1000` with
the single entry `0x3020` (`HIGHLOW` at offset `0x20`); the 32-bit value `0x40001234` is at rva
`0x1020`. -/
def invalidBlockPe64 : List Nat :=
  relocPe64 20 (bytesLE 0x5000 4 ++ bytesLE 10 4 ++ bytesLE 0x3010 2 ++
    relocBlock [0x3020] (List.replicate 12 0 ++ bytesLE 0x40001234 4))

/-- The loader after `Load` of the file `invalidBlockPe64` on a Windows 10 loader. -/
def invalidBlockImage : ImageLoader :=
  match Load (ImageLoader.new 0xA0) invalidBlockPe64 false with
  | some r => r.2.1
  | none => ImageLoader.new 0xA0

/-- The file of the example of a relocation block for the header page: the relocation
directory is one block of 10 bytes with `VirtualAddress = 0` and the single entry `0x3080`
(`HIGHLOW` at offset `0x80`, four zero bytes of the optional header). -/
def headerBlockPe64 : List Nat :=
  relocPe64 10 (bytesLE 0 4 ++ bytesLE 10 4 ++ bytesLE 0x3080 2)

/-- The loader after `Load` of the file `headerBlockPe64` on a Windows 10 loader. -/
def headerBlockImage : ImageLoader :=
  match Load (ImageLoader.new 0xA0) headerBlockPe64 false with
  | some r => r.2.1
  | none => ImageLoader.new 0xA0

/-- The image `textImage` with its page table of two pages, before the section is mapped. -/
def textImagePages : ImageLoader :=
  { textImage with pages := resizePages [] 2 }

/-- The section `readableTextSection` with the characteristics `MEM_SHARED` alone, which give
`PAGE_NOACCESS`. -/
def noAccessSection : PELIB_SECTION_HEADER :=
  { readableTextSection with Characteristics := 0x10000000 }
/-- The first `length` bytes of a 64-bit PE file with `e_lfanew = 0x40` and
`NumberOfRvaAndSizes = 16`, whose data directory begins at the file offset `0xC8`. -/
def truncatedPe64 (length : Nat) : List Nat := (relocPe64 10 []).take length

/-- A loader state in raw fallback mode: a file of `0x600` zero bytes is retained and there
are no pages; the section table has two sections, at `[0x1000, 0x2000)` with `0x200` bytes
of raw data at the file offset `0x200` and at `[0x2000, 0x3000)` with `0x200` bytes of raw
data at the file offset `0x400`. -/
def rawSectionsImage : ImageLoader :=
  { sections := [rangeSection 0x1000 0x1000 0x200 0x200, rangeSection 0x2000 0x1000 0x400 0x200],
    rawFileData := List.replicate 0x600 0,
    optionalHeader :=
      { SectionAlignment := 0x1000, FileAlignment := 0x200, SizeOfHeaders := 0x200,
        SizeOfImage := 0x3000 } }
/-- A 64-bit PE file of 512 bytes whose `FileAlignment`, `0x300`, is not a power of two, with
`SizeOfImage = 0x2000` and one section `.bss`: `VirtualAddress = 0x1000`,
`VirtualSize = 0x1000`, `SizeOfRawData = 0` and `PointerToRawData = 0x200` (the four bytes
at the file offset `0x15C`). -/
def emptyRawPe64 : List Nat :=
  examplePe64 1 0x300 0x2000
    ([0x2E, 0x62, 0x73, 0x73, 0, 0, 0, 0] ++ bytesLE 0x1000 4 ++ bytesLE 0x1000 4 ++
      bytesLE 0 4 ++ bytesLE 0x200 4 ++ List.replicate 12 0 ++ bytesLE 0xC0000080 4 ++
      List.replicate 144 0)

/-- The loader of a Windows 10 loader after the capture of the DOS header and the NT headers
of a file. -/
def capturedHeaders (fileData : List Nat) : ImageLoader :=
  match captureNtHeaders (captureDosHeader (ImageLoader.new 0xA0) fileData).2 fileData with
  | some r => r.2
  | none => ImageLoader.new 0xA0

/-- A 64-bit PE file of `0x400` bytes with `SizeOfImage = 0x3000` and two sections: `.text`
at `0x1000` with `SizeOfRawData = 0x10000` at the file offset `0x200`, which ends beyond
the end of the file, and `.data` at `0x2000` with `SizeOfRawData = 0x200` at the file offset
`0x200`, which ends inside the file. -/
def cutLoadablePe64 : List Nat :=
  examplePe64 2 0x200 0x3000
    ([0x2E, 0x74, 0x65, 0x78, 0x74, 0, 0, 0] ++ bytesLE 0x1000 4 ++ bytesLE 0x1000 4 ++
      bytesLE 0x10000 4 ++ bytesLE 0x200 4 ++ List.replicate 12 0 ++ bytesLE 0x60000020 4 ++
     [0x2E, 0x64, 0x61, 0x74, 0x61, 0, 0, 0] ++ bytesLE 0x1000 4 ++ bytesLE 0x2000 4 ++
      bytesLE 0x200 4 ++ bytesLE 0x200 4 ++ List.replicate 12 0 ++ bytesLE 0xC0000040 4 ++
     List.replicate 616 0)

/-- A 64-bit PE file of `0x180` bytes with `SizeOfImage = 0x3000` whose file header counts two
sections; the file ends behind the first section header, `.text` at `0x1000` with
`SizeOfRawData = 0x200` at the file offset `0x200`, beyond the end of the file. -/
def hardCutPe64 : List Nat :=
  examplePe64 2 0x200 0x3000
    ([0x2E, 0x74, 0x65, 0x78, 0x74, 0, 0, 0] ++ bytesLE 0x1000 4 ++ bytesLE 0x1000 4 ++
      bytesLE 0x200 4 ++ bytesLE 0x200 4 ++ List.replicate 12 0 ++ bytesLE 0x60000020 4 ++
     List.replicate 16 0)
/-- A 64-bit PE file of 512 bytes with `SectionAlignment = 0x2000` (the four bytes at the file
offset `0x78`), `FileAlignment = 0x200`, `SizeOfHeaders = 0x200`, `SizeOfImage = 0x3000` and
one section `.bss` without raw data, readable and writable, with `VirtualAddress = 0x2000`
and `VirtualSize = 0xFFFFF000`. -/
def wrappedSizePe64 : List Nat :=
  copyInto
    (examplePe64 1 0x200 0x3000
      ([0x2E, 0x62, 0x73, 0x73, 0, 0, 0, 0] ++ bytesLE 0xFFFFF000 4 ++ bytesLE 0x2000 4 ++
        List.replicate 20 0 ++ bytesLE 0xC0000080 4 ++ List.replicate 144 0))
    0x78 (bytesLE 0x2000 4)

/-! ## Theorems -/

/-- Masking a 32-bit value with the complement of `2^k - 1` rounds it down to a multiple of
`2^k`. -/
theorem and_not32_mask (x k : Nat) (hx : x < 2 ^ 32) (hk : k ≤ 32) :
    x &&& not32 (2 ^ k - 1) = x - x % 2 ^ k := by
  have hlt : 2 ^ k - 1 < 2 ^ 32 := by
    have : 2 ^ k ≤ 2 ^ 32 := Nat.pow_le_pow_right (by norm_num) hk
    have : 0 < 2 ^ k := Nat.pos_pow_of_pos k (by norm_num)
    omega
  have h1 : x - x % 2 ^ k = 2 ^ k * (x / 2 ^ k) := by
    have := Nat.div_add_mod x (2 ^ k)
    omega
  unfold not32
  rw [Nat.mod_eq_of_lt hlt, h1, ← Nat.shiftRight_eq_div_pow]
  apply Nat.eq_of_testBit_eq
  intro i
  have hF : (0xFFFFFFFF : Nat) = 2 ^ 32 - 1 := by norm_num
  rw [Nat.testBit_and, Nat.testBit_xor, hF, Nat.testBit_two_pow_sub_one,
    Nat.testBit_two_pow_sub_one, Nat.testBit_mul_pow_two, Nat.testBit_shiftRight]
  by_cases hi : i < k
  · have : i < 32 := by omega
    simp [hi, this]
  · have hki : k ≤ i := by omega
    have e : k + (i - k) = i := by omega
    by_cases h32 : i < 32
    · simp [hi, h32, hki, e]
    · have hbit : x.testBit i = false := by
        apply Nat.testBit_lt_two_pow
        calc x < 2 ^ 32 := hx
          _ ≤ 2 ^ i := Nat.pow_le_pow_right (by norm_num) (by omega)
      simp [hi, h32, hki, hbit, e]

/-- Rounding a 32-bit pointer down to the sector size, in arithmetic form. -/
theorem and_not32_sector (x : Nat) (hx : x < 2 ^ 32) :
    x &&& not32 (PELIB_SECTOR_SIZE - 1) = x / 512 * 512 := by
  have h := and_not32_mask x 9 hx (by norm_num)
  have e : PELIB_SECTOR_SIZE - 1 = 2 ^ 9 - 1 := by norm_num [PELIB_SECTOR_SIZE]
  rw [e, h]
  have := Nat.div_add_mod x 512
  norm_num
  omega

/-- The section loop skips every section that has no raw data or does not contain `rva`. -/
theorem getFileOffsetFromRva_loop_skip (optionalHeader : PELIB_IMAGE_OPTIONAL_HEADER) (rva : Nat)
    (pre rest : List PELIB_SECTION_HEADER)
    (hpre : ∀ T ∈ pre, ¬ (hasRawData T ∧ inVirtualRange optionalHeader T rva)) :
    getFileOffsetFromRva.loop optionalHeader rva (pre ++ rest) =
      getFileOffsetFromRva.loop optionalHeader rva rest := by
  induction pre with
  | nil => rfl
  | cons T pre ih =>
    have hT := hpre T (List.mem_cons_self _ _)
    have ih2 := ih (fun U hU => hpre U (List.mem_cons_of_mem _ hU))
    rw [List.cons_append]
    simp only [getFileOffsetFromRva.loop]
    simp only [hasRawData, inVirtualRange, sectionStart, sectionSize] at hT
    by_cases hraw : T.PointerToRawData ≠ 0 ∧ T.SizeOfRawData ≠ 0
    · rw [if_pos hraw]
      have hnot := fun h => hT ⟨hraw, h⟩
      rw [if_neg, ih2]
      intro h
      apply hnot
      by_cases hSA : optionalHeader.SectionAlignment = 0 <;>
        by_cases hVS : T.VirtualSize = 0 <;> simp_all
    · rw [if_neg hraw, ih2]

/-- The section loop returns from the first section that has raw data and contains `rva`. -/
theorem getFileOffsetFromRva_loop_hit (optionalHeader : PELIB_IMAGE_OPTIONAL_HEADER) (rva : Nat)
    (S : PELIB_SECTION_HEADER) (post : List PELIB_SECTION_HEADER)
    (hraw : hasRawData S) (hin : inVirtualRange optionalHeader S rva)
    (h32 : S.PointerToRawData < 2 ^ 32) :
    getFileOffsetFromRva.loop optionalHeader rva (S :: post) =
      some (u32 (alignedPointerToRawData optionalHeader S +
        (rva - sectionStart optionalHeader S))) := by
  simp only [getFileOffsetFromRva.loop]
  simp only [hasRawData] at hraw
  simp only [inVirtualRange, sectionStart, sectionSize] at hin
  rw [if_pos hraw, if_pos]
  · simp only [alignedPointerToRawData, sectionStart, and_not32_sector _ h32, PELIB_PAGE_SIZE]
    by_cases hSA : optionalHeader.SectionAlignment = 0 <;>
      by_cases hP : 4096 ≤ optionalHeader.SectionAlignment <;> simp_all
  · by_cases hSA : optionalHeader.SectionAlignment = 0 <;>
      by_cases hVS : S.VirtualSize = 0 <;> simp_all

/-- The translator answers from the first section that has raw data and contains `rva`. -/
theorem getFileOffsetFromRva_of_first (self : ImageLoader) (rva : Nat)
    (pre post : List PELIB_SECTION_HEADER) (S : PELIB_SECTION_HEADER)
    (hsec : self.sections = pre ++ S :: post)
    (hpre : ∀ T ∈ pre, ¬ (hasRawData T ∧ inVirtualRange self.optionalHeader T rva))
    (hraw : hasRawData S) (hin : inVirtualRange self.optionalHeader S rva)
    (h32 : S.PointerToRawData < 2 ^ 32) :
    getFileOffsetFromRva self rva =
      u32 (alignedPointerToRawData self.optionalHeader S +
        (rva - sectionStart self.optionalHeader S)) := by
  unfold getFileOffsetFromRva
  have hne : self.sections.length ≠ 0 := by simp [hsec]
  rw [if_pos hne, hsec, getFileOffsetFromRva_loop_skip _ _ _ _ hpre,
    getFileOffsetFromRva_loop_hit _ _ _ _ hraw hin h32]

/-- C1 (amended): for every loader state and every rva, if `S` is the first section in table
order that has raw data (`PointerToRawData` and `SizeOfRawData` both nonzero) and whose
virtual range `[start, start + size)`, the end computed in 32 bits, contains `rva`, then
`getFileOffsetFromRva rva` is `alignedPointerToRawData S + (rva - start)` in 32 bits. -/
theorem getFileOffsetFromRva_first_section (self : ImageLoader) (rva : Nat)
    (pre post : List PELIB_SECTION_HEADER) (S : PELIB_SECTION_HEADER)
    (hsec : self.sections = pre ++ S :: post)
    (hpre : ∀ T ∈ pre, ¬ (hasRawData T ∧ inVirtualRange self.optionalHeader T rva))
    (hraw : hasRawData S) (hin : inVirtualRange self.optionalHeader S rva)
    (h32 : S.PointerToRawData < 2 ^ 32) :
    getFileOffsetFromRva self rva =
      u32 (alignedPointerToRawData self.optionalHeader S +
        (rva - sectionStart self.optionalHeader S)) :=
  getFileOffsetFromRva_of_first self rva pre post S hsec hpre hraw hin h32

/-- C1, witness: in the two-section image, rva `0x2010` lies in the second section and is
translated to file offset `0x610`. -/
theorem getFileOffsetFromRva_first_section_witness :
    getFileOffsetFromRva twoSectionImage 0x2010 = 0x610 :=
  getFileOffsetFromRva_first_section twoSectionImage 0x2010 [textSection] [] dataSection
    rfl (by decide) (by decide) (by decide) (by decide)

/-- C1, counterexample: the only section of `bssOnlyImage` is the first section whose virtual
range `[0x1000, 0x2000)` contains rva `0x1000`, and the claimed offset is
`alignedPointerToRawData + (rva - start) = 0`; the translator skips the section because its
`PointerToRawData` is 0 and answers `UINT32_MAX`. -/
theorem getFileOffsetFromRva_section_without_raw_data :
    bssOnlyImage.sections = [bssSection] ∧
      inVirtualRangeExact bssOnlyImage.optionalHeader bssSection 0x1000 ∧
      alignedPointerToRawData bssOnlyImage.optionalHeader bssSection +
        (0x1000 - sectionStart bssOnlyImage.optionalHeader bssSection) = 0 ∧
      getFileOffsetFromRva bssOnlyImage 0x1000 = UINT32_MAX := by
  refine ⟨rfl, ?_, ?_, ?_⟩ <;> decide

/-- With no 32-bit overflow the virtual range computed by the code is the exact one. -/
theorem inVirtualRange_iff_exact (optionalHeader : PELIB_IMAGE_OPTIONAL_HEADER)
    (T : PELIB_SECTION_HEADER) (rva : Nat)
    (h : sectionStart optionalHeader T + sectionSize T < 2 ^ 32) :
    inVirtualRange optionalHeader T rva ↔ inVirtualRangeExact optionalHeader T rva := by
  unfold inVirtualRange inVirtualRangeExact u32
  rw [Nat.mod_eq_of_lt h]

/-- C2 (amended): for every loader state whose sections have pairwise disjoint virtual ranges
without 32-bit overflow, every section `S` with a nonzero `PointerToRawData` and every file
offset `f` inside the raw data of `S` whose RVA `rvaFromOffset f` lies inside the virtual
range of `S`, `getFileOffsetFromRva (rvaFromOffset f) = f`.  (The bound of the RVA by
`SizeOfImageAligned` is not needed.) -/
theorem getFileOffsetFromRva_rvaFromOffset (self : ImageLoader) (S : PELIB_SECTION_HEADER)
    (f : Nat) (hS : S ∈ self.sections) (hdisj : disjointVirtualRanges self)
    (hnoov : noVirtualRangeOverflow self) (hptr : S.PointerToRawData ≠ 0)
    (hp32 : S.PointerToRawData < 2 ^ 32) (hf32 : f < 2 ^ 32)
    (hlo : alignedPointerToRawData self.optionalHeader S ≤ f)
    (hhi : f < alignedPointerToRawData self.optionalHeader S + S.SizeOfRawData)
    (hrva : inVirtualRangeExact self.optionalHeader S (rvaFromOffset self.optionalHeader S f)) :
    getFileOffsetFromRva self (rvaFromOffset self.optionalHeader S f) = f := by
  obtain ⟨pre, post, hsec⟩ := List.append_of_mem hS
  have hraw : hasRawData S := ⟨hptr, by omega⟩
  have hpre : ∀ T ∈ pre, ¬ (hasRawData T ∧
      inVirtualRange self.optionalHeader T (rvaFromOffset self.optionalHeader S f)) := by
    intro T hT hc
    have hTmem : T ∈ self.sections := by rw [hsec]; exact List.mem_append_left _ hT
    have hTex := (inVirtualRange_iff_exact _ T _ (hnoov T hTmem)).1 hc.2
    unfold disjointVirtualRanges at hdisj
    rw [hsec, List.pairwise_append] at hdisj
    exact hdisj.2.2 T hT S (List.mem_cons_self _ _) _ ⟨hTex, hrva⟩
  have hin := (inVirtualRange_iff_exact _ S _ (hnoov S hS)).2 hrva
  rw [getFileOffsetFromRva_of_first self _ pre post S hsec hpre hraw hin hp32]
  unfold rvaFromOffset u32
  rw [Nat.add_sub_cancel_left, Nat.add_sub_cancel' hlo, Nat.mod_eq_of_lt hf32]

/-- The two sections of the two-section image have disjoint virtual ranges. -/
theorem twoSectionImage_disjoint : disjointVirtualRanges twoSectionImage := by
  have h1 : sectionStart twoSectionImage.optionalHeader textSection = 0x1000 := by decide
  have h2 : sectionStart twoSectionImage.optionalHeader dataSection = 0x2000 := by decide
  have h3 : sectionSize textSection = 0x50 := by decide
  have h4 : sectionSize dataSection = 0x100 := by decide
  unfold disjointVirtualRanges
  have hs : twoSectionImage.sections = [textSection, dataSection] := rfl
  rw [hs]
  simp only [List.pairwise_cons, List.mem_singleton, List.not_mem_nil, forall_eq,
    List.Pairwise.nil, and_true, false_implies, implies_true]
  intro rva
  unfold inVirtualRangeExact
  rw [h1, h2, h3, h4]
  omega

/-- C2, witness: file offset `0x610` of the second section of the two-section image maps to
rva `0x2010` and back. -/
theorem getFileOffsetFromRva_rvaFromOffset_witness :
    getFileOffsetFromRva twoSectionImage
      (rvaFromOffset twoSectionImage.optionalHeader dataSection 0x610) = 0x610 :=
  getFileOffsetFromRva_rvaFromOffset twoSectionImage dataSection 0x610
    (by decide) twoSectionImage_disjoint (by unfold noVirtualRangeOverflow; decide)
    (by decide) (by decide) (by decide) (by decide) (by decide) (by decide)

/-- C2, counterexample: in `zeroPointerImage` the single section has (trivially) pairwise
disjoint virtual ranges without overflow; file offset `0x10` lies inside its raw data
`[0, 0x200)`, its RVA `0x1010` lies inside the virtual range and below `SizeOfImageAligned`;
yet the translator answers `UINT32_MAX`, not `0x10`, because `PointerToRawData` is 0. -/
theorem getFileOffsetFromRva_rvaFromOffset_zero_pointer :
    zeroPointerImage.sections = [zeroPointerSection] ∧
      sectionStart zeroPointerImage.optionalHeader zeroPointerSection +
        sectionSize zeroPointerSection < 2 ^ 32 ∧
      alignedPointerToRawData zeroPointerImage.optionalHeader zeroPointerSection ≤ 0x10 ∧
      0x10 < alignedPointerToRawData zeroPointerImage.optionalHeader zeroPointerSection +
        zeroPointerSection.SizeOfRawData ∧
      rvaFromOffset zeroPointerImage.optionalHeader zeroPointerSection 0x10 = 0x1010 ∧
      inVirtualRangeExact zeroPointerImage.optionalHeader zeroPointerSection 0x1010 ∧
      0x1010 < getSizeOfImageAligned zeroPointerImage ∧
      getFileOffsetFromRva zeroPointerImage 0x1010 = UINT32_MAX ∧
      getFileOffsetFromRva zeroPointerImage 0x1010 ≠ 0x10 := by
  refine ⟨rfl, ?_, ?_, ?_, ?_, ?_, ?_, ?_, ?_⟩ <;> decide

/-- The aligned image size is a 32-bit value. -/
theorem getSizeOfImageAligned_lt (self : ImageLoader) : getSizeOfImageAligned self < 2 ^ 32 := by
  unfold getSizeOfImageAligned AlignToSize
  refine lt_of_le_of_lt Nat.and_le_left ?_
  exact Nat.mod_lt _ (by norm_num)

/-- Once `rva` has reached `rvaEnd` the page loop stops without touching anything. -/
theorem readWriteImage_loop_done (ReadWrite : READWRITE) (rvaEnd : Nat)
    (pages : List PELIB_FILE_PAGE) (buffer : List Nat) (bytesRead rva : Nat)
    (h : ¬ rva < rvaEnd) :
    readWriteImage.loop ReadWrite rvaEnd pages buffer bytesRead rva =
      some (bytesRead, pages, buffer) := by
  cases pages <;> simp [readWriteImage.loop, h]

/-- When the pages from index `k` on cover the range up to `rvaEnd`, the page loop started
at `rva` inside page `k` transfers exactly `rvaEnd - rva` bytes. -/
theorem readWriteImage_loop_count (ReadWrite : READWRITE) (rvaEnd : Nat) (hEnd : rvaEnd < 2 ^ 32) :
    ∀ (pages : List PELIB_FILE_PAGE) (k : Nat) (buffer : List Nat) (bytesRead rva : Nat),
      rva ≤ rvaEnd → k * 4096 ≤ rva → rva < (k + 1) * 4096 →
      rvaEnd ≤ (k + pages.length) * 4096 → bytesRead + (rvaEnd - rva) < 2 ^ 32 →
      ∃ pages' buffer', readWriteImage.loop ReadWrite rvaEnd pages buffer bytesRead rva =
        some (bytesRead + (rvaEnd - rva), pages', buffer') := by
  intro pages
  induction pages with
  | nil =>
    intro k buffer bytesRead rva h1 h2 h3 h4 h5
    have : ¬ rva < rvaEnd := by simp at h4; omega
    exact ⟨[], buffer, by rw [readWriteImage_loop_done _ _ _ _ _ _ this]; congr 2; omega⟩
  | cons page rest ih =>
    intro k buffer bytesRead rva h1 h2 h3 h4 h5
    by_cases hlt : rva < rvaEnd
    · have hoff : rva &&& (4096 - 1) = rva % 4096 :=
        Nat.and_pow_two_sub_one_eq_mod rva 12
      have hmod : rva % 4096 = rva - k * 4096 := by
        have := Nat.div_add_mod rva 4096
        have hk : rva / 4096 = k := by
          apply Nat.div_eq_of_lt_le <;> omega
        rw [hk] at this
        omega
      simp only [readWriteImage.loop, if_pos hlt, PELIB_PAGE_SIZE, hoff]
      simp only [List.length_cons] at h4
      by_cases hlast : 4096 - rva % 4096 > rvaEnd - rva
      · rw [if_pos hlast]
        have e1 : u32 (rva + (rvaEnd - rva)) = rvaEnd := by
          unfold u32; rw [Nat.mod_eq_of_lt] <;> omega
        have e2 : u32 (bytesRead + (rvaEnd - rva)) = bytesRead + (rvaEnd - rva) := by
          unfold u32; rw [Nat.mod_eq_of_lt]; omega
        rw [e1, e2, readWriteImage_loop_done _ _ _ _ _ _ (lt_irrefl _)]
        exact ⟨_, _, rfl⟩
      · rw [if_neg hlast]
        have e1 : u32 (rva + (4096 - rva % 4096)) = (k + 1) * 4096 := by
          unfold u32; rw [Nat.mod_eq_of_lt] <;> omega
        have e2 : u32 (bytesRead + (4096 - rva % 4096)) = bytesRead + (4096 - rva % 4096) := by
          unfold u32; rw [Nat.mod_eq_of_lt]; omega
        rw [e1, e2]
        obtain ⟨pages', buffer', h⟩ := ih (k + 1)
          (ReadWrite page buffer bytesRead (rva % 4096) (4096 - rva % 4096)).2
          (bytesRead + (4096 - rva % 4096)) ((k + 1) * 4096)
          (by omega) (by omega) (by omega) (by omega) (by omega)
        rw [h]
        refine ⟨(ReadWrite page buffer bytesRead (rva % 4096) (4096 - rva % 4096)).1 :: pages',
          buffer', ?_⟩
        simp only [Option.some.injEq, Prod.mk.injEq, and_true]
        omega
    · rw [readWriteImage_loop_done _ _ _ _ _ _ hlt]
      exact ⟨_, _, by congr 2; omega⟩

/-- In page mode every read or write returns, and its count is the distance from `rva` to
the end of the request, the end being `rva + bytesToRead` in 32 bits clipped to
`getSizeOfImageAligned()`. -/
theorem readWriteImage_count (self : ImageLoader) (buffer : List Nat) (rva bytesToRead : Nat)
    (ReadWrite : READWRITE) (hmode : pageMode self) :
    ∃ r, readWriteImage self buffer rva bytesToRead ReadWrite = some r ∧
      r.count = min (u32 (rva + bytesToRead)) (getSizeOfImageAligned self) - rva := by
  obtain ⟨_, hcover, _⟩ := hmode
  have hS := getSizeOfImageAligned_lt self
  have hu : u32 (rva + bytesToRead) < 2 ^ 32 := Nat.mod_lt _ (by norm_num)
  unfold readWriteImage
  simp only []
  generalize hE : (if u32 (rva + bytesToRead) > getSizeOfImageAligned self
    then getSizeOfImageAligned self else u32 (rva + bytesToRead)) = rvaEnd
  have hmin : min (u32 (rva + bytesToRead)) (getSizeOfImageAligned self) = rvaEnd := by
    rw [← hE]; split_ifs <;> omega
  rw [hmin]
  have hEndS : rvaEnd ≤ getSizeOfImageAligned self := by rw [← hmin]; exact Nat.min_le_right _ _
  by_cases hlt : rva < rvaEnd
  · rw [if_pos hlt]
    simp only [PELIB_PAGE_SIZE] at hcover ⊢
    have hdm := Nat.div_add_mod rva 4096
    have hml := Nat.mod_lt rva (show 0 < 4096 by norm_num)
    have hidx : rva / 4096 < self.pages.length := by
      apply Nat.div_lt_of_lt_mul
      omega
    rw [if_pos hidx]
    obtain ⟨pages', buffer', h⟩ := readWriteImage_loop_count ReadWrite rvaEnd (by omega)
      (self.pages.drop (rva / 4096)) (rva / 4096) buffer 0 rva (by omega) (by omega) (by omega)
      (by rw [List.length_drop]; omega) (by omega)
    rw [h]
    exact ⟨_, rfl, by simp⟩
  · rw [if_neg hlt]
    exact ⟨_, rfl, by simp; omega⟩

set_option maxRecDepth 100000 in
set_option maxHeartbeats 2000000 in
/-- The example state `mappedBssImage` is what `Load` makes of the file `bssPe64`. -/
theorem Load_bssPe64 :
    Load (ImageLoader.new 0xA0) bssPe64 false =
      some (FileError.ERROR_NONE, mappedBssImage, bssPe64) := by
  rfl

set_option maxRecDepth 100000 in
set_option maxHeartbeats 2000000 in
/-- The example state `rawFallback` is what `Load` makes of the file `brokenPe64`. -/
theorem Load_brokenPe64 :
    Load (ImageLoader.new 0xA0) brokenPe64 false =
      some (FileError.ERROR_NONE, rawFallback, brokenPe64) := by
  rfl

/-- C3, the code at a failing input: in the page-mode image `mappedBssImage`
(`SizeOfImageAligned = 0x2000`) a read or write of `0xFFFFF001` bytes at rva `0x1000`, which
lies inside the image, transfers 0 bytes, whereas `min(n, SizeOfImageAligned - rva)` is
`0x1000`: the sum `rva + n` wraps around in 32 bits before it is clipped. -/
theorem readImage_wraparound_transfers_nothing :
    pageMode mappedBssImage ∧ 0x1000 < getSizeOfImageAligned mappedBssImage ∧
      min 0xFFFFF001 (getSizeOfImageAligned mappedBssImage - 0x1000) = 0x1000 ∧
      Option.map Transfer.count (readImage mappedBssImage [] 0x1000 0xFFFFF001) = some 0 ∧
      Option.map Transfer.count (writeImage mappedBssImage [] 0x1000 0xFFFFF001) = some 0 := by
  refine ⟨?_, ?_, ?_, ?_, ?_⟩
  · unfold pageMode; decide
  all_goals decide

/-- C5: in page mode, for every rva and every `n > 0` with `rva + n > SizeOfImageAligned` over
the unbounded integers, `readImage` returns, its count is strictly less than `n`, and it is 0
when `rva >= SizeOfImageAligned`. -/
theorem readImage_past_image_end (self : ImageLoader) (buffer : List Nat) (rva n : Nat)
    (hmode : pageMode self) (hrva : rva < 2 ^ 32) (hn : n < 2 ^ 32) (hpos : 0 < n)
    (hpast : getSizeOfImageAligned self < rva + n) :
    ∃ r, readImage self buffer rva n = some r ∧ r.count < n ∧
      (getSizeOfImageAligned self ≤ rva → r.count = 0) := by
  obtain ⟨r, hr, hc⟩ := readWriteImage_count self buffer rva n readFromPage hmode
  have hraw : self.rawFileData.length = 0 := by rw [hmode.2.2]; rfl
  refine ⟨r, by unfold readImage; rw [if_pos hraw]; exact hr, ?_, ?_⟩
  · rw [hc]
    by_cases hw : rva + n < 2 ^ 32
    · have : u32 (rva + n) = rva + n := Nat.mod_eq_of_lt hw
      rw [this, Nat.min_eq_right (le_of_lt hpast)]
      omega
    · have : u32 (rva + n) = rva + n - 2 ^ 32 := by
        unfold u32
        rw [Nat.mod_eq_sub_mod (by omega), Nat.mod_eq_of_lt (by omega)]
      have hle := Nat.min_le_left (u32 (rva + n)) (getSizeOfImageAligned self)
      omega
  · intro hge
    rw [hc]
    have hle := Nat.min_le_right (u32 (rva + n)) (getSizeOfImageAligned self)
    omega

/-- C5, witness: reading `0x20` bytes at rva `0x1FF0` of the two-page image returns fewer
than `0x20` bytes. -/
theorem readImage_past_image_end_witness :
    ∃ r, readImage mappedBssImage [] 0x1FF0 0x20 = some r ∧ r.count < 0x20 ∧
      (getSizeOfImageAligned mappedBssImage ≤ 0x1FF0 → r.count = 0) :=
  readImage_past_image_end mappedBssImage [] 0x1FF0 0x20 (by unfold pageMode; decide)
    (by decide) (by decide) (by decide) (by decide)

set_option maxRecDepth 100000 in
/-- C4, the code at a failing input: in the raw-fallback loader `rawFallback` (512 bytes of
file data, no sections) a request of `0xFFFFFFF0` bytes at rva `0x10` has file offset `0x10`;
`fileOffset + bytesToRead` wraps to 0, so the request is not clipped: the count handed to
`memcpy` is `0xFFFFFFF0`, far more than the `0x1F0` bytes the buffer holds from that offset,
and the copy leaves the raw buffer (`none`), for reads and for writes. -/
theorem readWriteImageFile_wraparound_not_clipped :
    rawMode rawFallback ∧ getFileOffsetFromRva rawFallback 0x10 = 0x10 ∧
      rawFallback.rawFileData.length - 0x10 = 0x1F0 ∧
      readWriteImageFile.clip rawFallback 0x10 0xFFFFFFF0 = 0xFFFFFFF0 ∧
      readImage rawFallback [] 0x10 0xFFFFFFF0 = none ∧
      writeImage rawFallback [] 0x10 0xFFFFFFF0 = none := by
  refine ⟨?_, ?_, ?_, ?_, ?_, ?_⟩
  · unfold rawMode; decide
  all_goals rfl

/-- C6, the code at a failing input: in the page-mode image `mappedBssImage` the page at rva
`0x1000` is a zero page, so the image holds no non-zero byte there; `stringLength(0x1000, 16)`
is nevertheless `0x1000`, above `maxLength = 16`: on a page without a buffer the loop returns
the current `rva` instead of `rva - rvaBegin` (line 224).  `readString` then returns that
length. -/
theorem stringLength_zero_page_returns_rva :
    pageMode mappedBssImage ∧ nonZeroRun mappedBssImage 0x1000 16 = 0 ∧
      stringLength mappedBssImage 0x1000 16 = some 0x1000 ∧
      Option.map Prod.fst (readString mappedBssImage 0x1000 16) = some 0x1000 := by
  have hmode : pageMode mappedBssImage := by unfold pageMode; decide
  have hlen : stringLength mappedBssImage 0x1000 16 = some 0x1000 := by decide
  refine ⟨hmode, by decide, hlen, ?_⟩
  obtain ⟨r, hr, _⟩ := readWriteImage_count mappedBssImage (List.replicate 0x1000 0) 0x1000
    0x1000 readFromPage hmode
  have hread : readImage mappedBssImage (List.replicate 0x1000 0) 0x1000 0x1000 = some r := by
    unfold readImage
    rw [if_pos (by decide)]
    exact hr
  unfold readString
  rw [hlen]
  simp only [hread, Option.map_some']

set_option maxRecDepth 100000 in
/-- C7, the code at a failing input: in the raw-fallback loader `rawFallback` the file ends
with 184 bytes `0x41` from offset `0x148` on; `stringLength(0x148, 4)` is 184, above
`maxLength = 4`: the scan of the raw buffer runs to the end of the buffer and never looks at
`maxLength`.  `readString` then returns that length. -/
theorem stringLength_raw_ignores_maxLength :
    rawMode rawFallback ∧ stringLength rawFallback 0x148 4 = some 184 ∧
      Option.map Prod.fst (readString rawFallback 0x148 4) = some 184 := by
  refine ⟨?_, ?_, ?_⟩
  · unfold rawMode; decide
  all_goals rfl

/-- On a loader that has recorded an error, a sequence of `setLoaderError` calls changes
nothing. -/
theorem setLoaderError_foldl_latched (es : List LoaderError) (self : ImageLoader)
    (h : self.ldrError ≠ LoaderError.LDR_ERROR_NONE) :
    es.foldl (fun st e => (setLoaderError st e).2) self = self := by
  induction es with
  | nil => rfl
  | cons e es ih =>
    have hstep : (setLoaderError self e).2 = self := by simp [setLoaderError, h]
    rw [List.foldl_cons, hstep, ih]

/-- On a loader without a recorded error, a sequence of `setLoaderError` calls records the
first code of the sequence that is not `LDR_ERROR_NONE`. -/
theorem setLoaderError_foldl_first (es : List LoaderError) (self : ImageLoader)
    (h : self.ldrError = LoaderError.LDR_ERROR_NONE) :
    loaderError (es.foldl (fun st e => (setLoaderError st e).2) self) = firstError es := by
  induction es generalizing self with
  | nil => simpa [loaderError, firstError] using h
  | cons e es ih =>
    simp only [List.foldl_cons, firstError]
    by_cases he : e = LoaderError.LDR_ERROR_NONE
    · rw [if_pos he]
      apply ih
      simp [setLoaderError, h, he]
    · rw [if_neg he, setLoaderError_foldl_latched]
      · simp [setLoaderError, h, loaderError]
      · simpa [setLoaderError, h] using he

/-- C8: the loader error is latched, first error wins.  For every loader state and error
code `e`, `setLoaderError e` returns `ERROR_NONE`, records `e` if no error was recorded and
otherwise leaves the loader unchanged; and after any sequence of `setLoaderError` calls on a
fresh loader, `loaderError()` is the first code of the sequence that is not
`LDR_ERROR_NONE` (`LDR_ERROR_NONE` when there is none). -/
theorem setLoaderError_first_error_wins (self : ImageLoader) (e : LoaderError)
    (loaderFlags : Nat) (es : List LoaderError) :
    setLoaderError self e =
        (FileError.ERROR_NONE,
          if loaderError self = LoaderError.LDR_ERROR_NONE then { self with ldrError := e }
          else self) ∧
      loaderError (es.foldl (fun st x => (setLoaderError st x).2) (ImageLoader.new loaderFlags)) =
        firstError es := by
  constructor
  · unfold setLoaderError loaderError
    split_ifs <;> rfl
  · apply setLoaderError_foldl_first
    unfold ImageLoader.new
    simp only []
    split_ifs <;> rfl

/-- A positive 32-bit number that has no bit in common with its predecessor is a power of
two. -/
theorem pow2_of_and_pred (n : Nat) (h0 : n ≠ 0) (h32 : n < 2 ^ 32)
    (h : n &&& sub32 n 1 = 0) : ∃ k, n = 2 ^ k := by
  have hsub : sub32 n 1 = n - 1 := by
    unfold sub32
    rw [Nat.mod_eq_of_lt h32]
    norm_num
    have : n + 4294967295 = (n - 1) + 4294967296 := by omega
    rw [this, Nat.add_mod_right, Nat.mod_eq_of_lt (by omega)]
  rw [hsub] at h
  refine ⟨Nat.log2 n, ?_⟩
  by_contra hne
  have hlo : 2 ^ Nat.log2 n ≤ n := Nat.log2_self_le h0
  have hhi : n < 2 ^ (Nat.log2 n + 1) := Nat.lt_log2_self
  have hbit : ∀ m, 2 ^ Nat.log2 n ≤ m → m < 2 ^ (Nat.log2 n + 1) →
      m.testBit (Nat.log2 n) = true := by
    intro m h1 h2
    rw [Nat.testBit_to_div_mod]
    have hd : m / 2 ^ Nat.log2 n = 1 := by
      apply Nat.div_eq_of_lt_le
      · simpa using h1
      · simpa [Nat.pow_succ, Nat.mul_comm] using h2
    simp [hd]
  have h1 := hbit n hlo hhi
  have h2 := hbit (n - 1) (by omega) (by omega)
  have h3 : (n &&& (n - 1)).testBit (Nat.log2 n) = true := by
    rw [Nat.testBit_and, h1, h2]; rfl
  rw [h] at h3
  simp at h3

/-- A file too short for the DOS header is rejected by `captureDosHeader` untouched. -/
theorem captureDosHeader_short (self : ImageLoader) (fileData : List Nat)
    (h : fileData.length < 64) :
    captureDosHeader self fileData = (FileError.ERROR_INVALID_FILE, self) := by
  unfold captureDosHeader sizeof_PELIB_IMAGE_DOS_HEADER
  rw [if_pos (by omega)]

/-- C10: for every byte buffer shorter than the DOS header (fewer than 64 bytes), every
loader configuration and either value of `loadHeadersOnly`, `Load` on a fresh loader returns
`ERROR_INVALID_FILE` and the loader holds zero pages afterwards. -/
theorem Load_short_file (loaderFlags : Nat) (fileData : List Nat) (loadHeadersOnly : Bool)
    (h : fileData.length < 64) :
    ∃ loader, Load (ImageLoader.new loaderFlags) fileData loadHeadersOnly =
        some (FileError.ERROR_INVALID_FILE, loader, fileData) ∧
      loader.pages.length = 0 := by
  refine ⟨ImageLoader.new loaderFlags, ?_, ?_⟩
  · unfold Load
    rw [captureDosHeader_short _ _ h]
    simp
  · unfold ImageLoader.new
    simp only []
    split_ifs <;> rfl

/-- C10, witness: a two-byte file `MZ` on a Windows 10 loader. -/
theorem Load_short_file_witness :
    ∃ loader, Load (ImageLoader.new 0xA0) [0x4D, 0x5A] false =
        some (FileError.ERROR_INVALID_FILE, loader, [0x4D, 0x5A]) ∧
      loader.pages.length = 0 :=
  Load_short_file 0xA0 [0x4D, 0x5A] false (by decide)

/-! ### The loader error across the capture steps -/

theorem Keeps.refl (a : ImageLoader) : Keeps a a := ⟨rfl, fun _ => rfl⟩

theorem Keeps.trans {a b c : ImageLoader} (h1 : Keeps a b) (h2 : Keeps b c) : Keeps a c :=
  ⟨h2.1.trans h1.1, fun h => by
    have hb := h1.2 h
    rw [h2.2 (by rw [hb]; exact h), hb]⟩

theorem setLoaderError_eq (self : ImageLoader) (e : LoaderError) :
    (setLoaderError self e).2 =
      { self with ldrError :=
          if self.ldrError = LoaderError.LDR_ERROR_NONE then e else self.ldrError } := by
  unfold setLoaderError
  split_ifs with h
  · rfl
  · rfl

theorem setLoaderErrorIf_eq (c : Bool) (e : LoaderError) (self : ImageLoader) :
    setLoaderErrorIf c e self =
      { self with ldrError :=
          if c = true ∧ self.ldrError = LoaderError.LDR_ERROR_NONE then e else self.ldrError } := by
  unfold setLoaderErrorIf
  cases c
  · simp
  · simp [setLoaderError_eq]

theorem keeps_setLoaderError (self : ImageLoader) (e : LoaderError) :
    Keeps self (setLoaderError self e).2 := by
  rw [setLoaderError_eq]
  exact ⟨rfl, fun h => by simp [h]⟩

theorem keeps_setLoaderErrorIf (c : Bool) (e : LoaderError) (self : ImageLoader) :
    Keeps self (setLoaderErrorIf c e self) := by
  rw [setLoaderErrorIf_eq]
  exact ⟨rfl, fun h => by simp [h]⟩

theorem keeps_verify (i : Nat) (cap : SectionCapture) (sectHdr : PELIB_SECTION_HEADER) :
    Keeps cap.loader (captureSectionHeaders.verify i cap sectHdr) := by
  unfold captureSectionHeaders.verify
  simp only []
  split_ifs <;>
    repeat (first | refine Keeps.trans ?_ (keeps_setLoaderErrorIf _ _ _) | exact Keeps.refl _)

theorem keeps_body (i : Nat) (cap : SectionCapture) :
    Keeps cap.loader (captureSectionHeaders.body i cap).loader := by
  have h := keeps_verify i cap
    (decodeSectionHeader (copyFrom cap.fileData cap.filePtr sizeof_PELIB_IMAGE_SECTION_HEADER))
  exact ⟨h.1, h.2⟩

theorem keeps_loop (remaining : Nat) :
    ∀ (i : Nat) (cap : SectionCapture),
      Keeps cap.loader (captureSectionHeaders.loop remaining i cap).loader := by
  induction remaining with
  | zero => intro i cap; exact Keeps.refl _
  | succ n ih =>
    intro i cap
    unfold captureSectionHeaders.loop
    split_ifs
    · exact Keeps.refl _
    · exact Keeps.trans (keeps_body i cap) (ih _ _)

theorem keeps_cutFile (self : ImageLoader) (fileEnd : Nat) :
    Keeps self (captureSectionHeaders.cutFile self fileEnd) := by
  unfold captureSectionHeaders.cutFile
  simp only []
  split_ifs
  · split
    · split_ifs <;> exact keeps_setLoaderError _ _
    · exact keeps_setLoaderError _ _
  · exact keeps_setLoaderError _ _

theorem keeps_init (self : ImageLoader) (fileData : List Nat) (filePtr : Nat) :
    Keeps self (captureSectionHeaders.init self fileData filePtr).loader := by
  unfold captureSectionHeaders.init
  simp only []
  split_ifs
  · exact Keeps.trans (keeps_setLoaderErrorIf _ _ _) (keeps_setLoaderErrorIf _ _ _)
  · exact Keeps.refl _

theorem keeps_finish (cap : SectionCapture) (fileEnd : Nat) :
    Keeps cap.loader (captureSectionHeaders.finish cap fileEnd) := by
  unfold captureSectionHeaders.finish
  simp only []
  by_cases hb : cap.bRawDataBeyondEOF = true
  · rw [if_pos hb]
    exact Keeps.trans (keeps_setLoaderErrorIf _ _ _) (keeps_cutFile _ _)
  · rw [if_neg hb]
    exact keeps_setLoaderErrorIf _ _ _

theorem keeps_captureSectionHeaders (self : ImageLoader) (fileData : List Nat) :
    Keeps self (captureSectionHeaders self fileData).2.1 := by
  unfold captureSectionHeaders
  simp only []
  split_ifs
  · exact keeps_setLoaderError _ _
  · exact Keeps.trans (Keeps.trans (keeps_init _ _ _) (keeps_loop _ _ _)) (keeps_finish _ _)

theorem keeps_captureImageSection (self : ImageLoader) (fileData : List Nat)
    (va vs p sr ch : Nat) (hdr : Bool) (r : Nat × ImageLoader)
    (h : captureImageSection self fileData va vs p sr ch hdr = some r) : Keeps self r.2 := by
  unfold captureImageSection at h
  split at h
  · exact absurd h (by simp)
  · simp only [Option.some.injEq] at h
    rw [← h]
    exact ⟨rfl, fun _ => rfl⟩

theorem keeps_captureImageSections_loop (fileData : List Nat) :
    ∀ (sections : List PELIB_SECTION_HEADER) (self r : ImageLoader),
      captureImageSections.loop fileData sections self = some r → Keeps self r := by
  intro sections
  induction sections with
  | nil =>
    intro self r h
    simp only [captureImageSections.loop, Option.some.injEq] at h
    rw [← h]; exact Keeps.refl _
  | cons S rest ih =>
    intro self r h
    unfold captureImageSections.loop at h
    split at h
    · exact absurd h (by simp)
    · rename_i va self' hcap
      have h1 := keeps_captureImageSection _ _ _ _ _ _ _ _ _ hcap
      split_ifs at h
      · simp only [Option.some.injEq] at h
        rw [← h]
        exact Keeps.trans h1 (keeps_setLoaderError _ _)
      · exact Keeps.trans h1 (ih _ _ h)

theorem keeps_captureImageSections (self : ImageLoader) (fileData : List Nat)
    (r : FileError × ImageLoader) (h : captureImageSections self fileData = some r) :
    Keeps self r.2 := by
  unfold captureImageSections at h
  simp only [] at h
  by_cases hSA : self.optionalHeader.SectionAlignment ≥ PELIB_PAGE_SIZE
  · rw [if_pos hSA] at h
    split at h
    · exact absurd h (by simp)
    · rename_i va self' hcap
      have h1 := keeps_captureImageSection _ _ _ _ _ _ _ _ _ hcap
      have h0 : Keeps self self' := Keeps.trans ⟨rfl, fun _ => rfl⟩ h1
      by_cases hva : va = 0
      · rw [if_pos hva] at h
        simp only [Option.some.injEq] at h
        rw [← h]; exact h0
      · rw [if_neg hva] at h
        by_cases hsec : self'.sections.length ≠ 0
        · rw [if_pos hsec] at h
          split at h
          · exact absurd h (by simp)
          · rename_i self'' hloop
            simp only [Option.some.injEq] at h
            rw [← h]
            exact Keeps.trans h0 (keeps_captureImageSections_loop _ _ _ _ hloop)
        · rw [if_neg hsec] at h
          simp only [Option.some.injEq] at h
          rw [← h]
          exact Keeps.trans h0 (keeps_setLoaderErrorIf _ _ _)
  · rw [if_neg hSA] at h
    split at h
    · exact absurd h (by simp)
    · rename_i va self' hcap
      have h1 := keeps_captureImageSection _ _ _ _ _ _ _ _ _ hcap
      have h0 : Keeps self self' := Keeps.trans ⟨rfl, fun _ => rfl⟩ h1
      split_ifs at h <;>
      · simp only [Option.some.injEq] at h
        rw [← h]; exact h0

theorem isByteBuffer_copyFrom (data : List Nat) (pos length : Nat) (h : isByteBuffer data) :
    isByteBuffer (copyFrom data pos length) := by
  intro b hb
  exact h b (List.mem_of_mem_drop (List.mem_of_mem_take hb))

theorem getD_lt_of_isByteBuffer (data : List Nat) (i : Nat) (h : isByteBuffer data) :
    data.getD i 0 < 256 := by
  rw [List.getD_eq_getElem?_getD]
  cases hi : data[i]? with
  | none => simp
  | some b =>
    simp only [Option.getD_some]
    exact h b (List.getElem?_mem hi)

/-- A little-endian field of `width` bytes of a byte buffer is below `256 ^ width`. -/
theorem readLE_lt (data : List Nat) (h : isByteBuffer data) :
    ∀ (width off : Nat), readLE data off width < 256 ^ width := by
  intro width
  induction width with
  | zero => intro off; simp [readLE]
  | succ w ih =>
    intro off
    have h1 := getD_lt_of_isByteBuffer data off h
    have h2 := ih (off + 1)
    simp only [readLE, Nat.pow_succ]
    omega

/-- The checks of `verifyNtHeaders` leave the optional header alone. -/
theorem verifyNtHeaders_keeps (self : ImageLoader) : Keeps self (verifyNtHeaders self) := by
  unfold verifyNtHeaders
  repeat (first | refine Keeps.trans ?_ (keeps_setLoaderErrorIf _ _ _) | exact Keeps.refl _)

theorem setLoaderErrorIf_ldrError_none (c : Bool) (e : LoaderError) (self : ImageLoader)
    (he : e ≠ LoaderError.LDR_ERROR_NONE)
    (h : (setLoaderErrorIf c e self).ldrError = LoaderError.LDR_ERROR_NONE) :
    self.ldrError = LoaderError.LDR_ERROR_NONE ∧ c = false := by
  rw [setLoaderErrorIf_eq] at h
  simp only [] at h
  by_cases hs : self.ldrError = LoaderError.LDR_ERROR_NONE
  · refine ⟨hs, ?_⟩
    cases c
    · rfl
    · simp [hs] at h
      exact absurd h he
  · simp [hs] at h

set_option maxRecDepth 4096 in
/-- When the cascade of `verifyNtHeaders` ends without a loader error, every check passed. -/
theorem verifyNtHeaders_none (self : ImageLoader)
    (h : (verifyNtHeaders self).ldrError = LoaderError.LDR_ERROR_NONE) :
    goodOptionalHeader self.optionalHeader := by
  unfold verifyNtHeaders at h
  obtain ⟨h, c15⟩ := setLoaderErrorIf_ldrError_none _ _ _ (by decide) h
  obtain ⟨h, c14⟩ := setLoaderErrorIf_ldrError_none _ _ _ (by decide) h
  obtain ⟨h, _⟩ := setLoaderErrorIf_ldrError_none _ _ _ (by decide) h
  obtain ⟨h, c12⟩ := setLoaderErrorIf_ldrError_none _ _ _ (by decide) h
  obtain ⟨h, _⟩ := setLoaderErrorIf_ldrError_none _ _ _ (by decide) h
  obtain ⟨h, _⟩ := setLoaderErrorIf_ldrError_none _ _ _ (by decide) h
  obtain ⟨h, _⟩ := setLoaderErrorIf_ldrError_none _ _ _ (by decide) h
  obtain ⟨h, _⟩ := setLoaderErrorIf_ldrError_none _ _ _ (by decide) h
  obtain ⟨h, c7⟩ := setLoaderErrorIf_ldrError_none _ _ _ (by decide) h
  obtain ⟨h, c6⟩ := setLoaderErrorIf_ldrError_none _ _ _ (by decide) h
  obtain ⟨h, c5⟩ := setLoaderErrorIf_ldrError_none _ _ _ (by decide) h
  obtain ⟨h, c4⟩ := setLoaderErrorIf_ldrError_none _ _ _ (by decide) h
  obtain ⟨h, c3⟩ := setLoaderErrorIf_ldrError_none _ _ _ (by decide) h
  simp only [decide_eq_false_iff_not, not_lt, not_not, gt_iff_lt, ne_eq] at c3 c4 c5 c6 c7 c12 c14 c15
  exact ⟨c3, c4, c5, c6, c7, c12, c14, c15⟩

theorem notCut_setLoaderError (self : ImageLoader) (e : LoaderError)
    (he : e ≠ LoaderError.LDR_ERROR_FILE_IS_CUT_LOADABLE) (h : NotCut self) :
    NotCut (setLoaderError self e).2 := by
  unfold NotCut at *
  rw [setLoaderError_eq]
  simp only []
  split_ifs
  · exact he
  · exact h

theorem notCut_setLoaderErrorIf (c : Bool) (e : LoaderError) (self : ImageLoader)
    (he : e ≠ LoaderError.LDR_ERROR_FILE_IS_CUT_LOADABLE) (h : NotCut self) :
    NotCut (setLoaderErrorIf c e self) := by
  unfold setLoaderErrorIf
  split_ifs
  · exact notCut_setLoaderError _ _ he h
  · exact h

theorem setLoaderError_ldrError_ne_none (self : ImageLoader) (e : LoaderError)
    (he : e ≠ LoaderError.LDR_ERROR_NONE) :
    (setLoaderError self e).2.ldrError ≠ LoaderError.LDR_ERROR_NONE := by
  rw [setLoaderError_eq]
  simp only []
  split_ifs with h
  · exact he
  · exact h

theorem notCut_captureDosHeader (self : ImageLoader) (fileData : List Nat) (h : NotCut self) :
    NotCut (captureDosHeader self fileData).2 := by
  unfold captureDosHeader verifyDosHeader
  simp only []
  split_ifs
  · exact h
  · exact h
  · exact notCut_setLoaderError _ _ (by decide) h
  · exact notCut_setLoaderError _ _ (by decide) h
  · exact h

theorem notCut_verifyNtHeaders (self : ImageLoader) (h : NotCut self) :
    NotCut (verifyNtHeaders self) := by
  unfold verifyNtHeaders
  repeat (first | refine notCut_setLoaderErrorIf _ _ _ (by decide) ?_ | exact h)

theorem notCut_captureFileHeader (self : ImageLoader) (fileData : List Nat) (filePtr : Nat)
    (h : NotCut self) : NotCut (captureFileHeader self fileData filePtr) := by
  unfold captureFileHeader
  simp only []
  repeat (first | refine notCut_setLoaderErrorIf _ _ _ (by decide) ?_ | exact h)

/-- What the capture of a 64-bit optional header leaves behind when it records no error. -/
theorem captureOptionalHeader64_none (self : ImageLoader) (fileData : List Nat) (filePtr : Nat)
    (r : FileError × ImageLoader) (hb : isByteBuffer fileData)
    (h : captureOptionalHeader64 self fileData filePtr = some r) :
    (NotCut self → NotCut r.2) ∧
      (r.2.ldrError = LoaderError.LDR_ERROR_NONE →
        r.2.optionalHeader.FileAlignment < 2 ^ 32 ∧
          r.2.optionalHeader.SectionAlignment < 2 ^ 32) := by
  unfold captureOptionalHeader64 at h
  simp only [] at h
  split_ifs at h <;> simp only [Option.some.injEq] at h <;> rw [← h]
  all_goals first
    | exact ⟨notCut_setLoaderError _ _ (by decide),
        fun hn => absurd hn (setLoaderError_ldrError_ne_none _ _ (by decide))⟩
    | exact ⟨fun hc => hc, fun _ => ⟨readLE_lt _ (isByteBuffer_copyFrom _ _ _ hb) 4 36,
        readLE_lt _ (isByteBuffer_copyFrom _ _ _ hb) 4 32⟩⟩

/-- What the capture of a 32-bit optional header leaves behind. -/
theorem captureOptionalHeader32_none (self : ImageLoader) (fileData : List Nat) (filePtr : Nat)
    (r : FileError × ImageLoader) (hb : isByteBuffer fileData)
    (h : captureOptionalHeader32 self fileData filePtr = some r) :
    (NotCut self → NotCut r.2) ∧
      (r.2.ldrError = LoaderError.LDR_ERROR_NONE →
        r.2.optionalHeader.FileAlignment < 2 ^ 32 ∧
          r.2.optionalHeader.SectionAlignment < 2 ^ 32) := by
  unfold captureOptionalHeader32 at h
  simp only [] at h
  split_ifs at h <;> simp only [Option.some.injEq] at h <;> rw [← h]
  all_goals
    exact ⟨fun hc => notCut_setLoaderErrorIf _ _ _ (by decide) hc,
      fun _ => ⟨readLE_lt _ (isByteBuffer_copyFrom _ _ _ hb) 4 36,
        readLE_lt _ (isByteBuffer_copyFrom _ _ _ hb) 4 32⟩⟩

/-- What the capture of the optional header leaves behind. -/
theorem captureOptionalHeader_none (self : ImageLoader) (fileData : List Nat) (filePtr : Nat)
    (r : FileError × ImageLoader) (hb : isByteBuffer fileData)
    (h : captureOptionalHeader self fileData filePtr = some r) :
    (NotCut self → NotCut r.2) ∧
      (r.2.ldrError = LoaderError.LDR_ERROR_NONE →
        r.2.optionalHeader.FileAlignment < 2 ^ 32 ∧
          r.2.optionalHeader.SectionAlignment < 2 ^ 32) := by
  unfold captureOptionalHeader at h
  simp only [] at h
  split_ifs at h
  all_goals first
    | exact captureOptionalHeader64_none _ _ _ _ hb h
    | exact captureOptionalHeader32_none _ _ _ _ hb h

/-- What `captureNtHeaders` leaves behind: it never records "file is cut but loadable", and
when it returns `ERROR_NONE` without a loader error the optional header passed every
check. -/
theorem captureNtHeaders_none (self : ImageLoader) (fileData : List Nat)
    (r : FileError × ImageLoader) (hb : isByteBuffer fileData)
    (h : captureNtHeaders self fileData = some r) :
    (NotCut self → NotCut r.2) ∧
      (r.1 = FileError.ERROR_NONE → r.2.ldrError = LoaderError.LDR_ERROR_NONE →
        goodOptionalHeader r.2.optionalHeader ∧
          r.2.optionalHeader.FileAlignment < 2 ^ 32 ∧
          r.2.optionalHeader.SectionAlignment < 2 ^ 32) := by
  unfold captureNtHeaders at h
  simp only [] at h
  split_ifs at h with h1 h2 h3
  · simp only [Option.some.injEq] at h
    rw [← h]
    exact ⟨notCut_setLoaderError _ _ (by decide),
      fun _ hn => absurd hn (setLoaderError_ldrError_ne_none _ _ (by decide))⟩
  · simp only [Option.some.injEq] at h
    rw [← h]
    exact ⟨notCut_setLoaderError _ _ (by decide), fun he => by simp at he⟩
  · simp only [Option.some.injEq] at h
    rw [← h]
    exact ⟨fun hc => notCut_setLoaderError _ _ (by decide) hc, fun he => by simp at he⟩
  · split at h
    · exact absurd h (by simp)
    · rename_i e captured hcap
      simp only [Option.some.injEq] at h
      rw [← h]
      obtain ⟨hc1, hc2⟩ := captureOptionalHeader_none _ _ _ _ hb hcap
      refine ⟨fun hc => notCut_verifyNtHeaders _ (hc1 (notCut_captureFileHeader _ _ _ hc)),
        fun _ hn => ?_⟩
      have hk := verifyNtHeaders_keeps captured
      have hcn : captured.ldrError = LoaderError.LDR_ERROR_NONE := by
        by_contra hne
        exact hne ((hk.2 hne).symm.trans hn)
      rw [hk.1]
      exact ⟨verifyNtHeaders_none _ hn, hc2 hcn⟩

/-- The steps of a `Load` that returns `ERROR_NONE`: both header captures returned
`ERROR_NONE`, and the later steps kept the optional header and the recorded error. -/
theorem Load_steps (self loader : ImageLoader) (fileData fileData' : List Nat)
    (loadHeadersOnly : Bool)
    (h : Load self fileData loadHeadersOnly = some (FileError.ERROR_NONE, loader, fileData')) :
    ∃ headers, captureNtHeaders (captureDosHeader self fileData).2 fileData =
        some (FileError.ERROR_NONE, headers) ∧ Keeps headers loader := by
  unfold Load at h
  simp only [] at h
  by_cases h1 : (captureDosHeader self fileData).1 ≠ FileError.ERROR_NONE
  · rw [if_pos h1] at h
    simp only [Option.some.injEq, Prod.mk.injEq] at h
    exact absurd h.1 h1
  · rw [if_neg h1] at h
    split at h
    · exact absurd h (by simp)
    · rename_i e2 s2 hnt
      by_cases h2 : e2 ≠ FileError.ERROR_NONE
      · rw [if_pos h2] at h
        simp only [Option.some.injEq, Prod.mk.injEq] at h
        exact absurd h.1 h2
      · rw [if_neg h2] at h
        have he2 : e2 = FileError.ERROR_NONE := not_not.mp h2
        refine ⟨s2, by rw [hnt, he2], ?_⟩
        have hk := keeps_captureSectionHeaders s2 fileData
        by_cases h3 : (captureSectionHeaders s2 fileData).1 ≠ FileError.ERROR_NONE
        · rw [if_pos h3] at h
          simp only [Option.some.injEq, Prod.mk.injEq] at h
          exact absurd h.1 h3
        · rw [if_neg h3] at h
          by_cases hb : loadHeadersOnly = false
          · rw [if_pos hb] at h
            split at h
            · exact absurd h (by simp)
            · rename_i e4 s4 hmap
              have hk4 : Keeps (captureSectionHeaders s2 fileData).2.1 s4 := by
                split_ifs at hmap
                · exact keeps_captureImageSections _ _ _ hmap
                · simp only [Option.some.injEq, Prod.mk.injEq] at hmap
                  rw [← hmap.2]
                  exact Keeps.refl _
              split_ifs at h
              · simp only [Option.some.injEq, Prod.mk.injEq] at h
                rw [← h.2.1]
                exact Keeps.trans hk (Keeps.trans hk4 ⟨rfl, fun _ => rfl⟩)
              · simp only [Option.some.injEq, Prod.mk.injEq] at h
                rw [← h.2.1]
                exact Keeps.trans hk hk4
          · rw [if_neg hb] at h
            simp only [Option.some.injEq, Prod.mk.injEq] at h
            rw [← h.2.1]
            exact hk

theorem ImageLoader_new_ldrError (loaderFlags : Nat) :
    (ImageLoader.new loaderFlags).ldrError = LoaderError.LDR_ERROR_NONE := by
  unfold ImageLoader.new
  simp only []
  split_ifs <;> rfl

/-- C9: for every file and loader configuration, if `Load` on a fresh loader returns
`ERROR_NONE` and the image is loadable afterwards, then `FileAlignment` and
`SectionAlignment` of the captured optional header are nonzero powers of two with
`SectionAlignment >= FileAlignment`, `SizeOfHeaders <= SizeOfImage`, `SizeOfImage != 0` and
`ImageBase` is a multiple of 64 KB. -/
theorem Load_loadable_optionalHeader (loaderFlags : Nat) (fileData fileData' : List Nat)
    (loadHeadersOnly : Bool) (loader : ImageLoader) (hbytes : isByteBuffer fileData)
    (hload : Load (ImageLoader.new loaderFlags) fileData loadHeadersOnly =
      some (FileError.ERROR_NONE, loader, fileData'))
    (hok : isImageLoadable loader = true) :
    (loader.optionalHeader.FileAlignment ≠ 0 ∧ ∃ k, loader.optionalHeader.FileAlignment = 2 ^ k) ∧
      (loader.optionalHeader.SectionAlignment ≠ 0 ∧
        ∃ k, loader.optionalHeader.SectionAlignment = 2 ^ k) ∧
      loader.optionalHeader.FileAlignment ≤ loader.optionalHeader.SectionAlignment ∧
      loader.optionalHeader.SizeOfHeaders ≤ loader.optionalHeader.SizeOfImage ∧
      loader.optionalHeader.SizeOfImage ≠ 0 ∧
      loader.optionalHeader.ImageBase % 65536 = 0 := by
  obtain ⟨headers, hnt, hkeep⟩ := Load_steps _ _ _ _ _ hload
  have hfresh : NotCut (ImageLoader.new loaderFlags) := by
    unfold NotCut
    rw [ImageLoader_new_ldrError]
    decide
  obtain ⟨hcut, hgood⟩ := captureNtHeaders_none _ _ _ hbytes hnt
  have hcut2 : NotCut headers := hcut (notCut_captureDosHeader _ _ hfresh)
  have hnone : headers.ldrError = LoaderError.LDR_ERROR_NONE := by
    by_contra hne
    have hl := hkeep.2 hne
    unfold isImageLoadable at hok
    rw [hl] at hok
    unfold NotCut at hcut2
    simp [hne, hcut2] at hok
  obtain ⟨⟨g1, g2, g3, g4, g5, g6, g7, g8⟩, b1, b2⟩ := hgood rfl hnone
  rw [hkeep.1]
  refine ⟨⟨g1, pow2_of_and_pred _ g1 b1 g2⟩, ⟨g3, pow2_of_and_pred _ g3 b2 g4⟩, g5, g6, ?_, ?_⟩
  · intro h0
    apply g7
    rw [h0]
    decide
  · have := Nat.and_pow_two_sub_one_eq_mod headers.optionalHeader.ImageBase 16
    simpa [PELIB_SIZE_64KB] using this.symm.trans g8

set_option maxRecDepth 100000 in
set_option maxHeartbeats 2000000 in
/-- C9, witness: the minimal 64-bit file is loaded with `ERROR_NONE` and is loadable, and its
optional header has the stated properties. -/
theorem Load_loadable_optionalHeader_witness :
    (minimalPe64Loaded.optionalHeader.FileAlignment ≠ 0 ∧
        ∃ k, minimalPe64Loaded.optionalHeader.FileAlignment = 2 ^ k) ∧
      (minimalPe64Loaded.optionalHeader.SectionAlignment ≠ 0 ∧
        ∃ k, minimalPe64Loaded.optionalHeader.SectionAlignment = 2 ^ k) ∧
      minimalPe64Loaded.optionalHeader.FileAlignment ≤
        minimalPe64Loaded.optionalHeader.SectionAlignment ∧
      minimalPe64Loaded.optionalHeader.SizeOfHeaders ≤
        minimalPe64Loaded.optionalHeader.SizeOfImage ∧
      minimalPe64Loaded.optionalHeader.SizeOfImage ≠ 0 ∧
      minimalPe64Loaded.optionalHeader.ImageBase % 65536 = 0 :=
  Load_loadable_optionalHeader 0xA0 minimalPe64 minimalPe64 false minimalPe64Loaded
    (by unfold isByteBuffer; decide) (by rfl) (by rfl)

/-- A section whose exact virtual range does not contain `rva` does not contain it in 32-bit
arithmetic either. -/
theorem not_inVirtualRange_of_not_exact (optionalHeader : PELIB_IMAGE_OPTIONAL_HEADER)
    (T : PELIB_SECTION_HEADER) (rva : Nat)
    (h : ¬ inVirtualRangeExact optionalHeader T rva) :
    ¬ inVirtualRange optionalHeader T rva := by
  intro hin
  apply h
  unfold inVirtualRange u32 at hin
  unfold inVirtualRangeExact
  refine ⟨hin.1, lt_of_lt_of_le hin.2 (Nat.mod_le _ _)⟩

/-- C20: for every loader state with a non-empty section table and every rva that lies in no
section's virtual range, `getFileOffsetFromRva rva` is `rva` when `rva < SizeOfHeaders` and
`UINT32_MAX` otherwise. -/
theorem getFileOffsetFromRva_header_fallback (self : ImageLoader) (rva : Nat)
    (hne : self.sections ≠ [])
    (hout : ∀ S ∈ self.sections, ¬ inVirtualRangeExact self.optionalHeader S rva) :
    getFileOffsetFromRva self rva =
      if rva < self.optionalHeader.SizeOfHeaders then rva else UINT32_MAX := by
  unfold getFileOffsetFromRva
  have hlen : self.sections.length ≠ 0 := by
    intro h
    exact hne (List.length_eq_zero.mp h)
  have hskip := getFileOffsetFromRva_loop_skip self.optionalHeader rva self.sections []
    (fun T hT h => not_inVirtualRange_of_not_exact _ _ _ (hout T hT) h.2)
  rw [List.append_nil] at hskip
  rw [if_pos hlen, hskip]
  rfl

/-- C20, witness: in the two-section image (`SizeOfHeaders = 0x400`) rva `0x200` lies in no
section and is its own file offset, and rva `0x5000` lies in no section and is not found. -/
theorem getFileOffsetFromRva_header_fallback_witness :
    getFileOffsetFromRva twoSectionImage 0x200 = 0x200 ∧
      getFileOffsetFromRva twoSectionImage 0x5000 = UINT32_MAX :=
  ⟨getFileOffsetFromRva_header_fallback twoSectionImage 0x200 (by decide) (by decide),
   getFileOffsetFromRva_header_fallback twoSectionImage 0x5000 (by decide) (by decide)⟩

/-! ### A loader error recorded by the DOS header check -/

theorem latched_refl (a : ImageLoader) : Latched a a := fun _ => rfl

theorem latched_trans {a b c : ImageLoader} (h1 : Latched a b) (h2 : Latched b c) :
    Latched a c := by
  intro ha
  have hb := h1 ha
  rw [← hb]
  exact h2 (by rw [hb]; exact ha)

theorem Keeps.latched {a b : ImageLoader} (h : Keeps a b) : Latched a b := h.2

theorem latched_captureFileHeader (self : ImageLoader) (fileData : List Nat) (filePtr : Nat) :
    Latched self (captureFileHeader self fileData filePtr) := by
  unfold captureFileHeader
  simp only []
  intro ha
  refine Eq.trans (Keeps.latched ?_ ha) rfl
  repeat (first | refine Keeps.trans ?_ (keeps_setLoaderErrorIf _ _ _) | exact Keeps.refl _)

theorem latched_captureOptionalHeader (self : ImageLoader) (fileData : List Nat) (filePtr : Nat)
    (r : FileError × ImageLoader) (h : captureOptionalHeader self fileData filePtr = some r) :
    Latched self r.2 := by
  unfold captureOptionalHeader captureOptionalHeader64 captureOptionalHeader32 at h
  simp only [] at h
  split_ifs at h <;> simp only [Option.some.injEq] at h <;> rw [← h]
  all_goals first
    | exact (keeps_setLoaderError _ _).latched
    | exact (keeps_setLoaderErrorIf _ _ _).latched
    | exact fun _ => rfl

theorem latched_captureNtHeaders (self : ImageLoader) (fileData : List Nat)
    (r : FileError × ImageLoader) (h : captureNtHeaders self fileData = some r) :
    Latched self r.2 := by
  unfold captureNtHeaders at h
  simp only [] at h
  split_ifs at h with h1 h2 h3
  · simp only [Option.some.injEq] at h
    rw [← h]
    exact (keeps_setLoaderError _ _).latched
  · simp only [Option.some.injEq] at h
    rw [← h]
    exact (keeps_setLoaderError _ _).latched
  · simp only [Option.some.injEq] at h
    rw [← h]
    exact fun ha => (keeps_setLoaderError _ _).2 ha
  · split at h
    · exact absurd h (by simp)
    · rename_i e captured hcap
      simp only [Option.some.injEq] at h
      rw [← h]
      have hf := latched_captureFileHeader
        { self with ntSignature := readLE fileData self.dosHeader.e_lfanew 4 } fileData
        (self.dosHeader.e_lfanew + 4)
      have ho := latched_trans (latched_captureOptionalHeader _ _ _ _ hcap)
        (verifyNtHeaders_keeps captured).latched
      exact fun ha => (ho (by rw [hf ha]; exact ha)).trans (hf ha)

/-- A loader error recorded by the DOS header check is the loader error after `Load`. -/
theorem Load_latched (self : ImageLoader) (fileData : List Nat) (loadHeadersOnly : Bool)
    (r : FileError × ImageLoader × List Nat)
    (h : Load self fileData loadHeadersOnly = some r) :
    Latched (captureDosHeader self fileData).2 r.2.1 := by
  unfold Load at h
  simp only [] at h
  by_cases h1 : (captureDosHeader self fileData).1 ≠ FileError.ERROR_NONE
  · rw [if_pos h1] at h
    simp only [Option.some.injEq] at h
    rw [← h]
    exact latched_refl _
  · rw [if_neg h1] at h
    split at h
    · exact absurd h (by simp)
    · rename_i e2 s2 hnt
      have hl2 := latched_captureNtHeaders _ _ _ hnt
      by_cases h2 : e2 ≠ FileError.ERROR_NONE
      · rw [if_pos h2] at h
        simp only [Option.some.injEq] at h
        rw [← h]
        exact hl2
      · rw [if_neg h2] at h
        have hk := (keeps_captureSectionHeaders s2 fileData).latched
        by_cases h3 : (captureSectionHeaders s2 fileData).1 ≠ FileError.ERROR_NONE
        · rw [if_pos h3] at h
          simp only [Option.some.injEq] at h
          rw [← h]
          exact latched_trans hl2 hk
        · rw [if_neg h3] at h
          by_cases hb : loadHeadersOnly = false
          · rw [if_pos hb] at h
            split at h
            · exact absurd h (by simp)
            · rename_i e4 s4 hmap
              have hk4 : Latched (captureSectionHeaders s2 fileData).2.1 s4 := by
                split_ifs at hmap
                · exact (keeps_captureImageSections _ _ _ hmap).latched
                · simp only [Option.some.injEq, Prod.mk.injEq] at hmap
                  rw [← hmap.2]
                  exact latched_refl _
              split_ifs at h
              · simp only [Option.some.injEq] at h
                rw [← h]
                exact latched_trans hl2 (latched_trans hk (latched_trans hk4 (fun _ => rfl)))
              · simp only [Option.some.injEq] at h
                rw [← h]
                exact latched_trans hl2 (latched_trans hk hk4)
          · rw [if_neg hb] at h
            simp only [Option.some.injEq] at h
            rw [← h]
            exact latched_trans hl2 hk

/-- The DOS header check on a file with the DOS signature and a bad `e_lfanew`: it returns
`ERROR_NONE` and records the loader error. -/
theorem captureDosHeader_bad_e_lfanew (self : ImageLoader) (fileData : List Nat)
    (hlen : sizeof_PELIB_IMAGE_DOS_HEADER < fileData.length)
    (hmagic : (dosHeaderOf fileData).e_magic = PELIB_IMAGE_DOS_SIGNATURE)
    (hbad : (dosHeaderOf fileData).e_lfanew &&& 3 ≠ 0 ∨
      fileData.length < (dosHeaderOf fileData).e_lfanew)
    (hnone : self.ldrError = LoaderError.LDR_ERROR_NONE) :
    captureDosHeader self fileData =
      (FileError.ERROR_NONE,
        { self with dosHeader := dosHeaderOf fileData, ldrError := badLfanewError fileData }) := by
  unfold captureDosHeader verifyDosHeader badLfanewError
  simp only []
  rw [if_neg (by omega)]
  change (if (dosHeaderOf fileData).e_magic ≠ PELIB_IMAGE_DOS_SIGNATURE then _
    else if (dosHeaderOf fileData).e_lfanew &&& 3 ≠ 0 then _
    else if (dosHeaderOf fileData).e_lfanew > fileData.length then _ else _) = _
  rw [if_neg (not_not.mpr hmagic)]
  by_cases hal : (dosHeaderOf fileData).e_lfanew &&& 3 ≠ 0
  · rw [if_pos hal, if_pos hal]
    unfold setLoaderError
    rw [if_pos hnone]
    rfl
  · rw [if_neg hal, if_neg hal]
    have hout : (dosHeaderOf fileData).e_lfanew > fileData.length := by
      rcases hbad with h | h
      · exact absurd h hal
      · exact h
    rw [if_pos hout]
    unfold setLoaderError
    rw [if_pos hnone]
    rfl

theorem u32OfInt_sub (a b : Nat) (hb : b ≤ a) (ha : a - b < 2 ^ 32) :
    u32OfInt ((a : Int) - (b : Int)) = a - b := by
  unfold u32OfInt
  omega

/-- The capture of the optional header stays inside its bounds when the header starts inside
the file. -/
theorem captureOptionalHeader_isSome (self : ImageLoader) (fileData : List Nat) (filePtr : Nat)
    (h : filePtr ≤ fileData.length) :
    ∃ r, captureOptionalHeader self fileData filePtr = some r := by
  unfold captureOptionalHeader captureOptionalHeader64 captureOptionalHeader32
  simp only [sizeof_PELIB_IMAGE_OPTIONAL_HEADER64, sizeof_PELIB_IMAGE_OPTIONAL_HEADER32]
  by_cases h64 : filePtr + 240 > fileData.length
  · have e64 := u32OfInt_sub fileData.length filePtr h (by omega)
    by_cases h32 : filePtr + 224 > fileData.length
    · rw [if_pos h64, if_pos h32, e64]
      split_ifs <;> first | omega | exact ⟨_, rfl⟩
    · rw [if_pos h64, if_neg h32, e64]
      split_ifs <;> first | omega | exact ⟨_, rfl⟩
  · have h32 : ¬ filePtr + 224 > fileData.length := by omega
    rw [if_neg h64, if_neg h32]
    split_ifs <;> first | omega | exact ⟨_, rfl⟩

/-- The capture of the NT headers stays inside its bounds when `e_lfanew` is beyond the end of
the file or the optional header starts inside the file. -/
theorem captureNtHeaders_isSome (self : ImageLoader) (fileData : List Nat)
    (h : fileData.length < self.dosHeader.e_lfanew ∨
      self.dosHeader.e_lfanew + 24 ≤ fileData.length) :
    ∃ r, captureNtHeaders self fileData = some r := by
  unfold captureNtHeaders
  simp only []
  split_ifs with h1 h2 h3
  · exact ⟨_, rfl⟩
  · exact ⟨_, rfl⟩
  · exact ⟨_, rfl⟩
  · have hin : self.dosHeader.e_lfanew + 4 + sizeof_PELIB_IMAGE_FILE_HEADER ≤ fileData.length := by
      simp only [sizeof_PELIB_IMAGE_FILE_HEADER]
      omega
    obtain ⟨r, hr⟩ := captureOptionalHeader_isSome
      (captureFileHeader { self with ntSignature := readLE fileData self.dosHeader.e_lfanew 4 }
        fileData (self.dosHeader.e_lfanew + 4)) fileData _ hin
    rw [hr]
    exact ⟨_, rfl⟩

/-- A loader that is not loadable after the DOS header check is returned by `Load` whenever
the capture of the NT headers stays inside its bounds. -/
theorem Load_isSome_of_not_loadable (self : ImageLoader) (fileData : List Nat)
    (loadHeadersOnly : Bool)
    (hne : (captureDosHeader self fileData).2.ldrError ≠ LoaderError.LDR_ERROR_NONE)
    (hcut : (captureDosHeader self fileData).2.ldrError ≠
      LoaderError.LDR_ERROR_FILE_IS_CUT_LOADABLE)
    (hnt : ∃ r, captureNtHeaders (captureDosHeader self fileData).2 fileData = some r) :
    ∃ r, Load self fileData loadHeadersOnly = some r := by
  obtain ⟨⟨e2, s2⟩, hnt⟩ := hnt
  have hl2 := latched_captureNtHeaders _ _ _ hnt hne
  have hl3 := (keeps_captureSectionHeaders s2 fileData).2 (by rw [hl2]; exact hne)
  have hnl : isImageLoadable (captureSectionHeaders s2 fileData).2.1 = false := by
    unfold isImageLoadable
    rw [hl3, hl2]
    simp [hne, hcut]
  unfold Load
  simp only []
  by_cases h1 : (captureDosHeader self fileData).1 ≠ FileError.ERROR_NONE
  · rw [if_pos h1]
    exact ⟨_, rfl⟩
  · rw [if_neg h1, hnt]
    simp only []
    by_cases h2 : e2 ≠ FileError.ERROR_NONE
    · rw [if_pos h2]
      exact ⟨_, rfl⟩
    · rw [if_neg h2]
      by_cases h3 : (captureSectionHeaders s2 fileData).1 ≠ FileError.ERROR_NONE
      · rw [if_pos h3]
        exact ⟨_, rfl⟩
      · rw [if_neg h3]
        by_cases hb : loadHeadersOnly = false
        · rw [if_pos hb, hnl]
          simp only [Bool.false_eq_true, if_false]
          by_cases hp : (captureSectionHeaders s2 fileData).2.1.pages.length = 0
          · rw [if_pos hp]
            exact ⟨_, rfl⟩
          · rw [if_neg hp]
            exact ⟨_, rfl⟩
        · rw [if_neg hb]
          exact ⟨_, rfl⟩

/-- C11 (amended): for every file longer than a DOS header whose DOS header has the correct
magic but whose `e_lfanew` is not 4-byte aligned or points beyond the end of the file, the
condition is flagged in the loader-error register: whatever `Load` on a fresh loader returns,
the loader error afterwards is `LDR_ERROR_E_LFANEW_UNALIGNED` (unaligned) or
`LDR_ERROR_E_LFANEW_OUT_OF_FILE` (aligned, beyond the end) and the image is not loadable; and
`Load` does return when `e_lfanew` is beyond the end of the file or the optional header
starts inside the file. -/
theorem Load_bad_e_lfanew_flagged (loaderFlags : Nat) (fileData : List Nat)
    (loadHeadersOnly : Bool)
    (hlen : sizeof_PELIB_IMAGE_DOS_HEADER < fileData.length)
    (hmagic : (dosHeaderOf fileData).e_magic = PELIB_IMAGE_DOS_SIGNATURE)
    (hbad : (dosHeaderOf fileData).e_lfanew &&& 3 ≠ 0 ∨
      fileData.length < (dosHeaderOf fileData).e_lfanew) :
    (∀ r, Load (ImageLoader.new loaderFlags) fileData loadHeadersOnly = some r →
        r.2.1.ldrError = badLfanewError fileData ∧ isImageLoadable r.2.1 = false) ∧
      (fileData.length < (dosHeaderOf fileData).e_lfanew ∨
          (dosHeaderOf fileData).e_lfanew + 24 ≤ fileData.length →
        ∃ r, Load (ImageLoader.new loaderFlags) fileData loadHeadersOnly = some r) := by
  have hdos := captureDosHeader_bad_e_lfanew (ImageLoader.new loaderFlags) fileData hlen hmagic
    hbad (ImageLoader_new_ldrError loaderFlags)
  have hne : badLfanewError fileData ≠ LoaderError.LDR_ERROR_NONE := by
    unfold badLfanewError
    split_ifs <;> decide
  have hcut : badLfanewError fileData ≠ LoaderError.LDR_ERROR_FILE_IS_CUT_LOADABLE := by
    unfold badLfanewError
    split_ifs <;> decide
  constructor
  · intro r hr
    have hl := Load_latched _ _ _ _ hr
    rw [hdos] at hl
    have he : r.2.1.ldrError = badLfanewError fileData := hl hne
    refine ⟨he, ?_⟩
    unfold isImageLoadable
    rw [he]
    simp [hne, hcut]
  · intro hsafe
    apply Load_isSome_of_not_loadable
    · rw [hdos]; exact hne
    · rw [hdos]; exact hcut
    · apply captureNtHeaders_isSome
      rw [hdos]
      exact hsafe

set_option maxRecDepth 100000 in
set_option maxHeartbeats 2000000 in
/-- C11, witness: the file with `e_lfanew = 0x42` is loaded by a Windows 10 loader, and the
loader error afterwards is `LDR_ERROR_E_LFANEW_UNALIGNED`. -/
theorem Load_bad_e_lfanew_flagged_witness :
    ∃ r, Load (ImageLoader.new 0xA0) unalignedPe64 false = some r ∧
      r.2.1.ldrError = LoaderError.LDR_ERROR_E_LFANEW_UNALIGNED ∧
      isImageLoadable r.2.1 = false :=
  have h := Load_bad_e_lfanew_flagged 0xA0 unalignedPe64 false (by decide) (by decide)
    (Or.inl (by decide))
  (h.2 (Or.inr (by decide))).elim fun r hr => ⟨r, hr, h.1 r hr⟩

set_option maxRecDepth 100000 in
set_option maxHeartbeats 2000000 in
/-- C11, counterexample: `unalignedPe64` has the DOS signature and `e_lfanew = 0x42`, which is
not 4-byte aligned, and `outOfFilePe` has the DOS signature and `e_lfanew = 0x100` beyond its
80 bytes; `Load` on a Windows 10 loader returns `ERROR_NONE` for both, the condition being
only recorded as the loader error. -/
theorem Load_bad_e_lfanew_returns_ERROR_NONE :
    (dosHeaderOf unalignedPe64).e_magic = PELIB_IMAGE_DOS_SIGNATURE ∧
      (dosHeaderOf unalignedPe64).e_lfanew &&& 3 ≠ 0 ∧
      (Load (ImageLoader.new 0xA0) unalignedPe64 false).map (fun r => (r.1, r.2.1.ldrError)) =
        some (FileError.ERROR_NONE, LoaderError.LDR_ERROR_E_LFANEW_UNALIGNED) ∧
      (dosHeaderOf outOfFilePe).e_magic = PELIB_IMAGE_DOS_SIGNATURE ∧
      outOfFilePe.length < (dosHeaderOf outOfFilePe).e_lfanew ∧
      (Load (ImageLoader.new 0xA0) outOfFilePe false).map (fun r => (r.1, r.2.1.ldrError)) =
        some (FileError.ERROR_NONE, LoaderError.LDR_ERROR_E_LFANEW_OUT_OF_FILE) := by
  refine ⟨by decide, by decide, by rfl, by decide, by decide, by rfl⟩

/-! ### The page table and the section table across the capture steps -/

theorem untouched_refl (a : ImageLoader) : Untouched a a := ⟨rfl, rfl, rfl⟩

theorem untouched_trans {a b c : ImageLoader} (h1 : Untouched a b) (h2 : Untouched b c) :
    Untouched a c :=
  ⟨h2.1.trans h1.1, h2.2.1.trans h1.2.1, h2.2.2.trans h1.2.2⟩

theorem sameImage_refl (a : ImageLoader) : SameImage a a := ⟨rfl, rfl⟩

theorem sameImage_trans {a b c : ImageLoader} (h1 : SameImage a b) (h2 : SameImage b c) :
    SameImage a c :=
  ⟨h2.1.trans h1.1, h2.2.trans h1.2⟩

theorem Untouched.sameImage {a b : ImageLoader} (h : Untouched a b) : SameImage a b :=
  ⟨h.1, h.2.1⟩

theorem untouched_setLoaderError (self : ImageLoader) (e : LoaderError) :
    Untouched self (setLoaderError self e).2 := by
  rw [setLoaderError_eq]
  exact ⟨rfl, rfl, rfl⟩

theorem untouched_setLoaderErrorIf (c : Bool) (e : LoaderError) (self : ImageLoader) :
    Untouched self (setLoaderErrorIf c e self) := by
  rw [setLoaderErrorIf_eq]
  exact ⟨rfl, rfl, rfl⟩

theorem untouched_captureDosHeader (self : ImageLoader) (fileData : List Nat) :
    Untouched self (captureDosHeader self fileData).2 := by
  unfold captureDosHeader verifyDosHeader
  simp only []
  split_ifs
  all_goals first
    | exact untouched_refl _
    | exact untouched_trans (b := { self with dosHeader := _ }) ⟨rfl, rfl, rfl⟩
        (untouched_setLoaderError _ _)

theorem untouched_verifyNtHeaders (self : ImageLoader) :
    Untouched self (verifyNtHeaders self) := by
  unfold verifyNtHeaders
  repeat (first | refine untouched_trans ?_ (untouched_setLoaderErrorIf _ _ _)
                | exact untouched_refl _)

theorem untouched_captureFileHeader (self : ImageLoader) (fileData : List Nat) (filePtr : Nat) :
    Untouched self (captureFileHeader self fileData filePtr) := by
  unfold captureFileHeader
  simp only []
  repeat (first | refine untouched_trans ?_ (untouched_setLoaderErrorIf _ _ _)
                | exact ⟨rfl, rfl, rfl⟩)

theorem untouched_captureOptionalHeader (self : ImageLoader) (fileData : List Nat)
    (filePtr : Nat) (r : FileError × ImageLoader)
    (h : captureOptionalHeader self fileData filePtr = some r) : Untouched self r.2 := by
  unfold captureOptionalHeader captureOptionalHeader64 captureOptionalHeader32 at h
  simp only [] at h
  split_ifs at h <;> simp only [Option.some.injEq] at h <;> rw [← h]
  all_goals first
    | exact untouched_setLoaderError _ _
    | exact ⟨rfl, rfl, rfl⟩
    | exact untouched_trans (untouched_setLoaderErrorIf _ _ _) ⟨rfl, rfl, rfl⟩

theorem untouched_captureNtHeaders (self : ImageLoader) (fileData : List Nat)
    (r : FileError × ImageLoader) (h : captureNtHeaders self fileData = some r) :
    Untouched self r.2 := by
  unfold captureNtHeaders at h
  simp only [] at h
  split_ifs at h with h1 h2 h3
  · simp only [Option.some.injEq] at h
    rw [← h]
    exact untouched_setLoaderError _ _
  · simp only [Option.some.injEq] at h
    rw [← h]
    exact untouched_setLoaderError _ _
  · simp only [Option.some.injEq] at h
    rw [← h]
    have h0 := untouched_setLoaderError
      { self with ntSignature := readLE fileData self.dosHeader.e_lfanew 4 }
      LoaderError.LDR_ERROR_NO_NT_SIGNATURE
    exact ⟨h0.1, h0.2.1, h0.2.2⟩
  · split at h
    · exact absurd h (by simp)
    · rename_i e captured hcap
      simp only [Option.some.injEq] at h
      rw [← h]
      have hf := untouched_captureFileHeader
        { self with ntSignature := readLE fileData self.dosHeader.e_lfanew 4 } fileData
        (self.dosHeader.e_lfanew + 4)
      have ho := untouched_trans (untouched_captureOptionalHeader _ _ _ _ hcap)
        (untouched_verifyNtHeaders captured)
      have := untouched_trans hf ho
      exact ⟨this.1, this.2.1, this.2.2⟩

theorem sameImage_setLoaderErrorIf (c : Bool) (e : LoaderError) (self : ImageLoader) :
    SameImage self (setLoaderErrorIf c e self) :=
  (untouched_setLoaderErrorIf c e self).sameImage

theorem sameImage_verify (i : Nat) (cap : SectionCapture) (sectHdr : PELIB_SECTION_HEADER) :
    SameImage cap.loader (captureSectionHeaders.verify i cap sectHdr) := by
  unfold captureSectionHeaders.verify
  simp only []
  split_ifs <;>
    repeat (first | refine sameImage_trans ?_ (sameImage_setLoaderErrorIf _ _ _)
                  | exact sameImage_refl _)

theorem sameImage_body (i : Nat) (cap : SectionCapture) :
    SameImage cap.loader (captureSectionHeaders.body i cap).loader := by
  have h := sameImage_verify i cap
    (decodeSectionHeader (copyFrom cap.fileData cap.filePtr sizeof_PELIB_IMAGE_SECTION_HEADER))
  exact ⟨h.1, h.2⟩

theorem sameImage_loop (remaining : Nat) :
    ∀ (i : Nat) (cap : SectionCapture),
      SameImage cap.loader (captureSectionHeaders.loop remaining i cap).loader := by
  induction remaining with
  | zero => intro i cap; exact sameImage_refl _
  | succ n ih =>
    intro i cap
    unfold captureSectionHeaders.loop
    split_ifs
    · exact sameImage_refl _
    · exact sameImage_trans (sameImage_body i cap) (ih _ _)

theorem sameImage_cutFile (self : ImageLoader) (fileEnd : Nat) :
    SameImage self (captureSectionHeaders.cutFile self fileEnd) := by
  unfold captureSectionHeaders.cutFile
  simp only []
  split_ifs
  · split
    · split_ifs <;> exact (untouched_setLoaderError _ _).sameImage
    · exact (untouched_setLoaderError _ _).sameImage
  · exact (untouched_setLoaderError _ _).sameImage

theorem sameImage_init (self : ImageLoader) (fileData : List Nat) (filePtr : Nat) :
    SameImage self (captureSectionHeaders.init self fileData filePtr).loader := by
  unfold captureSectionHeaders.init
  simp only []
  split_ifs
  · exact sameImage_trans (sameImage_setLoaderErrorIf _ _ _) (sameImage_setLoaderErrorIf _ _ _)
  · exact sameImage_refl _

theorem sameImage_finish (cap : SectionCapture) (fileEnd : Nat) :
    SameImage cap.loader (captureSectionHeaders.finish cap fileEnd) := by
  unfold captureSectionHeaders.finish
  simp only []
  by_cases hb : cap.bRawDataBeyondEOF = true
  · rw [if_pos hb]
    exact sameImage_trans (sameImage_setLoaderErrorIf _ _ _) (sameImage_cutFile _ _)
  · rw [if_neg hb]
    exact sameImage_setLoaderErrorIf _ _ _

theorem sameImage_captureSectionHeaders (self : ImageLoader) (fileData : List Nat) :
    SameImage self (captureSectionHeaders self fileData).2.1 := by
  unfold captureSectionHeaders
  simp only []
  split_ifs
  · exact (untouched_setLoaderError _ _).sameImage
  · exact sameImage_trans (sameImage_trans (sameImage_init _ _ _) (sameImage_loop _ _ _))
      (sameImage_finish _ _)

theorem resizePages_length (pages : List PELIB_FILE_PAGE) (n : Nat) :
    (resizePages pages n).length = n := by
  unfold resizePages
  simp only [List.length_append, List.length_take, List.length_replicate]
  omega

theorem dataPages_length (fileData : List Nat) (rawDataEnd sizeOfInitializedPages : Nat) :
    ∀ (pages : List PELIB_FILE_PAGE) (rawDataPtr pageOffset : Nat)
      (r : List PELIB_FILE_PAGE × List PELIB_FILE_PAGE × Nat),
      captureImageSection.dataPages fileData rawDataEnd sizeOfInitializedPages pages rawDataPtr
        pageOffset = some r → r.1.length + r.2.1.length = pages.length := by
  intro pages
  induction pages with
  | nil =>
    intro rawDataPtr pageOffset r h
    unfold captureImageSection.dataPages at h
    split_ifs at h
    simp only [Option.some.injEq] at h
    rw [← h]
    rfl
  | cons page rest ih =>
    intro rawDataPtr pageOffset r h
    unfold captureImageSection.dataPages at h
    by_cases hlt : pageOffset < sizeOfInitializedPages
    · rw [if_pos hlt] at h
      simp only [] at h
      by_cases hin : rawDataPtr < fileData.length
      · rw [if_pos hin] at h
        split_ifs at h
        all_goals
          split at h
          · exact absurd h (by simp)
          · rename_i filled after po hrec
            simp only [Option.some.injEq] at h
            rw [← h]
            have := ih _ _ _ hrec
            simp only [List.length_cons] at this ⊢
            omega
      · rw [if_neg hin] at h
        split at h
        · exact absurd h (by simp)
        · rename_i filled after po hrec
          simp only [Option.some.injEq] at h
          rw [← h]
          have := ih _ _ _ hrec
          simp only [List.length_cons] at this ⊢
          omega
    · rw [if_neg hlt] at h
      simp only [Option.some.injEq] at h
      rw [← h]
      simp

theorem zeroPages_length (sizeOfValidPages : Nat) :
    ∀ (pages : List PELIB_FILE_PAGE) (pageOffset : Nat) (r : List PELIB_FILE_PAGE),
      captureImageSection.zeroPages sizeOfValidPages pages pageOffset = some r →
        r.length = pages.length := by
  intro pages
  induction pages with
  | nil =>
    intro pageOffset r h
    unfold captureImageSection.zeroPages at h
    split_ifs at h
    simp only [Option.some.injEq] at h
    rw [← h]
  | cons page rest ih =>
    intro pageOffset r h
    unfold captureImageSection.zeroPages at h
    split_ifs at h
    · split at h
      · exact absurd h (by simp)
      · rename_i rest' hrec
        simp only [Option.some.injEq] at h
        rw [← h]
        simp only [List.length_cons, ih _ _ hrec]
    · simp only [Option.some.injEq] at h
      rw [← h]

/-- The mapping of one section leaves the number of pages alone. -/
theorem captureImageSection_run_length (optionalHeader : PELIB_IMAGE_OPTIONAL_HEADER)
    (pages : List PELIB_FILE_PAGE) (fileData : List Nat) (va vs p sr ch : Nat) (hdr : Bool)
    (r : Nat × List PELIB_FILE_PAGE)
    (h : captureImageSection.run optionalHeader pages fileData va vs p sr ch hdr = some r) :
    r.2.length = pages.length := by
  unfold captureImageSection.run at h
  simp only [] at h
  by_cases hprot : getImageProtection ch ≠ PELIB_PAGE_NOACCESS
  · rw [if_pos hprot] at h
    split at h
    · exact absurd h (by simp)
    · rename_i filled after po hfill
      split at h
      · exact absurd h (by simp)
      · rename_i after' hzero
        simp only [Option.some.injEq] at h
        rw [← h]
        have h2 := zeroPages_length _ _ _ _ hzero
        have h1 : filled.length + after.length = (pages.drop (va / PELIB_PAGE_SIZE)).length := by
          by_cases hraw : p ≠ 0 ∨ hdr = true
          · rw [if_pos hraw] at hfill
            exact dataPages_length _ _ _ _ _ _ _ hfill
          · rw [if_neg hraw] at hfill
            simp only [Option.some.injEq, Prod.mk.injEq] at hfill
            rw [← hfill.1, ← hfill.2.1]
            simp
        simp only [List.length_append, List.length_take, List.length_drop] at h1 ⊢
        omega
  · rw [if_neg hprot] at h
    simp only [Option.some.injEq] at h
    rw [← h]

theorem captureImageSection_length (self : ImageLoader) (fileData : List Nat)
    (va vs p sr ch : Nat) (hdr : Bool) (r : Nat × ImageLoader)
    (h : captureImageSection self fileData va vs p sr ch hdr = some r) :
    r.2.pages.length = self.pages.length := by
  unfold captureImageSection at h
  split at h
  · exact absurd h (by simp)
  · rename_i va' pages' hrun
    simp only [Option.some.injEq] at h
    rw [← h]
    exact captureImageSection_run_length _ _ _ _ _ _ _ _ _ _ hrun

theorem captureImageSections_loop_length (fileData : List Nat) :
    ∀ (sections : List PELIB_SECTION_HEADER) (self r : ImageLoader),
      captureImageSections.loop fileData sections self = some r →
        r.pages.length = self.pages.length := by
  intro sections
  induction sections with
  | nil =>
    intro self r h
    simp only [captureImageSections.loop, Option.some.injEq] at h
    rw [← h]
  | cons S rest ih =>
    intro self r h
    unfold captureImageSections.loop at h
    split at h
    · exact absurd h (by simp)
    · rename_i va self' hcap
      have h1 := captureImageSection_length _ _ _ _ _ _ _ _ _ hcap
      split_ifs at h
      · simp only [Option.some.injEq] at h
        rw [← h, ← h1]
        exact congrArg List.length (untouched_setLoaderError _ _).1
      · rw [ih _ _ h, h1]

/-- The page table after `captureImageSections` of an image with
`SectionAlignment >= PELIB_PAGE_SIZE` has `AlignToSize(SizeOfImage, PELIB_PAGE_SIZE) /
PELIB_PAGE_SIZE` pages. -/
theorem captureImageSections_length (self : ImageLoader) (fileData : List Nat)
    (r : FileError × ImageLoader) (h : captureImageSections self fileData = some r)
    (hSA : self.optionalHeader.SectionAlignment ≥ PELIB_PAGE_SIZE) :
    r.2.pages.length =
      AlignToSize self.optionalHeader.SizeOfImage PELIB_PAGE_SIZE / PELIB_PAGE_SIZE := by
  unfold captureImageSections at h
  simp only [] at h
  rw [if_pos hSA] at h
  split at h
  · exact absurd h (by simp)
  · rename_i va self' hcap
    have h1 := captureImageSection_length _ _ _ _ _ _ _ _ _ hcap
    simp only [resizePages_length] at h1
    by_cases hva : va = 0
    · rw [if_pos hva] at h
      simp only [Option.some.injEq] at h
      rw [← h]; exact h1
    · rw [if_neg hva] at h
      by_cases hsec : self'.sections.length ≠ 0
      · rw [if_pos hsec] at h
        split at h
        · exact absurd h (by simp)
        · rename_i self'' hloop
          simp only [Option.some.injEq] at h
          rw [← h]
          exact (captureImageSections_loop_length _ _ _ _ hloop).trans h1
      · rw [if_neg hsec] at h
        simp only [Option.some.injEq] at h
        rw [← h, ← h1]
        exact congrArg List.length (untouched_setLoaderErrorIf _ _ _).1

/-! ### The steps of `Load` -/

theorem captureSectionHeaders_status (self : ImageLoader) (fileData : List Nat) :
    (captureSectionHeaders self fileData).1 = FileError.ERROR_NONE := by
  unfold captureSectionHeaders
  simp only []
  split_ifs
  · unfold setLoaderError
    split_ifs <;> rfl
  · rfl

/-- The steps of a `Load` that maps the image: either a header capture failed and `Load`
returned its status, the page table, the raw buffer and the section table being as before;
or both header captures returned `ERROR_NONE`, the section headers were captured into `s3`,
the image was mapped into `s4` when `s3` was loadable, and the file was retained as the raw
buffer when `s4` has no pages. -/
theorem Load_cases (self loader : ImageLoader) (fileData fd' : List Nat) (e : FileError)
    (h : Load self fileData false = some (e, loader, fd')) :
    (e ≠ FileError.ERROR_NONE ∧ Untouched self loader) ∨
      ∃ headers s3 s4 e4,
        captureNtHeaders (captureDosHeader self fileData).2 fileData =
          some (FileError.ERROR_NONE, headers) ∧
        captureSectionHeaders headers fileData = (FileError.ERROR_NONE, s3, fd') ∧
        ((isImageLoadable s3 = true ∧ captureImageSections s3 fd' = some (e4, s4)) ∨
          (isImageLoadable s3 = false ∧ s4 = s3 ∧ e4 = FileError.ERROR_NONE)) ∧
        (s4.pages.length = 0 →
          e = FileError.ERROR_NONE ∧ loader = { s4 with rawFileData := fd' }) ∧
        (s4.pages.length ≠ 0 → e = e4 ∧ loader = s4) := by
  unfold Load at h
  simp only [] at h
  by_cases h1 : (captureDosHeader self fileData).1 ≠ FileError.ERROR_NONE
  · rw [if_pos h1] at h
    simp only [Option.some.injEq, Prod.mk.injEq] at h
    left
    rw [← h.1, ← h.2.1]
    exact ⟨h1, untouched_captureDosHeader _ _⟩
  · rw [if_neg h1] at h
    split at h
    · exact absurd h (by simp)
    · rename_i e2 s2 hnt
      have hu2 := untouched_trans (untouched_captureDosHeader self fileData)
        (untouched_captureNtHeaders _ _ _ hnt)
      by_cases h2 : e2 ≠ FileError.ERROR_NONE
      · rw [if_pos h2] at h
        simp only [Option.some.injEq, Prod.mk.injEq] at h
        left
        rw [← h.1, ← h.2.1]
        exact ⟨h2, hu2⟩
      · rw [if_neg h2] at h
        have he2 : e2 = FileError.ERROR_NONE := not_not.mp h2
        have hst := captureSectionHeaders_status s2 fileData
        rw [if_neg (not_not.mpr hst)] at h
        simp only [if_true] at h
        right
        by_cases hl : isImageLoadable (captureSectionHeaders s2 fileData).2.1 = true
        · rw [if_pos hl] at h
          split at h
          · exact absurd h (by simp)
          · rename_i e4 s4 hmap
            by_cases hp : s4.pages.length = 0
            · rw [if_pos hp] at h
              simp only [Option.some.injEq, Prod.mk.injEq, loadImageAsIs] at h
              refine ⟨s2, (captureSectionHeaders s2 fileData).2.1, s4, e4, by rw [hnt, he2], ?_,
                Or.inl ⟨hl, by rw [← h.2.2]; exact hmap⟩, fun _ => ⟨h.1.symm, ?_⟩,
                fun hn => absurd hp hn⟩
              · rw [← h.2.2, ← hst]
              · rw [← h.2.1, ← h.2.2]
            · rw [if_neg hp] at h
              simp only [Option.some.injEq, Prod.mk.injEq] at h
              refine ⟨s2, (captureSectionHeaders s2 fileData).2.1, s4, e4, by rw [hnt, he2], ?_,
                Or.inl ⟨hl, by rw [← h.2.2]; exact hmap⟩, fun h0 => absurd h0 hp,
                fun _ => ⟨h.1.symm, h.2.1.symm⟩⟩
              rw [← h.2.2, ← hst]
        · rw [if_neg hl] at h
          simp only [] at h
          by_cases hp : (captureSectionHeaders s2 fileData).2.1.pages.length = 0
          · rw [if_pos hp] at h
            simp only [Option.some.injEq, Prod.mk.injEq, loadImageAsIs] at h
            refine ⟨s2, (captureSectionHeaders s2 fileData).2.1, _, FileError.ERROR_NONE,
              by rw [hnt, he2], ?_,
              Or.inr ⟨by simpa using hl, rfl, rfl⟩, fun _ => ⟨h.1.symm, ?_⟩,
              fun hn => absurd hp hn⟩
            · rw [← h.2.2, ← hst]
            · rw [← h.2.1, ← h.2.2]
          · rw [if_neg hp] at h
            simp only [Option.some.injEq, Prod.mk.injEq] at h
            refine ⟨s2, (captureSectionHeaders s2 fileData).2.1, _, FileError.ERROR_NONE,
              by rw [hnt, he2], ?_,
              Or.inr ⟨by simpa using hl, rfl, rfl⟩, fun h0 => absurd h0 hp,
              fun _ => ⟨?_, h.2.1.symm⟩⟩
            · rw [← h.2.2, ← hst]
            · rw [← h.1, hst]

/-! ### The mapping of the header and of one section with raw data -/

theorem dataPages_done (fileData : List Nat) (rawDataEnd sizeOfInitializedPages : Nat)
    (pages : List PELIB_FILE_PAGE) (rawDataPtr pageOffset : Nat)
    (h : sizeOfInitializedPages ≤ pageOffset) :
    captureImageSection.dataPages fileData rawDataEnd sizeOfInitializedPages pages rawDataPtr
      pageOffset = some ([], pages, pageOffset) := by
  cases pages with
  | nil =>
    unfold captureImageSection.dataPages
    rw [if_neg (by omega)]
  | cons page rest =>
    unfold captureImageSection.dataPages
    rw [if_neg (by omega)]

theorem zeroPages_done (sizeOfValidPages : Nat) (pages : List PELIB_FILE_PAGE)
    (pageOffset : Nat) (h : sizeOfValidPages ≤ pageOffset) :
    captureImageSection.zeroPages sizeOfValidPages pages pageOffset = some pages := by
  cases pages with
  | nil =>
    unfold captureImageSection.zeroPages
    rw [if_neg (by omega)]
  | cons page rest =>
    unfold captureImageSection.zeroPages
    rw [if_neg (by omega)]

/-- The data loop fills one page with the `n` bytes of raw data that lie inside the file. -/
theorem dataPages_one (fileData : List Nat) (rawDataEnd rawDataPtr n : Nat)
    (page : PELIB_FILE_PAGE) (rest : List PELIB_FILE_PAGE)
    (hend : rawDataEnd = rawDataPtr + n) (hn : n ≤ 4096) (hpos : rawDataPtr < fileData.length)
    (hin : rawDataPtr + n ≤ fileData.length) :
    captureImageSection.dataPages fileData rawDataEnd 0x1000 (page :: rest) rawDataPtr 0 =
      some ([page.setValidPage (copyFrom fileData rawDataPtr n)], rest, 0x1000) := by
  unfold captureImageSection.dataPages
  rw [if_pos (by norm_num)]
  simp only []
  rw [if_pos hpos, dataPages_done _ _ _ _ _ _ (by decide)]
  simp only [PELIB_PAGE_SIZE]
  have hb : ((if ((rawDataPtr : Int) +
        (if (rawDataPtr : Int) + (4096 : Nat) > (fileData.length : Int) then
          (fileData.length : Int) - (rawDataPtr : Int) else (4096 : Nat)) > (rawDataEnd : Int))
      then (rawDataEnd : Int) - (rawDataPtr : Int)
      else (if (rawDataPtr : Int) + (4096 : Nat) > (fileData.length : Int) then
          (fileData.length : Int) - (rawDataPtr : Int) else (4096 : Nat))) : Int) = (n : Int) := by
    split_ifs <;> omega
  rw [hb]
  rw [if_neg (by omega)]
  simp only [Int.toNat_ofNat]
  rfl

/-- A page that was filled with `n` bytes reads as these bytes followed by zeros. -/
theorem setValidPage_buffer (page : PELIB_FILE_PAGE) (fileData : List Nat) (pos n : Nat)
    (hn : n ≤ 4096) (hin : pos + n ≤ fileData.length) :
    (page.setValidPage (copyFrom fileData pos n)).buffer =
      copyFrom fileData pos n ++ List.replicate (4096 - n) 0 := by
  have hl : (copyFrom fileData pos n).length = n := by
    unfold copyFrom
    rw [List.length_take, List.length_drop]
    omega
  unfold PELIB_FILE_PAGE.setValidPage
  simp only [PELIB_PAGE_SIZE, hl]
  rw [List.take_of_length_le (by omega)]

/-- A section with the read flag is not mapped as `PAGE_NOACCESS`. -/
theorem getImageProtection_readable (characteristics : Nat)
    (h : characteristics &&& PELIB_IMAGE_SCN_MEM_READ ≠ 0) :
    getImageProtection characteristics ≠ PELIB_PAGE_NOACCESS := by
  unfold getImageProtection
  simp only []
  rw [if_pos h]
  split_ifs <;> decide

theorem run_header_example (optionalHeader : PELIB_IMAGE_OPTIONAL_HEADER)
    (hSA : optionalHeader.SectionAlignment = 0x1000) (p0 p1 : PELIB_FILE_PAGE)
    (fileData : List Nat) (hlen : 0x600 ≤ fileData.length) :
    captureImageSection.run optionalHeader [p0, p1] fileData 0 0x400 0 0x400
        PELIB_IMAGE_SCN_MEM_READ true =
      some (0x1000, [p0.setValidPage (copyFrom fileData 0 0x400), p1]) := by
  have a1 : AlignToSize 0x400 PELIB_PAGE_SIZE = 0x1000 := by decide
  have a2 : AlignToSize 0x1000 PELIB_PAGE_SIZE = 0x1000 := by decide
  have a3 : AlignToSize 0x1000 optionalHeader.SectionAlignment = 0x1000 := by rw [hSA]; decide
  have a4 : (0 : Nat) &&& not32 (PELIB_SECTOR_SIZE - 1) = 0 := by decide
  have a5 : getImageProtection PELIB_IMAGE_SCN_MEM_READ ≠ PELIB_PAGE_NOACCESS := by decide
  have a6 : ¬ ((0x400 : Nat) = 0) := by decide
  have a7 : ¬ ((0x400 : Nat) > 0x1000) := by decide
  have a8 : (0 : Nat) / PELIB_PAGE_SIZE = 0 := by decide
  have a9 : u32 (0 + 0x1000) = 0x1000 := by decide
  unfold captureImageSection.run
  simp only [if_neg a6, a1, if_neg a7, a2, a3, a4, a8, List.drop_zero, List.take_zero,
    List.nil_append, a9]
  rw [if_pos a5]
  simp only [or_true, if_true, Bool.true_eq_false, if_false]
  rw [dataPages_one fileData (0 + 0x400) 0 0x400 p0 [p1] rfl (by decide) (by omega) (by omega)]
  simp only []
  rw [zeroPages_done _ _ _ (by decide)]
  rfl

theorem run_section_example (optionalHeader : PELIB_IMAGE_OPTIONAL_HEADER)
    (hSA : optionalHeader.SectionAlignment = 0x1000)
    (hFA : optionalHeader.FileAlignment = 0x200) (p0 p1 : PELIB_FILE_PAGE)
    (fileData : List Nat) (hlen : 0x600 ≤ fileData.length) (characteristics : Nat)
    (hread : characteristics &&& PELIB_IMAGE_SCN_MEM_READ ≠ 0) :
    captureImageSection.run optionalHeader [p0, p1] fileData 0x1000 0x50 0x400 0x200
        characteristics false =
      some (0x2000, [p0, p1.setValidPage (copyFrom fileData 0x400 0x200)]) := by
  have a1 : AlignToSize 0x50 PELIB_PAGE_SIZE = 0x1000 := by decide
  have a2 : AlignToSize 0x1000 PELIB_PAGE_SIZE = 0x1000 := by decide
  have a3 : AlignToSize 0x1000 optionalHeader.SectionAlignment = 0x1000 := by rw [hSA]; decide
  have a4 : (0x400 : Nat) &&& not32 (PELIB_SECTOR_SIZE - 1) = 0x400 := by decide
  have a5 := getImageProtection_readable characteristics hread
  have a6 : ¬ ((0x50 : Nat) = 0) := by decide
  have a7 : ¬ ((0x200 : Nat) > 0x1000) := by decide
  have a8 : (0x1000 : Nat) / PELIB_PAGE_SIZE = 1 := by decide
  have a9 : u32 (0x1000 + 0x1000) = 0x2000 := by decide
  have a10 : AlignToSize 0x200 PELIB_PAGE_SIZE = 0x1000 := by decide
  have a11 : AlignToSize (u32 (0x400 + 0x200)) optionalHeader.FileAlignment = 0x600 := by
    rw [hFA]; decide
  unfold captureImageSection.run
  simp only [if_neg a6, a1, if_neg a7, a2, a3, a4, a8, a9, a10, a11]
  rw [if_pos a5, if_pos (Or.inl (by decide))]
  have hd : List.drop 1 [p0, p1] = [p1] := rfl
  simp only [if_true]
  rw [hd, dataPages_one fileData 0x600 0x400 0x200 p1 [] rfl (by decide) (by omega) (by omega)]
  simp only []
  rw [zeroPages_done _ _ _ (by decide)]
  rfl

theorem resizePages_two (pages : List PELIB_FILE_PAGE) :
    ∃ p0 p1, resizePages pages 2 = [p0, p1] := by
  have h := resizePages_length pages 2
  match hr : resizePages pages 2, h with
  | [p0, p1], _ => exact ⟨p0, p1, rfl⟩

/-- The mapping of the image of the example: the header of `0x400` bytes and one readable
section with `0x200` bytes of raw data at file offset `0x400`, on a loader to which the
Windows XP rule for the size of the header does not apply. -/
theorem captureImageSections_example (self : ImageLoader) (fileData : List Nat)
    (S : PELIB_SECTION_HEADER)
    (hSA : self.optionalHeader.SectionAlignment = 0x1000)
    (hFA : self.optionalHeader.FileAlignment = 0x200)
    (hSH : self.optionalHeader.SizeOfHeaders = 0x400)
    (hSI : self.optionalHeader.SizeOfImage = 0x2000)
    (hsec : self.sections = [S])
    (hVA : S.VirtualAddress = 0x1000) (hVS : S.VirtualSize = 0x50)
    (hP : S.PointerToRawData = 0x400) (hR : S.SizeOfRawData = 0x200)
    (hread : S.Characteristics &&& PELIB_IMAGE_SCN_MEM_READ ≠ 0)
    (hlen : 0x600 ≤ fileData.length)
    (hxp : ¬ (self.headerSizeCheck = true ∧
      checkForSectionTablesWithinHeader self self.dosHeader.e_lfanew = true)) :
    (captureImageSections self fileData).map
        (fun r => (r.1, r.2.pages.map fun page => page.buffer)) =
      some (FileError.ERROR_NONE,
        [copyFrom fileData 0 0x400 ++ List.replicate 0xC00 0,
         copyFrom fileData 0x400 0x200 ++ List.replicate 0xE00 0]) := by
  obtain ⟨p0, p1, hp⟩ := resizePages_two self.pages
  have hSA' : self.optionalHeader.SectionAlignment ≥ PELIB_PAGE_SIZE := by rw [hSA]; decide
  have hn : AlignToSize 0x2000 PELIB_PAGE_SIZE / PELIB_PAGE_SIZE = 2 := by decide
  have hxp' : ¬ (({ self with pages := [p0, p1] } : ImageLoader).headerSizeCheck = true ∧
      checkForSectionTablesWithinHeader ({ self with pages := [p0, p1] } : ImageLoader)
        ({ self with pages := [p0, p1] } : ImageLoader).dosHeader.e_lfanew = true) := hxp
  unfold captureImageSections
  simp only []
  rw [if_pos hSA', hSI, hn, hp, if_neg hxp', hSH]
  simp only [captureImageSection, run_header_example self.optionalHeader hSA p0 p1 fileData hlen]
  rw [if_neg (by decide)]
  simp only [hsec, List.length_singleton, ne_eq, one_ne_zero, not_false_eq_true, if_true,
    captureImageSections.loop, hVA, hVS, hP, hR, captureImageSection,
    run_section_example self.optionalHeader hSA hFA _ p1 fileData hlen _ hread]
  rw [if_neg (by decide)]
  simp only [Option.map_some', List.map_cons, List.map_nil]
  rw [setValidPage_buffer _ _ _ _ (by decide) (by omega),
    setValidPage_buffer _ _ _ _ (by decide) (by omega)]

set_option maxRecDepth 4096 in
/-- When the cascade of `verifyNtHeaders` ends without a loader error, `SizeOfImage` is not
above the largest image size. -/
theorem verifyNtHeaders_sizeOfImage (self : ImageLoader)
    (h : (verifyNtHeaders self).ldrError = LoaderError.LDR_ERROR_NONE) :
    self.optionalHeader.SizeOfImage ≤ PELIB_MM_SIZE_OF_LARGEST_IMAGE := by
  unfold verifyNtHeaders at h
  obtain ⟨h, _⟩ := setLoaderErrorIf_ldrError_none _ _ _ (by decide) h
  obtain ⟨h, _⟩ := setLoaderErrorIf_ldrError_none _ _ _ (by decide) h
  obtain ⟨h, _⟩ := setLoaderErrorIf_ldrError_none _ _ _ (by decide) h
  obtain ⟨h, _⟩ := setLoaderErrorIf_ldrError_none _ _ _ (by decide) h
  obtain ⟨h, _⟩ := setLoaderErrorIf_ldrError_none _ _ _ (by decide) h
  obtain ⟨h, _⟩ := setLoaderErrorIf_ldrError_none _ _ _ (by decide) h
  obtain ⟨h, c9⟩ := setLoaderErrorIf_ldrError_none _ _ _ (by decide) h
  simpa using c9

theorem notCut_captureOptionalHeader (self : ImageLoader) (fileData : List Nat) (filePtr : Nat)
    (r : FileError × ImageLoader) (h : captureOptionalHeader self fileData filePtr = some r)
    (hc : NotCut self) : NotCut r.2 := by
  unfold captureOptionalHeader captureOptionalHeader64 captureOptionalHeader32 at h
  simp only [] at h
  split_ifs at h <;> simp only [Option.some.injEq] at h <;> rw [← h]
  all_goals first
    | exact notCut_setLoaderError _ _ (by decide) hc
    | exact hc
    | exact notCut_setLoaderErrorIf _ _ _ (by decide) hc

/-- What `captureNtHeaders` leaves behind: it never records "file is cut but loadable", and
when it returns `ERROR_NONE` without a loader error `SizeOfImage` is not above the largest
image size. -/
theorem captureNtHeaders_checked (self : ImageLoader) (fileData : List Nat)
    (r : FileError × ImageLoader) (h : captureNtHeaders self fileData = some r) :
    (NotCut self → NotCut r.2) ∧
      (r.1 = FileError.ERROR_NONE → r.2.ldrError = LoaderError.LDR_ERROR_NONE →
        r.2.optionalHeader.SizeOfImage ≤ PELIB_MM_SIZE_OF_LARGEST_IMAGE) := by
  unfold captureNtHeaders at h
  simp only [] at h
  split_ifs at h with h1 h2 h3
  · simp only [Option.some.injEq] at h
    rw [← h]
    exact ⟨notCut_setLoaderError _ _ (by decide),
      fun _ hn => absurd hn (setLoaderError_ldrError_ne_none _ _ (by decide))⟩
  · simp only [Option.some.injEq] at h
    rw [← h]
    exact ⟨notCut_setLoaderError _ _ (by decide), fun he => by simp at he⟩
  · simp only [Option.some.injEq] at h
    rw [← h]
    exact ⟨fun hc => notCut_setLoaderError _ _ (by decide) hc, fun he => by simp at he⟩
  · split at h
    · exact absurd h (by simp)
    · rename_i e captured hcap
      simp only [Option.some.injEq] at h
      rw [← h]
      refine ⟨fun hc => notCut_verifyNtHeaders _
        (notCut_captureOptionalHeader _ _ _ _ hcap (notCut_captureFileHeader _ _ _ hc)),
        fun _ hn => ?_⟩
      rw [(verifyNtHeaders_keeps captured).1]
      exact verifyNtHeaders_sizeOfImage _ hn

/-- The headers of an image that `Load` on a fresh loader returns as loadable: the capture
of the NT headers recorded no loader error. -/
theorem Load_loadable_headers (loaderFlags : Nat) (fileData fd' : List Nat)
    (loadHeadersOnly : Bool) (loader : ImageLoader)
    (hload : Load (ImageLoader.new loaderFlags) fileData loadHeadersOnly =
      some (FileError.ERROR_NONE, loader, fd'))
    (hok : isImageLoadable loader = true) :
    ∃ headers,
      captureNtHeaders (captureDosHeader (ImageLoader.new loaderFlags) fileData).2 fileData =
        some (FileError.ERROR_NONE, headers) ∧
      Keeps headers loader ∧ headers.ldrError = LoaderError.LDR_ERROR_NONE := by
  obtain ⟨headers, hnt, hkeep⟩ := Load_steps _ _ _ _ _ hload
  have hfresh : NotCut (ImageLoader.new loaderFlags) := by
    unfold NotCut
    rw [ImageLoader_new_ldrError]
    decide
  have hcut2 : NotCut headers :=
    (captureNtHeaders_checked _ _ _ hnt).1 (notCut_captureDosHeader _ _ hfresh)
  refine ⟨headers, hnt, hkeep, ?_⟩
  by_contra hne
  have hl := hkeep.2 hne
  unfold isImageLoadable at hok
  rw [hl] at hok
  unfold NotCut at hcut2
  simp [hne, hcut2] at hok

/-- The number of pages of a page-aligned image size that does not wrap around. -/
theorem AlignToSize_page_div (x : Nat) (hx : x ≤ PELIB_MM_SIZE_OF_LARGEST_IMAGE) :
    AlignToSize x PELIB_PAGE_SIZE / PELIB_PAGE_SIZE = (x + 4095) / 4096 := by
  unfold PELIB_MM_SIZE_OF_LARGEST_IMAGE at hx
  have h1 : sub32 PELIB_PAGE_SIZE 1 = 2 ^ 12 - 1 := by decide
  have h2 : u32 (x + (2 ^ 12 - 1)) = x + 4095 := by
    unfold u32
    rw [Nat.mod_eq_of_lt (by omega)]
    norm_num
  unfold AlignToSize
  rw [h1, h2, and_not32_mask (x + 4095) 12 (by omega) (by norm_num)]
  simp only [PELIB_PAGE_SIZE]
  omega

/-- The page table of an image that `Load` on a fresh loader returns as loadable with
`SectionAlignment >= PELIB_PAGE_SIZE` has `ceil(SizeOfImage / 4096)` pages. -/
theorem Load_pages_length (loaderFlags : Nat) (fileData fd' : List Nat)
    (loader : ImageLoader)
    (hload : Load (ImageLoader.new loaderFlags) fileData false =
      some (FileError.ERROR_NONE, loader, fd'))
    (hok : isImageLoadable loader = true)
    (hSA : loader.optionalHeader.SectionAlignment ≥ PELIB_PAGE_SIZE) :
    loader.pages.length = (loader.optionalHeader.SizeOfImage + 4095) / 4096 := by
  obtain ⟨headers, hnt, hkeep, hnone⟩ := Load_loadable_headers _ _ _ _ _ hload hok
  have hsize := (captureNtHeaders_checked _ _ _ hnt).2 rfl hnone
  rcases Load_cases _ _ _ _ _ hload with ⟨he, _⟩ | ⟨headers', s3, s4, e4, hnt', hsh, hmap, hraw, hpg⟩
  · exact absurd rfl he
  · rw [hnt] at hnt'
    simp only [Option.some.injEq, Prod.mk.injEq, true_and] at hnt'
    subst hnt'
    have hk3 : Keeps headers s3 := by
      have := keeps_captureSectionHeaders headers fileData
      rw [hsh] at this
      exact this
    have hpages : loader.pages = s4.pages ∧ loader.ldrError = s4.ldrError := by
      by_cases hp : s4.pages.length = 0
      · rw [(hraw hp).2]
        exact ⟨rfl, rfl⟩
      · rw [(hpg hp).2]
        exact ⟨rfl, rfl⟩
    rcases hmap with ⟨_, hcap⟩ | ⟨hbad, hs4, _⟩
    · have hlen := captureImageSections_length _ _ _ hcap
        (by rw [hk3.1, ← hkeep.1]; exact hSA)
      rw [hpages.1, hlen, hk3.1, hkeep.1]
      exact AlignToSize_page_div _ hsize
    · exfalso
      unfold isImageLoadable at hok hbad
      rw [hpages.2, hs4] at hok
      rw [hok] at hbad
      exact absurd hbad (by decide)

/-- C12 (amended): for every image that `Load` on a fresh loader returns as loadable with
`SectionAlignment >= 4096`, the page table has exactly `ceil(SizeOfImage / 4096)` pages.  In
particular an image with `SectionAlignment 0x1000`, `FileAlignment 0x200`,
`SizeOfHeaders 0x400`, `SizeOfImage 0x2000` and one readable section (`VirtualAddress 0x1000`,
`VirtualSize 0x50`, `PointerToRawData 0x400`, `SizeOfRawData 0x200`, wholly inside the file)
is mapped, on a loader to which the Windows XP rule that maps the whole header page does not
apply, into exactly 2 pages: page 0 reads as file bytes `[0, 0x400)` followed by zeros, and
page 1 reads as file bytes `[0x400, 0x600)` followed by zeros up to `0x1000`. -/
theorem Load_section_granular_pages :
    (∀ (loaderFlags : Nat) (fileData fd' : List Nat) (loader : ImageLoader),
      Load (ImageLoader.new loaderFlags) fileData false =
        some (FileError.ERROR_NONE, loader, fd') →
      isImageLoadable loader = true →
      loader.optionalHeader.SectionAlignment ≥ PELIB_PAGE_SIZE →
      loader.pages.length = (loader.optionalHeader.SizeOfImage + 4095) / 4096) ∧
    (∀ (self : ImageLoader) (fileData : List Nat) (S : PELIB_SECTION_HEADER),
      self.optionalHeader.SectionAlignment = 0x1000 →
      self.optionalHeader.FileAlignment = 0x200 →
      self.optionalHeader.SizeOfHeaders = 0x400 →
      self.optionalHeader.SizeOfImage = 0x2000 →
      self.sections = [S] →
      S.VirtualAddress = 0x1000 → S.VirtualSize = 0x50 →
      S.PointerToRawData = 0x400 → S.SizeOfRawData = 0x200 →
      S.Characteristics &&& PELIB_IMAGE_SCN_MEM_READ ≠ 0 →
      0x600 ≤ fileData.length →
      ¬ (self.headerSizeCheck = true ∧
        checkForSectionTablesWithinHeader self self.dosHeader.e_lfanew = true) →
      (captureImageSections self fileData).map
          (fun r => (r.1, r.2.pages.map fun page => page.buffer)) =
        some (FileError.ERROR_NONE,
          [copyFrom fileData 0 0x400 ++ List.replicate 0xC00 0,
           copyFrom fileData 0x400 0x200 ++ List.replicate 0xE00 0])) :=
  ⟨fun loaderFlags fileData fd' loader hload hok hSA =>
      Load_pages_length loaderFlags fileData fd' loader hload hok hSA,
    fun self fileData S hSA hFA hSH hSI hsec hVA hVS hP hR hread hlen hxp =>
      captureImageSections_example self fileData S hSA hFA hSH hSI hsec hVA hVS hP hR hread
        hlen hxp⟩

set_option maxRecDepth 100000 in
set_option maxHeartbeats 4000000 in
/-- C12, witness: the file `textPe64` is loaded by a Windows 10 loader as a
loadable image whose page table has `ceil(SizeOfImage / 4096)` pages, and the mapping of
`textImage` from that file gives the two pages of the example. -/
theorem Load_section_granular_pages_witness :
    textPe64Loaded.pages.length = (textPe64Loaded.optionalHeader.SizeOfImage + 4095) / 4096 ∧
      (captureImageSections textImage textPe64).map
          (fun r => (r.1, r.2.pages.map fun page => page.buffer)) =
        some (FileError.ERROR_NONE,
          [copyFrom textPe64 0 0x400 ++ List.replicate 0xC00 0,
           copyFrom textPe64 0x400 0x200 ++ List.replicate 0xE00 0]) :=
  ⟨Load_section_granular_pages.1 0xA0 textPe64 textPe64
      textPe64Loaded (by decide!) (by decide!) (by decide!),
    Load_section_granular_pages.2 textImage textPe64 readableTextSection
      rfl rfl rfl rfl rfl rfl rfl rfl rfl (by decide) (by decide!) (by decide)⟩

set_option maxRecDepth 100000 in
set_option maxHeartbeats 4000000 in
/-- C12, counterexample: the file `highLfanewPe64` is a 64-bit image with
`SectionAlignment 0x1000`, `FileAlignment 0x200`, `SizeOfHeaders 0x400`, `SizeOfImage 0x2000`
and the one readable section `.text` of the claim, wholly inside the file, and a Windows XP
loader returns it as loadable with 2 pages; its NT headers start at `e_lfanew = 0x758`, so
the loader maps the whole header page from the file, and byte `0x400` of page 0 is the first
byte `0xCC` of the raw data of `.text`, not zero. -/
theorem Load_header_page_of_Windows_XP :
    (Load (ImageLoader.new 0x51) highLfanewPe64 false).map
        (fun r => (r.1, isImageLoadable r.2.1, r.2.1.optionalHeader.Magic,
          r.2.1.pages.length)) =
        some (FileError.ERROR_NONE, true, 0x20B, 2) ∧
      (Load (ImageLoader.new 0x51) highLfanewPe64 false).map
        (fun r => (r.2.1.optionalHeader.SectionAlignment, r.2.1.optionalHeader.FileAlignment,
          r.2.1.optionalHeader.SizeOfHeaders, r.2.1.optionalHeader.SizeOfImage)) =
        some (0x1000, 0x200, 0x400, 0x2000) ∧
      (Load (ImageLoader.new 0x51) highLfanewPe64 false).map
        (fun r => r.2.1.sections.map (fun S => (S.VirtualAddress, S.VirtualSize,
          S.PointerToRawData, S.SizeOfRawData,
          S.Characteristics &&& PELIB_IMAGE_SCN_MEM_READ))) =
        some [(0x1000, 0x50, 0x400, 0x200, PELIB_IMAGE_SCN_MEM_READ)] ∧
      (Load (ImageLoader.new 0x51) highLfanewPe64 false).map
        (fun r => r.2.1.pages.map (fun page => page.buffer.getD 0x400 0)) =
        some [0xCC, 0] := by
  refine ⟨by decide!, by decide!, by decide!, by decide!⟩

/-! ### Single-subsection images whose virtual and raw addresses differ -/

theorem notCut_verify (i : Nat) (cap : SectionCapture) (sectHdr : PELIB_SECTION_HEADER)
    (h : NotCut cap.loader) : NotCut (captureSectionHeaders.verify i cap sectHdr) := by
  unfold captureSectionHeaders.verify
  simp only []
  split_ifs <;>
    repeat (first | refine notCut_setLoaderErrorIf _ _ _ (by decide) ?_ | exact h)

theorem untouched_verify (i : Nat) (cap : SectionCapture) (sectHdr : PELIB_SECTION_HEADER) :
    Untouched cap.loader (captureSectionHeaders.verify i cap sectHdr) := by
  unfold captureSectionHeaders.verify
  simp only []
  split_ifs <;>
    repeat (first | refine untouched_trans ?_ (untouched_setLoaderErrorIf _ _ _)
                  | exact untouched_refl _)

theorem setLoaderErrorIf_true_ne_none (c : Bool) (e : LoaderError) (self : ImageLoader)
    (hc : c = true) (he : e ≠ LoaderError.LDR_ERROR_NONE) :
    (setLoaderErrorIf c e self).ldrError ≠ LoaderError.LDR_ERROR_NONE := by
  unfold setLoaderErrorIf
  rw [if_pos hc]
  exact setLoaderError_ldrError_ne_none _ _ he

theorem setLoaderErrorIf_true_of_none (c : Bool) (e : LoaderError) (self : ImageLoader)
    (hc : c = true) (hn : self.ldrError = LoaderError.LDR_ERROR_NONE) :
    (setLoaderErrorIf c e self).ldrError = e := by
  rw [setLoaderErrorIf_eq]
  simp only []
  rw [if_pos ⟨hc, hn⟩]

theorem setLoaderErrorIf_false (c : Bool) (e : LoaderError) (self : ImageLoader)
    (hc : c = false) : setLoaderErrorIf c e self = self := by
  unfold setLoaderErrorIf
  rw [hc]
  rfl

/-- The check of a section of a single-subsection image whose virtual address differs from
its raw pointer records a loader error: `LDR_ERROR_SECTION_SIZE_MISMATCH` when none was
recorded before and the raw data does not overflow. -/
theorem verify_mismatch (i : Nat) (cap : SectionCapture) (sectHdr : PELIB_SECTION_HEADER)
    (hSA : cap.loader.optionalHeader.SectionAlignment < PELIB_PAGE_SIZE)
    (hmis : sectHdr.VirtualAddress ≠ rawPointerOf sectHdr) :
    (captureSectionHeaders.verify i cap sectHdr).ldrError ≠ LoaderError.LDR_ERROR_NONE ∧
      (cap.loader.ldrError = LoaderError.LDR_ERROR_NONE →
        ¬ u32 (rawPointerOf sectHdr + sectHdr.SizeOfRawData) < rawPointerOf sectHdr →
        (captureSectionHeaders.verify i cap sectHdr).ldrError =
          LoaderError.LDR_ERROR_SECTION_SIZE_MISMATCH) := by
  have hss : decide (cap.loader.optionalHeader.SectionAlignment < PELIB_PAGE_SIZE) = true := by
    simpa using hSA
  unfold rawPointerOf at hmis ⊢
  unfold captureSectionHeaders.verify
  simp only []
  rw [if_pos hss]
  constructor
  · apply setLoaderErrorIf_true_ne_none
    · simp only [decide_eq_true_eq]
      exact Or.inl hmis
    · decide
  · intro hnone hov
    apply setLoaderErrorIf_true_of_none
    · simp only [decide_eq_true_eq]
      exact Or.inl hmis
    · rw [setLoaderErrorIf_false _ _ _ (by simpa using hov)]
      exact hnone

/-- The invariant of the section loop for a single-subsection image: "file is cut but
loadable" is not recorded, and a loader error is recorded when a captured section has a
virtual address that differs from its raw pointer. -/
theorem mismatch_body (i : Nat) (cap : SectionCapture)
    (hSA : cap.loader.optionalHeader.SectionAlignment < PELIB_PAGE_SIZE)
    (hcut : NotCut cap.loader)
    (hinv : ∀ S ∈ cap.loader.sections, S.VirtualAddress ≠ rawPointerOf S →
      cap.loader.ldrError ≠ LoaderError.LDR_ERROR_NONE) :
    NotCut (captureSectionHeaders.body i cap).loader ∧
      ∀ S ∈ (captureSectionHeaders.body i cap).loader.sections,
        S.VirtualAddress ≠ rawPointerOf S →
        (captureSectionHeaders.body i cap).loader.ldrError ≠ LoaderError.LDR_ERROR_NONE := by
  have hk := keeps_verify i cap
    (decodeSectionHeader (copyFrom cap.fileData cap.filePtr sizeof_PELIB_IMAGE_SECTION_HEADER))
  have hu := untouched_verify i cap
    (decodeSectionHeader (copyFrom cap.fileData cap.filePtr sizeof_PELIB_IMAGE_SECTION_HEADER))
  have hn := notCut_verify i cap
    (decodeSectionHeader (copyFrom cap.fileData cap.filePtr sizeof_PELIB_IMAGE_SECTION_HEADER))
    hcut
  refine ⟨hn, ?_⟩
  intro S hS hmis
  change S ∈ (captureSectionHeaders.verify i cap _).sections ++ [_] at hS
  change (captureSectionHeaders.verify i cap _).ldrError ≠ LoaderError.LDR_ERROR_NONE
  rw [hu.2.2, List.mem_append, List.mem_singleton] at hS
  rcases hS with hold | hnew
  · have h1 := hinv S hold hmis
    rw [hk.2 h1]
    exact h1
  · refine (verify_mismatch i cap _ hSA ?_).1
    rw [hnew] at hmis
    exact hmis

theorem mismatch_loop (remaining : Nat) :
    ∀ (i : Nat) (cap : SectionCapture),
      cap.loader.optionalHeader.SectionAlignment < PELIB_PAGE_SIZE →
      NotCut cap.loader →
      (∀ S ∈ cap.loader.sections, S.VirtualAddress ≠ rawPointerOf S →
        cap.loader.ldrError ≠ LoaderError.LDR_ERROR_NONE) →
      NotCut (captureSectionHeaders.loop remaining i cap).loader ∧
        ∀ S ∈ (captureSectionHeaders.loop remaining i cap).loader.sections,
          S.VirtualAddress ≠ rawPointerOf S →
          (captureSectionHeaders.loop remaining i cap).loader.ldrError ≠
            LoaderError.LDR_ERROR_NONE := by
  induction remaining with
  | zero => intro i cap _ hcut hinv; exact ⟨hcut, hinv⟩
  | succ n ih =>
    intro i cap hSA hcut hinv
    unfold captureSectionHeaders.loop
    split_ifs
    · exact ⟨hcut, hinv⟩
    · obtain ⟨hc, hi⟩ := mismatch_body i cap hSA hcut hinv
      refine ih _ _ ?_ hc hi
      rw [(keeps_body i cap).1]
      exact hSA

theorem untouched_cutFile (self : ImageLoader) (fileEnd : Nat) :
    Untouched self (captureSectionHeaders.cutFile self fileEnd) := by
  unfold captureSectionHeaders.cutFile
  simp only []
  split_ifs
  · split
    · split_ifs <;> exact untouched_setLoaderError _ _
    · exact untouched_setLoaderError _ _
  · exact untouched_setLoaderError _ _

theorem untouched_finish (cap : SectionCapture) (fileEnd : Nat) :
    Untouched cap.loader (captureSectionHeaders.finish cap fileEnd) := by
  unfold captureSectionHeaders.finish
  simp only []
  by_cases hb : cap.bRawDataBeyondEOF = true
  · rw [if_pos hb]
    exact untouched_trans (untouched_setLoaderErrorIf _ _ _) (untouched_cutFile _ _)
  · rw [if_neg hb]
    exact untouched_setLoaderErrorIf _ _ _

theorem untouched_init (self : ImageLoader) (fileData : List Nat) (filePtr : Nat) :
    Untouched self (captureSectionHeaders.init self fileData filePtr).loader := by
  unfold captureSectionHeaders.init
  simp only []
  split_ifs
  · exact untouched_trans (untouched_setLoaderErrorIf _ _ _) (untouched_setLoaderErrorIf _ _ _)
  · exact untouched_refl _

theorem notCut_init (self : ImageLoader) (fileData : List Nat) (filePtr : Nat)
    (h : NotCut self) : NotCut (captureSectionHeaders.init self fileData filePtr).loader := by
  unfold captureSectionHeaders.init
  simp only []
  split_ifs
  · exact notCut_setLoaderErrorIf _ _ _ (by decide) (notCut_setLoaderErrorIf _ _ _ (by decide) h)
  · exact h

/-- After `captureSectionHeaders` on a loader without sections, a single-subsection image
with a section whose virtual address differs from its raw pointer is not loadable. -/
theorem captureSectionHeaders_mismatch (self : ImageLoader) (fileData : List Nat)
    (hSA : self.optionalHeader.SectionAlignment < PELIB_PAGE_SIZE)
    (hcut : NotCut self) (hsec : self.sections = [])
    (S : PELIB_SECTION_HEADER) (hS : S ∈ (captureSectionHeaders self fileData).2.1.sections)
    (hmis : S.VirtualAddress ≠ rawPointerOf S) :
    isImageLoadable (captureSectionHeaders self fileData).2.1 = false := by
  unfold captureSectionHeaders at hS ⊢
  simp only [] at hS ⊢
  split_ifs at hS ⊢ with hout
  · rw [(untouched_setLoaderError _ _).2.2, hsec] at hS
    exact absurd hS (List.not_mem_nil _)
  · have hi := untouched_init self fileData (self.dosHeader.e_lfanew + 4 +
      sizeof_PELIB_IMAGE_FILE_HEADER + self.fileHeader.SizeOfOptionalHeader)
    have hki := keeps_init self fileData (self.dosHeader.e_lfanew + 4 +
      sizeof_PELIB_IMAGE_FILE_HEADER + self.fileHeader.SizeOfOptionalHeader)
    obtain ⟨hc, hinv⟩ := mismatch_loop self.fileHeader.NumberOfSections 0
      (captureSectionHeaders.init self fileData (self.dosHeader.e_lfanew + 4 +
        sizeof_PELIB_IMAGE_FILE_HEADER + self.fileHeader.SizeOfOptionalHeader))
      (by rw [hki.1]; exact hSA) (notCut_init _ _ _ hcut)
      (by rw [hi.2.2, hsec]; intro T hT; exact absurd hT (List.not_mem_nil _))
    have hf := untouched_finish (captureSectionHeaders.loop self.fileHeader.NumberOfSections 0
      (captureSectionHeaders.init self fileData (self.dosHeader.e_lfanew + 4 +
        sizeof_PELIB_IMAGE_FILE_HEADER + self.fileHeader.SizeOfOptionalHeader)))
      fileData.length
    have hkf := keeps_finish (captureSectionHeaders.loop self.fileHeader.NumberOfSections 0
      (captureSectionHeaders.init self fileData (self.dosHeader.e_lfanew + 4 +
        sizeof_PELIB_IMAGE_FILE_HEADER + self.fileHeader.SizeOfOptionalHeader)))
      fileData.length
    rw [hf.2.2] at hS
    have hne := hinv S hS hmis
    unfold isImageLoadable
    rw [hkf.2 hne]
    unfold NotCut at hc
    simp [hne, hc]

theorem ImageLoader_new_empty (loaderFlags : Nat) :
    (ImageLoader.new loaderFlags).pages = [] ∧ (ImageLoader.new loaderFlags).rawFileData = [] ∧
      (ImageLoader.new loaderFlags).sections = [] := by
  unfold ImageLoader.new
  simp only []
  split_ifs <;> exact ⟨rfl, rfl, rfl⟩

theorem captureImageSection_sections (self : ImageLoader) (fileData : List Nat)
    (va vs p sr ch : Nat) (hdr : Bool) (r : Nat × ImageLoader)
    (h : captureImageSection self fileData va vs p sr ch hdr = some r) :
    r.2.sections = self.sections ∧ r.2.rawFileData = self.rawFileData := by
  unfold captureImageSection at h
  split at h
  · exact absurd h (by simp)
  · simp only [Option.some.injEq] at h
    rw [← h]
    exact ⟨rfl, rfl⟩

theorem captureImageSections_loop_sections (fileData : List Nat) :
    ∀ (sections : List PELIB_SECTION_HEADER) (self r : ImageLoader),
      captureImageSections.loop fileData sections self = some r →
        r.sections = self.sections ∧ r.rawFileData = self.rawFileData := by
  intro sections
  induction sections with
  | nil =>
    intro self r h
    simp only [captureImageSections.loop, Option.some.injEq] at h
    rw [← h]
    exact ⟨rfl, rfl⟩
  | cons S rest ih =>
    intro self r h
    unfold captureImageSections.loop at h
    split at h
    · exact absurd h (by simp)
    · rename_i va self' hcap
      have h1 := captureImageSection_sections _ _ _ _ _ _ _ _ _ hcap
      split_ifs at h
      · simp only [Option.some.injEq] at h
        rw [← h]
        have hu := untouched_setLoaderError self' LoaderError.LDR_ERROR_INVALID_SECTION_VA
        exact ⟨hu.2.2.trans h1.1, hu.2.1.trans h1.2⟩
      · have h2 := ih _ _ h
        exact ⟨h2.1.trans h1.1, h2.2.trans h1.2⟩

/-- The mapping leaves the section table and the raw file buffer alone. -/
theorem captureImageSections_sections (self : ImageLoader) (fileData : List Nat)
    (r : FileError × ImageLoader) (h : captureImageSections self fileData = some r) :
    r.2.sections = self.sections ∧ r.2.rawFileData = self.rawFileData := by
  unfold captureImageSections at h
  simp only [] at h
  by_cases hSA : self.optionalHeader.SectionAlignment ≥ PELIB_PAGE_SIZE
  · rw [if_pos hSA] at h
    split at h
    · exact absurd h (by simp)
    · rename_i va self' hcap
      have h1 := captureImageSection_sections _ _ _ _ _ _ _ _ _ hcap
      by_cases hva : va = 0
      · rw [if_pos hva] at h
        simp only [Option.some.injEq] at h
        rw [← h]; exact h1
      · rw [if_neg hva] at h
        by_cases hsec : self'.sections.length ≠ 0
        · rw [if_pos hsec] at h
          split at h
          · exact absurd h (by simp)
          · rename_i self'' hloop
            simp only [Option.some.injEq] at h
            rw [← h]
            have h2 := captureImageSections_loop_sections _ _ _ _ hloop
            exact ⟨h2.1.trans h1.1, h2.2.trans h1.2⟩
        · rw [if_neg hsec] at h
          simp only [Option.some.injEq] at h
          rw [← h]
          have hu := untouched_setLoaderErrorIf
            (decide (va > self'.optionalHeader.SizeOfImage ∨
              self'.optionalHeader.SizeOfImage - va > self'.optionalHeader.SectionAlignment))
            LoaderError.LDR_ERROR_INVALID_SIZE_OF_IMAGE self'
          exact ⟨hu.2.2.trans h1.1, hu.2.1.trans h1.2⟩
  · rw [if_neg hSA] at h
    split at h
    · exact absurd h (by simp)
    · rename_i va self' hcap
      have h1 := captureImageSection_sections _ _ _ _ _ _ _ _ _ hcap
      split_ifs at h <;>
      · simp only [Option.some.injEq] at h
        rw [← h]; exact h1

/-- A single-subsection image with a section whose virtual address differs from its raw
pointer is not mapped by `Load`: the image is not loadable, there are no pages and the
loader retains the file. -/
theorem Load_mismatch_not_mapped (loaderFlags : Nat) (fileData fd' : List Nat)
    (loader : ImageLoader) (e : FileError)
    (hload : Load (ImageLoader.new loaderFlags) fileData false = some (e, loader, fd'))
    (hSA : loader.optionalHeader.SectionAlignment < PELIB_PAGE_SIZE)
    (S : PELIB_SECTION_HEADER) (hS : S ∈ loader.sections)
    (hmis : S.VirtualAddress ≠ rawPointerOf S) :
    e = FileError.ERROR_NONE ∧ isImageLoadable loader = false ∧ loader.pages = [] ∧
      loader.rawFileData = fd' := by
  obtain ⟨hp0, _, hs0⟩ := ImageLoader_new_empty loaderFlags
  rcases Load_cases _ _ _ _ _ hload with ⟨_, hu⟩ | ⟨headers, s3, s4, e4, hnt, hsh, hmap, hraw, hpg⟩
  · rw [hu.2.2, hs0] at hS
    exact absurd hS (List.not_mem_nil _)
  · have hu2 := untouched_trans (untouched_captureDosHeader (ImageLoader.new loaderFlags) fileData)
      (untouched_captureNtHeaders _ _ _ hnt)
    have hfresh : NotCut (ImageLoader.new loaderFlags) := by
      unfold NotCut
      rw [ImageLoader_new_ldrError]
      decide
    have hcut : NotCut headers :=
      (captureNtHeaders_checked _ _ _ hnt).1 (notCut_captureDosHeader _ _ hfresh)
    have hs3 : s3 = (captureSectionHeaders headers fileData).2.1 := by rw [hsh]
    have hk3 : Keeps headers s3 := by
      rw [hs3]; exact keeps_captureSectionHeaders headers fileData
    have hi3 : SameImage headers s3 := by
      rw [hs3]; exact sameImage_captureSectionHeaders headers fileData
    have hl4 : loader.sections = s4.sections ∧ loader.optionalHeader = s4.optionalHeader := by
      by_cases hp : s4.pages.length = 0
      · rw [(hraw hp).2]
        exact ⟨rfl, rfl⟩
      · rw [(hpg hp).2]
        exact ⟨rfl, rfl⟩
    have hl3 : loader.sections = s3.sections ∧ loader.optionalHeader = s3.optionalHeader := by
      rcases hmap with ⟨_, hcap⟩ | ⟨_, hs4, _⟩
      · have h1 := captureImageSections_sections _ _ _ hcap
        have h2 := keeps_captureImageSections _ _ _ hcap
        exact ⟨hl4.1.trans h1.1, hl4.2.trans h2.1⟩
      · rw [hs4] at hl4
        exact hl4
    have hbad : isImageLoadable s3 = false := by
      rw [hs3]
      apply captureSectionHeaders_mismatch headers fileData _ hcut _ S _ hmis
      · rw [← hk3.1, ← hl3.2]
        exact hSA
      · rw [hu2.2.2, hs0]
      · rw [← hs3, ← hl3.1]
        exact hS
    rcases hmap with ⟨hok, _⟩ | ⟨_, hs4, _⟩
    · rw [hok] at hbad
      exact absurd hbad (by decide)
    · have hp4 : s4.pages.length = 0 := by
        rw [hs4, hi3.1, hu2.1, hp0]
        rfl
      obtain ⟨he, hl⟩ := hraw hp4
      refine ⟨he, ?_, ?_, ?_⟩
      · rw [hl, hs4]
        exact hbad
      · rw [hl]
        exact List.length_eq_zero.mp hp4
      · rw [hl]

/-- C13 (amended): for every image with `SectionAlignment < 4096` (single-subsection) in which
some captured section has `VirtualAddress` different from its raw pointer
(`PointerToRawData`, taken as 0 when `SizeOfRawData` is 0), `Load` on a fresh loader latches a
loader error and produces no pages: the status is `ERROR_NONE`, the image is not loadable,
the page table is empty and the loader retains the file as its raw buffer.  The error that
the check of such a section records is `LDR_ERROR_SECTION_SIZE_MISMATCH` when no error was
recorded before and the raw data of the section does not overflow. -/
theorem Load_single_subsection_mismatch :
    (∀ (loaderFlags : Nat) (fileData fd' : List Nat) (loader : ImageLoader) (e : FileError),
      Load (ImageLoader.new loaderFlags) fileData false = some (e, loader, fd') →
      loader.optionalHeader.SectionAlignment < PELIB_PAGE_SIZE →
      ∀ S ∈ loader.sections, S.VirtualAddress ≠ rawPointerOf S →
        e = FileError.ERROR_NONE ∧ isImageLoadable loader = false ∧ loader.pages = [] ∧
          loader.rawFileData = fd') ∧
    (∀ (i : Nat) (cap : SectionCapture) (sectHdr : PELIB_SECTION_HEADER),
      cap.loader.optionalHeader.SectionAlignment < PELIB_PAGE_SIZE →
      sectHdr.VirtualAddress ≠ rawPointerOf sectHdr →
      cap.loader.ldrError = LoaderError.LDR_ERROR_NONE →
      ¬ u32 (rawPointerOf sectHdr + sectHdr.SizeOfRawData) < rawPointerOf sectHdr →
      (captureSectionHeaders.verify i cap sectHdr).ldrError =
        LoaderError.LDR_ERROR_SECTION_SIZE_MISMATCH) :=
  ⟨fun loaderFlags fileData fd' loader e hload hSA S hS hmis =>
      Load_mismatch_not_mapped loaderFlags fileData fd' loader e hload hSA S hS hmis,
    fun i cap sectHdr hSA hmis hnone hov => (verify_mismatch i cap sectHdr hSA hmis).2 hnone hov⟩

set_option maxRecDepth 100000 in
set_option maxHeartbeats 4000000 in
/-- C13, witness: the single-subsection file whose section has `VirtualAddress = 0x400` and
`PointerToRawData = 0x200` is loaded by a Windows 10 loader with status `ERROR_NONE`, not
loadable, without pages and with the file retained; and the check of that section on a
loader without error records `LDR_ERROR_SECTION_SIZE_MISMATCH`. -/
theorem Load_single_subsection_mismatch_witness :
    (FileError.ERROR_NONE = FileError.ERROR_NONE ∧ isImageLoadable mismatchLoaded = false ∧
      mismatchLoaded.pages = [] ∧
      mismatchLoaded.rawFileData = singleSubsectionPe64 0x200 0x400 0x200 0x200) ∧
    (captureSectionHeaders.verify 0
      { loader := { optionalHeader := { SectionAlignment := 0x200, FileAlignment := 0x200 } },
        fileData := [], filePtr := 0, NextVirtualAddress := 0, NumberOfPTEs := 0,
        NumberOfSectionPTEs := 0, bRawDataBeyondEOF := false }
      mismatchSection).ldrError = LoaderError.LDR_ERROR_SECTION_SIZE_MISMATCH :=
  ⟨Load_single_subsection_mismatch.1 0xA0 (singleSubsectionPe64 0x200 0x400 0x200 0x200)
      (singleSubsectionPe64 0x200 0x400 0x200 0x200) mismatchLoaded FileError.ERROR_NONE
      (by decide!) (by decide!) mismatchSection (by decide!) (by decide),
    Load_single_subsection_mismatch.2 0 _ mismatchSection (by decide) (by decide) rfl
      (by decide)⟩

set_option maxRecDepth 100000 in
set_option maxHeartbeats 4000000 in
/-- C13, counterexample: the file `singleSubsectionPe64 0x200 0x400 0x200 0x200` is a
single-subsection image (`SectionAlignment = 0x200`) of `0x600` bytes with
`SizeOfImage = 0x600`, non-zero and within the file, whose section has `VirtualAddress = 0x400`
and `PointerToRawData = 0x200`; after `Load` on a Windows 10 loader the loader error is
`LDR_ERROR_SECTION_SIZE_MISMATCH` and the page table is empty, the file being retained as the
raw buffer.  And in the file `singleSubsectionPe64 0 0 0 0x200` the section has
`VirtualAddress = 0` different from `PointerToRawData = 0x200` and no raw data; `Load` records
no loader error for it. -/
theorem Load_single_subsection_mismatch_no_pages :
    (Load (ImageLoader.new 0xA0) (singleSubsectionPe64 0x200 0x400 0x200 0x200) false).map
        (fun r => (r.2.1.optionalHeader.SectionAlignment, r.2.1.optionalHeader.SizeOfImage,
          r.2.1.sections.map (fun S => (S.VirtualAddress, S.PointerToRawData)), r.2.2.length)) =
        some (0x200, 0x600, [(0x400, 0x200)], 0x600) ∧
      (Load (ImageLoader.new 0xA0) (singleSubsectionPe64 0x200 0x400 0x200 0x200) false).map
        (fun r => (r.1, r.2.1.ldrError, r.2.1.pages.length, r.2.1.rawFileData.length)) =
        some (FileError.ERROR_NONE, LoaderError.LDR_ERROR_SECTION_SIZE_MISMATCH, 0, 0x600) ∧
      (Load (ImageLoader.new 0xA0) (singleSubsectionPe64 0 0 0 0x200) false).map
        (fun r => (r.2.1.optionalHeader.SectionAlignment,
          r.2.1.sections.map (fun S => (S.VirtualAddress, S.PointerToRawData)),
          r.2.1.ldrError)) =
        some (0x200, [(0, 0x200)], LoaderError.LDR_ERROR_NONE) := by
  refine ⟨by decide!, by decide!, by decide!⟩

theorem copyInto_length (dst : List Nat) (pos : Nat) (src : List Nat)
    (h : pos + src.length ≤ dst.length) : (copyInto dst pos src).length = dst.length := by
  unfold copyInto
  simp only [List.length_append, List.length_take, List.length_drop]
  omega

theorem copyInto_getD (dst : List Nat) (pos : Nat) (src : List Nat) (j : Nat)
    (h : pos ≤ dst.length) :
    (copyInto dst pos src).getD j 0 =
      if pos ≤ j ∧ j < pos + src.length then src.getD (j - pos) 0 else dst.getD j 0 := by
  unfold copyInto
  simp only [List.getD_eq_getElem?_getD]
  by_cases h1 : j < pos
  · rw [if_neg (by omega), List.append_assoc, List.getElem?_append_left (by simp; omega),
      List.getElem?_take_of_lt h1]
  · rw [List.append_assoc, List.getElem?_append_right (by simp; omega)]
    simp only [List.length_take, Nat.min_eq_left h]
    by_cases h2 : j < pos + src.length
    · rw [if_pos ⟨by omega, h2⟩, List.getElem?_append_left (by omega)]
    · rw [if_neg (by omega), List.getElem?_append_right (by omega), List.getElem?_drop]
      congr 2
      omega

theorem copyFrom_getD (src : List Nat) (pos length j : Nat) :
    (copyFrom src pos length).getD j 0 = if j < length then src.getD (pos + j) 0 else 0 := by
  unfold copyFrom
  simp only [List.getD_eq_getElem?_getD]
  by_cases h : j < length
  · rw [if_pos h, List.getElem?_take_of_lt h, List.getElem?_drop]
  · rw [if_neg h, List.getElem?_take_eq_none (by omega)]
    rfl

theorem copyFrom_length (src : List Nat) (pos length : Nat) (h : pos + length ≤ src.length) :
    (copyFrom src pos length).length = length := by
  unfold copyFrom
  rw [List.length_take, List.length_drop]
  omega
/-! ### The content of reads and writes in page mode -/

theorem pageListByte_cons (page : PELIB_FILE_PAGE) (rest : List PELIB_FILE_PAGE) (y : Nat) :
    pageListByte (page :: rest) y =
      if y < 4096 then page.buffer.getD y 0 else pageListByte rest (y - 4096) := by
  unfold pageListByte
  simp only [PELIB_PAGE_SIZE]
  by_cases h : y < 4096
  · rw [if_pos h, Nat.div_eq_of_lt h, Nat.mod_eq_of_lt h]
    rfl
  · rw [if_neg h]
    have h1 : y / 4096 = (y - 4096) / 4096 + 1 := by omega
    have h2 : y % 4096 = (y - 4096) % 4096 := by omega
    rw [h1, h2]
    rfl

theorem pageListByte_drop (pages : List PELIB_FILE_PAGE) (k y : Nat) :
    pageListByte (pages.drop k) y = pageListByte pages (k * 4096 + y) := by
  unfold pageListByte
  simp only [PELIB_PAGE_SIZE]
  have h1 : (k * 4096 + y) / 4096 = k + y / 4096 := by omega
  have h2 : (k * 4096 + y) % 4096 = y % 4096 := by omega
  rw [h1, h2, List.get?_eq_getElem?, List.get?_eq_getElem?, List.getElem?_drop]

theorem imageByte_eq (self : ImageLoader) (x : Nat) :
    imageByte self x = pageListByte self.pages x := rfl

theorem replicate_getD_zero (n j : Nat) : (List.replicate n 0).getD j 0 = 0 := by
  simp only [List.getD_eq_getElem?_getD, List.getElem?_replicate]
  split <;> rfl

/-- What `readFromPage` copies from a well-formed page. -/
theorem readFromPage_spec (page : PELIB_FILE_PAGE) (buffer : List Nat)
    (bufferPos offsetInPage bytesInPage : Nat)
    (hwf : page.buffer = [] ∨ page.buffer.length = PELIB_PAGE_SIZE)
    (hoff : offsetInPage + bytesInPage ≤ 4096)
    (hbuf : bufferPos + bytesInPage ≤ buffer.length) :
    (readFromPage page buffer bufferPos offsetInPage bytesInPage).1 = page ∧
      (readFromPage page buffer bufferPos offsetInPage bytesInPage).2.length = buffer.length ∧
      ∀ j, (readFromPage page buffer bufferPos offsetInPage bytesInPage).2.getD j 0 =
        if bufferPos ≤ j ∧ j < bufferPos + bytesInPage then
          page.buffer.getD (offsetInPage + (j - bufferPos)) 0
        else buffer.getD j 0 := by
  unfold readFromPage
  simp only [PELIB_PAGE_SIZE] at hwf
  rcases hwf with he | hl
  · have h0 : ¬ page.buffer.length ≠ 0 := by rw [he]; simp
    rw [if_neg h0]
    refine ⟨rfl, ?_, ?_⟩
    · rw [copyInto_length _ _ _ (by rw [List.length_replicate]; exact hbuf)]
    · intro j
      rw [copyInto_getD _ _ _ _ (by omega), List.length_replicate]
      by_cases hj : bufferPos ≤ j ∧ j < bufferPos + bytesInPage
      · rw [if_pos hj, if_pos hj, he, replicate_getD_zero]
        rfl
      · rw [if_neg hj, if_neg hj]
  · have h0 : page.buffer.length ≠ 0 := by rw [hl]; decide
    rw [if_pos h0]
    have hlen := copyFrom_length page.buffer offsetInPage bytesInPage (by omega)
    refine ⟨rfl, ?_, ?_⟩
    · rw [copyInto_length _ _ _ (by rw [hlen]; exact hbuf)]
    · intro j
      rw [copyInto_getD _ _ _ _ (by omega), hlen]
      by_cases hj : bufferPos ≤ j ∧ j < bufferPos + bytesInPage
      · rw [if_pos hj, if_pos hj, copyFrom_getD, if_pos (by omega)]
      · rw [if_neg hj, if_neg hj]

/-- What `writeToPage` stores into a well-formed page. -/
theorem writeToPage_spec (page : PELIB_FILE_PAGE) (buffer : List Nat)
    (bufferPos offsetInPage bytesInPage : Nat)
    (hwf : page.buffer = [] ∨ page.buffer.length = PELIB_PAGE_SIZE)
    (hoff : offsetInPage + bytesInPage ≤ 4096)
    (hbuf : bufferPos + bytesInPage ≤ buffer.length) :
    (writeToPage page buffer bufferPos offsetInPage bytesInPage).2 = buffer ∧
      ((writeToPage page buffer bufferPos offsetInPage bytesInPage).1.buffer.length =
        PELIB_PAGE_SIZE) ∧
      (writeToPage page buffer bufferPos offsetInPage bytesInPage).1.isZeroPage =
        page.isZeroPage ∧
      ∀ y, (writeToPage page buffer bufferPos offsetInPage bytesInPage).1.buffer.getD y 0 =
        if offsetInPage ≤ y ∧ y < offsetInPage + bytesInPage then
          buffer.getD (bufferPos + (y - offsetInPage)) 0
        else page.buffer.getD y 0 := by
  unfold writeToPage PELIB_FILE_PAGE.writeToPage
  simp only [PELIB_PAGE_SIZE] at hwf
  have hoff' : offsetInPage + bytesInPage ≤ PELIB_PAGE_SIZE := hoff
  rw [if_pos hoff']
  have hchunk : ((buffer.drop bufferPos).take bytesInPage).length = bytesInPage :=
    copyFrom_length buffer bufferPos bytesInPage hbuf
  have hcg : ∀ i, ((buffer.drop bufferPos).take bytesInPage).getD i 0 =
      if i < bytesInPage then buffer.getD (bufferPos + i) 0 else 0 :=
    fun i => copyFrom_getD buffer bufferPos bytesInPage i
  rcases hwf with he | hl
  · have h0 : page.buffer.length ≠ PELIB_PAGE_SIZE := by rw [he]; decide
    rw [if_pos h0]
    have hB : page.buffer.take PELIB_PAGE_SIZE ++
        List.replicate (PELIB_PAGE_SIZE - page.buffer.length) 0 = List.replicate 4096 0 := by
      rw [he]; rfl
    rw [hB]
    refine ⟨rfl, ?_, rfl, ?_⟩
    · show (copyInto _ _ _).length = _
      rw [copyInto_length _ _ _ (by rw [hchunk, List.length_replicate]; exact hoff),
        List.length_replicate]
      rfl
    · intro y
      show (copyInto _ _ _).getD y 0 = _
      rw [copyInto_getD _ _ _ _ (by rw [List.length_replicate]; omega), hchunk]
      by_cases hy : offsetInPage ≤ y ∧ y < offsetInPage + bytesInPage
      · rw [if_pos hy, if_pos hy, hcg, if_pos (by omega)]
      · rw [if_neg hy, if_neg hy, replicate_getD_zero, he]
        rfl
  · have h0 : ¬ page.buffer.length ≠ PELIB_PAGE_SIZE := by rw [hl]; simp [PELIB_PAGE_SIZE]
    rw [if_neg h0]
    refine ⟨rfl, ?_, rfl, ?_⟩
    · show (copyInto _ _ _).length = _
      rw [copyInto_length _ _ _ (by rw [hchunk, hl]; exact hoff), hl]
      rfl
    · intro y
      show (copyInto _ _ _).getD y 0 = _
      rw [copyInto_getD _ _ _ _ (by omega), hchunk]
      by_cases hy : offsetInPage ≤ y ∧ y < offsetInPage + bytesInPage
      · rw [if_pos hy, if_pos hy, hcg, if_pos (by omega)]
      · rw [if_neg hy, if_neg hy]

theorem wellFormedPages_cons (page : PELIB_FILE_PAGE) (rest : List PELIB_FILE_PAGE) :
    wellFormedPages (page :: rest) ↔
      (page.buffer = [] ∨ page.buffer.length = PELIB_PAGE_SIZE) ∧ wellFormedPages rest := by
  unfold wellFormedPages
  simp only [List.mem_cons, forall_eq_or_imp]

/-- The page loop of a read: it transfers `rvaEnd - rva` bytes, leaves the pages alone and
puts the bytes of the pages into the buffer from position `bytesRead` on. -/
theorem readFromPage_loop (rvaEnd : Nat) (hEnd : rvaEnd < 2 ^ 32) :
    ∀ (pages : List PELIB_FILE_PAGE) (k : Nat) (buffer : List Nat) (bytesRead rva : Nat),
      wellFormedPages pages →
      rva ≤ rvaEnd → k * 4096 ≤ rva → rva < (k + 1) * 4096 →
      rvaEnd ≤ (k + pages.length) * 4096 →
      bytesRead + (rvaEnd - rva) ≤ buffer.length → buffer.length < 2 ^ 32 →
      ∃ buffer', readWriteImage.loop readFromPage rvaEnd pages buffer bytesRead rva =
          some (bytesRead + (rvaEnd - rva), pages, buffer') ∧
        buffer'.length = buffer.length ∧
        ∀ j, buffer'.getD j 0 =
          if bytesRead ≤ j ∧ j < bytesRead + (rvaEnd - rva) then
            pageListByte pages (rva - k * 4096 + (j - bytesRead))
          else buffer.getD j 0 := by
  intro pages
  induction pages with
  | nil =>
    intro k buffer bytesRead rva _ h1 h2 h3 h4 h5 h6
    have hn : ¬ rva < rvaEnd := by simp at h4; omega
    refine ⟨buffer, ?_, rfl, ?_⟩
    · rw [readWriteImage_loop_done _ _ _ _ _ _ hn]
      congr 2
      omega
    · intro j
      rw [if_neg (by omega)]
  | cons page rest ih =>
    intro k buffer bytesRead rva hwf h1 h2 h3 h4 h5 h6
    rw [wellFormedPages_cons] at hwf
    by_cases hlt : rva < rvaEnd
    · have hoff : rva &&& (4096 - 1) = rva % 4096 :=
        Nat.and_pow_two_sub_one_eq_mod rva 12
      have hmod : rva % 4096 = rva - k * 4096 := by
        have := Nat.div_add_mod rva 4096
        have hk : rva / 4096 = k := by
          apply Nat.div_eq_of_lt_le <;> omega
        rw [hk] at this
        omega
      simp only [readWriteImage.loop, if_pos hlt, PELIB_PAGE_SIZE, hoff]
      simp only [List.length_cons] at h4
      by_cases hlast : 4096 - rva % 4096 > rvaEnd - rva
      · rw [if_pos hlast]
        obtain ⟨hp, hl, hg⟩ := readFromPage_spec page buffer bytesRead (rva % 4096)
          (rvaEnd - rva) hwf.1 (by omega) (by omega)
        have e1 : u32 (rva + (rvaEnd - rva)) = rvaEnd := by
          unfold u32; rw [Nat.mod_eq_of_lt] <;> omega
        have e2 : u32 (bytesRead + (rvaEnd - rva)) = bytesRead + (rvaEnd - rva) := by
          unfold u32; rw [Nat.mod_eq_of_lt]; omega
        rw [e1, e2, readWriteImage_loop_done _ _ _ _ _ _ (lt_irrefl _)]
        refine ⟨_, by rw [hp], hl, ?_⟩
        intro j
        rw [hg j]
        by_cases hj : bytesRead ≤ j ∧ j < bytesRead + (rvaEnd - rva)
        · rw [if_pos hj, if_pos hj, pageListByte_cons, if_pos (by omega), hmod]
        · rw [if_neg hj, if_neg hj]
      · rw [if_neg hlast]
        obtain ⟨hp, hl, hg⟩ := readFromPage_spec page buffer bytesRead (rva % 4096)
          (4096 - rva % 4096) hwf.1 (by omega) (by omega)
        have e1 : u32 (rva + (4096 - rva % 4096)) = (k + 1) * 4096 := by
          unfold u32; rw [Nat.mod_eq_of_lt] <;> omega
        have e2 : u32 (bytesRead + (4096 - rva % 4096)) = bytesRead + (4096 - rva % 4096) := by
          unfold u32; rw [Nat.mod_eq_of_lt]; omega
        rw [e1, e2]
        obtain ⟨buffer', h, hl', hg'⟩ := ih (k + 1)
          (readFromPage page buffer bytesRead (rva % 4096) (4096 - rva % 4096)).2
          (bytesRead + (4096 - rva % 4096)) ((k + 1) * 4096) hwf.2
          (by omega) (by omega) (by omega) (by omega) (by rw [hl]; omega) (by rw [hl]; omega)
        rw [h]
        refine ⟨buffer', ?_, hl'.trans hl, ?_⟩
        · simp only [hp, Option.some.injEq, Prod.mk.injEq, and_true]
          omega
        · intro j
          rw [hg' j]
          by_cases hj1 : bytesRead + (4096 - rva % 4096) ≤ j ∧
              j < bytesRead + (4096 - rva % 4096) + (rvaEnd - (k + 1) * 4096)
          · have e : (k + 1) * 4096 - (k + 1) * 4096 +
                (j - (bytesRead + (4096 - rva % 4096))) =
                rva - k * 4096 + (j - bytesRead) - 4096 := by omega
            rw [if_pos hj1, if_pos (by omega), pageListByte_cons, if_neg (by omega), e]
          · rw [if_neg hj1, hg j]
            by_cases hj2 : bytesRead ≤ j ∧ j < bytesRead + (4096 - rva % 4096)
            · rw [if_pos hj2, if_pos (by omega), pageListByte_cons, if_pos (by omega), hmod]
            · rw [if_neg hj2, if_neg (by omega)]
    · refine ⟨buffer, ?_, rfl, ?_⟩
      · rw [readWriteImage_loop_done _ _ _ _ _ _ hlt]
        congr 2
        omega
      · intro j
        rw [if_neg (by omega)]

/-- The page loop of a write: it transfers `rvaEnd - rva` bytes, leaves the buffer alone and
stores the bytes of the buffer from position `bytesRead` on into the pages. -/
theorem writeToPage_loop (rvaEnd : Nat) (hEnd : rvaEnd < 2 ^ 32) :
    ∀ (pages : List PELIB_FILE_PAGE) (k : Nat) (buffer : List Nat) (bytesRead rva : Nat),
      wellFormedPages pages →
      rva ≤ rvaEnd → k * 4096 ≤ rva → rva < (k + 1) * 4096 →
      rvaEnd ≤ (k + pages.length) * 4096 →
      bytesRead + (rvaEnd - rva) ≤ buffer.length → buffer.length < 2 ^ 32 →
      ∃ pages', readWriteImage.loop writeToPage rvaEnd pages buffer bytesRead rva =
          some (bytesRead + (rvaEnd - rva), pages', buffer) ∧
        pages'.length = pages.length ∧ wellFormedPages pages' ∧
        pages'.map (fun page => page.isZeroPage) = pages.map (fun page => page.isZeroPage) ∧
        ∀ y, pageListByte pages' y =
          if rva - k * 4096 ≤ y ∧ y < rvaEnd - k * 4096 then
            buffer.getD (bytesRead + (y - (rva - k * 4096))) 0
          else pageListByte pages y := by
  intro pages
  induction pages with
  | nil =>
    intro k buffer bytesRead rva _ h1 h2 h3 h4 h5 h6
    have hn : ¬ rva < rvaEnd := by simp at h4; omega
    refine ⟨[], ?_, rfl, ?_, rfl, ?_⟩
    · rw [readWriteImage_loop_done _ _ _ _ _ _ hn]
      congr 2
      omega
    · intro page hp
      exact absurd hp (List.not_mem_nil _)
    · intro y
      rw [if_neg (by omega)]
  | cons page rest ih =>
    intro k buffer bytesRead rva hwf h1 h2 h3 h4 h5 h6
    have hwf0 := hwf
    rw [wellFormedPages_cons] at hwf
    by_cases hlt : rva < rvaEnd
    · have hoff : rva &&& (4096 - 1) = rva % 4096 :=
        Nat.and_pow_two_sub_one_eq_mod rva 12
      have hmod : rva % 4096 = rva - k * 4096 := by
        have := Nat.div_add_mod rva 4096
        have hk : rva / 4096 = k := by
          apply Nat.div_eq_of_lt_le <;> omega
        rw [hk] at this
        omega
      simp only [readWriteImage.loop, if_pos hlt, PELIB_PAGE_SIZE, hoff]
      simp only [List.length_cons] at h4
      by_cases hlast : 4096 - rva % 4096 > rvaEnd - rva
      · rw [if_pos hlast]
        obtain ⟨hb, hl, hz, hg⟩ := writeToPage_spec page buffer bytesRead (rva % 4096)
          (rvaEnd - rva) hwf.1 (by omega) (by omega)
        have e1 : u32 (rva + (rvaEnd - rva)) = rvaEnd := by
          unfold u32; rw [Nat.mod_eq_of_lt] <;> omega
        have e2 : u32 (bytesRead + (rvaEnd - rva)) = bytesRead + (rvaEnd - rva) := by
          unfold u32; rw [Nat.mod_eq_of_lt]; omega
        rw [e1, e2, hb, readWriteImage_loop_done _ _ _ _ _ _ (lt_irrefl _)]
        refine ⟨(writeToPage page buffer bytesRead (rva % 4096) (rvaEnd - rva)).1 :: rest,
          rfl, rfl, ?_, ?_, ?_⟩
        · rw [wellFormedPages_cons]
          exact ⟨Or.inr hl, hwf.2⟩
        · simp only [List.map_cons, hz]
        · intro y
          rw [pageListByte_cons, pageListByte_cons]
          by_cases hy : y < 4096
          · rw [if_pos hy, if_pos hy, hg y, hmod]
            by_cases hy2 : rva - k * 4096 ≤ y ∧ y < rva - k * 4096 + (rvaEnd - rva)
            · rw [if_pos hy2, if_pos (by omega)]
            · rw [if_neg hy2, if_neg (by omega)]
          · rw [if_neg hy, if_neg hy, if_neg (by omega)]
      · rw [if_neg hlast]
        obtain ⟨hb, hl, hz, hg⟩ := writeToPage_spec page buffer bytesRead (rva % 4096)
          (4096 - rva % 4096) hwf.1 (by omega) (by omega)
        have e1 : u32 (rva + (4096 - rva % 4096)) = (k + 1) * 4096 := by
          unfold u32; rw [Nat.mod_eq_of_lt] <;> omega
        have e2 : u32 (bytesRead + (4096 - rva % 4096)) = bytesRead + (4096 - rva % 4096) := by
          unfold u32; rw [Nat.mod_eq_of_lt]; omega
        rw [e1, e2, hb]
        obtain ⟨pages', h, hl', hwf', hz', hg'⟩ := ih (k + 1) buffer
          (bytesRead + (4096 - rva % 4096)) ((k + 1) * 4096) hwf.2
          (by omega) (by omega) (by omega) (by omega) (by omega) h6
        rw [h]
        refine ⟨(writeToPage page buffer bytesRead (rva % 4096) (4096 - rva % 4096)).1 :: pages',
          ?_, by simp only [List.length_cons, hl'], ?_, ?_, ?_⟩
        · simp only [Option.some.injEq, Prod.mk.injEq, and_true]
          omega
        · rw [wellFormedPages_cons]
          exact ⟨Or.inr hl, hwf'⟩
        · simp only [List.map_cons, hz, hz']
        · intro y
          rw [pageListByte_cons, pageListByte_cons]
          by_cases hy : y < 4096
          · rw [if_pos hy, if_pos hy, hg y, hmod]
            by_cases hy2 : rva - k * 4096 ≤ y ∧ y < rva - k * 4096 + (4096 - (rva - k * 4096))
            · rw [if_pos hy2, if_pos (by omega)]
            · rw [if_neg hy2, if_neg (by omega)]
          · rw [if_neg hy, if_neg hy, hg' (y - 4096)]
            by_cases hy3 : (k + 1) * 4096 - (k + 1) * 4096 ≤ y - 4096 ∧
                y - 4096 < rvaEnd - (k + 1) * 4096
            · have e : bytesRead + (4096 - rva % 4096) +
                  (y - 4096 - ((k + 1) * 4096 - (k + 1) * 4096)) =
                  bytesRead + (y - (rva - k * 4096)) := by omega
              rw [if_pos hy3, if_pos (by omega), e]
            · rw [if_neg hy3, if_neg (by omega)]
    · refine ⟨page :: rest, ?_, rfl, hwf0, rfl, ?_⟩
      · rw [readWriteImage_loop_done _ _ _ _ _ _ hlt]
        congr 2
        omega
      · intro y
        rw [if_neg (by omega)]

theorem wellFormedPages_drop (pages : List PELIB_FILE_PAGE) (k : Nat)
    (h : wellFormedPages pages) : wellFormedPages (pages.drop k) :=
  fun page hp => h page (List.mem_of_mem_drop hp)

theorem wellFormedPages_take (pages : List PELIB_FILE_PAGE) (k : Nat)
    (h : wellFormedPages pages) : wellFormedPages (pages.take k) :=
  fun page hp => h page (List.mem_of_mem_take hp)

theorem wellFormedPages_append (a b : List PELIB_FILE_PAGE) (ha : wellFormedPages a)
    (hb : wellFormedPages b) : wellFormedPages (a ++ b) := by
  intro page hp
  rcases List.mem_append.mp hp with h | h
  · exact ha page h
  · exact hb page h

theorem pageListByte_take_append (pages rest : List PELIB_FILE_PAGE) (k x : Nat)
    (hk : k ≤ pages.length) :
    pageListByte (pages.take k ++ rest) x =
      if x < k * 4096 then pageListByte pages x else pageListByte rest (x - k * 4096) := by
  unfold pageListByte
  simp only [PELIB_PAGE_SIZE, List.get?_eq_getElem?]
  by_cases hx : x < k * 4096
  · have h1 : x / 4096 < k := by omega
    rw [if_pos hx, List.getElem?_append_left (by rw [List.length_take]; omega),
      List.getElem?_take_of_lt h1]
  · have h1 : k ≤ x / 4096 := by omega
    have h2 : (x - k * 4096) / 4096 = x / 4096 - k := by omega
    have h3 : (x - k * 4096) % 4096 = x % 4096 := by omega
    rw [if_neg hx, List.getElem?_append_right (by rw [List.length_take]; omega),
      List.length_take, Nat.min_eq_left hk, h2, h3]

theorem ImageLoader_pages_eta (self : ImageLoader) (k : Nat) :
    { self with pages := self.pages.take k ++ self.pages.drop k } = self := by
  rw [List.take_append_drop]

theorem transferCount_le (self : ImageLoader) (rva n : Nat) :
    rva + transferCount self rva n ≤ max rva (getSizeOfImageAligned self) := by
  unfold transferCount
  omega

/-- A read from a mapped image: it returns the transfer count, leaves the loader alone and
puts the bytes of the image into the buffer. -/
theorem readImage_spec (self : ImageLoader) (buffer : List Nat) (rva n : Nat)
    (hm : mappedImage self) (hbuf : transferCount self rva n ≤ buffer.length)
    (hlen : buffer.length < 2 ^ 32) :
    ∃ buffer', readImage self buffer rva n =
        some { count := transferCount self rva n, loader := self, buffer := buffer' } ∧
      buffer'.length = buffer.length ∧
      ∀ j, buffer'.getD j 0 =
        if j < transferCount self rva n then imageByte self (rva + j) else buffer.getD j 0 := by
  obtain ⟨⟨_, hcover, hraw⟩, hwf⟩ := hm
  have hS := getSizeOfImageAligned_lt self
  have hu : u32 (rva + n) < 2 ^ 32 := Nat.mod_lt _ (by norm_num)
  unfold readImage
  rw [if_pos (by rw [hraw]; rfl)]
  unfold readWriteImage transferCount at *
  simp only []
  generalize hE : (if u32 (rva + n) > getSizeOfImageAligned self
    then getSizeOfImageAligned self else u32 (rva + n)) = rvaEnd
  have hmin : min (u32 (rva + n)) (getSizeOfImageAligned self) = rvaEnd := by
    rw [← hE]; split_ifs <;> omega
  rw [hmin] at hbuf ⊢
  have hEndS : rvaEnd ≤ getSizeOfImageAligned self := by rw [← hmin]; exact Nat.min_le_right _ _
  by_cases hlt : rva < rvaEnd
  · rw [if_pos hlt]
    simp only [PELIB_PAGE_SIZE] at hcover ⊢
    have hdm := Nat.div_add_mod rva 4096
    have hml := Nat.mod_lt rva (show 0 < 4096 by norm_num)
    have hidx : rva / 4096 < self.pages.length := by
      apply Nat.div_lt_of_lt_mul
      omega
    rw [if_pos hidx]
    obtain ⟨buffer', h, hl, hg⟩ := readFromPage_loop rvaEnd (by omega)
      (self.pages.drop (rva / 4096)) (rva / 4096) buffer 0 rva (wellFormedPages_drop _ _ hwf)
      (by omega) (by omega) (by omega) (by rw [List.length_drop]; omega) (by omega) hlen
    rw [h]
    refine ⟨buffer', ?_, hl, ?_⟩
    · simp only [Nat.zero_add, ImageLoader_pages_eta]
    · intro j
      rw [hg j, pageListByte_drop, imageByte_eq]
      by_cases hj : j < rvaEnd - rva
      · have e : rva / 4096 * 4096 + (rva - rva / 4096 * 4096 + (j - 0)) = rva + j := by omega
        rw [if_pos (by omega), if_pos hj, e]
      · rw [if_neg (by omega), if_neg hj]
  · rw [if_neg hlt]
    have h0 : rvaEnd - rva = 0 := by omega
    refine ⟨buffer, by rw [h0], rfl, ?_⟩
    intro j
    rw [h0, if_neg (by omega)]

/-- A write to a mapped image: it returns the transfer count, leaves the buffer and
everything of the loader but the page buffers alone, and stores the bytes of the buffer into
the image. -/
theorem writeImage_spec (self : ImageLoader) (buffer : List Nat) (rva n : Nat)
    (hm : mappedImage self) (hbuf : transferCount self rva n ≤ buffer.length)
    (hlen : buffer.length < 2 ^ 32) :
    ∃ pages', writeImage self buffer rva n =
        some { count := transferCount self rva n, loader := { self with pages := pages' },
               buffer := buffer } ∧
      pages'.length = self.pages.length ∧ wellFormedPages pages' ∧
      pages'.map (fun page => page.isZeroPage) = self.pages.map (fun page => page.isZeroPage) ∧
      ∀ x, pageListByte pages' x =
        if rva ≤ x ∧ x < rva + transferCount self rva n then buffer.getD (x - rva) 0
        else imageByte self x := by
  obtain ⟨⟨_, hcover, hraw⟩, hwf⟩ := hm
  have hS := getSizeOfImageAligned_lt self
  have hu : u32 (rva + n) < 2 ^ 32 := Nat.mod_lt _ (by norm_num)
  unfold writeImage
  rw [if_pos (by rw [hraw]; rfl)]
  unfold readWriteImage transferCount at *
  simp only []
  generalize hE : (if u32 (rva + n) > getSizeOfImageAligned self
    then getSizeOfImageAligned self else u32 (rva + n)) = rvaEnd
  have hmin : min (u32 (rva + n)) (getSizeOfImageAligned self) = rvaEnd := by
    rw [← hE]; split_ifs <;> omega
  rw [hmin] at hbuf ⊢
  have hEndS : rvaEnd ≤ getSizeOfImageAligned self := by rw [← hmin]; exact Nat.min_le_right _ _
  by_cases hlt : rva < rvaEnd
  · rw [if_pos hlt]
    simp only [PELIB_PAGE_SIZE] at hcover ⊢
    have hdm := Nat.div_add_mod rva 4096
    have hml := Nat.mod_lt rva (show 0 < 4096 by norm_num)
    have hidx : rva / 4096 < self.pages.length := by
      apply Nat.div_lt_of_lt_mul
      omega
    rw [if_pos hidx]
    obtain ⟨pages', h, hl, hwf', hz, hg⟩ := writeToPage_loop rvaEnd (by omega)
      (self.pages.drop (rva / 4096)) (rva / 4096) buffer 0 rva (wellFormedPages_drop _ _ hwf)
      (by omega) (by omega) (by omega) (by rw [List.length_drop]; omega) (by omega) hlen
    rw [h]
    refine ⟨self.pages.take (rva / 4096) ++ pages', ?_, ?_, ?_, ?_, ?_⟩
    · simp only [Nat.zero_add]
    · rw [List.length_append, List.length_take, hl, List.length_drop]
      omega
    · exact wellFormedPages_append _ _ (wellFormedPages_take _ _ hwf) hwf'
    · rw [List.map_append, hz, ← List.map_append, List.take_append_drop]
    · intro x
      rw [pageListByte_take_append _ _ _ _ (by omega), imageByte_eq]
      by_cases hx : x < rva / 4096 * 4096
      · rw [if_pos hx, if_neg (by omega)]
      · rw [if_neg hx, hg, pageListByte_drop]
        by_cases hx2 : rva ≤ x ∧ x < rva + (rvaEnd - rva)
        · have e : 0 + (x - rva / 4096 * 4096 - (rva - rva / 4096 * 4096)) = x - rva := by omega
          rw [if_pos (by omega), if_pos hx2, e]
        · have e : rva / 4096 * 4096 + (x - rva / 4096 * 4096) = x := by omega
          rw [if_neg (by omega), if_neg hx2, e]
  · rw [if_neg hlt]
    have h0 : rvaEnd - rva = 0 := by omega
    refine ⟨self.pages, by rw [h0], rfl, hwf, rfl, ?_⟩
    intro x
    rw [h0, if_neg (by omega)]
    rfl

/-- The replacement of the page buffers by as many well-formed pages leaves a mapped image
mapped. -/
theorem mappedImage_pages (self : ImageLoader) (pages' : List PELIB_FILE_PAGE)
    (hm : mappedImage self) (hl : pages'.length = self.pages.length)
    (hwf : wellFormedPages pages') : mappedImage { self with pages := pages' } := by
  obtain ⟨⟨hne, hcover, hraw⟩, _⟩ := hm
  refine ⟨⟨?_, ?_, hraw⟩, hwf⟩
  · intro h0
    apply hne
    apply List.length_eq_zero.mp
    rw [← hl]
    exact List.length_eq_zero.mpr h0
  · show getSizeOfImageAligned self ≤ pages'.length * PELIB_PAGE_SIZE
    rw [hl]
    exact hcover

/-! ### Relocation -/

/-- C15: for every loader state and every `newBase`, `relocateImage newBase` returns `true`
and changes nothing when `newBase` equals the current `ImageBase`; and when `newBase`
differs, it returns `false` and leaves the whole loader state unchanged if there are no
mapped pages, or the file header has `RELOCS_STRIPPED`, or the app-container check is enabled
and `checkForBadAppContainer` holds, or the image is 32-bit (PE32 magic) and
`newBase >= 2^32`. -/
theorem relocateImage_without_side_effects (self : ImageLoader) (newBase : Nat) :
    (newBase = self.optionalHeader.ImageBase → relocateImage self newBase = some (true, self)) ∧
      (newBase ≠ self.optionalHeader.ImageBase →
        (self.pages = [] ∨
          self.fileHeader.Characteristics &&& PELIB_IMAGE_FILE_RELOCS_STRIPPED ≠ 0 ∨
          (self.appContainerCheck = true ∧ checkForBadAppContainer self = true) ∨
          (self.optionalHeader.Magic = PELIB_IMAGE_NT_OPTIONAL_HDR32_MAGIC ∧ 2 ^ 32 ≤ newBase)) →
        relocateImage self newBase = some (false, self)) := by
  constructor
  · intro heq
    unfold relocateImage
    rw [if_neg (not_not.mpr heq)]
  · intro hne hpre
    unfold relocateImage
    rw [if_pos hne]
    by_cases h1 : self.pages.length = 0
    · rw [if_pos h1]
    · rw [if_neg h1]
      by_cases h2 : self.fileHeader.Characteristics &&& PELIB_IMAGE_FILE_RELOCS_STRIPPED ≠ 0
      · rw [if_pos h2]
      · rw [if_neg h2]
        by_cases h3 : self.appContainerCheck = true ∧ checkForBadAppContainer self = true
        · rw [if_pos h3]
        · rw [if_neg h3]
          have h4 : self.optionalHeader.Magic = PELIB_IMAGE_NT_OPTIONAL_HDR32_MAGIC ∧
              newBase >>> 32 ≠ 0 := by
            rcases hpre with h | h | h | h
            · exact absurd (by rw [h]; rfl) h1
            · exact absurd h h2
            · exact absurd h h3
            · refine ⟨h.1, ?_⟩
              rw [Nat.shiftRight_eq_div_pow]
              intro h0
              have := (Nat.div_eq_zero_iff (by norm_num)).mp h0
              omega
          rw [if_pos h4]

/-- C15, witness: the mapped image `mappedBssImage` is left alone with the result `true` by a
relocation to its own image base, and the loader `rawFallback`, which has no pages, is left
alone with the result `false` by a relocation to another base. -/
theorem relocateImage_without_side_effects_witness :
    relocateImage mappedBssImage 0x140000000 = some (true, mappedBssImage) ∧
      relocateImage rawFallback 0x150000000 = some (false, rawFallback) :=
  ⟨(relocateImage_without_side_effects mappedBssImage 0x140000000).1 rfl,
    (relocateImage_without_side_effects rawFallback 0x150000000).2 (by decide)
      (Or.inl rfl)⟩

theorem bytesLE_length (n width : Nat) : (bytesLE n width).length = width := by
  induction width generalizing n with
  | zero => rfl
  | succ w ih => simp only [bytesLE, List.length_cons, ih]

theorem bytesLE_mod (width : Nat) : ∀ n, bytesLE (n % 256 ^ width) width = bytesLE n width := by
  induction width with
  | zero => intro n; rfl
  | succ w ih =>
    intro n
    have h1 : n % 256 ^ (w + 1) % 256 = n % 256 :=
      Nat.mod_mod_of_dvd n (Dvd.intro_left (256 ^ w) rfl)
    have h2 : n % 256 ^ (w + 1) / 256 = n / 256 % 256 ^ w := by
      rw [pow_succ, Nat.mul_comm, Nat.mod_mul_right_div_self]
    simp only [bytesLE, h1, h2, ih]

theorem bytesLE_u32 (n : Nat) : bytesLE (u32 n) 4 = bytesLE n 4 := by
  have := bytesLE_mod 4 n
  unfold u32
  rw [show (2 : Nat) ^ 32 = 256 ^ 4 by norm_num]
  exact this

theorem transferCount_le_size (self : ImageLoader) (rva n : Nat) :
    transferCount self rva n ≤ n := by
  unfold transferCount u32
  have := Nat.mod_le (rva + n) (2 ^ 32)
  omega

/-- The effect of reading `size` bytes at `rva` into a zeroed local structure, replacing the
field at `fieldOffset` by `data` and writing the structure back. -/
theorem patch_pages (self : ImageLoader) (structSize rva size fieldOffset : Nat)
    (data buffer' : List Nat) (pages' : List PELIB_FILE_PAGE)
    (hfield : fieldOffset + data.length ≤ structSize)
    (hl : buffer'.length = structSize)
    (hg : ∀ j, buffer'.getD j 0 =
      if j < transferCount self rva size then imageByte self (rva + j)
      else (List.replicate structSize 0).getD j 0)
    (hp : ∀ x, pageListByte pages' x =
      if rva ≤ x ∧ x < rva + transferCount self rva size then
        (copyInto buffer' fieldOffset data).getD (x - rva) 0
      else imageByte self x) :
    ∀ x, pageListByte pages' x =
      if rva + fieldOffset ≤ x ∧ x < rva + fieldOffset + data.length ∧
          x < rva + transferCount self rva size then
        data.getD (x - (rva + fieldOffset)) 0
      else imageByte self x := by
  intro x
  rw [hp x]
  by_cases hx : rva ≤ x ∧ x < rva + transferCount self rva size
  · rw [if_pos hx, copyInto_getD _ _ _ _ (by omega)]
    by_cases hf : fieldOffset ≤ x - rva ∧ x - rva < fieldOffset + data.length
    · have e : x - rva - fieldOffset = x - (rva + fieldOffset) := by omega
      rw [if_pos hf, if_pos (by omega), e]
    · have e : rva + (x - rva) = x := by omega
      rw [if_neg hf, if_neg (by omega), hg, if_pos (by omega), e]
  · rw [if_neg hx, if_neg (by omega)]

/-- What `writeNewImageBase` does to a mapped image: it replaces the page buffers so that
the bytes of the field `ImageBase` that lie inside the image hold the new image base, and
every other byte of the image is as before. -/
theorem writeNewImageBase_spec (self : ImageLoader) (newImageBase : Nat)
    (hm : mappedImage self) :
    ∃ pages', writeNewImageBase self newImageBase = some { self with pages := pages' } ∧
      pages'.length = self.pages.length ∧ wellFormedPages pages' ∧
      pages'.map (fun page => page.isZeroPage) = self.pages.map (fun page => page.isZeroPage) ∧
      ∀ x, pageListByte pages' x =
        if imageBaseRva self ≤ x ∧ x < imageBaseRva self + imageBaseWidth self ∧
            x < optionalHeaderRva self +
              transferCount self (optionalHeaderRva self) (copySizeOfOptionalHeader self) then
          (bytesLE newImageBase (imageBaseWidth self)).getD (x - imageBaseRva self) 0
        else imageByte self x := by
  unfold writeNewImageBase imageBaseRva imageBaseWidth copySizeOfOptionalHeader
    optionalHeaderRva
  simp only []
  by_cases h64 : self.optionalHeader.Magic = PELIB_IMAGE_NT_OPTIONAL_HDR64_MAGIC
  · have h32 : ¬ self.optionalHeader.Magic = PELIB_IMAGE_NT_OPTIONAL_HDR32_MAGIC := by
      rw [h64]; decide
    simp only [if_pos h64]
    obtain ⟨buffer', hr, hl, hg⟩ := readImage_spec self
      (List.replicate sizeof_PELIB_IMAGE_OPTIONAL_HEADER64 0)
      (u32 (self.dosHeader.e_lfanew + 4 + sizeof_PELIB_IMAGE_FILE_HEADER))
      copySizeOfOptionalHeader64 hm
      (by
        have := transferCount_le_size self
          (u32 (self.dosHeader.e_lfanew + 4 + sizeof_PELIB_IMAGE_FILE_HEADER))
          copySizeOfOptionalHeader64
        rw [List.length_replicate]
        simp only [copySizeOfOptionalHeader64, sizeof_PELIB_IMAGE_OPTIONAL_HEADER64] at this ⊢
        omega)
      (by rw [List.length_replicate]; decide)
    rw [hr]
    simp only []
    rw [List.length_replicate] at hl
    obtain ⟨pages', hw, hpl, hwf, hz, hp⟩ := writeImage_spec self
      (copyInto buffer' offsetOfImageBase64 (bytesLE newImageBase 8))
      (u32 (self.dosHeader.e_lfanew + 4 + sizeof_PELIB_IMAGE_FILE_HEADER))
      copySizeOfOptionalHeader64 hm
      (by
        have := transferCount_le_size self
          (u32 (self.dosHeader.e_lfanew + 4 + sizeof_PELIB_IMAGE_FILE_HEADER))
          copySizeOfOptionalHeader64
        rw [copyInto_length _ _ _ (by rw [bytesLE_length, hl]; decide), hl]
        simp only [copySizeOfOptionalHeader64, sizeof_PELIB_IMAGE_OPTIONAL_HEADER64] at this ⊢
        omega)
      (by rw [copyInto_length _ _ _ (by rw [bytesLE_length, hl]; decide), hl]; decide)
    rw [hw]
    simp only [if_neg h32]
    refine ⟨pages', rfl, hpl, hwf, hz, ?_⟩
    have := patch_pages self sizeof_PELIB_IMAGE_OPTIONAL_HEADER64 _ _ offsetOfImageBase64
      (bytesLE newImageBase 8) buffer' pages' (by rw [bytesLE_length]; decide) hl hg hp
    simpa only [bytesLE_length] using this
  · simp only [if_neg h64]
    by_cases h32 : self.optionalHeader.Magic = PELIB_IMAGE_NT_OPTIONAL_HDR32_MAGIC
    · simp only [if_pos h32]
      obtain ⟨buffer', hr, hl, hg⟩ := readImage_spec self
        (List.replicate sizeof_PELIB_IMAGE_OPTIONAL_HEADER32 0)
        (u32 (self.dosHeader.e_lfanew + 4 + sizeof_PELIB_IMAGE_FILE_HEADER))
        copySizeOfOptionalHeader32 hm
        (by
          have := transferCount_le_size self
            (u32 (self.dosHeader.e_lfanew + 4 + sizeof_PELIB_IMAGE_FILE_HEADER))
            copySizeOfOptionalHeader32
          rw [List.length_replicate]
          simp only [copySizeOfOptionalHeader32, sizeof_PELIB_IMAGE_OPTIONAL_HEADER32] at this ⊢
          omega)
        (by rw [List.length_replicate]; decide)
      rw [hr]
      simp only []
      rw [List.length_replicate] at hl
      obtain ⟨pages', hw, hpl, hwf, hz, hp⟩ := writeImage_spec self
        (copyInto buffer' offsetOfImageBase32 (bytesLE (u32 newImageBase) 4))
        (u32 (self.dosHeader.e_lfanew + 4 + sizeof_PELIB_IMAGE_FILE_HEADER))
        copySizeOfOptionalHeader32 hm
        (by
          have := transferCount_le_size self
            (u32 (self.dosHeader.e_lfanew + 4 + sizeof_PELIB_IMAGE_FILE_HEADER))
            copySizeOfOptionalHeader32
          rw [copyInto_length _ _ _ (by rw [bytesLE_length, hl]; decide), hl]
          simp only [copySizeOfOptionalHeader32, sizeof_PELIB_IMAGE_OPTIONAL_HEADER32] at this ⊢
          omega)
        (by rw [copyInto_length _ _ _ (by rw [bytesLE_length, hl]; decide), hl]; decide)
      rw [hw]
      refine ⟨pages', rfl, hpl, hwf, hz, ?_⟩
      have := patch_pages self sizeof_PELIB_IMAGE_OPTIONAL_HEADER32 _ _ offsetOfImageBase32
        (bytesLE (u32 newImageBase) 4) buffer' pages' (by rw [bytesLE_length]; decide) hl hg hp
      simpa only [bytesLE_length, bytesLE_u32] using this
    · simp only [if_neg h32]
      refine ⟨self.pages, rfl, rfl, hm.2, rfl, ?_⟩
      intro x
      rw [if_neg (by omega)]
      rfl

theorem transferCount_inside (self : ImageLoader) (rva n : Nat)
    (h : rva + n ≤ getSizeOfImageAligned self) : transferCount self rva n = n := by
  have hS := getSizeOfImageAligned_lt self
  unfold transferCount u32
  rw [Nat.mod_eq_of_lt (by omega)]
  omega

/-- The relocation of a mapped image after the four initial checks: the image base is
written into the image, and then either the relocation directory is absent or invalid and
the result is `false`, or the relocations are processed. -/
theorem relocateImage_steps (self : ImageLoader) (newImageBase : Nat) (hm : mappedImage self)
    (hne : newImageBase ≠ self.optionalHeader.ImageBase)
    (h1 : self.fileHeader.Characteristics &&& PELIB_IMAGE_FILE_RELOCS_STRIPPED = 0)
    (h2 : ¬ (self.appContainerCheck = true ∧ checkForBadAppContainer self = true))
    (h3 : ¬ (self.optionalHeader.Magic = PELIB_IMAGE_NT_OPTIONAL_HDR32_MAGIC ∧
      2 ^ 32 ≤ newImageBase)) :
    ∃ pages', writeNewImageBase self newImageBase = some { self with pages := pages' } ∧
      relocateImage self newImageBase =
        if self.optionalHeader.NumberOfRvaAndSizes ≤ PELIB_IMAGE_DIRECTORY_ENTRY_BASERELOC ∨
            (baseRelocationDirectory self).VirtualAddress = 0 ∨
            (baseRelocationDirectory self).Size = 0 ∨
            isValidImageBlock self (baseRelocationDirectory self).VirtualAddress
              (baseRelocationDirectory self).Size = false then
          some (false, { self with pages := pages' })
        else
          processImageRelocations { self with pages := pages' } self.optionalHeader.ImageBase
            newImageBase (baseRelocationDirectory self).VirtualAddress
            (baseRelocationDirectory self).Size := by
  obtain ⟨pages', hw, _⟩ := writeNewImageBase_spec self newImageBase hm
  refine ⟨pages', hw, ?_⟩
  have hp : ¬ self.pages.length = 0 := by
    intro h0
    exact hm.1.1 (List.length_eq_zero.mp h0)
  have h3' : ¬ (self.optionalHeader.Magic = PELIB_IMAGE_NT_OPTIONAL_HDR32_MAGIC ∧
      newImageBase >>> 32 ≠ 0) := by
    intro h
    apply h3
    refine ⟨h.1, ?_⟩
    by_contra hlt
    apply h.2
    rw [Nat.shiftRight_eq_div_pow]
    exact (Nat.div_eq_zero_iff (by norm_num)).mpr (by omega)
  unfold relocateImage
  rw [if_pos hne, if_neg hp, if_neg (not_not.mpr h1), if_neg h2, if_neg h3', hw]
  simp only []
  unfold baseRelocationDirectory isValidImageBlock
  simp only []
  by_cases c1 : self.optionalHeader.NumberOfRvaAndSizes ≤ PELIB_IMAGE_DIRECTORY_ENTRY_BASERELOC
  · rw [if_pos c1, if_pos (Or.inl c1)]
  · rw [if_neg c1]
    by_cases c2 : (self.optionalHeader.DataDirectory.getD
        PELIB_IMAGE_DIRECTORY_ENTRY_BASERELOC {}).VirtualAddress = 0 ∨
        (self.optionalHeader.DataDirectory.getD
          PELIB_IMAGE_DIRECTORY_ENTRY_BASERELOC {}).Size = 0
    · rw [if_pos c2, if_pos (Or.inr (by tauto))]
    · rw [if_neg c2]
      split_ifs <;> first | rfl | tauto

theorem readLE_congr (a b : List Nat) : ∀ (width off : Nat),
    (∀ j, j < width → a.getD (off + j) 0 = b.getD (off + j) 0) →
    readLE a off width = readLE b off width := by
  intro width
  induction width with
  | zero => intro off _; rfl
  | succ w ih =>
    intro off h
    unfold readLE
    have h0 := h 0 (by omega)
    rw [Nat.add_zero] at h0
    rw [h0, ih (off + 1) (fun j hj => by
      have := h (j + 1) (by omega)
      rw [show off + 1 + j = off + (j + 1) by omega]
      exact this)]
theorem rewritten_refl {a : ImageLoader} (hm : mappedImage a) : Rewritten a a :=
  ⟨a.pages, rfl, rfl, hm.2, rfl⟩

theorem rewritten_trans {a b c : ImageLoader} (hab : Rewritten a b) (hbc : Rewritten b c) :
    Rewritten a c := by
  obtain ⟨p1, h1, l1, w1, f1⟩ := hab
  obtain ⟨p2, h2, l2, w2, f2⟩ := hbc
  subst h1
  subst h2
  exact ⟨p2, rfl, by rw [l2]; exact l1, w2, by rw [f2]; exact f1⟩

theorem Rewritten.mapped {a b : ImageLoader} (h : Rewritten a b) (hm : mappedImage a) :
    mappedImage b := by
  obtain ⟨p1, h1, l1, w1, _⟩ := h
  subst h1
  exact mappedImage_pages a p1 hm l1 w1

theorem Rewritten.transferCount {a b : ImageLoader} (h : Rewritten a b) (rva n : Nat) :
    transferCount b rva n = transferCount a rva n := by
  obtain ⟨p1, h1, _⟩ := h
  subst h1
  rfl

theorem Rewritten.isZeroPage {a b : ImageLoader} (h : Rewritten a b) (rva : Nat) :
    isZeroPage b rva = isZeroPage a rva := by
  obtain ⟨p1, h1, _, _, f1⟩ := h
  subst h1
  unfold PeLib.isZeroPage
  show (match p1.get? (rva / PELIB_PAGE_SIZE) with
      | some page => page.isZeroPage
      | none => false) = _
  have e := congrArg (fun l => l.get? (rva / PELIB_PAGE_SIZE)) f1
  simp only [List.get?_eq_getElem?, List.getElem?_map] at e ⊢
  cases h1 : p1[rva / PELIB_PAGE_SIZE]? <;> cases h2 : a.pages[rva / PELIB_PAGE_SIZE]? <;>
    simp_all

theorem Rewritten.isValidImageBlock {a b : ImageLoader} (h : Rewritten a b) (rva n : Nat) :
    isValidImageBlock b rva n = isValidImageBlock a rva n := by
  obtain ⟨p1, h1, _⟩ := h
  subst h1
  rfl

/-- A read of `size` bytes into a zeroed local variable of a mapped image. -/
theorem readImage_mapped (self : ImageLoader) (rva size : Nat) (hm : mappedImage self)
    (hs : size < 2 ^ 32) :
    ∃ buffer', readImage self (List.replicate size 0) rva size =
        some { count := transferCount self rva size, loader := self, buffer := buffer' } ∧
      buffer'.length = size ∧
      ∀ j, buffer'.getD j 0 =
        if j < transferCount self rva size then imageByte self (rva + j) else 0 := by
  obtain ⟨buffer', h1, h2, h3⟩ := readImage_spec self (List.replicate size 0) rva size hm
    (by rw [List.length_replicate]; exact transferCount_le_size self rva size)
    (by rw [List.length_replicate]; exact hs)
  refine ⟨buffer', h1, by rw [h2, List.length_replicate], ?_⟩
  intro j
  rw [h3, replicate_getD_zero]

/-- A write of `size` bytes to a mapped image. -/
theorem writeImage_mapped (self : ImageLoader) (buffer : List Nat) (rva size : Nat)
    (hm : mappedImage self) (hl : buffer.length = size) (hs : size < 2 ^ 32) :
    ∃ t, writeImage self buffer rva size =
        some { count := transferCount self rva size, loader := t, buffer := buffer } ∧
      Rewritten self t ∧
      ∀ x, imageByte t x =
        if rva ≤ x ∧ x < rva + transferCount self rva size then buffer.getD (x - rva) 0
        else imageByte self x := by
  obtain ⟨pages', h1, h2, h3, h4, h5⟩ := writeImage_spec self buffer rva size hm
    (by rw [hl]; exact transferCount_le_size self rva size) (by rw [hl]; exact hs)
  refine ⟨{ self with pages := pages' }, h1, ⟨pages', rfl, h2, h3, h4⟩, ?_⟩
  intro x
  rw [imageByte_eq]
  exact h5 x
/-- What the shared pattern of the relocation switch does to a mapped image: it returns, and
either the read is short and nothing changes, or the `size` bytes at `fixupAddress` become
the updated value. -/
theorem fixup_spec (self : ImageLoader) (fixupAddress size : Nat) (update : Nat → Nat)
    (hm : mappedImage self) (hs : size < 2 ^ 32) :
    ∃ t, processImageRelocations.fixup self fixupAddress size update = some t ∧
      Rewritten self t ∧
      ((transferCount self fixupAddress size ≠ size ∧ t = self) ∨
       (transferCount self fixupAddress size = size ∧
        ∀ x, imageByte t x =
          if fixupAddress ≤ x ∧ x < fixupAddress + size then
            (bytesLE (update (readLE (imageBytes self fixupAddress size) 0 size)) size).getD
              (x - fixupAddress) 0
          else imageByte self x)) := by
  obtain ⟨buffer', hr, hl, hg⟩ := readImage_mapped self fixupAddress size hm hs
  unfold processImageRelocations.fixup
  rw [hr]
  simp only []
  by_cases hc : transferCount self fixupAddress size = size
  · rw [if_neg (by rw [hc]; exact fun h => h rfl)]
    obtain ⟨t, hw, hrw, hb⟩ := writeImage_mapped self
      (bytesLE (update (readLE buffer' 0 size)) size) fixupAddress size hm
      (bytesLE_length _ _) hs
    rw [hw]
    refine ⟨t, rfl, hrw, Or.inr ⟨hc, ?_⟩⟩
    have hbuf : readLE buffer' 0 size = readLE (imageBytes self fixupAddress size) 0 size := by
      apply readLE_congr
      intro j hj
      rw [hg, if_pos (by omega)]
      unfold imageBytes
      rw [List.getD_eq_getElem?_getD, List.getElem?_map, List.getElem?_range (by omega)]
      rfl
    intro x
    rw [hb, hc, hbuf]
  · rw [if_pos hc]
    exact ⟨self, rfl, rewritten_refl hm, Or.inl ⟨hc, rfl⟩⟩
/-- The shared pattern of the relocation switch changes no byte outside the `size` bytes at
`fixupAddress`. -/
theorem fixup_frame (self : ImageLoader) (fixupAddress size : Nat) (update : Nat → Nat)
    (hm : mappedImage self) (hs : size ≤ 16) :
    ∃ t, processImageRelocations.fixup self fixupAddress size update = some t ∧
      Rewritten self t ∧
      ∀ x, x + 16 ≤ fixupAddress ∨ fixupAddress + 16 ≤ x → imageByte t x = imageByte self x := by
  obtain ⟨t, ht, hrw, hcases⟩ := fixup_spec self fixupAddress size update hm (by omega)
  refine ⟨t, ht, hrw, ?_⟩
  intro x hx
  rcases hcases with ⟨_, rfl⟩ | ⟨_, hb⟩
  · rfl
  · rw [hb, if_neg (by omega)]

/-- The relocation of an IA64 bundle changes no byte outside the 16 bytes of the bundle. -/
theorem processImageRelocation_IA64_IMM64_frame (self : ImageLoader)
    (fixupAddress difference : Nat) (hm : mappedImage self) (hf : fixupAddress < 2 ^ 32) :
    ∃ r, processImageRelocation_IA64_IMM64 self fixupAddress difference = some r ∧
      Rewritten self r.2 ∧
      ∀ x, x + 16 ≤ fixupAddress ∨ fixupAddress + 16 ≤ x →
        imageByte r.2 x = imageByte self x := by
  have hmask : fixupAddress &&& not32 0x0F = fixupAddress - fixupAddress % 16 :=
    and_not32_mask fixupAddress 4 hf (by norm_num)
  have hmod := Nat.mod_lt fixupAddress (show 0 < 16 by norm_num)
  have hle := Nat.mod_le fixupAddress 16
  obtain ⟨buffer', hr, hl, hg⟩ := readImage_mapped self (fixupAddress &&& not32 0x0F) 16 hm
    (by norm_num)
  unfold processImageRelocation_IA64_IMM64
  simp only []
  rw [hr]
  simp only []
  by_cases hc : transferCount self (fixupAddress &&& not32 0x0F) 16 = 16
  · rw [if_neg (by rw [hc]; exact fun h => h rfl)]
    obtain ⟨t, hw, hrw, hb⟩ := writeImage_mapped self
      ((insertImm64 (u64 (extractImm64 [readLE buffer' 0 4, readLE buffer' 4 4,
          readLE buffer' 8 4, readLE buffer' 12 4] + difference))
        [readLE buffer' 0 4, readLE buffer' 4 4, readLE buffer' 8 4,
          readLE buffer' 12 4]).flatMap fun w => bytesLE w 4)
      (fixupAddress &&& not32 0x0F) 16 hm rfl (by norm_num)
    rw [hw]
    refine ⟨_, rfl, hrw, ?_⟩
    intro x hx
    show imageByte t x = _
    rw [hb, hc, if_neg (by rw [hmask]; omega)]
  · rw [if_pos hc]
    exact ⟨_, rfl, rewritten_refl hm, fun _ _ => rfl⟩
/-- The entries of a relocation block change no byte of a mapped image that is 16 bytes or
more away from the address of every entry of the block. -/
theorem entries_frame (buffer : List Nat)
    (bufferEnd typeAndOffset blockVirtualAddress difference numRelocations : Nat) :
    ∀ (passes i : Nat) (self : ImageLoader) (r : Bool × ImageLoader), mappedImage self →
      processImageRelocations.entries buffer bufferEnd typeAndOffset blockVirtualAddress
        difference numRelocations passes i self = some r →
      Rewritten self r.2 ∧
      ∀ x, (∀ k, k < numRelocations →
          x + 16 ≤ u32 (blockVirtualAddress + (readLE buffer (typeAndOffset + 2 * k) 2 &&& 0x0FFF)) ∨
          u32 (blockVirtualAddress + (readLE buffer (typeAndOffset + 2 * k) 2 &&& 0x0FFF)) + 16
            ≤ x) →
        imageByte r.2 x = imageByte self x := by
  intro passes
  induction passes with
  | zero =>
    intro i self r hm h
    unfold processImageRelocations.entries at h
    split_ifs at h
    simp only [Option.some.injEq] at h
    subst h
    exact ⟨rewritten_refl hm, fun _ _ => rfl⟩
  | succ n ih =>
    intro i self r hm h
    -- one step that keeps the frame, then the rest of the entries
    have next : ∀ (t : ImageLoader) (j : Nat), Rewritten self t →
        (∀ x, x + 16 ≤ u32 (blockVirtualAddress +
              (readLE buffer (typeAndOffset + 2 * i) 2 &&& 0x0FFF)) ∨
            u32 (blockVirtualAddress +
              (readLE buffer (typeAndOffset + 2 * i) 2 &&& 0x0FFF)) + 16 ≤ x →
          imageByte t x = imageByte self x) →
        i < numRelocations →
        processImageRelocations.entries buffer bufferEnd typeAndOffset blockVirtualAddress
          difference numRelocations n j t = some r →
        Rewritten self r.2 ∧
        ∀ x, (∀ k, k < numRelocations →
            x + 16 ≤ u32 (blockVirtualAddress +
              (readLE buffer (typeAndOffset + 2 * k) 2 &&& 0x0FFF)) ∨
            u32 (blockVirtualAddress +
              (readLE buffer (typeAndOffset + 2 * k) 2 &&& 0x0FFF)) + 16 ≤ x) →
          imageByte r.2 x = imageByte self x := by
      intro t j hrw hframe hi hrest
      obtain ⟨h1, h2⟩ := ih j t r (hrw.mapped hm) hrest
      exact ⟨rewritten_trans hrw h1, fun x hx => by rw [h2 x hx, hframe x (hx i hi)]⟩
    rw [processImageRelocations.entries] at h
    by_cases hi : i < numRelocations
    · rw [if_pos hi] at h
      simp only [] at h
      by_cases c1 : readLE buffer (typeAndOffset + 2 * i) 2 >>> 12 = PELIB_IMAGE_REL_BASED_DIR64
      · rw [if_pos c1] at h
        obtain ⟨t, ht, hrw, hf⟩ := fixup_frame self
          (u32 (blockVirtualAddress + (readLE buffer (typeAndOffset + 2 * i) 2 &&& 0x0FFF))) 8
          (fun fixupValue => u64 (fixupValue + difference)) hm (by norm_num)
        rw [ht] at h
        exact next t (i + 1) hrw hf hi h
      rw [if_neg c1] at h
      by_cases c2 : readLE buffer (typeAndOffset + 2 * i) 2 >>> 12 = PELIB_IMAGE_REL_BASED_HIGHLOW
      · rw [if_pos c2] at h
        obtain ⟨t, ht, hrw, hf⟩ := fixup_frame self
          (u32 (blockVirtualAddress + (readLE buffer (typeAndOffset + 2 * i) 2 &&& 0x0FFF))) 4
          (fun fixupValue => u32 (fixupValue + u32 difference)) hm (by norm_num)
        rw [ht] at h
        exact next t (i + 1) hrw hf hi h
      rw [if_neg c2] at h
      by_cases c3 : readLE buffer (typeAndOffset + 2 * i) 2 >>> 12 = PELIB_IMAGE_REL_BASED_HIGH
      · rw [if_pos c3] at h
        obtain ⟨t, ht, hrw, hf⟩ := fixup_frame self
          (u32 (blockVirtualAddress + (readLE buffer (typeAndOffset + 2 * i) 2 &&& 0x0FFF))) 2
          (fun fixupValue => u16 (u32 (u32 (fixupValue <<< 16) + u32 difference) >>> 16)) hm (by norm_num)
        rw [ht] at h
        exact next t (i + 1) hrw hf hi h
      rw [if_neg c3] at h
      by_cases c4 : readLE buffer (typeAndOffset + 2 * i) 2 >>> 12 = PELIB_IMAGE_REL_BASED_HIGHADJ
      · rw [if_pos c4] at h
        obtain ⟨buffer', hr, hl, hg⟩ := readImage_mapped self
          (u32 (blockVirtualAddress + (readLE buffer (typeAndOffset + 2 * i) 2 &&& 0x0FFF))) 2
          hm (by norm_num)
        rw [hr] at h
        simp only [] at h
        by_cases d1 : transferCount self
            (u32 (blockVirtualAddress + (readLE buffer (typeAndOffset + 2 * i) 2 &&& 0x0FFF))) 2 = 2
        · rw [if_neg (by rw [d1]; exact fun h => h rfl)] at h
          by_cases d2 : typeAndOffset + 2 * (i + 1) + 2 > bufferEnd
          · rw [if_pos d2] at h
            exact absurd h (by simp)
          rw [if_neg d2] at h
          obtain ⟨t, hw, hrw, hb⟩ := writeImage_mapped self
            (bytesLE (u16 (u32 (u32 (u32 (u32 (readLE buffer' 0 2 <<< 16) +
              readLE buffer (typeAndOffset + 2 * (i + 1)) 2) + u32 difference) + 0x8000)
                >>> 16)) 2)
            (u32 (blockVirtualAddress + (readLE buffer (typeAndOffset + 2 * i) 2 &&& 0x0FFF)))
            2 hm (bytesLE_length _ _) (by norm_num)
          rw [hw] at h
          refine next t (i + 2) hrw (fun x hx => ?_) hi h
          rw [hb, d1, if_neg (by omega)]
        · rw [if_pos d1] at h
          exact next self (i + 1) (rewritten_refl hm) (fun _ _ => rfl) hi h
      rw [if_neg c4] at h
      by_cases c5 : readLE buffer (typeAndOffset + 2 * i) 2 >>> 12 = PELIB_IMAGE_REL_BASED_LOW
      · rw [if_pos c5] at h
        obtain ⟨t, ht, hrw, hf⟩ := fixup_frame self
          (u32 (blockVirtualAddress + (readLE buffer (typeAndOffset + 2 * i) 2 &&& 0x0FFF))) 2
          (fun fixupValue => u16 (fixupValue + difference)) hm (by norm_num)
        rw [ht] at h
        exact next t (i + 1) hrw hf hi h
      rw [if_neg c5] at h
      by_cases c6 : readLE buffer (typeAndOffset + 2 * i) 2 >>> 12 = PELIB_IMAGE_REL_BASED_MIPS_JMPADDR
      · rw [if_pos c6] at h
        obtain ⟨t, ht, hrw, hf⟩ := fixup_frame self
          (u32 (blockVirtualAddress + (readLE buffer (typeAndOffset + 2 * i) 2 &&& 0x0FFF))) 4
          (fun fixupValue =>
            (fixupValue &&& not32 0x3ffffff) |||
              ((u32 (u32 ((fixupValue &&& 0x3ffffff) <<< 2) + u32 difference) >>> 2) &&&
                0x3ffffff)) hm (by norm_num)
        rw [ht] at h
        exact next t (i + 1) hrw hf hi h
      rw [if_neg c6] at h
      by_cases c7 : readLE buffer (typeAndOffset + 2 * i) 2 >>> 12 = PELIB_IMAGE_REL_BASED_IA64_IMM64
      · rw [if_pos c7] at h
        obtain ⟨t, ht, hrw, hf⟩ := processImageRelocation_IA64_IMM64_frame self
          (u32 (blockVirtualAddress + (readLE buffer (typeAndOffset + 2 * i) 2 &&& 0x0FFF)))
          difference hm (Nat.mod_lt _ (by norm_num))
        rw [ht] at h
        exact next t.2 (i + 1) hrw hf hi h
      rw [if_neg c7] at h
      by_cases c8 : readLE buffer (typeAndOffset + 2 * i) 2 >>> 12 = PELIB_IMAGE_REL_BASED_ABSOLUTE
      · rw [if_pos c8] at h
        exact next self (i + 1) (rewritten_refl hm) (fun _ _ => rfl) hi h
      rw [if_neg c8] at h
      simp only [Option.some.injEq] at h
      subst h
      exact ⟨rewritten_refl hm, fun _ _ => rfl⟩
    · rw [if_neg hi] at h
      simp only [Option.some.injEq] at h
      subst h
      exact ⟨rewritten_refl hm, fun _ _ => rfl⟩
/-- The block loop changes no byte of a mapped image that is 16 bytes or more away from the
address of every entry that lies in the relocation data. -/
theorem loop_frame (buffer : List Nat) (bufferEnd difference : Nat) :
    ∀ (passes bufferPtr : Nat) (self : ImageLoader) (r : Bool × ImageLoader),
      mappedImage self →
      processImageRelocations.loop buffer bufferEnd difference passes bufferPtr self = some r →
      Rewritten self r.2 ∧
      ∀ x, (∀ p i, p + sizeof_PELIB_IMAGE_BASE_RELOCATION + 2 * i + 2 ≤ bufferEnd →
          x + 16 ≤ fixupAddressAt buffer p i ∨ fixupAddressAt buffer p i + 16 ≤ x) →
        imageByte r.2 x = imageByte self x := by
  intro passes
  induction passes with
  | zero =>
    intro bufferPtr self r hm h
    unfold processImageRelocations.loop at h
    split_ifs at h
    simp only [Option.some.injEq] at h
    subst h
    exact ⟨rewritten_refl hm, fun _ _ => rfl⟩
  | succ n ih =>
    intro bufferPtr self r hm h
    have stop : some (true, self) = some r →
        Rewritten self r.2 ∧
        ∀ x, (∀ p i, p + sizeof_PELIB_IMAGE_BASE_RELOCATION + 2 * i + 2 ≤ bufferEnd →
            x + 16 ≤ fixupAddressAt buffer p i ∨ fixupAddressAt buffer p i + 16 ≤ x) →
          imageByte r.2 x = imageByte self x := by
      intro h
      simp only [Option.some.injEq] at h
      subst h
      exact ⟨rewritten_refl hm, fun _ _ => rfl⟩
    rw [processImageRelocations.loop] at h
    by_cases c0 : bufferPtr + sizeof_PELIB_IMAGE_BASE_RELOCATION ≤ bufferEnd
    · rw [if_pos c0] at h
      simp only [] at h
      by_cases c1 : isValidImageBlock self (readLE buffer bufferPtr 4)
          (readLE buffer (bufferPtr + 4) 4) = false
      · rw [if_pos c1] at h
        exact stop h
      rw [if_neg c1] at h
      by_cases c2 : readLE buffer (bufferPtr + 4) 4 ≤ sizeof_PELIB_IMAGE_BASE_RELOCATION
      · rw [if_pos c2] at h
        exact ih _ self r hm h
      rw [if_neg c2] at h
      by_cases c3 : isZeroPage self (readLE buffer bufferPtr 4) = true
      · rw [if_pos c3] at h
        exact ih _ self r hm h
      rw [if_neg c3] at h
      generalize hS : (if bufferPtr + readLE buffer (bufferPtr + 4) 4 > bufferEnd
        then bufferEnd - bufferPtr else readLE buffer (bufferPtr + 4) 4) = SizeOfBlock at h
      have hSle : bufferPtr + SizeOfBlock ≤ bufferEnd := by
        rw [← hS]
        unfold sizeof_PELIB_IMAGE_BASE_RELOCATION at c0
        split_ifs <;> omega
      cases he : processImageRelocations.entries buffer bufferEnd
          (bufferPtr + sizeof_PELIB_IMAGE_BASE_RELOCATION) (readLE buffer bufferPtr 4)
          difference ((SizeOfBlock - sizeof_PELIB_IMAGE_BASE_RELOCATION) / 2)
          ((SizeOfBlock - sizeof_PELIB_IMAGE_BASE_RELOCATION) / 2) 0 self with
      | none =>
        rw [he] at h
        exact absurd h (by simp)
      | some q =>
        rw [he] at h
        obtain ⟨h1, h2⟩ := entries_frame _ _ _ _ _ _ _ _ self q hm he
        have hblock : ∀ x, (∀ p i,
            p + sizeof_PELIB_IMAGE_BASE_RELOCATION + 2 * i + 2 ≤ bufferEnd →
            x + 16 ≤ fixupAddressAt buffer p i ∨ fixupAddressAt buffer p i + 16 ≤ x) →
            imageByte q.2 x = imageByte self x := by
          intro x hx
          apply h2
          intro k hk
          have := hx bufferPtr k (by
            unfold sizeof_PELIB_IMAGE_BASE_RELOCATION at hk ⊢
            omega)
          exact this
        obtain ⟨b, s⟩ := q
        cases b
        · simp only [Option.some.injEq] at h
          subst h
          exact ⟨h1, hblock⟩
        · simp only [] at h
          obtain ⟨h3, h4⟩ := ih _ s r (h1.mapped hm) h
          exact ⟨rewritten_trans h1 h3, fun x hx => by rw [h4 x hx, hblock x hx]⟩
    · rw [if_neg c0] at h
      exact stop h
/-- The read of the relocation data from a mapped image. -/
theorem readImage_relocationData (self : ImageLoader) (VirtualAddress Size : Nat)
    (hm : mappedImage self) (hs : Size < 2 ^ 32) :
    readImage self (List.replicate Size 0) VirtualAddress Size =
      some { count := transferCount self VirtualAddress Size, loader := self,
             buffer := relocationData self VirtualAddress Size } := by
  obtain ⟨buffer', hr, hl, hg⟩ := readImage_mapped self VirtualAddress Size hm hs
  rw [hr]
  have e : buffer' = relocationData self VirtualAddress Size := by
    apply List.ext_getElem
    · unfold relocationData
      rw [hl, List.length_map, List.length_range]
    · intro j h1 h2
      have := hg j
      rw [List.getD_eq_getElem?_getD, List.getElem?_eq_getElem h1] at this
      unfold relocationData
      rw [List.getElem_map, List.getElem_range]
      exact this
  rw [e]

/-- `processImageRelocations` changes no byte of a mapped image that is 16 bytes or more
away from the address of every entry that lies in the relocation data. -/
theorem processImageRelocations_frame (self : ImageLoader)
    (oldImageBase newImageBase VirtualAddress Size : Nat) (r : Bool × ImageLoader)
    (hm : mappedImage self)
    (h : processImageRelocations self oldImageBase newImageBase VirtualAddress Size = some r) :
    Rewritten self r.2 ∧
    ∀ x, (∀ p i, p + sizeof_PELIB_IMAGE_BASE_RELOCATION + 2 * i + 2 ≤
          transferCount self VirtualAddress Size →
        x + 16 ≤ fixupAddressAt (relocationData self VirtualAddress Size) p i ∨
        fixupAddressAt (relocationData self VirtualAddress Size) p i + 16 ≤ x) →
      imageByte r.2 x = imageByte self x := by
  unfold processImageRelocations at h
  simp only [] at h
  by_cases c : Size < sizeof_PELIB_IMAGE_BASE_RELOCATION ∨ Size > PELIB_SIZE_10MB
  · rw [if_pos c] at h
    simp only [Option.some.injEq] at h
    subst h
    exact ⟨rewritten_refl hm, fun _ _ => rfl⟩
  · rw [if_neg c, readImage_relocationData self VirtualAddress Size hm (by
      unfold PELIB_SIZE_10MB at c
      omega)] at h
    exact loop_frame _ _ _ _ _ self r hm h
/-- The entries of a relocation block are processed to the end, with a result, when the
image is mapped and the addend of every `HIGHADJ` entry lies in the relocation data. -/
theorem entries_isSome (buffer : List Nat)
    (bufferEnd typeAndOffset blockVirtualAddress difference numRelocations : Nat)
    (hadj : ∀ k, k < numRelocations →
      readLE buffer (typeAndOffset + 2 * k) 2 >>> 12 = PELIB_IMAGE_REL_BASED_HIGHADJ →
      typeAndOffset + 2 * (k + 1) + 2 ≤ bufferEnd) :
    ∀ (passes i : Nat) (self : ImageLoader), mappedImage self →
      numRelocations ≤ passes + i →
      ∃ r, processImageRelocations.entries buffer bufferEnd typeAndOffset blockVirtualAddress
        difference numRelocations passes i self = some r := by
  intro passes
  induction passes with
  | zero =>
    intro i self hm hfuel
    unfold processImageRelocations.entries
    rw [if_neg (by omega)]
    exact ⟨_, rfl⟩
  | succ n ih =>
    intro i self hm hfuel
    rw [processImageRelocations.entries]
    by_cases hi : i < numRelocations
    · rw [if_pos hi]
      simp only []
      by_cases c1 : readLE buffer (typeAndOffset + 2 * i) 2 >>> 12 = PELIB_IMAGE_REL_BASED_DIR64
      · rw [if_pos c1]
        obtain ⟨t, ht, hrw, _⟩ := fixup_frame self
          (u32 (blockVirtualAddress + (readLE buffer (typeAndOffset + 2 * i) 2 &&& 0x0FFF))) 8
          (fun fixupValue => u64 (fixupValue + difference)) hm (by norm_num)
        rw [ht]
        exact ih (i + 1) t (hrw.mapped hm) (by omega)
      rw [if_neg c1]
      by_cases c2 : readLE buffer (typeAndOffset + 2 * i) 2 >>> 12 = PELIB_IMAGE_REL_BASED_HIGHLOW
      · rw [if_pos c2]
        obtain ⟨t, ht, hrw, _⟩ := fixup_frame self
          (u32 (blockVirtualAddress + (readLE buffer (typeAndOffset + 2 * i) 2 &&& 0x0FFF))) 4
          (fun fixupValue => u32 (fixupValue + u32 difference)) hm (by norm_num)
        rw [ht]
        exact ih (i + 1) t (hrw.mapped hm) (by omega)
      rw [if_neg c2]
      by_cases c3 : readLE buffer (typeAndOffset + 2 * i) 2 >>> 12 = PELIB_IMAGE_REL_BASED_HIGH
      · rw [if_pos c3]
        obtain ⟨t, ht, hrw, _⟩ := fixup_frame self
          (u32 (blockVirtualAddress + (readLE buffer (typeAndOffset + 2 * i) 2 &&& 0x0FFF))) 2
          (fun fixupValue => u16 (u32 (u32 (fixupValue <<< 16) + u32 difference) >>> 16)) hm (by norm_num)
        rw [ht]
        exact ih (i + 1) t (hrw.mapped hm) (by omega)
      rw [if_neg c3]
      by_cases c4 : readLE buffer (typeAndOffset + 2 * i) 2 >>> 12 = PELIB_IMAGE_REL_BASED_HIGHADJ
      · rw [if_pos c4]
        obtain ⟨buffer', hr, hl, hg⟩ := readImage_mapped self
          (u32 (blockVirtualAddress + (readLE buffer (typeAndOffset + 2 * i) 2 &&& 0x0FFF))) 2
          hm (by norm_num)
        rw [hr]
        simp only []
        by_cases d1 : transferCount self
            (u32 (blockVirtualAddress + (readLE buffer (typeAndOffset + 2 * i) 2 &&& 0x0FFF))) 2 = 2
        · rw [if_neg (by rw [d1]; exact fun h => h rfl)]
          have d2 := hadj i hi c4
          rw [if_neg (by omega)]
          obtain ⟨t, hw, hrw, hb⟩ := writeImage_mapped self
            (bytesLE (u16 (u32 (u32 (u32 (u32 (readLE buffer' 0 2 <<< 16) +
              readLE buffer (typeAndOffset + 2 * (i + 1)) 2) + u32 difference) + 0x8000)
                >>> 16)) 2)
            (u32 (blockVirtualAddress + (readLE buffer (typeAndOffset + 2 * i) 2 &&& 0x0FFF)))
            2 hm (bytesLE_length _ _) (by norm_num)
          rw [hw]
          exact ih (i + 2) t (hrw.mapped hm) (by omega)
        · rw [if_pos d1]
          exact ih (i + 1) self hm (by omega)
      rw [if_neg c4]
      by_cases c5 : readLE buffer (typeAndOffset + 2 * i) 2 >>> 12 = PELIB_IMAGE_REL_BASED_LOW
      · rw [if_pos c5]
        obtain ⟨t, ht, hrw, _⟩ := fixup_frame self
          (u32 (blockVirtualAddress + (readLE buffer (typeAndOffset + 2 * i) 2 &&& 0x0FFF))) 2
          (fun fixupValue => u16 (fixupValue + difference)) hm (by norm_num)
        rw [ht]
        exact ih (i + 1) t (hrw.mapped hm) (by omega)
      rw [if_neg c5]
      by_cases c6 : readLE buffer (typeAndOffset + 2 * i) 2 >>> 12 = PELIB_IMAGE_REL_BASED_MIPS_JMPADDR
      · rw [if_pos c6]
        obtain ⟨t, ht, hrw, _⟩ := fixup_frame self
          (u32 (blockVirtualAddress + (readLE buffer (typeAndOffset + 2 * i) 2 &&& 0x0FFF))) 4
          (fun fixupValue =>
            (fixupValue &&& not32 0x3ffffff) |||
              ((u32 (u32 ((fixupValue &&& 0x3ffffff) <<< 2) + u32 difference) >>> 2) &&&
                0x3ffffff)) hm (by norm_num)
        rw [ht]
        exact ih (i + 1) t (hrw.mapped hm) (by omega)
      rw [if_neg c6]
      by_cases c7 : readLE buffer (typeAndOffset + 2 * i) 2 >>> 12 = PELIB_IMAGE_REL_BASED_IA64_IMM64
      · rw [if_pos c7]
        obtain ⟨t, ht, hrw, _⟩ := processImageRelocation_IA64_IMM64_frame self
          (u32 (blockVirtualAddress + (readLE buffer (typeAndOffset + 2 * i) 2 &&& 0x0FFF)))
          difference hm (Nat.mod_lt _ (by norm_num))
        rw [ht]
        exact ih (i + 1) t.2 (hrw.mapped hm) (by omega)
      rw [if_neg c7]
      by_cases c8 : readLE buffer (typeAndOffset + 2 * i) 2 >>> 12 = PELIB_IMAGE_REL_BASED_ABSOLUTE
      · rw [if_pos c8]
        exact ih (i + 1) self hm (by omega)
      rw [if_neg c8]
      exact ⟨_, rfl⟩
    · rw [if_neg hi]
      exact ⟨_, rfl⟩

/-- The block loop runs to its end, with a result, when the image is mapped and the addend of
every `HIGHADJ` entry that lies in the relocation data lies in the relocation data too. -/
theorem loop_isSome (buffer : List Nat) (bufferEnd difference : Nat)
    (hadj : ∀ p k, p + sizeof_PELIB_IMAGE_BASE_RELOCATION + 2 * k + 2 ≤ bufferEnd →
      readLE buffer (p + sizeof_PELIB_IMAGE_BASE_RELOCATION + 2 * k) 2 >>> 12 =
        PELIB_IMAGE_REL_BASED_HIGHADJ →
      p + sizeof_PELIB_IMAGE_BASE_RELOCATION + 2 * (k + 1) + 2 ≤ bufferEnd) :
    ∀ (passes bufferPtr : Nat) (self : ImageLoader), mappedImage self →
      bufferEnd ≤ passes + bufferPtr →
      ∃ r, processImageRelocations.loop buffer bufferEnd difference passes bufferPtr self =
        some r := by
  intro passes
  induction passes with
  | zero =>
    intro bufferPtr self hm hfuel
    unfold processImageRelocations.loop
    rw [if_neg (by unfold sizeof_PELIB_IMAGE_BASE_RELOCATION; omega)]
    exact ⟨_, rfl⟩
  | succ n ih =>
    intro bufferPtr self hm hfuel
    rw [processImageRelocations.loop]
    by_cases c0 : bufferPtr + sizeof_PELIB_IMAGE_BASE_RELOCATION ≤ bufferEnd
    · rw [if_pos c0]
      simp only []
      by_cases c1 : isValidImageBlock self (readLE buffer bufferPtr 4)
          (readLE buffer (bufferPtr + 4) 4) = false
      · rw [if_pos c1]
        exact ⟨_, rfl⟩
      rw [if_neg c1]
      by_cases c2 : readLE buffer (bufferPtr + 4) 4 ≤ sizeof_PELIB_IMAGE_BASE_RELOCATION
      · rw [if_pos c2]
        exact ih _ self hm (by unfold sizeof_PELIB_IMAGE_BASE_RELOCATION; omega)
      rw [if_neg c2]
      by_cases c3 : isZeroPage self (readLE buffer bufferPtr 4) = true
      · rw [if_pos c3]
        exact ih _ self hm (by omega)
      rw [if_neg c3]
      generalize hS : (if bufferPtr + readLE buffer (bufferPtr + 4) 4 > bufferEnd
        then bufferEnd - bufferPtr else readLE buffer (bufferPtr + 4) 4) = SizeOfBlock
      have hSle : bufferPtr + SizeOfBlock ≤ bufferEnd ∧ 0 < SizeOfBlock := by
        rw [← hS]
        unfold sizeof_PELIB_IMAGE_BASE_RELOCATION at c0 c2
        split_ifs <;> omega
      obtain ⟨q, he⟩ := entries_isSome buffer bufferEnd
        (bufferPtr + sizeof_PELIB_IMAGE_BASE_RELOCATION) (readLE buffer bufferPtr 4)
        difference ((SizeOfBlock - sizeof_PELIB_IMAGE_BASE_RELOCATION) / 2)
        (fun k hk hty => hadj bufferPtr k (by
          unfold sizeof_PELIB_IMAGE_BASE_RELOCATION at hk ⊢
          omega) hty)
        ((SizeOfBlock - sizeof_PELIB_IMAGE_BASE_RELOCATION) / 2) 0 self hm (by omega)
      rw [he]
      obtain ⟨h1, _⟩ := entries_frame _ _ _ _ _ _ _ _ self q hm he
      obtain ⟨b, s⟩ := q
      cases b
      · exact ⟨_, rfl⟩
      · exact ih _ s (h1.mapped hm) (by omega)
    · rw [if_neg c0]
      exact ⟨_, rfl⟩

/-- `processImageRelocations` returns when the image is mapped and the addend of every
`HIGHADJ` entry that lies in the relocation data lies in the relocation data too. -/
theorem processImageRelocations_isSome (self : ImageLoader)
    (oldImageBase newImageBase VirtualAddress Size : Nat) (hm : mappedImage self)
    (hadj : ∀ p k, p + sizeof_PELIB_IMAGE_BASE_RELOCATION + 2 * k + 2 ≤
        transferCount self VirtualAddress Size →
      readLE (relocationData self VirtualAddress Size)
          (p + sizeof_PELIB_IMAGE_BASE_RELOCATION + 2 * k) 2 >>> 12 =
        PELIB_IMAGE_REL_BASED_HIGHADJ →
      p + sizeof_PELIB_IMAGE_BASE_RELOCATION + 2 * (k + 1) + 2 ≤
        transferCount self VirtualAddress Size) :
    ∃ r, processImageRelocations self oldImageBase newImageBase VirtualAddress Size =
      some r := by
  unfold processImageRelocations
  simp only []
  by_cases c : Size < sizeof_PELIB_IMAGE_BASE_RELOCATION ∨ Size > PELIB_SIZE_10MB
  · rw [if_pos c]
    exact ⟨_, rfl⟩
  · rw [if_neg c, readImage_relocationData self VirtualAddress Size hm (by
      unfold PELIB_SIZE_10MB at c
      omega)]
    exact loop_isSome _ _ _ hadj _ 0 self hm (Nat.le_refl _)

set_option maxRecDepth 100000 in
set_option maxHeartbeats 4000000 in
/-- The example image `highlowImage` is a mapped image. -/
theorem mappedImage_highlowImage : mappedImage highlowImage :=
  ⟨⟨by decide!, by decide!, by decide!⟩, by unfold wellFormedPages; decide!⟩

set_option maxRecDepth 100000 in
set_option maxHeartbeats 4000000 in
/-- C14: relocation is not idempotent.  The mapped image `highlowImage` has
`ImageBase = 0x140000000` and the value `0x40001234` at rva `0x1010`, the target of its one
`HIGHLOW` entry.  The first `relocateImage(0x140010000)` returns `true` and leaves
`0x40011234` there; `ImageBase` of the loader is still `0x140000000`, so the second call
with the same base applies the delta once more, returns `true` and leaves `0x40021234`:
the bytes after two calls are not the bytes after one. -/
theorem relocateImage_twice_applies_delta_twice :
    readLE (imageBytes highlowImage 0x1010 4) 0 4 = 0x40001234 ∧
    (relocateImage highlowImage 0x140010000).map
        (fun r => (r.1, readLE (imageBytes r.2 0x1010 4) 0 4, r.2.optionalHeader.ImageBase)) =
      some (true, 0x40011234, 0x140000000) ∧
    ((relocateImage highlowImage 0x140010000).bind
        fun r => relocateImage r.2 0x140010000).map
        (fun r => (r.1, readLE (imageBytes r.2 0x1010 4) 0 4, r.2.optionalHeader.ImageBase)) =
      some (true, 0x40021234, 0x140000000) := by
  refine ⟨by decide!, by decide!, by decide!⟩


/-- C17: for every mapped image with PE32 or PE32+ magic whose optional header, up to the
data directory, lies inside the mapped image, and every `newBase != ImageBase` that passes
the initial checks (pages exist, relocations not stripped, app-container check passes, base
fits the bitness), `relocateImage newBase` first writes the image base: in the image `t`
that `writeNewImageBase` leaves, the field `ImageBase` of the optional header stored at RVA
`e_lfanew + 4 + sizeof(file header) + offset of ImageBase` holds `newBase` (its low 32 bits
for PE32).  The call then either returns `false` with the image `t`, or goes on with
`processImageRelocations` on `t`; it returns, when the addend of every `HIGHADJ` entry lies
in the relocation data, and the field holds `newBase` in the image it leaves, whatever flag
it returns, when no relocation entry targets the bytes of the field. -/
theorem relocateImage_writes_ImageBase (self : ImageLoader) (newBase : Nat)
    (hm : mappedImage self)
    (hmagic : self.optionalHeader.Magic = PELIB_IMAGE_NT_OPTIONAL_HDR64_MAGIC ∨
      self.optionalHeader.Magic = PELIB_IMAGE_NT_OPTIONAL_HDR32_MAGIC)
    (hinside : optionalHeaderRva self + copySizeOfOptionalHeader self ≤
      getSizeOfImageAligned self)
    (hne : newBase ≠ self.optionalHeader.ImageBase)
    (h1 : self.fileHeader.Characteristics &&& PELIB_IMAGE_FILE_RELOCS_STRIPPED = 0)
    (h2 : ¬ (self.appContainerCheck = true ∧ checkForBadAppContainer self = true))
    (h3 : ¬ (self.optionalHeader.Magic = PELIB_IMAGE_NT_OPTIONAL_HDR32_MAGIC ∧
      2 ^ 32 ≤ newBase)) :
    ∃ t, writeNewImageBase self newBase = some t ∧
      imageBytes t (imageBaseRva self) (imageBaseWidth self) =
        bytesLE newBase (imageBaseWidth self) ∧
      (relocateImage self newBase = some (false, t) ∨
        relocateImage self newBase =
          processImageRelocations t self.optionalHeader.ImageBase newBase
            (baseRelocationDirectory self).VirtualAddress
            (baseRelocationDirectory self).Size) ∧
      (addendsInside t (baseRelocationDirectory self).VirtualAddress
          (baseRelocationDirectory self).Size →
        ∃ r, relocateImage self newBase = some r ∧
          (untargeted t (baseRelocationDirectory self).VirtualAddress
              (baseRelocationDirectory self).Size (imageBaseRva self) (imageBaseWidth self) →
            imageBytes r.2 (imageBaseRva self) (imageBaseWidth self) =
              bytesLE newBase (imageBaseWidth self))) := by
  obtain ⟨pages', hw, hstep⟩ := relocateImage_steps self newBase hm hne h1 h2 h3
  obtain ⟨pages2, hw2, hlen, hwf, _, hbytes⟩ := writeNewImageBase_spec self newBase hm
  rw [hw] at hw2
  simp only [Option.some.injEq] at hw2
  have hpages : pages' = pages2 := congrArg ImageLoader.pages hw2
  have hmt : mappedImage { self with pages := pages' } :=
    mappedImage_pages self pages' hm (by rw [hpages]; exact hlen) (by rw [hpages]; exact hwf)
  have hfield : imageBytes { self with pages := pages' } (imageBaseRva self)
      (imageBaseWidth self) = bytesLE newBase (imageBaseWidth self) := by
    have hcount := transferCount_inside self (optionalHeaderRva self)
      (copySizeOfOptionalHeader self) hinside
    have hwidth : imageBaseRva self + imageBaseWidth self ≤
        optionalHeaderRva self + copySizeOfOptionalHeader self := by
      unfold imageBaseRva imageBaseWidth copySizeOfOptionalHeader
      rcases hmagic with h | h
      · simp only [h, if_true, offsetOfImageBase64, copySizeOfOptionalHeader64]
        omega
      · have h64 : ¬ self.optionalHeader.Magic = PELIB_IMAGE_NT_OPTIONAL_HDR64_MAGIC := by
          rw [h]; decide
        simp only [if_neg h64, if_pos h, offsetOfImageBase32, copySizeOfOptionalHeader32]
        omega
    apply List.ext_getElem
    · unfold imageBytes
      rw [List.length_map, List.length_range, bytesLE_length]
    · intro i hi1 hi2
      unfold imageBytes at hi1 ⊢
      rw [List.length_map, List.length_range] at hi1
      rw [List.getElem_map, List.getElem_range, imageByte_eq]
      show pageListByte pages' _ = _
      rw [hpages, hbytes, if_pos ⟨by omega, by omega, by omega⟩]
      have e : imageBaseRva self + i - imageBaseRva self = i := by omega
      rw [e, List.getD_eq_getElem?_getD, List.getElem?_eq_getElem hi2]
      rfl
  refine ⟨{ self with pages := pages' }, hw, hfield, ?_, ?_⟩
  · rw [hstep]
    split_ifs
    · exact Or.inl rfl
    · exact Or.inr rfl
  · intro hadj
    rw [hstep]
    split_ifs
    · exact ⟨_, rfl, fun _ => hfield⟩
    · obtain ⟨r, hr⟩ := processImageRelocations_isSome { self with pages := pages' }
        self.optionalHeader.ImageBase newBase
        (self.optionalHeader.DataDirectory.getD PELIB_IMAGE_DIRECTORY_ENTRY_BASERELOC {}).VirtualAddress
        (self.optionalHeader.DataDirectory.getD PELIB_IMAGE_DIRECTORY_ENTRY_BASERELOC {}).Size
        hmt hadj
      refine ⟨r, hr, fun hfree => ?_⟩
      obtain ⟨_, hframe⟩ := processImageRelocations_frame _ _ _ _ _ r hmt hr
      rw [← hfield]
      unfold imageBytes
      apply List.map_congr_left
      intro i hi
      rw [List.mem_range] at hi
      exact hframe _ (fun p k hp =>
        hfree p k (imageBaseRva self + i) hp (by omega) (by omega))

set_option maxRecDepth 100000 in
set_option maxHeartbeats 4000000 in
/-- C17, witness: the relocation of the mapped image `highlowImage` (PE32+,
`e_lfanew = 0x40`, one `HIGHLOW` entry for rva `0x1010`) to `0x140010000` writes the 8 bytes
of the new image base at rva `0x70`; the call returns `true` and the field holds the new
base afterwards. -/
theorem relocateImage_writes_ImageBase_witness :
    (∃ t, writeNewImageBase highlowImage 0x140010000 = some t ∧
      imageBytes t (imageBaseRva highlowImage) (imageBaseWidth highlowImage) =
        bytesLE 0x140010000 (imageBaseWidth highlowImage) ∧
      (relocateImage highlowImage 0x140010000 = some (false, t) ∨
        relocateImage highlowImage 0x140010000 =
          processImageRelocations t highlowImage.optionalHeader.ImageBase 0x140010000
            (baseRelocationDirectory highlowImage).VirtualAddress
            (baseRelocationDirectory highlowImage).Size) ∧
      (addendsInside t (baseRelocationDirectory highlowImage).VirtualAddress
          (baseRelocationDirectory highlowImage).Size →
        ∃ r, relocateImage highlowImage 0x140010000 = some r ∧
          (untargeted t (baseRelocationDirectory highlowImage).VirtualAddress
              (baseRelocationDirectory highlowImage).Size (imageBaseRva highlowImage)
              (imageBaseWidth highlowImage) →
            imageBytes r.2 (imageBaseRva highlowImage) (imageBaseWidth highlowImage) =
              bytesLE 0x140010000 (imageBaseWidth highlowImage)))) ∧
    imageBaseRva highlowImage = 0x70 ∧ imageBaseWidth highlowImage = 8 ∧
    (relocateImage highlowImage 0x140010000).map
        (fun r => (r.1, imageBytes r.2 0x70 8)) = some (true, bytesLE 0x140010000 8) :=
  ⟨relocateImage_writes_ImageBase highlowImage 0x140010000 mappedImage_highlowImage
      (Or.inl (by decide!)) (by decide!) (by decide!) (by decide!) (by decide!) (by decide!),
    by decide!, by decide!, by decide!⟩

/-- The 32-bit sum of a value and the difference of two image bases, as the `HIGHLOW` case
computes it. -/
theorem highlow_value (v oldBase newBase : Nat) :
    u32 (v + u32 (u64 (newBase + (2 ^ 64 - u64 oldBase)))) =
      u32OfInt ((v : Int) + ((newBase : Int) - (oldBase : Int))) := by
  unfold u32 u64 u32OfInt
  omega

/-- C18: `HIGHLOW` relocation.  For every mapped image whose relocation data, the 10 bytes
at `VirtualAddress` inside the image, are one valid block of 10 bytes for a page that is not
a zero page, with a single entry of type `HIGHLOW` whose address `a` has its 4 bytes inside
the image, and for every old and new image base, `processImageRelocations` returns `true`,
replaces the little-endian 32-bit value `v` at `a` by `(v + (newBase - oldBase)) mod 2^32`
and changes no other byte of the image. -/
theorem processImageRelocations_HIGHLOW (self : ImageLoader)
    (oldBase newBase VirtualAddress : Nat) (hm : mappedImage self)
    (hdata : VirtualAddress + 10 ≤ getSizeOfImageAligned self)
    (hsize : readLE (relocationData self VirtualAddress 10) 4 4 = 10)
    (htype : readLE (relocationData self VirtualAddress 10) 8 2 >>> 12 =
      PELIB_IMAGE_REL_BASED_HIGHLOW)
    (hvalid : isValidImageBlock self (readLE (relocationData self VirtualAddress 10) 0 4) 10 =
      true)
    (hpage : isZeroPage self (readLE (relocationData self VirtualAddress 10) 0 4) = false)
    (htarget : fixupAddressAt (relocationData self VirtualAddress 10) 0 0 + 4 ≤
      getSizeOfImageAligned self) :
    ∃ loader, processImageRelocations self oldBase newBase VirtualAddress 10 =
        some (true, loader) ∧
      imageBytes loader (fixupAddressAt (relocationData self VirtualAddress 10) 0 0) 4 =
        bytesLE (u32OfInt
          ((readLE (imageBytes self
              (fixupAddressAt (relocationData self VirtualAddress 10) 0 0) 4) 0 4 : Int) +
            ((newBase : Int) - (oldBase : Int)))) 4 ∧
      ∀ x, ¬ (fixupAddressAt (relocationData self VirtualAddress 10) 0 0 ≤ x ∧
          x < fixupAddressAt (relocationData self VirtualAddress 10) 0 0 + 4) →
        imageByte loader x = imageByte self x := by
  have htc : transferCount self VirtualAddress 10 = 10 :=
    transferCount_inside self VirtualAddress 10 hdata
  have hta := transferCount_inside self _ 4 htarget
  obtain ⟨t, ht, _, hcases⟩ := fixup_spec self
    (fixupAddressAt (relocationData self VirtualAddress 10) 0 0) 4
    (fun fixupValue => u32 (fixupValue + u32 (u64 (newBase + (2 ^ 64 - u64 oldBase))))) hm
    (by norm_num)
  have hb : ∀ x, imageByte t x =
      if fixupAddressAt (relocationData self VirtualAddress 10) 0 0 ≤ x ∧
          x < fixupAddressAt (relocationData self VirtualAddress 10) 0 0 + 4 then
        (bytesLE (u32OfInt
          ((readLE (imageBytes self
              (fixupAddressAt (relocationData self VirtualAddress 10) 0 0) 4) 0 4 : Int) +
            ((newBase : Int) - (oldBase : Int)))) 4).getD
          (x - fixupAddressAt (relocationData self VirtualAddress 10) 0 0) 0
      else imageByte self x := by
    rcases hcases with ⟨hne, _⟩ | ⟨_, hb⟩
    · exact absurd hta hne
    · intro x
      rw [hb x, highlow_value]
  refine ⟨t, ?_, ?_, fun x hx => by rw [hb x, if_neg hx]⟩
  · unfold processImageRelocations
    simp only []
    rw [if_neg (by unfold sizeof_PELIB_IMAGE_BASE_RELOCATION PELIB_SIZE_10MB; omega),
      readImage_relocationData self VirtualAddress 10 hm (by norm_num)]
    simp only [htc]
    rw [processImageRelocations.loop]
    simp only [Nat.zero_add]
    rw [if_pos (by unfold sizeof_PELIB_IMAGE_BASE_RELOCATION; omega), hsize,
      if_neg (by rw [hvalid]; decide),
      if_neg (by unfold sizeof_PELIB_IMAGE_BASE_RELOCATION; omega),
      if_neg (by rw [hpage]; decide)]
    have hclamp : (if 10 > 10 then 10 - 0 else 10) = 10 := by decide
    have hnum : (10 - sizeof_PELIB_IMAGE_BASE_RELOCATION) / 2 = 1 := by decide
    rw [hclamp, hnum, processImageRelocations.entries, if_pos (by decide)]
    have htype' : readLE (relocationData self VirtualAddress 10)
        (sizeof_PELIB_IMAGE_BASE_RELOCATION + 2 * 0) 2 >>> 12 =
        PELIB_IMAGE_REL_BASED_HIGHLOW := htype
    have ht' : processImageRelocations.fixup self
        (u32 (readLE (relocationData self VirtualAddress 10) 0 4 +
          (readLE (relocationData self VirtualAddress 10)
            (sizeof_PELIB_IMAGE_BASE_RELOCATION + 2 * 0) 2 &&& 0x0FFF))) 4
        (fun fixupValue => u32 (fixupValue + u32 (u64 (newBase + (2 ^ 64 - u64 oldBase))))) =
        some t := ht
    simp only []
    rw [if_neg (by rw [htype']; decide), if_pos htype', ht']
    simp only []
    rw [processImageRelocations.entries, if_neg (by decide)]
    simp only []
    rw [processImageRelocations.loop, if_neg (by decide)]
  · apply List.ext_getElem
    · unfold imageBytes
      rw [List.length_map, List.length_range, bytesLE_length]
    · intro i hi1 hi2
      unfold imageBytes at hi1 ⊢
      rw [List.length_map, List.length_range] at hi1
      rw [List.getElem_map, List.getElem_range, hb, if_pos ⟨by omega, by omega⟩]
      have e : fixupAddressAt (relocationData self VirtualAddress 10) 0 0 + i -
          fixupAddressAt (relocationData self VirtualAddress 10) 0 0 = i := by omega
      rw [e, List.getD_eq_getElem?_getD, List.getElem?_eq_getElem hi2]
      rfl

set_option maxRecDepth 100000 in
set_option maxHeartbeats 4000000 in
/-- C18, witness: in the mapped image `highlowImage` the relocation data at rva `0x1000` are
one block with the single `HIGHLOW` entry for rva `0x1010`, `.text + 0x10`, where the value
`0x40001234` is stored; block processing with the delta `+0x10000` returns `true`, leaves
`0x40011234` there and changes no other byte. -/
theorem processImageRelocations_HIGHLOW_witness :
    (∃ loader, processImageRelocations highlowImage 0x140000000 0x140010000 0x1000 10 =
        some (true, loader) ∧
      imageBytes loader (fixupAddressAt (relocationData highlowImage 0x1000 10) 0 0) 4 =
        bytesLE (u32OfInt
          ((readLE (imageBytes highlowImage
              (fixupAddressAt (relocationData highlowImage 0x1000 10) 0 0) 4) 0 4 : Int) +
            (((0x140010000 : Nat) : Int) - ((0x140000000 : Nat) : Int)))) 4 ∧
      ∀ x, ¬ (fixupAddressAt (relocationData highlowImage 0x1000 10) 0 0 ≤ x ∧
          x < fixupAddressAt (relocationData highlowImage 0x1000 10) 0 0 + 4) →
        imageByte loader x = imageByte highlowImage x) ∧
    fixupAddressAt (relocationData highlowImage 0x1000 10) 0 0 = 0x1010 ∧
    readLE (imageBytes highlowImage 0x1010 4) 0 4 = 0x40001234 ∧
    (processImageRelocations highlowImage 0x140000000 0x140010000 0x1000 10).map
        (fun r => (r.1, readLE (imageBytes r.2 0x1010 4) 0 4)) = some (true, 0x40011234) :=
  ⟨processImageRelocations_HIGHLOW highlowImage 0x140000000 0x140010000 0x1000
      mappedImage_highlowImage (by decide!) (by decide!) (by decide!) (by decide!)
      (by decide!) (by decide!),
    by decide!, by decide!, by decide!⟩

set_option maxRecDepth 100000 in
set_option maxHeartbeats 4000000 in
/-- C19: a block whose last entry is `HIGHADJ` reads its addend behind the block.  The images
`highadjImage 12 follower` have a relocation directory of 12 bytes that starts with one block
of 10 bytes, whose single entry, index 0, is `HIGHADJ` for the 16-bit value `0x1234` at rva
`0x1010`; the block has no entry of index 1, and the two bytes behind it hold `follower`.
`relocateImage(0x140010000)` leaves `0x1235` at rva `0x1010` when `follower` is 0 and
`0x1236` when it is `0x8000`: the 16-bit word at index 1 is read as the addend.  With a
directory of 10 bytes, the block alone, the addend lies behind the bytes that were read into
the relocation buffer and the call has no defined result. -/
theorem relocateImage_HIGHADJ_reads_behind_block :
    relocationData (highadjImage 12 0x8000) 0x1000 12 =
      bytesLE 0x1000 4 ++ bytesLE 10 4 ++ bytesLE 0x4010 2 ++ bytesLE 0x8000 2 ∧
    (relocateImage (highadjImage 12 0) 0x140010000).map
        (fun r => (r.1, readLE (imageBytes r.2 0x1010 2) 0 2)) = some (true, 0x1235) ∧
    (relocateImage (highadjImage 12 0x8000) 0x140010000).map
        (fun r => (r.1, readLE (imageBytes r.2 0x1010 2) 0 2)) = some (true, 0x1236) ∧
    relocateImage (highadjImage 10 0) 0x140010000 = none := by
  refine ⟨by decide!, by decide!, by decide!, by decide!⟩

/-! ### Editing the section table -/

theorem sub32_pow2 (k : Nat) (hk : k < 32) : sub32 (2 ^ k) 1 = 2 ^ k - 1 := by
  have h1 : 2 ^ k < 2 ^ 32 := Nat.pow_lt_pow_right (by norm_num) hk
  have h0 : 0 < 2 ^ k := Nat.pos_pow_of_pos k (by norm_num)
  unfold sub32
  rw [Nat.mod_eq_of_lt h1]
  norm_num at h1 ⊢
  have : 2 ^ k + 4294967295 = (2 ^ k - 1) + 4294967296 := by omega
  rw [this, Nat.add_mod_right, Nat.mod_eq_of_lt (by omega)]

/-- For an alignment that is a power of two, `AlignToSize` rounds up to a multiple of the
alignment when the addition does not overflow. -/
theorem AlignToSize_pow2 (x k : Nat) (h : x + 2 ^ k ≤ 2 ^ 32) (hk : k < 32) :
    AlignToSize x (2 ^ k) = alignUp x (2 ^ k) := by
  have h0 : 0 < 2 ^ k := Nat.pos_pow_of_pos k (by norm_num)
  unfold AlignToSize alignUp
  rw [sub32_pow2 k hk]
  have hu : u32 (x + (2 ^ k - 1)) = x + 2 ^ k - 1 := by
    unfold u32
    rw [Nat.mod_eq_of_lt (by omega)]
    omega
  rw [hu, and_not32_mask _ k (by omega) (by omega)]
  have := Nat.div_add_mod (x + 2 ^ k - 1) (2 ^ k)
  rw [Nat.mul_comm] at this
  omega

theorem le_alignUp (x a : Nat) (ha : 0 < a) : x ≤ alignUp x a := by
  unfold alignUp
  have h1 := Nat.div_add_mod (x + a - 1) a
  have h2 := Nat.mod_lt (x + a - 1) ha
  rw [Nat.mul_comm] at h1
  omega

theorem alignUp_lt (x a : Nat) (ha : 0 < a) : alignUp x a < x + a := by
  unfold alignUp
  have h1 := Nat.div_add_mod (x + a - 1) a
  rw [Nat.mul_comm] at h1
  omega

theorem le_foldl_max (l : List Nat) : ∀ (b : Nat), b ≤ l.foldl max b ∧ ∀ x ∈ l, x ≤ l.foldl max b := by
  induction l with
  | nil => intro b; exact ⟨Nat.le_refl _, fun x hx => absurd hx (List.not_mem_nil x)⟩
  | cons a rest ih =>
    intro b
    obtain ⟨h1, h2⟩ := ih (max b a)
    refine ⟨le_trans (Nat.le_max_left b a) h1, ?_⟩
    intro x hx
    rcases List.mem_cons.mp hx with rfl | hx
    · exact le_trans (Nat.le_max_right b x) h1
    · exact h2 x hx

/-- The loop of `calcNewSectionAddresses` computes the two maxima when no end of a section
overflows. -/
theorem calcNewSectionAddresses_loop_eq (sections : List PELIB_SECTION_HEADER) :
    ∀ (a b : Nat),
      (∀ s ∈ sections, s.VirtualAddress + s.VirtualSize < 2 ^ 32 ∧
        s.PointerToRawData + s.SizeOfRawData < 2 ^ 32) →
      calcNewSectionAddresses.loop sections (a, b) =
        ((sections.map fun s => s.VirtualAddress + s.VirtualSize).foldl max a,
         (sections.map fun s => s.PointerToRawData + s.SizeOfRawData).foldl max b) := by
  induction sections with
  | nil => intro a b _; rfl
  | cons s rest ih =>
    intro a b h
    obtain ⟨h1, h2⟩ := h s (List.mem_cons_self s rest)
    unfold calcNewSectionAddresses.loop
    simp only [List.map_cons, List.foldl_cons]
    have e1 : u32 (s.VirtualAddress + s.VirtualSize) = s.VirtualAddress + s.VirtualSize :=
      Nat.mod_eq_of_lt h1
    have e2 : u32 (s.PointerToRawData + s.SizeOfRawData) =
        s.PointerToRawData + s.SizeOfRawData := Nat.mod_eq_of_lt h2
    rw [e1, e2, ih _ _ (fun t ht => h t (List.mem_cons_of_mem s ht))]
    have m1 : (if s.VirtualAddress + s.VirtualSize > a then s.VirtualAddress + s.VirtualSize
        else a) = max a (s.VirtualAddress + s.VirtualSize) := by
      split_ifs <;> omega
    have m2 : (if s.PointerToRawData + s.SizeOfRawData > b then
        s.PointerToRawData + s.SizeOfRawData else b) =
        max b (s.PointerToRawData + s.SizeOfRawData) := by
      split_ifs <;> omega
    rw [m1, m2]

/-- C21: `addSection`.  If `FileAlignment` or `SectionAlignment` is 0, `addSection` returns
null and changes nothing.  Otherwise, with fewer than 65535 sections, alignments that are
powers of two and no 32-bit overflow (the end of the virtual ranges, the end of the raw data
and `sectionSize`, each with the alignment added to it, stay below `2^32`), it appends
exactly one section and leaves the sections it found and the rest of the loader alone; the
new section, which is returned, has
`VirtualAddress = alignUp(max(SizeOfHeaders, max_i(VirtualAddress_i + VirtualSize_i)),
SectionAlignment)`,
`PointerToRawData = alignUp(max(SizeOfHeaders, max_i(PointerToRawData_i + SizeOfRawData_i)),
FileAlignment)`, `VirtualSize = alignUp(sectionSize, SectionAlignment)`,
`SizeOfRawData = alignUp(sectionSize, FileAlignment)` and the characteristics
`MEM_READ | MEM_WRITE | CNT_INITIALIZED_DATA | CNT_CODE`, so that its virtual range starts
at or after the end of every section that was there. -/
theorem addSection_appends_aligned_section (self : ImageLoader) (name : List Nat)
    (sectionSize : Nat) :
    ((self.optionalHeader.FileAlignment = 0 ∨ self.optionalHeader.SectionAlignment = 0) →
      addSection self name sectionSize = (none, self)) ∧
    (∀ m n, self.optionalHeader.SectionAlignment = 2 ^ m →
      self.optionalHeader.FileAlignment = 2 ^ n →
      self.sections.length < 65535 →
      virtualEnd self + self.optionalHeader.SectionAlignment < 2 ^ 32 →
      rawEnd self + self.optionalHeader.FileAlignment < 2 ^ 32 →
      sectionSize + self.optionalHeader.SectionAlignment < 2 ^ 32 →
      sectionSize + self.optionalHeader.FileAlignment < 2 ^ 32 →
      ∃ S, addSection self name sectionSize =
          (some S, { self with sections := self.sections ++ [S] }) ∧
        S.VirtualAddress = alignUp (virtualEnd self) self.optionalHeader.SectionAlignment ∧
        S.PointerToRawData = alignUp (rawEnd self) self.optionalHeader.FileAlignment ∧
        S.VirtualSize = alignUp sectionSize self.optionalHeader.SectionAlignment ∧
        S.SizeOfRawData = alignUp sectionSize self.optionalHeader.FileAlignment ∧
        S.Characteristics = PELIB_IMAGE_SCN_MEM_READ ||| PELIB_IMAGE_SCN_MEM_WRITE |||
          PELIB_IMAGE_SCN_CNT_INITIALIZED_DATA ||| PELIB_IMAGE_SCN_CNT_CODE ∧
        ∀ s ∈ self.sections, s.VirtualAddress + s.VirtualSize ≤ S.VirtualAddress) := by
  constructor
  · intro h
    unfold addSection
    by_cases hf : self.optionalHeader.FileAlignment = 0
    · rw [if_pos hf]
    · rw [if_neg hf, if_pos (h.resolve_left hf)]
  · intro m n hSA hFA hlen hv hr hs1 hs2
    have hSA0 : 0 < self.optionalHeader.SectionAlignment := by
      rw [hSA]; exact Nat.pos_pow_of_pos m (by norm_num)
    have hFA0 : 0 < self.optionalHeader.FileAlignment := by
      rw [hFA]; exact Nat.pos_pow_of_pos n (by norm_num)
    have hm : m < 32 := by
      by_contra hc
      have : 2 ^ 32 ≤ 2 ^ m := Nat.pow_le_pow_right (by norm_num) (by omega)
      omega
    have hn : n < 32 := by
      by_contra hc
      have : 2 ^ 32 ≤ 2 ^ n := Nat.pow_le_pow_right (by norm_num) (by omega)
      omega
    -- the ends of the sections do not overflow
    have hv' := le_foldl_max (self.sections.map fun s => s.VirtualAddress + s.VirtualSize)
      self.optionalHeader.SizeOfHeaders
    have hr' := le_foldl_max (self.sections.map fun s => s.PointerToRawData + s.SizeOfRawData)
      self.optionalHeader.SizeOfHeaders
    have hends : ∀ s ∈ self.sections, s.VirtualAddress + s.VirtualSize ≤ virtualEnd self ∧
        s.PointerToRawData + s.SizeOfRawData ≤ rawEnd self := by
      intro s hs
      exact ⟨hv'.2 _ (List.mem_map_of_mem _ hs), hr'.2 _ (List.mem_map_of_mem _ hs)⟩
    have hcalc : calcNewSectionAddresses self =
        (alignUp (virtualEnd self) self.optionalHeader.SectionAlignment,
         alignUp (rawEnd self) self.optionalHeader.FileAlignment) := by
      unfold calcNewSectionAddresses
      rw [calcNewSectionAddresses_loop_eq self.sections _ _ (fun s hs => by
        have := hends s hs
        omega)]
      show (AlignToSize (virtualEnd self) _, AlignToSize (rawEnd self) _) = _
      rw [hSA, hFA, AlignToSize_pow2 _ m (by rw [← hSA]; omega) hm,
        AlignToSize_pow2 _ n (by rw [← hFA]; omega) hn]
    have a1 := alignUp_lt (virtualEnd self) _ hSA0
    have a2 := alignUp_lt (rawEnd self) _ hFA0
    have a3 := alignUp_lt sectionSize _ hSA0
    have a4 := alignUp_lt sectionSize _ hFA0
    have e3 : AlignToSize sectionSize self.optionalHeader.SectionAlignment =
        alignUp sectionSize self.optionalHeader.SectionAlignment := by
      rw [hSA, AlignToSize_pow2 _ m (by rw [← hSA]; omega) hm]
    have e4 : AlignToSize sectionSize self.optionalHeader.FileAlignment =
        alignUp sectionSize self.optionalHeader.FileAlignment := by
      rw [hFA, AlignToSize_pow2 _ n (by rw [← hFA]; omega) hn]
    have hchar : PELIB_IMAGE_SCN_MEM_WRITE ||| PELIB_IMAGE_SCN_MEM_READ |||
        PELIB_IMAGE_SCN_CNT_INITIALIZED_DATA ||| PELIB_IMAGE_SCN_CNT_CODE =
        PELIB_IMAGE_SCN_MEM_READ ||| PELIB_IMAGE_SCN_MEM_WRITE |||
        PELIB_IMAGE_SCN_CNT_INITIALIZED_DATA ||| PELIB_IMAGE_SCN_CNT_CODE := by decide
    unfold addSection
    rw [if_neg (by omega), if_neg (by omega), if_neg (by unfold UINT16_MAX; omega)]
    simp only [hcalc, e3, e4]
    unfold PELIB_SECTION_HEADER.setVirtualRange PELIB_SECTION_HEADER.setRawDataRange
    simp only []
    rw [if_pos (by unfold UINT32_MAX; omega), if_pos (by unfold UINT32_MAX; omega),
      if_pos (by unfold UINT32_MAX; omega), if_pos (by unfold UINT32_MAX; omega)]
    refine ⟨{ ({} : PELIB_SECTION_HEADER).setName name with
        VirtualAddress := alignUp (virtualEnd self) self.optionalHeader.SectionAlignment,
        VirtualSize := alignUp sectionSize self.optionalHeader.SectionAlignment,
        PointerToRawData := alignUp (rawEnd self) self.optionalHeader.FileAlignment,
        SizeOfRawData := alignUp sectionSize self.optionalHeader.FileAlignment,
        Characteristics := PELIB_IMAGE_SCN_MEM_WRITE ||| PELIB_IMAGE_SCN_MEM_READ |||
          PELIB_IMAGE_SCN_CNT_INITIALIZED_DATA ||| PELIB_IMAGE_SCN_CNT_CODE },
      ?_, rfl, rfl, rfl, rfl, hchar, ?_⟩
    · unfold getSectionHeader
      simp only [List.length_append, List.length_singleton, Nat.add_sub_cancel,
        List.get?_eq_getElem?]
      rw [List.getElem?_append_right (Nat.le_refl _)]
      simp
    · intro s hs
      have := (hends s hs).1
      have := le_alignUp (virtualEnd self) _ hSA0
      show _ ≤ alignUp (virtualEnd self) self.optionalHeader.SectionAlignment
      omega

/-- C21, witness: with `FileAlignment = 0` nothing is added; in `editImage` (alignments
`0x1000` and `0x200`, sections ending at rva `0x5000` and file offset `0x2600`) a section of
`0x123` bytes is appended at rva `0x5000` and file offset `0x2600` with the sizes `0x1000`
and `0x200`. -/
theorem addSection_appends_aligned_section_witness :
    addSection editImageNoFileAlignment [0x2E, 0x61] 0x123 = (none, editImageNoFileAlignment) ∧
    ∃ S, addSection editImage [0x2E, 0x61] 0x123 =
        (some S, { editImage with sections := editImage.sections ++ [S] }) ∧
      S.VirtualAddress = 0x5000 ∧ S.PointerToRawData = 0x2600 ∧ S.VirtualSize = 0x1000 ∧
      S.SizeOfRawData = 0x200 ∧
      ∀ s ∈ editImage.sections, s.VirtualAddress + s.VirtualSize ≤ S.VirtualAddress := by
  refine ⟨(addSection_appends_aligned_section editImageNoFileAlignment [0x2E, 0x61] 0x123).1
    (Or.inl rfl), ?_⟩
  obtain ⟨S, h1, h2, h3, h4, h5, _, h7⟩ :=
    (addSection_appends_aligned_section editImage [0x2E, 0x61] 0x123).2 12 9 rfl rfl
      (by decide) (by decide) (by decide) (by decide) (by decide)
  exact ⟨S, h1, h2.trans (by decide), h3.trans (by decide), h4.trans (by decide),
    h5.trans (by decide), h7⟩

theorem splitSection_move_length (sectionIndex : Nat) :
    ∀ (passes : Nat) (sections : List PELIB_SECTION_HEADER),
      (splitSection.move sectionIndex passes sections).length = sections.length := by
  intro passes
  induction passes with
  | zero => intro sections; rfl
  | succ p ih =>
    intro sections
    unfold splitSection.move
    simp only []
    rw [ih, List.length_set]

/-- The loop that makes room in `splitSection` moves the sections of the indices
`sectionIndex + 1` to `sectionIndex + passes` up by one position and leaves the others. -/
theorem splitSection_move_getElem? (sectionIndex : Nat) :
    ∀ (passes : Nat) (sections : List PELIB_SECTION_HEADER) (j : Nat),
      sectionIndex + passes + 1 < sections.length →
      (splitSection.move sectionIndex passes sections)[j]? =
        if sectionIndex + 2 ≤ j ∧ j ≤ sectionIndex + passes + 1 then sections[j - 1]?
        else sections[j]? := by
  intro passes
  induction passes with
  | zero =>
    intro sections j _
    unfold splitSection.move
    rw [if_neg (by omega)]
  | succ p ih =>
    intro sections j hlen
    unfold splitSection.move
    simp only []
    rw [ih _ j (by rw [List.length_set]; omega)]
    have hget : sections.getD (sectionIndex + (p + 1)) {} =
        sections[sectionIndex + (p + 1)] := by
      rw [List.getD_eq_getElem?_getD, List.getElem?_eq_getElem (by omega)]
      rfl
    rw [hget]
    by_cases h1 : sectionIndex + 2 ≤ j ∧ j ≤ sectionIndex + p + 1
    · rw [if_pos h1, if_pos (by omega), List.getElem?_set_ne (by omega)]
    · rw [if_neg h1]
      by_cases h2 : j = sectionIndex + (p + 1) + 1
      · subst h2
        rw [if_pos (by omega), List.getElem?_set_self (by omega)]
        simp only [Nat.add_sub_cancel]
        rw [List.getElem?_eq_getElem (by omega)]
      · rw [if_neg (by omega), List.getElem?_set_ne (by omega)]

theorem set_getD_getElem? (l : List PELIB_SECTION_HEADER) (i j : Nat)
    (f : PELIB_SECTION_HEADER → PELIB_SECTION_HEADER) (h : i < l.length) :
    (l.set i (f (l.getD i {})))[j]? = if j = i then l[j]?.map f else l[j]? := by
  have hget : l.getD i {} = l[i] := by
    rw [List.getD_eq_getElem?_getD, List.getElem?_eq_getElem h]
    rfl
  rw [hget]
  by_cases hj : j = i
  · subst hj
    rw [if_pos rfl, List.getElem?_set_self h, List.getElem?_eq_getElem h]
    rfl
  · rw [if_neg hj, List.getElem?_set_ne (fun e => hj e.symm)]

theorem setSectionName_getElem? (self : ImageLoader) (i j : Nat) (newName : List Nat) :
    (setSectionName self i newName).sections[j]? =
      if j = i then self.sections[j]?.map (fun s => s.setName newName)
      else self.sections[j]? := by
  unfold setSectionName
  by_cases h : i < self.sections.length
  · rw [if_pos h]
    exact set_getD_getElem? self.sections i j (fun s => s.setName newName) h
  · rw [if_neg h]
    by_cases hj : j = i
    · rw [if_pos hj, hj, List.getElem?_eq_none (by omega)]
      rfl
    · rw [if_neg hj]

theorem setSectionVirtualRange_getElem? (self : ImageLoader) (i j va vs : Nat) :
    (setSectionVirtualRange self i va vs).sections[j]? =
      if j = i then self.sections[j]?.map (fun s => s.setVirtualRange va vs)
      else self.sections[j]? := by
  unfold setSectionVirtualRange
  by_cases h : i < self.sections.length
  · rw [if_pos h]
    exact set_getD_getElem? self.sections i j (fun s => s.setVirtualRange va vs) h
  · rw [if_neg h]
    by_cases hj : j = i
    · rw [if_pos hj, hj, List.getElem?_eq_none (by omega)]
      rfl
    · rw [if_neg hj]

theorem setSectionRawDataRange_getElem? (self : ImageLoader) (i j ptr size : Nat) :
    (setSectionRawDataRange self i ptr size).sections[j]? =
      if j = i then self.sections[j]?.map (fun s => s.setRawDataRange ptr size)
      else self.sections[j]? := by
  unfold setSectionRawDataRange
  by_cases h : i < self.sections.length
  · rw [if_pos h]
    exact set_getD_getElem? self.sections i j (fun s => s.setRawDataRange ptr size) h
  · rw [if_neg h]
    by_cases hj : j = i
    · rw [if_pos hj, hj, List.getElem?_eq_none (by omega)]
      rfl
    · rw [if_neg hj]

theorem setSectionCharacteristics_getElem? (self : ImageLoader) (i j c : Nat) :
    (setSectionCharacteristics self i c).sections[j]? =
      if j = i then self.sections[j]?.map (fun s => { s with Characteristics := c })
      else self.sections[j]? := by
  unfold setSectionCharacteristics
  by_cases h : i < self.sections.length
  · rw [if_pos h]
    exact set_getD_getElem? self.sections i j (fun s => { s with Characteristics := c }) h
  · rw [if_neg h]
    by_cases hj : j = i
    · rw [if_pos hj, hj, List.getElem?_eq_none (by omega)]
      rfl
    · rw [if_neg hj]

/-- The setters of the section table change nothing but the section table. -/
theorem setSectionName_rest (self : ImageLoader) (i : Nat) (newName : List Nat) :
    setSectionName self i newName =
      { self with sections := (setSectionName self i newName).sections } := by
  unfold setSectionName
  split_ifs <;> rfl

theorem setSectionVirtualRange_rest (self : ImageLoader) (i va vs : Nat) :
    setSectionVirtualRange self i va vs =
      { self with sections := (setSectionVirtualRange self i va vs).sections } := by
  unfold setSectionVirtualRange
  split_ifs <;> rfl

theorem setSectionRawDataRange_rest (self : ImageLoader) (i ptr size : Nat) :
    setSectionRawDataRange self i ptr size =
      { self with sections := (setSectionRawDataRange self i ptr size).sections } := by
  unfold setSectionRawDataRange
  split_ifs <;> rfl

theorem setSectionCharacteristics_rest (self : ImageLoader) (i c : Nat) :
    setSectionCharacteristics self i c =
      { self with sections := (setSectionCharacteristics self i c).sections } := by
  unfold setSectionCharacteristics
  split_ifs <;> rfl

theorem setSectionName_length (self : ImageLoader) (i : Nat) (newName : List Nat) :
    (setSectionName self i newName).sections.length = self.sections.length := by
  unfold setSectionName
  split_ifs
  · exact List.length_set _ _ _
  · rfl

theorem setSectionVirtualRange_length (self : ImageLoader) (i va vs : Nat) :
    (setSectionVirtualRange self i va vs).sections.length = self.sections.length := by
  unfold setSectionVirtualRange
  split_ifs
  · exact List.length_set _ _ _
  · rfl

theorem setSectionRawDataRange_length (self : ImageLoader) (i ptr size : Nat) :
    (setSectionRawDataRange self i ptr size).sections.length = self.sections.length := by
  unfold setSectionRawDataRange
  split_ifs
  · exact List.length_set _ _ _
  · rfl

theorem setSectionCharacteristics_length (self : ImageLoader) (i c : Nat) :
    (setSectionCharacteristics self i c).sections.length = self.sections.length := by
  unfold setSectionCharacteristics
  split_ifs
  · exact List.length_set _ _ _
  · rfl

/-- The fields after `setVirtualRange`. -/
theorem setVirtualRange_fields (S : PELIB_SECTION_HEADER) (va vs : Nat) :
    (S.setVirtualRange va vs).VirtualAddress = (if va ≠ UINT32_MAX then va else S.VirtualAddress) ∧
    (S.setVirtualRange va vs).VirtualSize = (if vs ≠ UINT32_MAX then vs else S.VirtualSize) ∧
    (S.setVirtualRange va vs).PointerToRawData = S.PointerToRawData ∧
    (S.setVirtualRange va vs).SizeOfRawData = S.SizeOfRawData ∧
    (S.setVirtualRange va vs).Characteristics = S.Characteristics ∧
    (S.setVirtualRange va vs).Name = S.Name ∧
    (S.setVirtualRange va vs).sectionName = S.sectionName := by
  unfold PELIB_SECTION_HEADER.setVirtualRange
  simp only []
  split_ifs <;> exact ⟨rfl, rfl, rfl, rfl, rfl, rfl, rfl⟩

/-- The fields after `setRawDataRange`. -/
theorem setRawDataRange_fields (S : PELIB_SECTION_HEADER) (ptr size : Nat) :
    (S.setRawDataRange ptr size).PointerToRawData =
      (if ptr ≠ UINT32_MAX then ptr else S.PointerToRawData) ∧
    (S.setRawDataRange ptr size).SizeOfRawData =
      (if size ≠ UINT32_MAX then size else S.SizeOfRawData) ∧
    (S.setRawDataRange ptr size).VirtualAddress = S.VirtualAddress ∧
    (S.setRawDataRange ptr size).VirtualSize = S.VirtualSize ∧
    (S.setRawDataRange ptr size).Characteristics = S.Characteristics ∧
    (S.setRawDataRange ptr size).Name = S.Name ∧
    (S.setRawDataRange ptr size).sectionName = S.sectionName := by
  unfold PELIB_SECTION_HEADER.setRawDataRange
  simp only []
  split_ifs <;> exact ⟨rfl, rfl, rfl, rfl, rfl, rfl, rfl⟩

theorem getSectionHeader_eq (self : ImageLoader) (i : Nat) :
    getSectionHeader self i = self.sections[i]? := by
  unfold getSectionHeader
  rw [List.get?_eq_getElem?]

/-- A split that passes the checks: the status is `ERROR_NONE`, nothing but the section
table changes, and the section table afterwards is described position by position. -/
theorem splitSection_success (self : ImageLoader) (i : Nat) (prev next : List Nat) (k : Nat)
    (S : PELIB_SECTION_HEADER) (hS : self.sections[i]? = some S)
    (hFA : self.optionalHeader.FileAlignment ≠ 0)
    (hSA : self.optionalHeader.SectionAlignment ≠ 0)
    (hmask : k &&& sub32 self.optionalHeader.SectionAlignment 1 = 0)
    (hk : k < S.VirtualSize) :
    ∃ self', splitSection self i prev next k = some (FileError.ERROR_NONE, self') ∧
      self'.sections.length = self.sections.length + 1 ∧
      ∀ j, self'.sections[j]? =
        if j < i then self.sections[j]?
        else if j = i then
          some (((S.setName prev).setRawDataRange UINT32_MAX k).setVirtualRange UINT32_MAX k)
        else if j = i + 1 then
          some { ((((self.sections.getD (i + 1) {}).setName next).setRawDataRange
              (u32 (S.PointerToRawData + k)) (sub32 S.SizeOfRawData k)).setVirtualRange
              (u32 (S.VirtualAddress + k)) (sub32 S.SizeOfRawData k)) with
            Characteristics := PELIB_IMAGE_SCN_MEM_WRITE ||| PELIB_IMAGE_SCN_MEM_READ |||
              PELIB_IMAGE_SCN_CNT_INITIALIZED_DATA ||| PELIB_IMAGE_SCN_CNT_CODE }
        else self.sections[j - 1]? := by
  have hi : i < self.sections.length := by
    by_contra hc
    rw [List.getElem?_eq_none (by omega)] at hS
    exact absurd hS (by simp)
  have hmove : ∀ j, (splitSection.move i ((self.sections ++ [({} : PELIB_SECTION_HEADER)]).length - 2 - i)
      (self.sections ++ [({} : PELIB_SECTION_HEADER)]))[j]? =
      if i + 2 ≤ j then self.sections[j - 1]? else (self.sections ++ [({} : PELIB_SECTION_HEADER)])[j]? := by
    intro j
    rw [splitSection_move_getElem? i _ _ j (by
      simp only [List.length_append, List.length_singleton]; omega)]
    simp only [List.length_append, List.length_singleton]
    by_cases h1 : i + 2 ≤ j
    · rw [if_pos h1]
      by_cases h2 : j ≤ i + (self.sections.length + 1 - 2 - i) + 1
      · rw [if_pos ⟨h1, h2⟩, List.getElem?_append_left (by omega)]
      · rw [if_neg (fun h => h2 h.2), List.getElem?_eq_none (by
          simp only [List.length_append, List.length_singleton]; omega),
          List.getElem?_eq_none (by omega)]
    · rw [if_neg h1, if_neg (fun h => h1 h.1)]
  have hlenM : (splitSection.move i ((self.sections ++ [({} : PELIB_SECTION_HEADER)]).length - 2 - i)
      (self.sections ++ [({} : PELIB_SECTION_HEADER)])).length = self.sections.length + 1 := by
    rw [splitSection_move_length]
    simp
  generalize hM : splitSection.move i
    ((self.sections ++ [({} : PELIB_SECTION_HEADER)]).length - 2 - i)
    (self.sections ++ [({} : PELIB_SECTION_HEADER)]) = M at hmove hlenM
  have hMi : M[i]? = some S := by
    rw [hmove, if_neg (by omega), List.getElem?_append_left hi]
    exact hS
  have hMi1 : M[i + 1]? = some (self.sections.getD (i + 1) {}) := by
    rw [hmove, if_neg (by omega)]
    by_cases hlast : i + 1 < self.sections.length
    · rw [List.getElem?_append_left hlast, List.getD_eq_getElem?_getD,
        List.getElem?_eq_getElem hlast]
      rfl
    · have e : i + 1 = self.sections.length := by omega
      rw [e, List.getElem?_append_right (Nat.le_refl _), List.getD_eq_getElem?_getD,
        List.getElem?_eq_none (Nat.le_refl _)]
      simp
  unfold splitSection
  rw [if_neg hFA, if_neg hSA, if_neg (by omega),
    if_neg (by unfold getSectionAlignment; rw [hmask]; exact fun h => h rfl),
    getSectionHeader_eq, hS]
  simp only []
  rw [if_neg (by omega), hM, getSectionHeader_eq]
  simp only []
  rw [hMi]
  simp only []
  generalize hs3 : setSectionVirtualRange (setSectionRawDataRange
    (setSectionName { self with sections := M } i prev) i UINT32_MAX k) i UINT32_MAX k = s3
  have F3 : ∀ j, s3.sections[j]? =
      if j = i then
        some (((S.setName prev).setRawDataRange UINT32_MAX k).setVirtualRange UINT32_MAX k)
      else M[j]? := by
    intro j
    rw [← hs3, setSectionVirtualRange_getElem?, setSectionRawDataRange_getElem?,
      setSectionName_getElem?]
    by_cases hj : j = i
    · subst hj
      simp only [if_true]
      show Option.map _ (Option.map _ (Option.map _ M[j]?)) = _
      rw [hMi]
      rfl
    · simp only [if_neg hj]
  have L3 : s3.sections.length = self.sections.length + 1 := by
    rw [← hs3, setSectionVirtualRange_length, setSectionRawDataRange_length,
      setSectionName_length]
    exact hlenM
  generalize hs4 : setSectionName s3 (i + 1) next = s4
  have F4 : ∀ j, s4.sections[j]? =
      if j = i + 1 then some ((self.sections.getD (i + 1) {}).setName next)
      else s3.sections[j]? := by
    intro j
    rw [← hs4, setSectionName_getElem?]
    by_cases hj : j = i + 1
    · subst hj
      rw [if_pos rfl, if_pos rfl, F3, if_neg (by omega), hMi1]
      rfl
    · rw [if_neg hj, if_neg hj]
  have G4 : s4.sections.getD i {} =
      ((S.setName prev).setRawDataRange UINT32_MAX k).setVirtualRange UINT32_MAX k := by
    rw [List.getD_eq_getElem?_getD, F4, if_neg (by omega), F3, if_pos rfl]
    rfl
  have P4 : (((S.setName prev).setRawDataRange UINT32_MAX k).setVirtualRange UINT32_MAX
      k).PointerToRawData = S.PointerToRawData := by
    rw [(setVirtualRange_fields _ _ _).2.2.1, (setRawDataRange_fields _ _ _).1,
      if_neg (fun h => h rfl)]
    rfl
  rw [G4, P4]
  generalize hs5 : setSectionRawDataRange s4 (i + 1) (u32 (S.PointerToRawData + k))
    (sub32 S.SizeOfRawData k) = s5
  have F5 : ∀ j, s5.sections[j]? =
      if j = i + 1 then
        some (((self.sections.getD (i + 1) {}).setName next).setRawDataRange
          (u32 (S.PointerToRawData + k)) (sub32 S.SizeOfRawData k))
      else s3.sections[j]? := by
    intro j
    rw [← hs5, setSectionRawDataRange_getElem?, F4]
    by_cases hj : j = i + 1
    · rw [if_pos hj, if_pos hj, if_pos hj]
      rfl
    · rw [if_neg hj, if_neg hj, if_neg hj]
  have G5 : s5.sections.getD i {} =
      ((S.setName prev).setRawDataRange UINT32_MAX k).setVirtualRange UINT32_MAX k := by
    rw [List.getD_eq_getElem?_getD, F5, if_neg (by omega), F3, if_pos rfl]
    rfl
  have P5 : (((S.setName prev).setRawDataRange UINT32_MAX k).setVirtualRange UINT32_MAX
      k).VirtualAddress = S.VirtualAddress := by
    rw [(setVirtualRange_fields _ _ _).1, if_neg (fun h => h rfl),
      (setRawDataRange_fields _ _ _).2.2.1]
    rfl
  rw [G5, P5]
  refine ⟨_, rfl, ?_, ?_⟩
  · rw [setSectionCharacteristics_length, setSectionVirtualRange_length, ← hs5,
      setSectionRawDataRange_length, ← hs4, setSectionName_length]
    exact L3
  · intro j
    rw [setSectionCharacteristics_getElem?, setSectionVirtualRange_getElem?, F5]
    by_cases h1 : j = i + 1
    · rw [if_pos h1, if_pos h1, if_pos h1, if_neg (by omega), if_neg (by omega), if_pos h1]
      rfl
    · rw [if_neg h1, if_neg h1, if_neg h1, F3]
      by_cases h2 : j = i
      · rw [if_pos h2, if_neg (by omega), if_pos h2]
      · rw [if_neg h2, hmove]
        by_cases h3 : j < i
        · rw [if_pos h3, if_neg (by omega), List.getElem?_append_left (by omega)]
        · rw [if_neg h3, if_neg h2, if_neg h1, if_pos (by omega)]

/-- C22: the index check of `splitSection` lets the index that equals the number of sections
pass.  `editImage` has 2 sections and non-zero alignments.  With `sectionIndex = 2` and the
unaligned `splitOffset = 1` the call returns `ERROR_NOT_ENOUGH_SPACE`, not
`ERROR_ENTRY_NOT_FOUND`; with the aligned `splitOffset = 0x1000` it dereferences the null
pointer that `getSectionHeader(2)` gives and has no defined result.  Only from
`sectionIndex = 3` on is `ERROR_ENTRY_NOT_FOUND` returned. -/
theorem splitSection_accepts_index_equal_to_count :
    editImage.sections.length = 2 ∧
    splitSection editImage 2 [0x2E, 0x61] [0x2E, 0x62] 1 =
      some (FileError.ERROR_NOT_ENOUGH_SPACE, editImage) ∧
    splitSection editImage 2 [0x2E, 0x61] [0x2E, 0x62] 0x1000 = none ∧
    splitSection editImage 3 [0x2E, 0x61] [0x2E, 0x62] 0x1000 =
      some (FileError.ERROR_ENTRY_NOT_FOUND, editImage) := by
  refine ⟨rfl, by decide, by decide, by decide⟩

/-- What a successful `splitSection` has checked. -/
theorem splitSection_ok_inv (self : ImageLoader) (i : Nat) (prev next : List Nat) (k : Nat)
    (self' : ImageLoader)
    (h : splitSection self i prev next k = some (FileError.ERROR_NONE, self')) :
    self.optionalHeader.FileAlignment ≠ 0 ∧ self.optionalHeader.SectionAlignment ≠ 0 ∧
    k &&& sub32 self.optionalHeader.SectionAlignment 1 = 0 ∧
    ∃ S, self.sections[i]? = some S ∧ k < S.VirtualSize := by
  unfold splitSection at h
  by_cases c1 : self.optionalHeader.FileAlignment = 0
  · rw [if_pos c1] at h
    exact absurd h (by simp)
  rw [if_neg c1] at h
  by_cases c2 : self.optionalHeader.SectionAlignment = 0
  · rw [if_pos c2] at h
    exact absurd h (by simp)
  rw [if_neg c2] at h
  by_cases c3 : i > self.sections.length
  · rw [if_pos c3] at h
    exact absurd h (by simp)
  rw [if_neg c3] at h
  by_cases c4 : k &&& sub32 (getSectionAlignment self) 1 ≠ 0
  · rw [if_pos c4] at h
    exact absurd h (by simp)
  rw [if_neg c4, getSectionHeader_eq] at h
  cases hS : self.sections[i]? with
  | none =>
    rw [hS] at h
    exact absurd h (by simp)
  | some S =>
    rw [hS] at h
    simp only [] at h
    by_cases c5 : k ≥ S.VirtualSize
    · rw [if_pos c5] at h
      exact absurd h (by simp)
    · exact ⟨c1, c2, not_not.mp c4, S, rfl, by omega⟩

theorem sub32_add_cancel (a b : Nat) : u32 (b + sub32 a b) = u32 a := by
  unfold u32 sub32
  omega

/-- C24, as amended: the result of `splitSection`.  For every successful
`splitSection(i, prevName, nextName, k)` on a section `S` whose `VirtualSize` is a 32-bit
value, the section count grows by one, the sections before index `i` are unchanged, every
section formerly at index `j > i` is found unchanged at index `j + 1`, the first half at `i`
keeps `VirtualAddress` and `PointerToRawData` of `S` with `VirtualSize = SizeOfRawData = k`,
and the second half at `i + 1` starts at `VirtualAddress + k` and `PointerToRawData + k` with
`VirtualSize = SizeOfRawData = SizeOfRawData(S) - k`, all mod `2^32` (a value `0xFFFFFFFF`
is not stored, being taken for "leave the field alone").  So the two `SizeOfRawData` sum to
the `SizeOfRawData` of `S`, and the two `VirtualSize` sum to the `SizeOfRawData` of `S` as
well, not to its `VirtualSize`. -/
theorem splitSection_result (self : ImageLoader) (i : Nat) (prev next : List Nat) (k : Nat)
    (self' : ImageLoader) (S : PELIB_SECTION_HEADER) (hS : self.sections[i]? = some S)
    (h32 : S.VirtualSize < 2 ^ 32)
    (h : splitSection self i prev next k = some (FileError.ERROR_NONE, self')) :
    self'.sections.length = self.sections.length + 1 ∧
    (∀ j, j < i → self'.sections[j]? = self.sections[j]?) ∧
    (∀ j, i < j → self'.sections[j + 1]? = self.sections[j]?) ∧
    ∃ A B, self'.sections[i]? = some A ∧ self'.sections[i + 1]? = some B ∧
      A.VirtualAddress = S.VirtualAddress ∧ A.PointerToRawData = S.PointerToRawData ∧
      A.VirtualSize = k ∧ A.SizeOfRawData = k ∧
      (u32 (S.VirtualAddress + k) ≠ UINT32_MAX →
        B.VirtualAddress = u32 (S.VirtualAddress + k)) ∧
      (u32 (S.PointerToRawData + k) ≠ UINT32_MAX →
        B.PointerToRawData = u32 (S.PointerToRawData + k)) ∧
      (sub32 S.SizeOfRawData k ≠ UINT32_MAX →
        B.VirtualSize = sub32 S.SizeOfRawData k ∧ B.SizeOfRawData = sub32 S.SizeOfRawData k ∧
        u32 (A.SizeOfRawData + B.SizeOfRawData) = u32 S.SizeOfRawData ∧
        u32 (A.VirtualSize + B.VirtualSize) = u32 S.SizeOfRawData) := by
  obtain ⟨hFA, hSA, hmask, S', hS', hk⟩ := splitSection_ok_inv self i prev next k self' h
  rw [hS] at hS'
  simp only [Option.some.injEq] at hS'
  subst hS'
  obtain ⟨t, ht, hlen, hget⟩ := splitSection_success self i prev next k S hS hFA hSA hmask hk
  rw [h] at ht
  simp only [Option.some.injEq, Prod.mk.injEq, true_and] at ht
  subst ht
  have hkmax : k ≠ UINT32_MAX := by unfold UINT32_MAX; omega
  refine ⟨hlen, ?_, ?_,
    ((S.setName prev).setRawDataRange UINT32_MAX k).setVirtualRange UINT32_MAX k,
    { ((((self.sections.getD (i + 1) {}).setName next).setRawDataRange
        (u32 (S.PointerToRawData + k)) (sub32 S.SizeOfRawData k)).setVirtualRange
        (u32 (S.VirtualAddress + k)) (sub32 S.SizeOfRawData k)) with
      Characteristics := PELIB_IMAGE_SCN_MEM_WRITE ||| PELIB_IMAGE_SCN_MEM_READ |||
        PELIB_IMAGE_SCN_CNT_INITIALIZED_DATA ||| PELIB_IMAGE_SCN_CNT_CODE },
    ?_, ?_, ?_⟩
  · intro j hj
    rw [hget, if_pos hj]
  · intro j hj
    rw [hget, if_neg (by omega), if_neg (by omega), if_neg (by omega)]
    rfl
  · rw [hget, if_neg (by omega), if_pos rfl]
  · rw [hget, if_neg (by omega), if_neg (by omega), if_pos rfl]
  · have hA1 : (((S.setName prev).setRawDataRange UINT32_MAX k).setVirtualRange UINT32_MAX
        k).VirtualSize = k := by
      rw [(setVirtualRange_fields _ _ _).2.1, if_pos hkmax]
    have hA2 : (((S.setName prev).setRawDataRange UINT32_MAX k).setVirtualRange UINT32_MAX
        k).SizeOfRawData = k := by
      rw [(setVirtualRange_fields _ _ _).2.2.2.1, (setRawDataRange_fields _ _ _).2.1,
        if_pos hkmax]
    refine ⟨?_, ?_, hA1, hA2, ?_, ?_, ?_⟩
    · rw [(setVirtualRange_fields _ _ _).1, if_neg (fun h => h rfl),
        (setRawDataRange_fields _ _ _).2.2.1]
      rfl
    · rw [(setVirtualRange_fields _ _ _).2.2.1, (setRawDataRange_fields _ _ _).1,
        if_neg (fun h => h rfl)]
      rfl
    · intro hne
      show (PELIB_SECTION_HEADER.setVirtualRange _ _ _).VirtualAddress = _
      rw [(setVirtualRange_fields _ _ _).1, if_pos hne]
    · intro hne
      show (PELIB_SECTION_HEADER.setVirtualRange _ _ _).PointerToRawData = _
      rw [(setVirtualRange_fields _ _ _).2.2.1, (setRawDataRange_fields _ _ _).1, if_pos hne]
    · intro hne
      have hB1 : (PELIB_SECTION_HEADER.setVirtualRange
          ((((self.sections.getD (i + 1) {}).setName next).setRawDataRange
            (u32 (S.PointerToRawData + k)) (sub32 S.SizeOfRawData k)))
          (u32 (S.VirtualAddress + k)) (sub32 S.SizeOfRawData k)).VirtualSize =
          sub32 S.SizeOfRawData k := by
        rw [(setVirtualRange_fields _ _ _).2.1, if_pos hne]
      have hB2 : (PELIB_SECTION_HEADER.setVirtualRange
          ((((self.sections.getD (i + 1) {}).setName next).setRawDataRange
            (u32 (S.PointerToRawData + k)) (sub32 S.SizeOfRawData k)))
          (u32 (S.VirtualAddress + k)) (sub32 S.SizeOfRawData k)).SizeOfRawData =
          sub32 S.SizeOfRawData k := by
        rw [(setVirtualRange_fields _ _ _).2.2.2.1, (setRawDataRange_fields _ _ _).2.1,
          if_pos hne]
      refine ⟨hB1, hB2, ?_, ?_⟩
      · rw [hA2]
        show u32 (k + (PELIB_SECTION_HEADER.setVirtualRange _ _ _).SizeOfRawData) = _
        rw [hB2, sub32_add_cancel]
      · rw [hA1]
        show u32 (k + (PELIB_SECTION_HEADER.setVirtualRange _ _ _).VirtualSize) = _
        rw [hB1, sub32_add_cancel]

/-- C24, witness: the split of section 0 of `editImage` (`[0x1000, 0x4000)`, `0x2000` bytes
of raw data at `0x400`) at `0x1000` gives three sections, the halves `[0x1000, 0x2000)` and
`[0x2000, 0x3000)` with `0x1000` bytes of raw data each, at `0x400` and `0x1400`, and the
former section 1 at index 2. -/
theorem splitSection_result_witness :
    ∃ self', splitSection editImage 0 [0x2E, 0x61] [0x2E, 0x62] 0x1000 =
        some (FileError.ERROR_NONE, self') ∧
      self'.sections.length = 3 ∧
      self'.sections[2]? = editImage.sections[1]? ∧
      self'.sections.map (fun s => (s.VirtualAddress, s.VirtualSize, s.PointerToRawData,
          s.SizeOfRawData)) =
        [(0x1000, 0x1000, 0x400, 0x1000), (0x2000, 0x1000, 0x1400, 0x1000),
          (0x4000, 0x1000, 0x2400, 0x200)] := by
  have h : splitSection editImage 0 [0x2E, 0x61] [0x2E, 0x62] 0x1000 =
      some (FileError.ERROR_NONE, { editImage with sections :=
        [{ rangeSection 0x1000 0x1000 0x400 0x1000 with
            Name := [0x2E, 0x61, 0, 0, 0, 0, 0, 0], sectionName := [0x2E, 0x61] },
         { rangeSection 0x2000 0x1000 0x1400 0x1000 with
            Name := [0x2E, 0x62, 0, 0, 0, 0, 0, 0], sectionName := [0x2E, 0x62],
            Characteristics := 0xC0000060 },
         rangeSection 0x4000 0x1000 0x2400 0x200] }) := by decide
  have hres := splitSection_result editImage 0 [0x2E, 0x61] [0x2E, 0x62] 0x1000 _
    (rangeSection 0x1000 0x3000 0x400 0x2000) rfl (by decide) h
  exact ⟨_, h, hres.1, hres.2.2.1 1 (by decide), by decide⟩

/-- C24, counterexample: the section 0 of `editImage` has `VirtualSize = 0x3000` and
`SizeOfRawData = 0x2000`; its split at `0x1000` returns `ERROR_NONE` and leaves halves with
the `VirtualSize` `0x1000` and `0x1000`, which sum to `0x2000`, not to `0x3000`. -/
theorem splitSection_VirtualSize_from_SizeOfRawData :
    editImage.sections.map (fun s => (s.VirtualSize, s.SizeOfRawData)) =
      [(0x3000, 0x2000), (0x1000, 0x200)] ∧
    (splitSection editImage 0 [0x2E, 0x61] [0x2E, 0x62] 0x1000).map
        (fun r => (r.1, r.2.sections.map fun s => (s.VirtualSize, s.SizeOfRawData))) =
      some (FileError.ERROR_NONE, [(0x1000, 0x1000), (0x1000, 0x1000), (0x1000, 0x200)]) := by
  refine ⟨rfl, by decide⟩

theorem removeSection_loop_length (vd rd : Nat) :
    ∀ (passes start : Nat) (self : ImageLoader),
      (removeSection.loop vd rd passes start self).sections.length = self.sections.length := by
  intro passes
  induction passes with
  | zero => intro start self; rfl
  | succ p ih =>
    intro start self
    unfold removeSection.loop
    split_ifs
    · cases hT : getSectionHeader self start with
      | none => rfl
      | some T =>
        simp only []
        rw [ih, setSectionRawDataRange_length, setSectionVirtualRange_length]
    · rfl

/-- The loop of `removeSection` moves every section from `start` on and leaves the sections
before `start`. -/
theorem removeSection_loop_getElem? (vd rd : Nat) :
    ∀ (passes start : Nat) (self : ImageLoader) (j : Nat),
      self.sections.length ≤ start + passes →
      (removeSection.loop vd rd passes start self).sections[j]? =
        if start ≤ j then
          self.sections[j]?.map (fun T =>
            (T.setVirtualRange (sub32 T.VirtualAddress vd) UINT32_MAX).setRawDataRange
              (sub32 T.PointerToRawData rd) UINT32_MAX)
        else self.sections[j]? := by
  intro passes
  induction passes with
  | zero =>
    intro start self j hlen
    unfold removeSection.loop
    by_cases hj : start ≤ j
    · rw [if_pos hj, List.getElem?_eq_none (by omega)]
      rfl
    · rw [if_neg hj]
  | succ p ih =>
    intro start self j hlen
    unfold removeSection.loop
    by_cases hs : start < getNumberOfSections self
    · rw [if_pos hs]
      unfold getNumberOfSections at hs
      rw [getSectionHeader_eq, List.getElem?_eq_getElem hs]
      simp only []
      rw [ih _ _ j (by
        rw [setSectionRawDataRange_length, setSectionVirtualRange_length]; omega)]
      by_cases h1 : j = start
      · subst h1
        rw [if_neg (by omega), if_pos (Nat.le_refl _), setSectionRawDataRange_getElem?,
          if_pos rfl, setSectionVirtualRange_getElem?, if_pos rfl,
          List.getElem?_eq_getElem hs]
        rfl
      · by_cases h2 : start ≤ j
        · rw [if_pos (by omega), if_pos h2, setSectionRawDataRange_getElem?, if_neg h1,
            setSectionVirtualRange_getElem?, if_neg h1]
        · rw [if_neg (by omega), if_neg h2, setSectionRawDataRange_getElem?, if_neg h1,
            setSectionVirtualRange_getElem?, if_neg h1]
    · rw [if_neg hs]
      unfold getNumberOfSections at hs
      by_cases hj : start ≤ j
      · rw [if_pos hj, List.getElem?_eq_none (by omega)]
        rfl
      · rw [if_neg hj]

/-- C25, as amended: `removeSection`.  For every loader state and index `i`: if `i` is not
below the number of sections, `removeSection` returns `ERROR_ENTRY_NOT_FOUND` and changes
nothing; otherwise, `S` being the section at `i`, it returns `ERROR_NONE`, the section count
decreases by one, the sections before `i` are unchanged, and every section formerly at an
index `j > i` is found at index `j - 1` with its sizes, name and characteristics unchanged,
its `VirtualAddress` decreased by the `VirtualSize` of `S` and its `PointerToRawData`
decreased by the `SizeOfRawData` of `S` (mod `2^32`); only a difference that is
`0xFFFFFFFF`, the value that the setters take for "leave the field alone", is not stored,
and the field keeps its value. -/
theorem removeSection_shifts_later_sections (self : ImageLoader) (i : Nat) :
    (self.sections.length ≤ i →
      removeSection self i = (FileError.ERROR_ENTRY_NOT_FOUND, self)) ∧
    (∀ S, self.sections[i]? = some S →
      ∃ self', removeSection self i = (FileError.ERROR_NONE, self') ∧
        self'.sections.length = self.sections.length - 1 ∧
        (∀ j, j < i → self'.sections[j]? = self.sections[j]?) ∧
        ∀ j T, i < j → self.sections[j]? = some T →
          ∃ T', self'.sections[j - 1]? = some T' ∧
            T'.VirtualAddress =
              (if sub32 T.VirtualAddress S.VirtualSize ≠ UINT32_MAX then
                sub32 T.VirtualAddress S.VirtualSize
               else T.VirtualAddress) ∧
            T'.PointerToRawData =
              (if sub32 T.PointerToRawData S.SizeOfRawData ≠ UINT32_MAX then
                sub32 T.PointerToRawData S.SizeOfRawData
               else T.PointerToRawData) ∧
            T'.VirtualSize = T.VirtualSize ∧ T'.SizeOfRawData = T.SizeOfRawData ∧
            T'.Name = T.Name ∧ T'.sectionName = T.sectionName ∧
            T'.Characteristics = T.Characteristics) := by
  constructor
  · intro h
    unfold removeSection getNumberOfSections
    rw [if_pos (by omega)]
  · intro S hS
    have hi : i < self.sections.length := by
      by_contra hc
      rw [List.getElem?_eq_none (by omega)] at hS
      exact absurd hS (by simp)
    unfold removeSection getNumberOfSections
    rw [if_neg (by omega), getSectionHeader_eq, hS]
    simp only []
    refine ⟨_, rfl, ?_, ?_, ?_⟩
    · show (List.eraseIdx _ i).length = _
      rw [List.length_eraseIdx, removeSection_loop_length, if_pos hi]
    · intro j hj
      show (List.eraseIdx _ i)[j]? = _
      rw [List.getElem?_eraseIdx, if_pos hj,
        removeSection_loop_getElem? _ _ _ _ _ j (by omega), if_neg (by omega)]
    · intro j T hj hT
      refine ⟨(T.setVirtualRange (sub32 T.VirtualAddress S.VirtualSize)
        UINT32_MAX).setRawDataRange (sub32 T.PointerToRawData S.SizeOfRawData) UINT32_MAX,
        ?_, ?_⟩
      · show (List.eraseIdx _ i)[j - 1]? = _
        rw [List.getElem?_eraseIdx, if_neg (by omega),
          removeSection_loop_getElem? _ _ _ _ _ _ (by omega), if_pos (by omega),
          show j - 1 + 1 = j by omega, hT]
        rfl
      · refine ⟨?_, ?_, ?_, ?_, ?_, ?_, ?_⟩
        · rw [(setRawDataRange_fields _ _ _).2.2.1, (setVirtualRange_fields _ _ _).1]
        · rw [(setRawDataRange_fields _ _ _).1]
          rw [(setVirtualRange_fields _ _ _).2.2.1]
        · rw [(setRawDataRange_fields _ _ _).2.2.2.1, (setVirtualRange_fields _ _ _).2.1,
            if_neg (fun h => h rfl)]
        · rw [(setRawDataRange_fields _ _ _).2.1, if_neg (fun h => h rfl),
            (setVirtualRange_fields _ _ _).2.2.2.1]
        · rw [(setRawDataRange_fields _ _ _).2.2.2.2.2.1,
            (setVirtualRange_fields _ _ _).2.2.2.2.2.1]
        · rw [(setRawDataRange_fields _ _ _).2.2.2.2.2.2,
            (setVirtualRange_fields _ _ _).2.2.2.2.2.2]
        · rw [(setRawDataRange_fields _ _ _).2.2.2.2.1,
            (setVirtualRange_fields _ _ _).2.2.2.2.1]

/-- C25, witness: `editImage` has two sections; index 2 is not found, and the removal of
section 0 (`VirtualSize = 0x3000`, `SizeOfRawData = 0x2000`) leaves the former section 1 at
index 0, moved from rva `0x4000` to `0x1000` and from file offset `0x2400` to `0x400`. -/
theorem removeSection_shifts_later_sections_witness :
    removeSection editImage 2 = (FileError.ERROR_ENTRY_NOT_FOUND, editImage) ∧
    ∃ self', removeSection editImage 0 = (FileError.ERROR_NONE, self') ∧
      self'.sections.length = 1 ∧
      ∃ T', self'.sections[0]? = some T' ∧ T'.VirtualAddress = 0x1000 ∧
        T'.PointerToRawData = 0x400 ∧ T'.VirtualSize = 0x1000 ∧ T'.SizeOfRawData = 0x200 := by
  refine ⟨(removeSection_shifts_later_sections editImage 2).1 (by decide), ?_⟩
  obtain ⟨self', h, hl, _, hshift⟩ := (removeSection_shifts_later_sections editImage 0).2
    (rangeSection 0x1000 0x3000 0x400 0x2000) rfl
  obtain ⟨T', hT, h1, h2, h3, h4, _⟩ := hshift 1 (rangeSection 0x4000 0x1000 0x2400 0x200)
    (by decide) rfl
  exact ⟨self', h, hl, T', hT, h1.trans (by decide), h2.trans (by decide), h3, h4⟩

/-- C25, counterexample: in `wrapImage` the section 1 has `VirtualAddress = 0xFFF` and the
section 0 has `VirtualSize = 0x1000`.  The removal of section 0 returns `ERROR_NONE` and
leaves the former section 1 with `VirtualAddress = 0xFFF`, not with
`(0xFFF - 0x1000) mod 2^32 = 0xFFFFFFFF`. -/
theorem removeSection_keeps_address_at_UINT32_MAX :
    sub32 0xFFF 0x1000 = 0xFFFFFFFF ∧
    (removeSection wrapImage 0).1 = FileError.ERROR_NONE ∧
    (removeSection wrapImage 0).2.sections.map (fun s => (s.VirtualAddress, s.PointerToRawData)) =
      [(0xFFF, 0x400)] := by
  refine ⟨by decide, by decide, by decide⟩

theorem AlignToSize_u32 (x a : Nat) : AlignToSize (u32 x) a = AlignToSize x a := by
  unfold AlignToSize
  have : u32 (u32 x + sub32 a 1) = u32 (x + sub32 a 1) := by
    unfold u32
    omega
  rw [this]

/-- The result of `AlignToSize` for the alignment `2^k` is a multiple of `2^k`. -/
theorem AlignToSize_dvd (x k : Nat) (hk : k < 32) : 2 ^ k ∣ AlignToSize x (2 ^ k) := by
  unfold AlignToSize
  rw [sub32_pow2 k hk,
    and_not32_mask (u32 (x + (2 ^ k - 1))) k (Nat.mod_lt _ (by norm_num)) (by omega)]
  exact (Nat.dvd_sub_mod _)

/-- The result of `AlignToSize` for an even alignment is even, so it is not `UINT32_MAX`. -/
theorem AlignToSize_even (x a : Nat) (ha : 2 ∣ a) (h0 : a ≠ 0) (h32 : a < 2 ^ 32) :
    AlignToSize x a % 2 = 0 := by
  unfold AlignToSize
  have hsub : sub32 a 1 = a - 1 := by
    unfold sub32
    rw [Nat.mod_eq_of_lt h32]
    norm_num
    have : a + 4294967295 = (a - 1) + 4294967296 := by omega
    rw [this, Nat.add_mod_right, Nat.mod_eq_of_lt (by omega)]
  rw [hsub]
  have hodd : (a - 1) % 2 = 1 := by omega
  have hbit : (u32 (x + (a - 1)) &&& not32 (a - 1)).testBit 0 = false := by
    rw [Nat.testBit_and]
    have : (not32 (a - 1)).testBit 0 = false := by
      unfold not32
      rw [Nat.testBit_xor, Nat.mod_eq_of_lt (by omega)]
      have h1 : (0xFFFFFFFF : Nat).testBit 0 = true := by decide
      have h2 : (a - 1).testBit 0 = true := by
        rw [Nat.testBit_zero]
        exact decide_eq_true hodd
      rw [h1, h2]
      rfl
    rw [this, Bool.and_false]
  rw [Nat.testBit_zero] at hbit
  have := of_decide_eq_false hbit
  omega

theorem foldl_u32_sum (g : PELIB_SECTION_HEADER → Nat) (l : List PELIB_SECTION_HEADER) :
    ∀ acc, u32 (l.foldl (fun a s => u32 (a + g s)) acc) = u32 (acc + (l.map g).sum) := by
  induction l with
  | nil => intro acc; simp
  | cons s rest ih =>
    intro acc
    simp only [List.foldl_cons, List.map_cons, List.sum_cons]
    rw [ih]
    unfold u32
    omega

/-- The section loop of `makeValid`: the sum of the aligned virtual sizes, the section table
position by position, and the rest of the loader. -/
theorem makeValid_loop_spec (diff : Nat) :
    ∀ (passes i acc : Nat) (self : ImageLoader),
      self.fileHeader.NumberOfSections ≤ self.sections.length →
      self.fileHeader.NumberOfSections ≤ i + passes →
      (makeValid.loop diff passes i acc self).1 =
        ((self.sections.take self.fileHeader.NumberOfSections).drop i).foldl
          (fun a s => u32 (a + AlignToSize s.VirtualSize self.optionalHeader.SectionAlignment))
          acc ∧
      (makeValid.loop diff passes i acc self).2 =
        { self with sections := (makeValid.loop diff passes i acc self).2.sections } ∧
      (makeValid.loop diff passes i acc self).2.sections.length = self.sections.length ∧
      ∀ j, (makeValid.loop diff passes i acc self).2.sections[j]? =
        if i ≤ j ∧ j < self.fileHeader.NumberOfSections ∧ diff ≠ 0 then
          self.sections[j]?.map
            (fun T => T.setRawDataRange (u32 (T.PointerToRawData + diff)) UINT32_MAX)
        else self.sections[j]? := by
  intro passes
  induction passes with
  | zero =>
    intro i acc self hN hfuel
    unfold makeValid.loop
    refine ⟨?_, rfl, rfl, ?_⟩
    · rw [List.drop_eq_nil_of_le (by rw [List.length_take]; omega)]
      rfl
    · intro j
      rw [if_neg (by omega)]
  | succ p ih =>
    intro i acc self hN hfuel
    unfold makeValid.loop
    by_cases hi : i < self.fileHeader.NumberOfSections
    · rw [if_pos hi]
      have hlt : i < self.sections.length := by omega
      rw [getSectionHeader_eq, List.getElem?_eq_getElem hlt]
      simp only []
      generalize hnext : (if diff ≠ 0 then
        setSectionRawDataRange self i (u32 (self.sections[i].PointerToRawData + diff))
          UINT32_MAX else self) = t
      have hrest : t = { self with sections := t.sections } := by
        rw [← hnext]
        split_ifs
        · exact setSectionRawDataRange_rest _ _ _ _
        · rfl
      have hlen : t.sections.length = self.sections.length := by
        rw [← hnext]
        split_ifs
        · exact setSectionRawDataRange_length _ _ _ _
        · rfl
      have hget : ∀ j, t.sections[j]? =
          if j = i ∧ diff ≠ 0 then
            self.sections[j]?.map
              (fun T => T.setRawDataRange (u32 (T.PointerToRawData + diff)) UINT32_MAX)
          else self.sections[j]? := by
        intro j
        rw [← hnext]
        by_cases hd : diff ≠ 0
        · rw [if_pos hd, setSectionRawDataRange_getElem?]
          by_cases hj : j = i
          · subst hj
            rw [if_pos rfl, if_pos ⟨rfl, hd⟩, List.getElem?_eq_getElem hlt]
            rfl
          · rw [if_neg hj, if_neg (fun h => hj h.1)]
        · rw [if_neg hd, if_neg (fun h => hd h.2)]
      have hfh : t.fileHeader = self.fileHeader := by rw [hrest]
      have hoh : t.optionalHeader = self.optionalHeader := by rw [hrest]
      obtain ⟨h1, h2, h3, h4⟩ := ih (i + 1)
        (u32 (acc + AlignToSize self.sections[i].VirtualSize
          self.optionalHeader.SectionAlignment)) t
        (by rw [hfh, hlen]; exact hN) (by rw [hfh]; omega)
      refine ⟨?_, ?_, ?_, ?_⟩
      · rw [h1, hfh, hoh]
        have hdrop : (self.sections.take self.fileHeader.NumberOfSections).drop i =
            self.sections[i] ::
              (self.sections.take self.fileHeader.NumberOfSections).drop (i + 1) := by
          rw [List.drop_eq_getElem_cons (by rw [List.length_take]; omega),
            List.getElem_take]
        have htake : (t.sections.take self.fileHeader.NumberOfSections).drop (i + 1) =
            (self.sections.take self.fileHeader.NumberOfSections).drop (i + 1) := by
          apply List.ext_getElem?
          intro m
          rw [List.getElem?_drop, List.getElem?_drop, List.getElem?_take, List.getElem?_take]
          split_ifs
          · rw [hget, if_neg (by omega)]
          · rfl
        rw [hdrop, List.foldl_cons, htake]
      · rw [h2, hrest]
      · rw [h3, hlen]
      · intro j
        rw [h4, hfh]
        by_cases hj : j = i
        · subst hj
          rw [if_neg (by omega), hget]
          by_cases hd : diff ≠ 0
          · rw [if_pos ⟨rfl, hd⟩, if_pos ⟨Nat.le_refl _, hi, hd⟩]
          · rw [if_neg (fun h => hd h.2), if_neg (fun h => hd h.2.2)]
        · by_cases hc : i + 1 ≤ j ∧ j < self.fileHeader.NumberOfSections ∧ diff ≠ 0
          · rw [if_pos hc, hget, if_neg (fun h => hj h.1),
              if_pos ⟨by omega, hc.2.1, hc.2.2⟩]
          · rw [if_neg hc, hget, if_neg (fun h => hj h.1),
              if_neg (fun h => hc ⟨by omega, h.2.1, h.2.2⟩)]
    · rw [if_neg hi]
      refine ⟨?_, rfl, rfl, ?_⟩
      · rw [List.drop_eq_nil_of_le (by rw [List.length_take]; omega)]
        rfl
      · intro j
        rw [if_neg (by omega)]

/-- The fields that the header part of `makeValid` leaves. -/
theorem makeValid_headers_fields (self : ImageLoader) :
    (makeValid.headers self).sections = self.sections ∧
    (makeValid.headers self).ntSignature = PELIB_IMAGE_NT_SIGNATURE ∧
    (makeValid.headers self).fileHeader.NumberOfSections = u16 self.sections.length ∧
    (makeValid.headers self).fileHeader.Machine =
      (if self.optionalHeader.Magic = PELIB_IMAGE_NT_OPTIONAL_HDR64_MAGIC then
        PELIB_IMAGE_FILE_MACHINE_AMD64 else PELIB_IMAGE_FILE_MACHINE_I386) ∧
    (makeValid.headers self).fileHeader.SizeOfOptionalHeader =
      (if self.optionalHeader.Magic = PELIB_IMAGE_NT_OPTIONAL_HDR64_MAGIC then
        sizeof_PELIB_IMAGE_OPTIONAL_HEADER64 else sizeof_PELIB_IMAGE_OPTIONAL_HEADER32) ∧
    (makeValid.headers self).optionalHeader.Magic =
      (if self.optionalHeader.Magic = PELIB_IMAGE_NT_OPTIONAL_HDR64_MAGIC then
        PELIB_IMAGE_NT_OPTIONAL_HDR64_MAGIC else PELIB_IMAGE_NT_OPTIONAL_HDR32_MAGIC) ∧
    (makeValid.headers self).optionalHeader.NumberOfRvaAndSizes = 16 ∧
    (makeValid.headers self).optionalHeader.SectionAlignment =
      (if AlignToSize self.optionalHeader.SectionAlignment PELIB_PAGE_SIZE ≠ 0 then
        AlignToSize self.optionalHeader.SectionAlignment PELIB_PAGE_SIZE
       else PELIB_PAGE_SIZE) ∧
    (makeValid.headers self).optionalHeader.FileAlignment =
      (if AlignToSize self.optionalHeader.FileAlignment PELIB_SECTOR_SIZE ≠ 0 then
        AlignToSize self.optionalHeader.FileAlignment PELIB_SECTOR_SIZE
       else PELIB_SECTOR_SIZE) ∧
    (makeValid.headers self).optionalHeader.SizeOfHeaders =
      AlignToSize (self.dosHeader.e_lfanew + 4 + sizeof_PELIB_IMAGE_FILE_HEADER +
        (makeValid.headers self).fileHeader.SizeOfOptionalHeader +
        (makeValid.headers self).fileHeader.NumberOfSections *
          sizeof_PELIB_IMAGE_SECTION_HEADER)
        (makeValid.headers self).optionalHeader.FileAlignment := by
  refine ⟨rfl, rfl, rfl, ?_, ?_, ?_, rfl, rfl, rfl, ?_⟩
  · show (if getImageBitability self = 64 then _ else _) = _
    unfold getImageBitability
    by_cases h : self.optionalHeader.Magic = PELIB_IMAGE_NT_OPTIONAL_HDR64_MAGIC
    · rw [if_pos h, if_pos rfl, if_pos h]
    · rw [if_neg h, if_neg (by decide), if_neg h]
  · show u16 (if getImageBitability self = 64 then _ else _) = _
    unfold getImageBitability
    by_cases h : self.optionalHeader.Magic = PELIB_IMAGE_NT_OPTIONAL_HDR64_MAGIC
    · rw [if_pos h, if_pos rfl, if_pos h]
      rfl
    · rw [if_neg h, if_neg (by decide), if_neg h]
      rfl
  · show (if getImageBitability self = 64 then _ else _) = _
    unfold getImageBitability
    by_cases h : self.optionalHeader.Magic = PELIB_IMAGE_NT_OPTIONAL_HDR64_MAGIC
    · rw [if_pos h, if_pos rfl, if_pos h]
    · rw [if_neg h, if_neg (by decide), if_neg h]
  · show AlignToSize (u32 _) _ = _
    rw [AlignToSize_u32]
    rfl
/-- The fields of a loader whose `SizeOfImage` is replaced. -/
theorem withSizeOfImage_fields (t : ImageLoader) (v : Nat) :
    ({ t with optionalHeader := { t.optionalHeader with SizeOfImage := v } } :
        ImageLoader).ntSignature = t.ntSignature ∧
    ({ t with optionalHeader := { t.optionalHeader with SizeOfImage := v } } :
        ImageLoader).fileHeader = t.fileHeader ∧
    ({ t with optionalHeader := { t.optionalHeader with SizeOfImage := v } } :
        ImageLoader).sections = t.sections ∧
    ({ t with optionalHeader := { t.optionalHeader with SizeOfImage := v } } :
        ImageLoader).optionalHeader.Magic = t.optionalHeader.Magic ∧
    ({ t with optionalHeader := { t.optionalHeader with SizeOfImage := v } } :
        ImageLoader).optionalHeader.NumberOfRvaAndSizes = t.optionalHeader.NumberOfRvaAndSizes ∧
    ({ t with optionalHeader := { t.optionalHeader with SizeOfImage := v } } :
        ImageLoader).optionalHeader.SectionAlignment = t.optionalHeader.SectionAlignment ∧
    ({ t with optionalHeader := { t.optionalHeader with SizeOfImage := v } } :
        ImageLoader).optionalHeader.FileAlignment = t.optionalHeader.FileAlignment ∧
    ({ t with optionalHeader := { t.optionalHeader with SizeOfImage := v } } :
        ImageLoader).optionalHeader.SizeOfHeaders = t.optionalHeader.SizeOfHeaders ∧
    ({ t with optionalHeader := { t.optionalHeader with SizeOfImage := v } } :
        ImageLoader).optionalHeader.SizeOfImage = v :=
  ⟨rfl, rfl, rfl, rfl, rfl, rfl, rfl, rfl, rfl⟩
/-- The result of `makeValid` in terms of its header part and its section loop. -/
theorem makeValid_eq (self : ImageLoader) (first : PELIB_SECTION_HEADER)
    (hfirst : self.sections[0]? = some first) :
    ∃ self', makeValid self = some self' ∧
      self'.ntSignature = (makeValid.headers self).ntSignature ∧
      self'.fileHeader = (makeValid.headers self).fileHeader ∧
      self'.optionalHeader.Magic = (makeValid.headers self).optionalHeader.Magic ∧
      self'.optionalHeader.NumberOfRvaAndSizes =
        (makeValid.headers self).optionalHeader.NumberOfRvaAndSizes ∧
      self'.optionalHeader.SectionAlignment =
        (makeValid.headers self).optionalHeader.SectionAlignment ∧
      self'.optionalHeader.FileAlignment =
        (makeValid.headers self).optionalHeader.FileAlignment ∧
      self'.optionalHeader.SizeOfHeaders =
        (makeValid.headers self).optionalHeader.SizeOfHeaders ∧
      self'.optionalHeader.SizeOfImage =
        AlignToSize
          ((self.sections.take (u16 self.sections.length)).foldl
            (fun a s => u32 (a + AlignToSize s.VirtualSize
              (makeValid.headers self).optionalHeader.SectionAlignment))
            (AlignToSize (makeValid.headers self).optionalHeader.SizeOfHeaders
              (makeValid.headers self).optionalHeader.SectionAlignment))
          (makeValid.headers self).optionalHeader.SectionAlignment ∧
      self'.sections.length = self.sections.length ∧
      ∀ j, self'.sections[j]? =
        if j < u16 self.sections.length ∧
            sub32 (makeValid.headers self).optionalHeader.SizeOfHeaders
              first.PointerToRawData ≠ 0 then
          self.sections[j]?.map (fun T => T.setRawDataRange
            (u32 (T.PointerToRawData +
              sub32 (makeValid.headers self).optionalHeader.SizeOfHeaders
                first.PointerToRawData)) UINT32_MAX)
        else self.sections[j]? := by
  obtain ⟨fsec, _, fnum, _⟩ := makeValid_headers_fields self
  have hu16 : u16 self.sections.length ≤ self.sections.length := Nat.mod_le _ _
  have hfirst' : (makeValid.headers self).sections[0]? = some first := by rw [fsec]; exact hfirst
  obtain ⟨l1, l2, l3, l4⟩ := makeValid_loop_spec
    (sub32 (makeValid.headers self).optionalHeader.SizeOfHeaders first.PointerToRawData)
    (makeValid.headers self).fileHeader.NumberOfSections 0
    (AlignToSize (makeValid.headers self).optionalHeader.SizeOfHeaders
      (makeValid.headers self).optionalHeader.SectionAlignment)
    (makeValid.headers self) (by rw [fnum, fsec]; exact hu16) (by omega)
  unfold makeValid
  simp only []
  rw [getSectionHeader_eq, hfirst']
  simp only []
  generalize hr : makeValid.loop
    (sub32 (makeValid.headers self).optionalHeader.SizeOfHeaders first.PointerToRawData)
    (makeValid.headers self).fileHeader.NumberOfSections 0
    (AlignToSize (makeValid.headers self).optionalHeader.SizeOfHeaders
      (makeValid.headers self).optionalHeader.SectionAlignment)
    (makeValid.headers self) = r at l1 l2 l3 l4
  have hfh : r.2.fileHeader = (makeValid.headers self).fileHeader := by rw [l2]
  have hoh : r.2.optionalHeader = (makeValid.headers self).optionalHeader := by rw [l2]
  have hsig : r.2.ntSignature = (makeValid.headers self).ntSignature := by rw [l2]
  obtain ⟨g1, g2, g3, g4, g5, g6, g7, g8, g9⟩ := withSizeOfImage_fields r.2
    (AlignToSize r.1 r.2.optionalHeader.SectionAlignment)
  refine ⟨_, rfl, g1.trans hsig, g2.trans hfh,
    g4.trans (congrArg PELIB_IMAGE_OPTIONAL_HEADER.Magic hoh),
    g5.trans (congrArg PELIB_IMAGE_OPTIONAL_HEADER.NumberOfRvaAndSizes hoh),
    g6.trans (congrArg PELIB_IMAGE_OPTIONAL_HEADER.SectionAlignment hoh),
    g7.trans (congrArg PELIB_IMAGE_OPTIONAL_HEADER.FileAlignment hoh),
    g8.trans (congrArg PELIB_IMAGE_OPTIONAL_HEADER.SizeOfHeaders hoh),
    g9.trans ?_, (congrArg List.length g3).trans ?_, ?_⟩
  · rw [hoh, l1, fnum, fsec, List.drop_zero]
  · rw [l3, fsec]
  · intro j
    refine (congrArg (fun l => l[j]?) g3).trans ?_
    show r.2.sections[j]? = _
    rw [l4, fnum, fsec]
    by_cases hc : j < u16 self.sections.length ∧
        sub32 (makeValid.headers self).optionalHeader.SizeOfHeaders
          first.PointerToRawData ≠ 0
    · rw [if_pos hc, if_pos ⟨Nat.zero_le _, hc.1, hc.2⟩]
    · rw [if_neg hc, if_neg (fun h => hc ⟨h.2.1, h.2.2⟩)]
/-- C26, as amended: `makeValid`.  For every loader state with at least one and at most
65535 sections, whose raw data pointers are 32-bit values, after `makeValid` the NT
signature is the PE signature, `NumberOfSections` equals the section count, `Magic` and
`Machine` agree with the bitness the image had before the call (PE32+/AMD64 or PE32/I386),
`SizeOfOptionalHeader` is the size of the matching optional header, `NumberOfRvaAndSizes` is
16, `SectionAlignment` is a non-zero multiple of 4096 and `FileAlignment` a non-zero multiple
of 512, `SizeOfHeaders = AlignToSize(e_lfanew + 4 + sizeof(file header) +
SizeOfOptionalHeader + NumberOfSections * sizeof(section header), FileAlignment)`, the
`PointerToRawData` of every section is shifted by the same amount
`SizeOfHeaders - (old PointerToRawData of section 0)` (mod `2^32`), so that section 0 starts
at `SizeOfHeaders`; only a shifted value `0xFFFFFFFF`, which the setter takes for "leave the
field alone", is not stored.  And `SizeOfImage = AlignToSize(AlignToSize(SizeOfHeaders,
SectionAlignment) + sum_i AlignToSize(VirtualSize_i, SectionAlignment), SectionAlignment)`. -/
theorem makeValid_recomputes_headers (self : ImageLoader) (first : PELIB_SECTION_HEADER)
    (hfirst : self.sections[0]? = some first) (hcount : self.sections.length ≤ 65535)
    (h32 : ∀ s ∈ self.sections, s.PointerToRawData < 2 ^ 32) :
    ∃ self', makeValid self = some self' ∧
      self'.ntSignature = PELIB_IMAGE_NT_SIGNATURE ∧
      self'.fileHeader.NumberOfSections = self.sections.length ∧
      self'.sections.length = self.sections.length ∧
      (self.optionalHeader.Magic = PELIB_IMAGE_NT_OPTIONAL_HDR64_MAGIC →
        self'.optionalHeader.Magic = PELIB_IMAGE_NT_OPTIONAL_HDR64_MAGIC ∧
        self'.fileHeader.Machine = PELIB_IMAGE_FILE_MACHINE_AMD64 ∧
        self'.fileHeader.SizeOfOptionalHeader = sizeof_PELIB_IMAGE_OPTIONAL_HEADER64) ∧
      (self.optionalHeader.Magic ≠ PELIB_IMAGE_NT_OPTIONAL_HDR64_MAGIC →
        self'.optionalHeader.Magic = PELIB_IMAGE_NT_OPTIONAL_HDR32_MAGIC ∧
        self'.fileHeader.Machine = PELIB_IMAGE_FILE_MACHINE_I386 ∧
        self'.fileHeader.SizeOfOptionalHeader = sizeof_PELIB_IMAGE_OPTIONAL_HEADER32) ∧
      self'.optionalHeader.NumberOfRvaAndSizes = 16 ∧
      (self'.optionalHeader.SectionAlignment ≠ 0 ∧
        4096 ∣ self'.optionalHeader.SectionAlignment) ∧
      (self'.optionalHeader.FileAlignment ≠ 0 ∧ 512 ∣ self'.optionalHeader.FileAlignment) ∧
      self'.optionalHeader.SizeOfHeaders =
        AlignToSize (self.dosHeader.e_lfanew + 4 + sizeof_PELIB_IMAGE_FILE_HEADER +
          self'.fileHeader.SizeOfOptionalHeader +
          self'.fileHeader.NumberOfSections * sizeof_PELIB_IMAGE_SECTION_HEADER)
          self'.optionalHeader.FileAlignment ∧
      (∀ (j : Nat) (T : PELIB_SECTION_HEADER), self.sections[j]? = some T →
        ∃ T' : PELIB_SECTION_HEADER, self'.sections[j]? = some T' ∧
          T'.PointerToRawData =
            (if u32 (T.PointerToRawData +
                sub32 self'.optionalHeader.SizeOfHeaders first.PointerToRawData) ≠ UINT32_MAX
             then u32 (T.PointerToRawData +
                sub32 self'.optionalHeader.SizeOfHeaders first.PointerToRawData)
             else T.PointerToRawData) ∧
          T'.VirtualAddress = T.VirtualAddress ∧ T'.VirtualSize = T.VirtualSize ∧
          T'.SizeOfRawData = T.SizeOfRawData) ∧
      (∃ F : PELIB_SECTION_HEADER, self'.sections[0]? = some F ∧
        F.PointerToRawData = self'.optionalHeader.SizeOfHeaders) ∧
      self'.optionalHeader.SizeOfImage =
        AlignToSize
          (AlignToSize self'.optionalHeader.SizeOfHeaders self'.optionalHeader.SectionAlignment +
            (self.sections.map fun s =>
              AlignToSize s.VirtualSize self'.optionalHeader.SectionAlignment).sum)
          self'.optionalHeader.SectionAlignment := by
  obtain ⟨fsec, fsig, fnum, fmach, fsize, fmagic, frva, fSA, fFA, fSoH⟩ :=
    makeValid_headers_fields self
  have hu16 : u16 self.sections.length = self.sections.length :=
    Nat.mod_eq_of_lt (by omega)
  rw [hu16] at fnum
  obtain ⟨self', hmk, esig, efh, emagic, erva, eSA, eFA, eSoH, eSoI, elen, eget⟩ :=
    makeValid_eq self first hfirst
  rw [hu16] at eSoI eget
  rw [List.take_of_length_le (Nat.le_refl _)] at eSoI
  -- the alignments
  have hSA : (makeValid.headers self).optionalHeader.SectionAlignment ≠ 0 ∧
      4096 ∣ (makeValid.headers self).optionalHeader.SectionAlignment := by
    rw [fSA]
    have hd : 4096 ∣ AlignToSize self.optionalHeader.SectionAlignment PELIB_PAGE_SIZE :=
      AlignToSize_dvd _ 12 (by norm_num)
    split_ifs with hz
    · exact ⟨hz, hd⟩
    · exact ⟨by decide, by decide⟩
  have hFA : (makeValid.headers self).optionalHeader.FileAlignment ≠ 0 ∧
      512 ∣ (makeValid.headers self).optionalHeader.FileAlignment := by
    rw [fFA]
    have hd : 512 ∣ AlignToSize self.optionalHeader.FileAlignment PELIB_SECTOR_SIZE :=
      AlignToSize_dvd _ 9 (by norm_num)
    split_ifs with hz
    · exact ⟨hz, hd⟩
    · exact ⟨by decide, by decide⟩
  have hFA32 : (makeValid.headers self).optionalHeader.FileAlignment < 2 ^ 32 := by
    rw [fFA]
    split_ifs
    · unfold AlignToSize
      exact lt_of_le_of_lt Nat.and_le_left (Nat.mod_lt _ (by norm_num))
    · decide
  have hSoH32 : (makeValid.headers self).optionalHeader.SizeOfHeaders < 2 ^ 32 := by
    rw [fSoH]
    unfold AlignToSize
    exact lt_of_le_of_lt Nat.and_le_left (Nat.mod_lt _ (by norm_num))
  have hSoHeven : (makeValid.headers self).optionalHeader.SizeOfHeaders % 2 = 0 := by
    rw [fSoH]
    exact AlignToSize_even _ _ (Dvd.dvd.trans (by decide) hFA.2) hFA.1 hFA32
  refine ⟨self', hmk, ?_, ?_, elen, ?_, ?_, ?_, ?_, ?_, ?_, ?_, ?_, ?_⟩
  · rw [esig, fsig]
  · rw [efh, fnum]
  · intro hm
    refine ⟨?_, ?_, ?_⟩
    · rw [emagic, fmagic, if_pos hm]
    · rw [efh, fmach, if_pos hm]
    · rw [efh, fsize, if_pos hm]
  · intro hm
    refine ⟨?_, ?_, ?_⟩
    · rw [emagic, fmagic, if_neg hm]
    · rw [efh, fmach, if_neg hm]
    · rw [efh, fsize, if_neg hm]
  · rw [erva, frva]
  · rw [eSA]
    exact hSA
  · rw [eFA]
    exact hFA
  · rw [eSoH, efh, eFA]
    exact fSoH
  · intro j T hT
    rw [eSoH, eget, hT]
    have hj : j < self.sections.length := by
      by_contra hc
      rw [List.getElem?_eq_none (by omega)] at hT
      exact absurd hT (by simp)
    have hT32 : T.PointerToRawData < 2 ^ 32 := h32 T (List.getElem?_mem hT)
    by_cases hd : sub32 (makeValid.headers self).optionalHeader.SizeOfHeaders
        first.PointerToRawData ≠ 0
    · rw [if_pos ⟨hj, hd⟩]
      refine ⟨_, rfl, (setRawDataRange_fields _ _ _).1, (setRawDataRange_fields _ _ _).2.2.1,
        (setRawDataRange_fields _ _ _).2.2.2.1, ?_⟩
      rw [(setRawDataRange_fields _ _ _).2.1, if_neg (fun h => h rfl)]
    · rw [if_neg (fun h => hd h.2)]
      refine ⟨T, rfl, ?_, rfl, rfl, rfl⟩
      rw [not_not.mp hd, Nat.add_zero]
      have : u32 T.PointerToRawData = T.PointerToRawData := Nat.mod_eq_of_lt hT32
      rw [this]
      split_ifs <;> rfl
  · rw [eSoH, eget, hfirst]
    have h0 : 0 < self.sections.length := by
      by_contra hc
      rw [List.getElem?_eq_none (by omega)] at hfirst
      exact absurd hfirst (by simp)
    have hF32 : first.PointerToRawData < 2 ^ 32 := h32 first (List.getElem?_mem hfirst)
    have hsum : u32 (first.PointerToRawData +
        sub32 (makeValid.headers self).optionalHeader.SizeOfHeaders first.PointerToRawData) =
        (makeValid.headers self).optionalHeader.SizeOfHeaders := by
      rw [sub32_add_cancel]
      exact Nat.mod_eq_of_lt hSoH32
    by_cases hd : sub32 (makeValid.headers self).optionalHeader.SizeOfHeaders
        first.PointerToRawData ≠ 0
    · rw [if_pos ⟨h0, hd⟩]
      refine ⟨_, rfl, ?_⟩
      rw [(setRawDataRange_fields _ _ _).1, hsum, if_pos (by unfold UINT32_MAX; omega)]
    · rw [if_neg (fun h => hd h.2)]
      refine ⟨first, rfl, ?_⟩
      rw [not_not.mp hd, Nat.add_zero] at hsum
      rw [← hsum]
      exact (Nat.mod_eq_of_lt hF32).symm
  · rw [eSoI, eSoH, eSA, ← AlignToSize_u32, foldl_u32_sum, AlignToSize_u32]
/-- C26, witness: `makeValid` on `editImage` (two sections, PE32, `e_lfanew = 0`) gives
`NumberOfSections = 2`, 16 data directories, `SizeOfHeaders = 0x200`, the raw data of the
sections moved from `0x400` and `0x2400` to `0x200` and `0x2200`, and
`SizeOfImage = 0x5000`. -/
theorem makeValid_recomputes_headers_witness :
    (∃ self', makeValid editImage = some self' ∧
      self'.ntSignature = PELIB_IMAGE_NT_SIGNATURE ∧
      self'.fileHeader.NumberOfSections = 2 ∧
      self'.optionalHeader.NumberOfRvaAndSizes = 16 ∧
      ∃ F : PELIB_SECTION_HEADER, self'.sections[0]? = some F ∧
        F.PointerToRawData = self'.optionalHeader.SizeOfHeaders) ∧
    (makeValid editImage).map (fun s =>
        (s.optionalHeader.SizeOfHeaders, s.optionalHeader.SizeOfImage,
          s.sections.map fun t => t.PointerToRawData)) =
      some (0x200, 0x5000, [0x200, 0x2200]) := by
  obtain ⟨self', h, h1, h2, _, _, _, h6, _, _, _, _, h11, _⟩ :=
    makeValid_recomputes_headers editImage (rangeSection 0x1000 0x3000 0x400 0x2000) rfl
      (by decide) (by decide)
  exact ⟨⟨self', h, h1, h2, h6, h11⟩, by decide⟩

/-- C26, counterexample: `makeValid` on `lowPointerImage` computes `SizeOfHeaders = 0x200`
and moves the raw data of section 0 from `0x400` to `0x200`, a shift by `0xFFFFFE00`
(mod `2^32`); the raw data pointer `0x1FF` of section 1 is not shifted to `0xFFFFFFFF` but
stays `0x1FF`.  And on `manySectionsImage`, which has 65536 sections, `NumberOfSections` is
0 afterwards. -/
theorem makeValid_keeps_pointer_and_truncates_count :
    (makeValid lowPointerImage).map (fun s =>
        (s.optionalHeader.SizeOfHeaders, s.sections.map fun t => t.PointerToRawData)) =
      some (0x200, [0x200, 0x1FF]) ∧
    u32 (0x1FF + sub32 0x200 0x400) = 0xFFFFFFFF ∧
    manySectionsImage.sections.length = 65536 ∧
    ∃ self', makeValid manySectionsImage = some self' ∧
      self'.fileHeader.NumberOfSections = 0 := by
  refine ⟨by decide, by decide, List.length_replicate _ _, ?_⟩
  obtain ⟨self', h, _, efh, _⟩ := makeValid_eq manySectionsImage
    (rangeSection 0x1000 0x1000 0x400 0x200) (by
      show (List.replicate 65536 _)[0]? = _
      rw [List.getElem?_replicate, if_pos (by norm_num)])
  refine ⟨self', h, ?_⟩
  rw [efh, (makeValid_headers_fields manySectionsImage).2.2.1]
  show u16 (List.replicate 65536 _).length = 0
  rw [List.length_replicate]
  decide

/-- The block loop ends at a block that `isValidImageBlock` rejects: the result is `true`
and the loader is the one the loop was entered with. -/
theorem loop_invalid_block (buffer : List Nat) (bufferEnd difference passes bufferPtr : Nat)
    (self : ImageLoader)
    (hfit : bufferPtr + sizeof_PELIB_IMAGE_BASE_RELOCATION ≤ bufferEnd)
    (hinv : isValidImageBlock self (readLE buffer bufferPtr 4)
      (readLE buffer (bufferPtr + 4) 4) = false) :
    processImageRelocations.loop buffer bufferEnd difference (passes + 1) bufferPtr self =
      some (true, self) := by
  unfold processImageRelocations.loop
  rw [if_pos hfit]
  simp only []
  rw [if_pos hinv]

/-- C27, as amended: for every mapped image and `newBase != ImageBase` that pass the initial
checks and have a valid base relocation directory of 8 bytes or more (at most 10 MB), of
which the read transfers 8 bytes or more, `relocateImage newBase` does not fail at a block
that `isValidImageBlock` rejects.  The block loop of `processImageRelocations` ends at such a
block with the result `true` and the loader as it is; and when the first block of the
relocation data is such a block, `relocateImage newBase` returns `true` with the image that
`writeNewImageBase` left: no relocation is applied. -/
theorem relocateImage_invalid_block_returns_true (self : ImageLoader) (newBase : Nat)
    (hm : mappedImage self) (hne : newBase ≠ self.optionalHeader.ImageBase)
    (h1 : self.fileHeader.Characteristics &&& PELIB_IMAGE_FILE_RELOCS_STRIPPED = 0)
    (h2 : ¬ (self.appContainerCheck = true ∧ checkForBadAppContainer self = true))
    (h3 : ¬ (self.optionalHeader.Magic = PELIB_IMAGE_NT_OPTIONAL_HDR32_MAGIC ∧
      2 ^ 32 ≤ newBase))
    (hdir : ¬ (self.optionalHeader.NumberOfRvaAndSizes ≤ PELIB_IMAGE_DIRECTORY_ENTRY_BASERELOC ∨
      (baseRelocationDirectory self).VirtualAddress = 0 ∨
      (baseRelocationDirectory self).Size = 0 ∨
      isValidImageBlock self (baseRelocationDirectory self).VirtualAddress
        (baseRelocationDirectory self).Size = false))
    (hsize : sizeof_PELIB_IMAGE_BASE_RELOCATION ≤ (baseRelocationDirectory self).Size ∧
      (baseRelocationDirectory self).Size ≤ PELIB_SIZE_10MB)
    (hread : sizeof_PELIB_IMAGE_BASE_RELOCATION ≤
      transferCount self (baseRelocationDirectory self).VirtualAddress
        (baseRelocationDirectory self).Size) :
    ∃ t, writeNewImageBase self newBase = some t ∧
      (∀ (buffer : List Nat) (bufferEnd difference passes bufferPtr : Nat) (s : ImageLoader),
        bufferPtr + sizeof_PELIB_IMAGE_BASE_RELOCATION ≤ bufferEnd →
        isValidImageBlock s (readLE buffer bufferPtr 4) (readLE buffer (bufferPtr + 4) 4) =
          false →
        processImageRelocations.loop buffer bufferEnd difference (passes + 1) bufferPtr s =
          some (true, s)) ∧
      (isValidImageBlock t
          (readLE (relocationData t (baseRelocationDirectory self).VirtualAddress
            (baseRelocationDirectory self).Size) 0 4)
          (readLE (relocationData t (baseRelocationDirectory self).VirtualAddress
            (baseRelocationDirectory self).Size) 4 4) = false →
        relocateImage self newBase = some (true, t)) := by
  obtain ⟨pages', hw, hstep⟩ := relocateImage_steps self newBase hm hne h1 h2 h3
  obtain ⟨pages2, hw2, hlen, hwf, hz, _⟩ := writeNewImageBase_spec self newBase hm
  rw [hw] at hw2
  simp only [Option.some.injEq] at hw2
  have hpages : pages' = pages2 := congrArg ImageLoader.pages hw2
  subst hpages
  have hrw : Rewritten self { self with pages := pages' } := ⟨pages', rfl, hlen, hwf, hz⟩
  have hm' : mappedImage { self with pages := pages' } := hrw.mapped hm
  refine ⟨{ self with pages := pages' }, hw, ?_, ?_⟩
  · intro buffer bufferEnd difference passes bufferPtr s hfit hinv
    exact loop_invalid_block buffer bufferEnd difference passes bufferPtr s hfit hinv
  · intro hinv
    rw [hstep, if_neg hdir]
    unfold processImageRelocations
    simp only []
    rw [if_neg (by
      unfold sizeof_PELIB_IMAGE_BASE_RELOCATION PELIB_SIZE_10MB at *
      omega)]
    rw [readImage_relocationData _ _ _ hm' (by
      unfold PELIB_SIZE_10MB at hsize
      omega)]
    simp only []
    rw [hrw.transferCount]
    obtain ⟨k, hk⟩ : ∃ k, transferCount self (baseRelocationDirectory self).VirtualAddress
        (baseRelocationDirectory self).Size = k + 1 :=
      ⟨_, (Nat.succ_pred_eq_of_pos (by
        unfold sizeof_PELIB_IMAGE_BASE_RELOCATION at hread
        omega)).symm⟩
    have hfit : 0 + sizeof_PELIB_IMAGE_BASE_RELOCATION ≤ k + 1 := by rw [← hk]; omega
    rw [hk]
    exact loop_invalid_block _ _ _ k 0 _ hfit (by rw [Nat.zero_add]; exact hinv)
set_option maxRecDepth 100000 in
set_option maxHeartbeats 4000000 in
/-- C27, witness: the relocation data of the mapped image `invalidBlockImage` begin with a
block for rva `0x5000`, outside the image of `0x2000` bytes; `relocateImage(0x140010000)`
returns `true` with the image that `writeNewImageBase` left. -/
theorem relocateImage_invalid_block_returns_true_witness :
    ∃ t, writeNewImageBase invalidBlockImage 0x140010000 = some t ∧
      relocateImage invalidBlockImage 0x140010000 = some (true, t) := by
  obtain ⟨t, hw, _, h⟩ := relocateImage_invalid_block_returns_true invalidBlockImage
    0x140010000 ⟨⟨by decide!, by decide!, by decide!⟩, by unfold wellFormedPages; decide!⟩
    (by decide!) (by decide!) (by decide!) (by decide!) (by decide!) (by decide!) (by decide!)
  refine ⟨t, hw, h ?_⟩
  have e : (writeNewImageBase invalidBlockImage 0x140010000).map (fun t =>
      isValidImageBlock t
        (readLE (relocationData t (baseRelocationDirectory invalidBlockImage).VirtualAddress
          (baseRelocationDirectory invalidBlockImage).Size) 0 4)
        (readLE (relocationData t (baseRelocationDirectory invalidBlockImage).VirtualAddress
          (baseRelocationDirectory invalidBlockImage).Size) 4 4)) = some false := by
    decide!
  rw [hw] at e
  exact Option.some.inj e

set_option maxRecDepth 100000 in
set_option maxHeartbeats 4000000 in
/-- C27, counterexample: the mapped image `invalidBlockImage` has `ImageBase = 0x140000000`
and relocation data of 20 bytes at rva `0x1000` that begin with a block with
`VirtualAddress = 0x5000` and `SizeOfBlock = 10`, which `isValidImageBlock` rejects
(`SizeOfImage = 0x2000`); `relocateImage(0x140010000)` returns `true`.  The `HIGHLOW`
entry of the block behind it is not applied: the value at rva `0x1020` stays
`0x40001234`. -/
theorem relocateImage_invalid_block_not_false :
    mappedImage invalidBlockImage ∧
    invalidBlockImage.optionalHeader.ImageBase = 0x140000000 ∧
    invalidBlockImage.optionalHeader.SizeOfImage = 0x2000 ∧
    relocationData invalidBlockImage 0x1000 20 =
      bytesLE 0x5000 4 ++ bytesLE 10 4 ++ bytesLE 0x3010 2 ++
        (bytesLE 0x1000 4 ++ bytesLE 10 4 ++ bytesLE 0x3020 2) ∧
    isValidImageBlock invalidBlockImage 0x5000 10 = false ∧
    readLE (imageBytes invalidBlockImage 0x1020 4) 0 4 = 0x40001234 ∧
    (relocateImage invalidBlockImage 0x140010000).map
        (fun r => (r.1, readLE (imageBytes r.2 0x1020 4) 0 4)) = some (true, 0x40001234) := by
  refine ⟨⟨⟨by decide!, by decide!, by decide!⟩, by unfold wellFormedPages; decide!⟩,
    by decide!, by decide!, by decide!, by decide!, by decide!, by decide!⟩

set_option maxRecDepth 100000 in
set_option maxHeartbeats 4000000 in
/-- C28: a block for the header page is processed.  The mapped image `headerBlockImage` has
relocation data of one block with `VirtualAddress = 0` and `SizeOfBlock = 10`, whose single
entry is `HIGHLOW` at offset `0x80`; page 0 holds the headers and is not flagged as a zero
page, so `isZeroPage(0)` is `false`.  `relocateImage(0x140010000)` returns `true` and the
four bytes at rva `0x80`, in the header page, change from `0` to `0x10000`. -/
theorem relocateImage_relocates_header_page :
    mappedImage headerBlockImage ∧
    relocationData headerBlockImage 0x1000 10 = bytesLE 0 4 ++ bytesLE 10 4 ++ bytesLE 0x3080 2 ∧
    isZeroPage headerBlockImage 0 = false ∧
    readLE (imageBytes headerBlockImage 0x80 4) 0 4 = 0 ∧
    (relocateImage headerBlockImage 0x140010000).map
        (fun r => (r.1, readLE (imageBytes r.2 0x80 4) 0 4)) = some (true, 0x10000) := by
  refine ⟨⟨⟨by decide!, by decide!, by decide!⟩, by unfold wellFormedPages; decide!⟩,
    by decide!, by decide!, by decide!, by decide!⟩

theorem EXT_IMM64_testBit (Value S Size InstPos ValPos j : Nat) :
    (EXT_IMM64 Value S Size InstPos ValPos).testBit j =
      (Value.testBit j || (decide (j < 64) && (decide (ValPos ≤ j) &&
        (decide (j - ValPos < Size) && S.testBit (InstPos + (j - ValPos)))))) := by
  unfold EXT_IMM64 u64
  rw [Nat.testBit_or, Nat.testBit_mod_two_pow, Nat.testBit_shiftLeft, Nat.testBit_and,
    Nat.testBit_shiftRight, Nat.testBit_two_pow_sub_one]
  simp only [ge_iff_le, Bool.and_comm (S.testBit _)]

theorem INS_IMM64_testBit (Value T Size InstPos ValPos j : Nat) (h : InstPos + Size ≤ 32) :
    (INS_IMM64 Value T Size InstPos ValPos).testBit j =
      if InstPos ≤ j ∧ j < InstPos + Size then Value.testBit (ValPos + (j - InstPos))
      else (decide (j < 32) && T.testBit j) := by
  have hFF : (0xFFFFFFFF : Nat) = 2 ^ 32 - 1 := by norm_num
  unfold INS_IMM64 not32 u32
  rw [Nat.testBit_or, Nat.testBit_and, Nat.testBit_xor, hFF, Nat.testBit_two_pow_sub_one,
    Nat.testBit_mod_two_pow, Nat.testBit_mod_two_pow, Nat.testBit_mod_two_pow,
    Nat.testBit_shiftLeft, Nat.testBit_shiftLeft, Nat.testBit_two_pow_sub_one,
    Nat.testBit_mod_two_pow, Nat.testBit_and, Nat.testBit_shiftRight,
    Nat.testBit_two_pow_sub_one]
  by_cases c : InstPos ≤ j ∧ j < InstPos + Size
  · rw [if_pos c]
    have a1 : j < 32 := by omega
    have a2 : j ≥ InstPos := c.1
    have a3 : j - InstPos < Size := by omega
    have a4 : j - InstPos < 32 := by omega
    simp [a1, a2, a3, a4]
  · rw [if_neg c]
    have a5 : ¬ (j ≥ InstPos ∧ j - InstPos < Size) := by
      intro h5
      exact c ⟨h5.1, by omega⟩
    by_cases a2 : j ≥ InstPos
    · have a3 : ¬ j - InstPos < Size := fun h3 => a5 ⟨a2, h3⟩
      simp [a2, a3]
      exact Bool.and_comm _ _
    · simp [a2]
      exact Bool.and_comm _ _
theorem extractImm64_testBit (B : List Nat) (j : Nat) :
    (extractImm64 B).testBit j =
      (decide (j < 64) &&
        ((decide (j < 7) && (B.getD 3 0).testBit (4 + j)) ||
         (decide (7 ≤ j) && decide (j - 7 < 9) && (B.getD 3 0).testBit (18 + (j - 7))) ||
         (decide (16 ≤ j) && decide (j - 16 < 5) && (B.getD 3 0).testBit (13 + (j - 16))) ||
         (decide (21 ≤ j) && decide (j - 21 < 1) && (B.getD 3 0).testBit (12 + (j - 21))) ||
         (decide (22 ≤ j) && decide (j - 22 < 10) && (B.getD 1 0).testBit (14 + (j - 22))) ||
         (decide (32 ≤ j) && decide (j - 32 < 8) && (B.getD 1 0).testBit (24 + (j - 32))) ||
         (decide (40 ≤ j) && decide (j - 40 < 23) && (B.getD 2 0).testBit (j - 40)) ||
         (decide (63 ≤ j) && decide (j - 63 < 1) && (B.getD 3 0).testBit (27 + (j - 63))))) := by
  unfold extractImm64
  simp only [EXT_IMM64_testBit, Nat.zero_testBit, Bool.false_or, Nat.zero_le, decide_True,
    Bool.true_and, Nat.sub_zero, Nat.zero_add]
  cases decide (j < 64) <;> simp [Bool.and_assoc]

theorem extractImm64_lt (B : List Nat) : extractImm64 B < 2 ^ 64 := by
  apply Nat.lt_pow_two_of_testBit
  intro j hj
  rw [extractImm64_testBit]
  have : ¬ j < 64 := by omega
  simp [this]
theorem insertImm64_getD (v : Nat) (B : List Nat) :
    (insertImm64 v B).getD 0 0 = B.getD 0 0 ∧
    (insertImm64 v B).getD 1 0 =
      INS_IMM64 v (INS_IMM64 v (B.getD 1 0) 10 14 22) 8 24 32 ∧
    (insertImm64 v B).getD 2 0 = INS_IMM64 v (B.getD 2 0) 23 0 40 ∧
    (insertImm64 v B).getD 3 0 =
      INS_IMM64 v (INS_IMM64 v (INS_IMM64 v (INS_IMM64 v (INS_IMM64 v (B.getD 3 0) 7 4 0)
        9 18 7) 5 13 16) 1 12 21) 1 27 63 :=
  ⟨rfl, rfl, rfl, rfl⟩

set_option maxHeartbeats 4000000 in
/-- Extracting after inserting a 64-bit value returns the value. -/
theorem extractImm64_insertImm64 (v : Nat) (B : List Nat) (hv : v < 2 ^ 64) :
    extractImm64 (insertImm64 v B) = v := by
  apply Nat.eq_of_testBit_eq
  intro j
  obtain ⟨_, e1, e2, e3⟩ := insertImm64_getD v B
  rw [extractImm64_testBit, e1, e2, e3]
  by_cases hj : j < 64
  · simp only [INS_IMM64_testBit _ _ _ _ _ _ (show 14 + 10 ≤ 32 by norm_num),
      INS_IMM64_testBit _ _ _ _ _ _ (show 24 + 8 ≤ 32 by norm_num),
      INS_IMM64_testBit _ _ _ _ _ _ (show 0 + 23 ≤ 32 by norm_num),
      INS_IMM64_testBit _ _ _ _ _ _ (show 4 + 7 ≤ 32 by norm_num),
      INS_IMM64_testBit _ _ _ _ _ _ (show 18 + 9 ≤ 32 by norm_num),
      INS_IMM64_testBit _ _ _ _ _ _ (show 13 + 5 ≤ 32 by norm_num),
      INS_IMM64_testBit _ _ _ _ _ _ (show 12 + 1 ≤ 32 by norm_num),
      INS_IMM64_testBit _ _ _ _ _ _ (show 27 + 1 ≤ 32 by norm_num)]
    interval_cases j <;> simp
  · have hz : v.testBit j = false :=
      Nat.testBit_lt_two_pow (Nat.lt_of_lt_of_le hv (Nat.pow_le_pow_right (by norm_num)
        (by omega)))
    rw [hz]
    simp [hj]
theorem INS_IMM64_lt (Value T Size InstPos ValPos : Nat) (h : InstPos + Size ≤ 32) :
    INS_IMM64 Value T Size InstPos ValPos < 2 ^ 32 := by
  apply Nat.lt_pow_two_of_testBit
  intro j hj
  rw [INS_IMM64_testBit _ _ _ _ _ _ h, if_neg (by omega)]
  have : ¬ j < 32 := by omega
  simp [this]

theorem insertImm64_lt (v : Nat) (B : List Nat) (h0 : B.getD 0 0 < 2 ^ 32) :
    ∀ i, (insertImm64 v B).getD i 0 < 2 ^ 32 := by
  intro i
  obtain ⟨e0, e1, e2, e3⟩ := insertImm64_getD v B
  match i with
  | 0 => rw [e0]; exact h0
  | 1 => rw [e1]; exact INS_IMM64_lt _ _ _ _ _ (by norm_num)
  | 2 => rw [e2]; exact INS_IMM64_lt _ _ _ _ _ (by norm_num)
  | 3 => rw [e3]; exact INS_IMM64_lt _ _ _ _ _ (by norm_num)
  | _ + 4 => exact Nat.pos_pow_of_pos 32 (by norm_num)

set_option maxHeartbeats 4000000 in
/-- Inserting leaves every bit outside the eight fields as it is. -/
theorem insertImm64_outside (v : Nat) (B : List Nat) (i j : Nat) (hi : i < 4)
    (hB : ∀ k, B.getD k 0 < 2 ^ 32) (h : inImm64Field i j = false) :
    ((insertImm64 v B).getD i 0).testBit j = (B.getD i 0).testBit j := by
  obtain ⟨e0, e1, e2, e3⟩ := insertImm64_getD v B
  have hT : ∀ k, (decide (j < 32) && (B.getD k 0).testBit j) = (B.getD k 0).testBit j := by
    intro k
    by_cases c : j < 32
    · simp [c]
    · have : (B.getD k 0).testBit j = false :=
        Nat.testBit_lt_two_pow (Nat.lt_of_lt_of_le (hB k) (Nat.pow_le_pow_right (by norm_num)
          (by omega)))
      rw [this]
      simp
  simp only [inImm64Field, imm64Fields, List.any_cons, List.any_nil, Bool.or_false] at h
  interval_cases i
  · rw [e0]
  · rw [e1]
    simp only [INS_IMM64_testBit _ _ _ _ _ _ (show 14 + 10 ≤ 32 by norm_num),
      INS_IMM64_testBit _ _ _ _ _ _ (show 24 + 8 ≤ 32 by norm_num)]
    simp at h
    rw [if_neg (by omega), if_neg (by omega)]
    simp only [← Bool.and_assoc, Bool.and_self]
    exact hT 1
  · rw [e2]
    simp only [INS_IMM64_testBit _ _ _ _ _ _ (show 0 + 23 ≤ 32 by norm_num)]
    simp at h
    rw [if_neg (by omega)]
    exact hT 2
  · rw [e3]
    simp only [INS_IMM64_testBit _ _ _ _ _ _ (show 4 + 7 ≤ 32 by norm_num),
      INS_IMM64_testBit _ _ _ _ _ _ (show 18 + 9 ≤ 32 by norm_num),
      INS_IMM64_testBit _ _ _ _ _ _ (show 13 + 5 ≤ 32 by norm_num),
      INS_IMM64_testBit _ _ _ _ _ _ (show 12 + 1 ≤ 32 by norm_num),
      INS_IMM64_testBit _ _ _ _ _ _ (show 27 + 1 ≤ 32 by norm_num)]
    simp at h
    rw [if_neg (by omega), if_neg (by omega), if_neg (by omega), if_neg (by omega),
      if_neg (by omega)]
    simp only [← Bool.and_assoc, Bool.and_self]
    exact hT 3

set_option maxHeartbeats 4000000 in
/-- Inserting the value that was extracted leaves the bundle as it is. -/
theorem insertImm64_extractImm64 (b0 b1 b2 b3 : Nat) (h1 : b1 < 2 ^ 32)
    (h2 : b2 < 2 ^ 32) (h3 : b3 < 2 ^ 32) :
    insertImm64 (extractImm64 [b0, b1, b2, b3]) [b0, b1, b2, b3] = [b0, b1, b2, b3] := by
  have hz : ∀ b j, b < 2 ^ 32 → ¬ j < 32 → Nat.testBit b j = false := by
    intro b j hb hj
    exact Nat.testBit_lt_two_pow (Nat.lt_of_lt_of_le hb (Nat.pow_le_pow_right (by norm_num)
      (by omega)))
  obtain ⟨e0, e1, e2, e3⟩ := insertImm64_getD (extractImm64 [b0, b1, b2, b3]) [b0, b1, b2, b3]
  have hlen : (insertImm64 (extractImm64 [b0, b1, b2, b3]) [b0, b1, b2, b3]).length = 4 := rfl
  have w1 : (insertImm64 (extractImm64 [b0, b1, b2, b3]) [b0, b1, b2, b3]).getD 1 0 = b1 := by
    rw [e1]
    apply Nat.eq_of_testBit_eq
    intro j
    simp only [INS_IMM64_testBit _ _ _ _ _ _ (show 14 + 10 ≤ 32 by norm_num),
      INS_IMM64_testBit _ _ _ _ _ _ (show 24 + 8 ≤ 32 by norm_num), extractImm64_testBit]
    by_cases hj : j < 32
    · interval_cases j <;> simp
    · rw [if_neg (by omega), if_neg (by omega), hz _ j h1 hj]
      simp [hj]
  have w2 : (insertImm64 (extractImm64 [b0, b1, b2, b3]) [b0, b1, b2, b3]).getD 2 0 = b2 := by
    rw [e2]
    apply Nat.eq_of_testBit_eq
    intro j
    simp only [INS_IMM64_testBit _ _ _ _ _ _ (show 0 + 23 ≤ 32 by norm_num),
      extractImm64_testBit]
    by_cases hj : j < 32
    · interval_cases j <;> simp
    · rw [if_neg (by omega), hz _ j h2 hj]
      simp [hj]
  have w3 : (insertImm64 (extractImm64 [b0, b1, b2, b3]) [b0, b1, b2, b3]).getD 3 0 = b3 := by
    rw [e3]
    apply Nat.eq_of_testBit_eq
    intro j
    simp only [INS_IMM64_testBit _ _ _ _ _ _ (show 4 + 7 ≤ 32 by norm_num),
      INS_IMM64_testBit _ _ _ _ _ _ (show 18 + 9 ≤ 32 by norm_num),
      INS_IMM64_testBit _ _ _ _ _ _ (show 13 + 5 ≤ 32 by norm_num),
      INS_IMM64_testBit _ _ _ _ _ _ (show 12 + 1 ≤ 32 by norm_num),
      INS_IMM64_testBit _ _ _ _ _ _ (show 27 + 1 ≤ 32 by norm_num), extractImm64_testBit]
    by_cases hj : j < 32
    · interval_cases j <;> simp
    · rw [if_neg (by omega), if_neg (by omega), if_neg (by omega), if_neg (by omega),
        if_neg (by omega), hz _ j h3 hj]
      simp [hj]
  apply List.ext_getElem?
  intro k
  match k with
  | 0 => rfl
  | 1 =>
    have := w1
    rw [List.getD_eq_getElem?_getD, List.getElem?_eq_getElem (by rw [hlen]; norm_num)] at this
    rw [List.getElem?_eq_getElem (by rw [hlen]; norm_num)]
    exact congrArg some this
  | 2 =>
    have := w2
    rw [List.getD_eq_getElem?_getD, List.getElem?_eq_getElem (by rw [hlen]; norm_num)] at this
    rw [List.getElem?_eq_getElem (by rw [hlen]; norm_num)]
    exact congrArg some this
  | 3 =>
    have := w3
    rw [List.getD_eq_getElem?_getD, List.getElem?_eq_getElem (by rw [hlen]; norm_num)] at this
    rw [List.getElem?_eq_getElem (by rw [hlen]; norm_num)]
    exact congrArg some this
  | _ + 4 => rfl
theorem readLE_words (w0 w1 w2 w3 : Nat) :
    readLE ([w0, w1, w2, w3].flatMap fun w => bytesLE w 4) 0 4 = w0 % 2 ^ 32 ∧
    readLE ([w0, w1, w2, w3].flatMap fun w => bytesLE w 4) 4 4 = w1 % 2 ^ 32 ∧
    readLE ([w0, w1, w2, w3].flatMap fun w => bytesLE w 4) 8 4 = w2 % 2 ^ 32 ∧
    readLE ([w0, w1, w2, w3].flatMap fun w => bytesLE w 4) 12 4 = w3 % 2 ^ 32 := by
  simp only [List.flatMap_cons, List.flatMap_nil, bytesLE, readLE, List.cons_append,
    List.nil_append, List.append_nil, List.getD_cons_zero, List.getD_cons_succ]
  refine ⟨?_, ?_, ?_, ?_⟩ <;> omega

theorem imageBytes_getD (self : ImageLoader) (rva n j : Nat) (hj : j < n) :
    (imageBytes self rva n).getD j 0 = imageByte self (rva + j) := by
  unfold imageBytes
  rw [List.getD_eq_getElem?_getD, List.getElem?_map, List.getElem?_range hj]
  rfl

theorem bundleAt_lt (self : ImageLoader) (rva : Nat)
    (hb : ∀ x, rva ≤ x → x < rva + 16 → imageByte self x < 256) :
    ∀ k, (bundleAt self rva).getD k 0 < 2 ^ 32 := by
  have hbuf : isByteBuffer (imageBytes self rva 16) := by
    intro b hmem
    unfold imageBytes at hmem
    rw [List.mem_map] at hmem
    obtain ⟨i, hi, rfl⟩ := hmem
    rw [List.mem_range] at hi
    exact hb _ (by omega) (by omega)
  have h := readLE_lt (imageBytes self rva 16) hbuf 4
  intro k
  match k with
  | 0 => exact h 0
  | 1 => exact h 4
  | 2 => exact h 8
  | 3 => exact h 12
  | _ + 4 => exact Nat.pos_pow_of_pos 32 (by norm_num)

/-- What `processImageRelocation_IA64_IMM64` does to a bundle that the read transfers in
full: it returns `true`, the bytes outside the bundle stay, and the words of the bundle become
the words of `insertImm64` for the extracted value plus the difference. -/
theorem processImageRelocation_IA64_IMM64_spec (self : ImageLoader)
    (fixupAddress difference : Nat) (hm : mappedImage self) (hf : fixupAddress < 2 ^ 32)
    (hfull : transferCount self (fixupAddress - fixupAddress % 16) 16 = 16)
    (hbytes : isByteBuffer (imageBytes self (fixupAddress - fixupAddress % 16) 16)) :
    ∃ t, processImageRelocation_IA64_IMM64 self fixupAddress difference = some (true, t) ∧
      Rewritten self t ∧
      (∀ x, ¬ (fixupAddress - fixupAddress % 16 ≤ x ∧
          x < fixupAddress - fixupAddress % 16 + 16) → imageByte t x = imageByte self x) ∧
      bundleAt t (fixupAddress - fixupAddress % 16) =
        insertImm64 (u64 (extractImm64 (bundleAt self (fixupAddress - fixupAddress % 16)) +
          difference)) (bundleAt self (fixupAddress - fixupAddress % 16)) := by
  have hmask : fixupAddress &&& not32 0x0F = fixupAddress - fixupAddress % 16 :=
    and_not32_mask fixupAddress 4 hf (by norm_num)
  generalize fixupAddress - fixupAddress % 16 = a at hmask hfull hbytes ⊢
  have hb : ∀ x, a ≤ x → x < a + 16 → imageByte self x < 256 := by
    intro x h1 h2
    have := getD_lt_of_isByteBuffer (imageBytes self a 16) (x - a) hbytes
    rw [imageBytes_getD _ _ _ _ (by omega), show a + (x - a) = x by omega] at this
    exact this
  obtain ⟨buffer', hr, hl, hg⟩ := readImage_mapped self a 16 hm (by norm_num)
  have hread : [readLE buffer' 0 4, readLE buffer' 4 4, readLE buffer' 8 4,
      readLE buffer' 12 4] = bundleAt self a := by
    have e : ∀ off, off + 4 ≤ 16 →
        readLE buffer' off 4 = readLE (imageBytes self a 16) off 4 := by
      intro off hoff
      apply readLE_congr
      intro j hj
      rw [hg, hfull, if_pos (by omega), imageBytes_getD _ _ _ _ (by omega)]
    unfold bundleAt
    rw [e 0 (by norm_num), e 4 (by norm_num), e 8 (by norm_num), e 12 (by norm_num)]
  unfold processImageRelocation_IA64_IMM64
  simp only []
  rw [hmask, hr]
  simp only []
  rw [if_neg (by rw [hfull]; exact fun h => h rfl), hread]
  generalize hW : insertImm64 (u64 (extractImm64 (bundleAt self a) + difference))
    (bundleAt self a) = W
  have hWlen : W.length = 4 := by rw [← hW]; rfl
  have hWlt : ∀ i, W.getD i 0 < 2 ^ 32 := by
    rw [← hW]
    exact insertImm64_lt _ _ (bundleAt_lt self a hb 0)
  obtain ⟨w0, w1, w2, w3, rfl⟩ : ∃ w0 w1 w2 w3, W = [w0, w1, w2, w3] := by
    match W, hWlen with
    | [w0, w1, w2, w3], _ => exact ⟨w0, w1, w2, w3, rfl⟩
  obtain ⟨t, hw, hrw, hbt⟩ := writeImage_mapped self
    ([w0, w1, w2, w3].flatMap fun w => bytesLE w 4) a 16 hm (by
      simp only [List.flatMap_cons, List.flatMap_nil, List.length_append, bytesLE_length,
        List.length_nil]) (by norm_num)
  rw [hw]
  simp only []
  rw [hfull]
  refine ⟨t, rfl, hrw, ?_, ?_⟩
  · intro x hx
    rw [hbt, hfull, if_neg hx]
  · have e : ∀ off, off + 4 ≤ 16 → readLE (imageBytes t a 16) off 4 =
        readLE ([w0, w1, w2, w3].flatMap fun w => bytesLE w 4) off 4 := by
      intro off hoff
      apply readLE_congr
      intro j hj
      rw [imageBytes_getD _ _ _ _ (by omega), hbt, hfull, if_pos (by omega)]
      congr 1
      omega
    obtain ⟨r0, r1, r2, r3⟩ := readLE_words w0 w1 w2 w3
    unfold bundleAt
    rw [e 0 (by norm_num), e 4 (by norm_num), e 8 (by norm_num), e 12 (by norm_num),
      r0, r1, r2, r3, Nat.mod_eq_of_lt (show w0 < 2 ^ 32 from hWlt 0),
      Nat.mod_eq_of_lt (show w1 < 2 ^ 32 from hWlt 1),
      Nat.mod_eq_of_lt (show w2 < 2 ^ 32 from hWlt 2),
      Nat.mod_eq_of_lt (show w3 < 2 ^ 32 from hWlt 3)]
set_option maxRecDepth 100000 in
/-- C29: the `IA64_IMM64` relocation.  For every mapped image, every fixup address (32 bits)
and every difference `d`, when the 16 bytes of the bundle at the fixup address rounded down
to a multiple of 16 are read and written in full, `processImageRelocation_IA64_IMM64` returns
`true` and leaves an image in which the bytes outside the bundle are as before, the 64-bit
immediate extracted from the new bundle through the eight bit fields is the immediate
extracted from the old bundle plus `d`, mod `2^64`, every bit of the four words outside the
eight fields is as before, and the bundle is as before when `d = 0`.  The eight fields are
those of `imm64Fields`: `extractImm64` and `insertImm64` go through them in this order; two
different fields overlap neither in the words nor in the value, every one of the 64 value
bits lies in a field, and extracting after inserting a 64-bit value `v` returns `v`. -/
theorem processImageRelocation_IA64_IMM64_bit_fields (self : ImageLoader)
    (fixupAddress d : Nat) (hm : mappedImage self) (hf : fixupAddress < 2 ^ 32)
    (hfull : transferCount self (fixupAddress - fixupAddress % 16) 16 = 16)
    (hbytes : isByteBuffer (imageBytes self (fixupAddress - fixupAddress % 16) 16)) :
    (∃ t, processImageRelocation_IA64_IMM64 self fixupAddress d = some (true, t) ∧
      (∀ x, ¬ (fixupAddress - fixupAddress % 16 ≤ x ∧
          x < fixupAddress - fixupAddress % 16 + 16) → imageByte t x = imageByte self x) ∧
      extractImm64 (bundleAt t (fixupAddress - fixupAddress % 16)) =
        (extractImm64 (bundleAt self (fixupAddress - fixupAddress % 16)) + d) % 2 ^ 64 ∧
      (∀ i j, i < 4 → inImm64Field i j = false →
        ((bundleAt t (fixupAddress - fixupAddress % 16)).getD i 0).testBit j =
          ((bundleAt self (fixupAddress - fixupAddress % 16)).getD i 0).testBit j) ∧
      (d = 0 → bundleAt t (fixupAddress - fixupAddress % 16) =
        bundleAt self (fixupAddress - fixupAddress % 16))) ∧
    (∀ B : List Nat, extractImm64 B =
      imm64Fields.foldl (fun V f => EXT_IMM64 V (B.getD f.1 0) f.2.1 f.2.2.1 f.2.2.2) 0) ∧
    (∀ (v : Nat) (B : List Nat), insertImm64 v B =
      imm64Fields.foldl
        (fun W f => W.set f.1 (INS_IMM64 v (W.getD f.1 0) f.2.1 f.2.2.1 f.2.2.2))
        [B.getD 0 0, B.getD 1 0, B.getD 2 0, B.getD 3 0]) ∧
    (∀ f ∈ imm64Fields, ∀ g ∈ imm64Fields, f ≠ g →
      (f.1 ≠ g.1 ∨ f.2.2.1 + f.2.1 ≤ g.2.2.1 ∨ g.2.2.1 + g.2.1 ≤ f.2.2.1) ∧
      (f.2.2.2 + f.2.1 ≤ g.2.2.2 ∨ g.2.2.2 + g.2.1 ≤ f.2.2.2)) ∧
    (∀ k < 64, ∃ f ∈ imm64Fields, f.2.2.2 ≤ k ∧ k < f.2.2.2 + f.2.1) ∧
    (∀ (v : Nat) (B : List Nat), v < 2 ^ 64 → extractImm64 (insertImm64 v B) = v) := by
  refine ⟨?_, fun _ => rfl, fun _ _ => rfl, by decide, by decide,
    fun v B hv => extractImm64_insertImm64 v B hv⟩
  obtain ⟨t, ht, _, hout, hbundle⟩ := processImageRelocation_IA64_IMM64_spec self fixupAddress
    d hm hf hfull hbytes
  have hb : ∀ x, fixupAddress - fixupAddress % 16 ≤ x →
      x < fixupAddress - fixupAddress % 16 + 16 → imageByte self x < 256 := by
    intro x h1 h2
    have := getD_lt_of_isByteBuffer _ (x - (fixupAddress - fixupAddress % 16)) hbytes
    rw [imageBytes_getD _ _ _ _ (by omega),
      show fixupAddress - fixupAddress % 16 + (x - (fixupAddress - fixupAddress % 16)) = x
        by omega] at this
    exact this
  have hlt := bundleAt_lt self _ hb
  refine ⟨t, ht, hout, ?_, ?_, ?_⟩
  · rw [hbundle]
    exact extractImm64_insertImm64 _ _ (Nat.mod_lt _ (by norm_num))
  · intro i j hi hij
    rw [hbundle]
    exact insertImm64_outside _ _ i j hi hlt hij
  · intro hd
    rw [hbundle, hd, Nat.add_zero]
    have hu : u64 (extractImm64 (bundleAt self (fixupAddress - fixupAddress % 16))) =
        extractImm64 (bundleAt self (fixupAddress - fixupAddress % 16)) :=
      Nat.mod_eq_of_lt (extractImm64_lt _)
    rw [hu]
    exact insertImm64_extractImm64 _ _ _ _ (hlt 1) (hlt 2) (hlt 3)
set_option maxRecDepth 100000 in
set_option maxHeartbeats 4000000 in
/-- C29, witness: the bundle at rva `0x1010` of the mapped image `highlowImage` has the words
`0x40001234, 0, 0, 0` and the immediate 0; the relocation at the fixup address `0x1015` with
the difference `0x10000` returns `true` and leaves the words `0x40001234, 0, 0, 0x2000`,
whose immediate is `0x10000`: bit 16 of the value is bit 13 of word 3. -/
theorem processImageRelocation_IA64_IMM64_bit_fields_witness :
    (∃ t, processImageRelocation_IA64_IMM64 highlowImage 0x1015 0x10000 = some (true, t) ∧
      extractImm64 (bundleAt t 0x1010) =
        (extractImm64 (bundleAt highlowImage 0x1010) + 0x10000) % 2 ^ 64) ∧
    bundleAt highlowImage 0x1010 = [0x40001234, 0, 0, 0] ∧
    (processImageRelocation_IA64_IMM64 highlowImage 0x1015 0x10000).map
        (fun r => (r.1, bundleAt r.2 0x1010, extractImm64 (bundleAt r.2 0x1010))) =
      some (true, [0x40001234, 0, 0, 0x2000], 0x10000) := by
  obtain ⟨⟨t, ht, _, hext, _⟩, _⟩ := processImageRelocation_IA64_IMM64_bit_fields highlowImage
    0x1015 0x10000 mappedImage_highlowImage (by norm_num) (by decide!)
    (by unfold isByteBuffer; decide!)
  exact ⟨⟨t, ht, hext⟩, by decide!, by decide!⟩

/-- A page that was filled from `data` reads as zero wherever `data` does. -/
theorem setValidPage_getD_zero (page : PELIB_FILE_PAGE) (data : List Nat) (o : Nat)
    (h : data.getD o 0 = 0) : (page.setValidPage data).buffer.getD o 0 = 0 := by
  unfold PELIB_FILE_PAGE.setValidPage
  simp only [List.getD_eq_getElem?_getD] at h ⊢
  by_cases c : o < (data.take PELIB_PAGE_SIZE).length
  · rw [List.getElem?_append_left c, List.getElem?_take_of_lt (by
      rw [List.length_take] at c
      omega)]
    exact h
  · rw [List.getElem?_append_right (by omega), List.getElem?_replicate]
    split <;> rfl

/-- The data loop of `captureImageSection`: the pages it leaves behind are the pages it was
given, its page offset advances by one page per filled page until it reaches
`sizeOfInitializedPages`, and a filled page is valid and reads as zero from the end of the
raw data and from the end of the file on. -/
theorem dataPages_spec (fileData : List Nat) (rawDataEnd sizeOfInitializedPages : Nat)
    (hsize : sizeOfInitializedPages + 4096 ≤ 2 ^ 32) :
    ∀ (pages : List PELIB_FILE_PAGE) (rawDataPtr pageOffset : Nat)
      (filled after : List PELIB_FILE_PAGE) (pageOffset' : Nat),
      captureImageSection.dataPages fileData rawDataEnd sizeOfInitializedPages pages rawDataPtr
        pageOffset = some (filled, after, pageOffset') →
      after = pages.drop filled.length ∧ filled.length ≤ pages.length ∧
      pageOffset' = pageOffset + 4096 * filled.length ∧
      (∀ i, i < filled.length → pageOffset + 4096 * i < sizeOfInitializedPages) ∧
      ∀ i pg, filled[i]? = some pg → pg.isInvalidPage = false ∧
        ∀ o, rawDataEnd ≤ rawDataPtr + 4096 * i + o ∨
            fileData.length ≤ rawDataPtr + 4096 * i + o → pg.buffer.getD o 0 = 0 := by
  intro pages
  induction pages with
  | nil =>
    intro rawDataPtr pageOffset filled after pageOffset' h
    unfold captureImageSection.dataPages at h
    split_ifs at h
    simp only [Option.some.injEq, Prod.mk.injEq] at h
    obtain ⟨rfl, rfl, rfl⟩ := h
    exact ⟨rfl, Nat.le_refl _, rfl, fun i hi => absurd hi (Nat.not_lt_zero _),
      fun i pg hpg => absurd hpg (by simp)⟩
  | cons page rest ih =>
    intro rawDataPtr pageOffset filled after pageOffset' h
    unfold captureImageSection.dataPages at h
    by_cases hlt : pageOffset < sizeOfInitializedPages
    · rw [if_pos hlt] at h
      simp only [] at h
      have hu : u32 (pageOffset + PELIB_PAGE_SIZE) = pageOffset + 4096 := by
        unfold u32 PELIB_PAGE_SIZE
        exact Nat.mod_eq_of_lt (by omega)
      rw [hu] at h
      have step : ∀ (first : PELIB_FILE_PAGE) (filled' : List PELIB_FILE_PAGE),
          captureImageSection.dataPages fileData rawDataEnd sizeOfInitializedPages rest
            (rawDataPtr + PELIB_PAGE_SIZE) (pageOffset + 4096) =
              some (filled', after, pageOffset') →
          filled = first :: filled' →
          (first.isInvalidPage = false ∧ ∀ o, rawDataEnd ≤ rawDataPtr + o ∨
            fileData.length ≤ rawDataPtr + o → first.buffer.getD o 0 = 0) →
          after = (page :: rest).drop filled.length ∧ filled.length ≤ (page :: rest).length ∧
          pageOffset' = pageOffset + 4096 * filled.length ∧
          (∀ i, i < filled.length → pageOffset + 4096 * i < sizeOfInitializedPages) ∧
          ∀ i pg, filled[i]? = some pg → pg.isInvalidPage = false ∧
            ∀ o, rawDataEnd ≤ rawDataPtr + 4096 * i + o ∨
                fileData.length ≤ rawDataPtr + 4096 * i + o → pg.buffer.getD o 0 = 0 := by
        intro first filled' hrec hf hfirst
        obtain ⟨i1, i2, i3, i4, i5⟩ := ih _ _ _ _ _ hrec
        subst hf
        refine ⟨?_, ?_, ?_, ?_, ?_⟩
        · rw [List.length_cons, List.drop_succ_cons]
          exact i1
        · simp only [List.length_cons]
          omega
        · rw [i3, List.length_cons]
          omega
        · intro i hi
          rw [List.length_cons] at hi
          match i with
          | 0 => omega
          | i + 1 =>
            have := i4 i (by omega)
            omega
        · intro i pg hpg
          match i with
          | 0 =>
            simp only [List.getElem?_cons_zero, Option.some.injEq] at hpg
            subst hpg
            exact ⟨hfirst.1, fun o ho => hfirst.2 o (by omega)⟩
          | i + 1 =>
            rw [List.getElem?_cons_succ] at hpg
            obtain ⟨j1, j2⟩ := i5 i pg hpg
            refine ⟨j1, fun o ho => j2 o ?_⟩
            unfold PELIB_PAGE_SIZE
            omega
      by_cases hin : rawDataPtr < fileData.length
      · rw [if_pos hin] at h
        generalize hb : (if (rawDataPtr : Int) +
            (if (rawDataPtr : Int) + (PELIB_PAGE_SIZE : Nat) > (fileData.length : Int) then
              (fileData.length : Int) - (rawDataPtr : Int) else (PELIB_PAGE_SIZE : Nat)) >
              (rawDataEnd : Int)
          then (rawDataEnd : Int) - (rawDataPtr : Int)
          else (if (rawDataPtr : Int) + (PELIB_PAGE_SIZE : Nat) > (fileData.length : Int) then
              (fileData.length : Int) - (rawDataPtr : Int) else (PELIB_PAGE_SIZE : Nat))) =
          bytesToCopy at h
        by_cases hneg : bytesToCopy < 0
        · rw [if_pos hneg] at h
          exact absurd h (by simp)
        · rw [if_neg hneg] at h
          split at h
          · exact absurd h (by simp)
          · rename_i filled' after' po hrec
            simp only [Option.some.injEq, Prod.mk.injEq] at h
            obtain ⟨h1, h2, h3⟩ := h
            subst h2
            subst h3
            refine step _ filled' hrec h1.symm ⟨rfl, ?_⟩
            intro o ho
            apply setValidPage_getD_zero
            rw [copyFrom_getD, if_neg]
            unfold PELIB_PAGE_SIZE at hb
            split_ifs at hb <;> omega
      · rw [if_neg hin] at h
        split at h
        · exact absurd h (by simp)
        · rename_i filled' after' po hrec
          simp only [Option.some.injEq, Prod.mk.injEq] at h
          obtain ⟨h1, h2, h3⟩ := h
          subst h2
          subst h3
          exact step _ filled' hrec h1.symm ⟨rfl, fun o _ => rfl⟩
    · rw [if_neg hlt] at h
      simp only [Option.some.injEq, Prod.mk.injEq] at h
      obtain ⟨rfl, rfl, rfl⟩ := h
      exact ⟨rfl, Nat.zero_le _, rfl, fun i hi => absurd hi (Nat.not_lt_zero _),
        fun i pg hpg => absurd hpg (by simp)⟩

/-- The zero loop of `captureImageSection`: it turns the pages below `sizeOfValidPages` into
zero pages and leaves the pages behind them alone. -/
theorem zeroPages_spec (sizeOfValidPages : Nat) (hsize : sizeOfValidPages + 4096 ≤ 2 ^ 32) :
    ∀ (pages : List PELIB_FILE_PAGE) (pageOffset : Nat) (r : List PELIB_FILE_PAGE),
      captureImageSection.zeroPages sizeOfValidPages pages pageOffset = some r →
      (∀ i, pageOffset + 4096 * i < sizeOfValidPages →
        ∃ pg, r[i]? = some pg ∧ pg.buffer = [] ∧ pg.isInvalidPage = false) ∧
      ∀ i, sizeOfValidPages ≤ pageOffset + 4096 * i → r[i]? = pages[i]? := by
  intro pages
  induction pages with
  | nil =>
    intro pageOffset r h
    unfold captureImageSection.zeroPages at h
    split_ifs at h with c
    simp only [Option.some.injEq] at h
    subst h
    exact ⟨fun i hi => absurd hi (by omega), fun _ _ => rfl⟩
  | cons page rest ih =>
    intro pageOffset r h
    unfold captureImageSection.zeroPages at h
    by_cases hlt : pageOffset < sizeOfValidPages
    · rw [if_pos hlt] at h
      have hu : u32 (pageOffset + PELIB_PAGE_SIZE) = pageOffset + 4096 := by
        unfold u32 PELIB_PAGE_SIZE
        exact Nat.mod_eq_of_lt (by omega)
      rw [hu] at h
      split at h
      · exact absurd h (by simp)
      · rename_i rest' hrec
        simp only [Option.some.injEq] at h
        subst h
        obtain ⟨i1, i2⟩ := ih _ _ hrec
        refine ⟨?_, ?_⟩
        · intro i hi
          match i with
          | 0 => exact ⟨page.setZeroPage, List.getElem?_cons_zero, rfl, rfl⟩
          | i + 1 =>
            rw [List.getElem?_cons_succ]
            exact i1 i (by omega)
        · intro i hi
          match i with
          | 0 => omega
          | i + 1 =>
            rw [List.getElem?_cons_succ, List.getElem?_cons_succ]
            exact i2 i (by omega)
    · rw [if_neg hlt] at h
      simp only [Option.some.injEq] at h
      subst h
      exact ⟨fun i hi => absurd hi (by omega), fun _ _ => rfl⟩
theorem AlignToSize_page (x : Nat) :
    4096 ∣ AlignToSize x PELIB_PAGE_SIZE ∧ AlignToSize x PELIB_PAGE_SIZE + 4096 ≤ 2 ^ 32 := by
  have hd : 4096 ∣ AlignToSize x PELIB_PAGE_SIZE := AlignToSize_dvd x 12 (by norm_num)
  have hlt : AlignToSize x PELIB_PAGE_SIZE < 2 ^ 32 := by
    unfold AlignToSize
    exact Nat.lt_of_le_of_lt Nat.and_le_left (Nat.mod_lt _ (by norm_num))
  refine ⟨hd, ?_⟩
  obtain ⟨c, hc⟩ := hd
  omega

theorem AlignToSize_page_le (x v : Nat) (hx : x ≤ v) (hd : 4096 ∣ v) (hv : v + 4096 ≤ 2 ^ 32) :
    AlignToSize x PELIB_PAGE_SIZE ≤ v := by
  have h := AlignToSize_pow2 x 12 (by omega) (by norm_num)
  have e : AlignToSize x PELIB_PAGE_SIZE = alignUp x (2 ^ 12) := h
  rw [e]
  unfold alignUp
  obtain ⟨c, hc⟩ := hd
  norm_num
  omega

/-- The mapping of one section that is not `PAGE_NOACCESS`, in terms of the page table.  With
`P` the page of `virtualAddress` and `virtualSize'` the page-aligned virtual size: the pages
outside the `virtualSize' / 4096` pages from `P` on are as before, each of these pages is
valid afterwards, and a byte at offset `k` of them is zero when the section has no raw data
pointer, or the file offset `rawDataPtr + k` is not below the end of the raw data or of the
file, or `k` is not below the size of the initialized pages. -/
theorem captureImageSection_run_spec (optionalHeader : PELIB_IMAGE_OPTIONAL_HEADER)
    (pages : List PELIB_FILE_PAGE) (fileData : List Nat)
    (virtualAddress virtualSize pointerToRawData sizeOfRawData characteristics : Nat)
    (r : Nat × List PELIB_FILE_PAGE) (vsz srd : Nat)
    (hprot : getImageProtection characteristics ≠ PELIB_PAGE_NOACCESS)
    (hv : vsz = AlignToSize (if virtualSize = 0 then sizeOfRawData else virtualSize)
      PELIB_PAGE_SIZE)
    (hs : srd = if sizeOfRawData > vsz then vsz else sizeOfRawData)
    (h : captureImageSection.run optionalHeader pages fileData virtualAddress virtualSize
      pointerToRawData sizeOfRawData characteristics false = some r) :
    (∀ p, p < virtualAddress / 4096 ∨ virtualAddress / 4096 + vsz / 4096 ≤ p →
      r.2[p]? = pages[p]?) ∧
    (∀ p, virtualAddress / 4096 ≤ p → p < virtualAddress / 4096 + vsz / 4096 →
      ∃ pg, r.2[p]? = some pg ∧ pg.isInvalidPage = false) ∧
    ∀ k, k < vsz →
      pointerToRawData = 0 ∨
      AlignToSize (u32 (pointerToRawData + srd)) optionalHeader.FileAlignment ≤
        (pointerToRawData &&& not32 (PELIB_SECTOR_SIZE - 1)) + k ∨
      fileData.length ≤ (pointerToRawData &&& not32 (PELIB_SECTOR_SIZE - 1)) + k ∨
      AlignToSize srd PELIB_PAGE_SIZE ≤ k →
      pageListByte r.2 (virtualAddress / 4096 * 4096 + k) = 0 := by
  obtain ⟨hvd, hvlt⟩ := AlignToSize_page (if virtualSize = 0 then sizeOfRawData else virtualSize)
  rw [← hv] at hvd hvlt
  obtain ⟨hid, hilt⟩ := AlignToSize_page srd
  have hsrd : srd ≤ vsz := by
    rw [hs]
    split_ifs <;> omega
  have hile : AlignToSize srd PELIB_PAGE_SIZE ≤ vsz := AlignToSize_page_le srd vsz hsrd hvd hvlt
  unfold captureImageSection.run at h
  simp only [] at h
  rw [← hv, ← hs, if_pos hprot] at h
  have hvv : AlignToSize vsz PELIB_PAGE_SIZE = vsz := by
    have h1 := AlignToSize_pow2 vsz 12 (by omega) (by norm_num)
    have e : AlignToSize vsz PELIB_PAGE_SIZE = alignUp vsz (2 ^ 12) := h1
    rw [e]
    unfold alignUp
    obtain ⟨c, hc⟩ := hvd
    norm_num
    omega
  rw [hvv] at h
  have hP : virtualAddress / PELIB_PAGE_SIZE = virtualAddress / 4096 := rfl
  rw [hP] at h
  generalize virtualAddress / 4096 = P at h ⊢
  generalize hisz : AlignToSize srd PELIB_PAGE_SIZE = isz at h hid hilt hile ⊢
  generalize AlignToSize (u32 (pointerToRawData + srd)) optionalHeader.FileAlignment =
    rawDataEnd at h ⊢
  generalize pointerToRawData &&& not32 (PELIB_SECTOR_SIZE - 1) = ptr at h ⊢
  split at h
  · exact absurd h (by simp)
  rename_i filled after po hfill
  split at h
  · exact absurd h (by simp)
  rename_i after' hzero
  simp only [Option.some.injEq] at h
  subst h
  show (∀ p, p < P ∨ P + vsz / 4096 ≤ p →
      (pages.take P ++ filled ++ after')[p]? = pages[p]?) ∧
    (∀ p, P ≤ p → p < P + vsz / 4096 →
      ∃ pg, (pages.take P ++ filled ++ after')[p]? = some pg ∧ pg.isInvalidPage = false) ∧
    ∀ k, k < vsz → pointerToRawData = 0 ∨ rawDataEnd ≤ ptr + k ∨ fileData.length ≤ ptr + k ∨
      isz ≤ k → pageListByte (pages.take P ++ filled ++ after') (P * 4096 + k) = 0
  -- the filled pages
  have hF : after = (pages.drop P).drop filled.length ∧
      filled.length ≤ (pages.drop P).length ∧ po = 4096 * filled.length ∧
      (∀ i, i < filled.length → 4096 * i < isz) ∧
      (pointerToRawData = 0 → filled.length = 0) ∧
      ∀ i pg, filled[i]? = some pg → pg.isInvalidPage = false ∧
        ∀ o, rawDataEnd ≤ ptr + 4096 * i + o ∨ fileData.length ≤ ptr + 4096 * i + o →
          pg.buffer.getD o 0 = 0 := by
    by_cases hprd : pointerToRawData ≠ 0
    · rw [if_pos (Or.inl hprd)] at hfill
      obtain ⟨i1, i2, i3, i4, i5⟩ := dataPages_spec fileData rawDataEnd isz hilt _ _ _ _ _ _ hfill
      exact ⟨i1, i2, by omega, fun i hi => by have := i4 i hi; omega,
        fun h0 => absurd h0 hprd, i5⟩
    · rw [if_neg (by simp [not_not.mp hprd])] at hfill
      simp only [Option.some.injEq, Prod.mk.injEq] at hfill
      obtain ⟨rfl, rfl, rfl⟩ := hfill
      exact ⟨rfl, Nat.zero_le _, rfl, fun i hi => absurd hi (Nat.not_lt_zero _),
        fun _ => rfl, fun i pg hpg => absurd hpg (by simp)⟩
  obtain ⟨f1, f2, f3, f4, f6, f5⟩ := hF
  obtain ⟨z1, z2⟩ := zeroPages_spec vsz hvlt _ _ _ hzero
  have zlen := zeroPages_length vsz _ _ _ hzero
  obtain ⟨c, hc⟩ := hvd
  obtain ⟨ci, hci⟩ := hid
  rw [f3] at z1 z2
  by_cases hPl : P ≤ pages.length
  · have htl : (pages.take P).length = P := by rw [List.length_take]; omega
    have hlow : ∀ p, p < P → (pages.take P ++ filled ++ after')[p]? = pages[p]? := by
      intro p hp
      rw [List.append_assoc, List.getElem?_append_left (by omega),
        List.getElem?_take_of_lt hp]
    have hmid : ∀ q, q < filled.length →
        (pages.take P ++ filled ++ after')[P + q]? = filled[q]? := by
      intro q hq
      rw [List.getElem?_append_left (by rw [List.length_append]; omega),
        List.getElem?_append_right (by omega), htl, Nat.add_sub_cancel_left]
    have hhigh : ∀ q, filled.length ≤ q →
        (pages.take P ++ filled ++ after')[P + q]? = after'[q - filled.length]? := by
      intro q hq
      rw [List.getElem?_append_right (by rw [List.length_append]; omega),
        List.length_append, htl]
      congr 1
      omega
    refine ⟨?_, ?_, ?_⟩
    · intro p hp
      rcases hp with hp | hp
      · exact hlow p hp
      · have hq : filled.length ≤ p - P := by
          by_contra hcon
          have := f4 (p - P) (by omega)
          have : vsz / 4096 ≤ p - P := by omega
          omega
        have e : p = P + (p - P) := by omega
        rw [e, hhigh _ hq, z2 _ (by
          have : vsz / 4096 ≤ p - P := by omega
          omega), f1, List.getElem?_drop, List.getElem?_drop]
        congr 1
        omega
    · intro p hp1 hp2
      have e : p = P + (p - P) := by omega
      by_cases hq : p - P < filled.length
      · rw [e, hmid _ hq]
        have hsome : filled[p - P]? = some (filled[p - P]) := List.getElem?_eq_getElem hq
        exact ⟨_, hsome, (f5 _ _ hsome).1⟩
      · rw [e, hhigh _ (by omega)]
        obtain ⟨pg, g1, _, g3⟩ := z1 (p - P - filled.length) (by omega)
        exact ⟨pg, g1, g3⟩
    · intro k hk hcond
      unfold pageListByte
      have e1 : (P * 4096 + k) / PELIB_PAGE_SIZE = P + k / 4096 := by
        unfold PELIB_PAGE_SIZE
        omega
      have e2 : (P * 4096 + k) % PELIB_PAGE_SIZE = k % 4096 := by
        unfold PELIB_PAGE_SIZE
        omega
      rw [e1, e2, List.get?_eq_getElem?]
      by_cases hq : k / 4096 < filled.length
      · rw [hmid _ hq]
        have hsome : filled[k / 4096]? = some (filled[k / 4096]) := List.getElem?_eq_getElem hq
        rw [hsome]
        have h4 := f4 _ hq
        apply (f5 _ _ hsome).2
        rcases hcond with h0 | h0 | h0 | h0
        · have := f6 h0
          omega
        · left
          omega
        · right
          omega
        · omega
      · rw [hhigh _ (by omega)]
        obtain ⟨pg, g1, g2, _⟩ := z1 (k / 4096 - filled.length) (by omega)
        rw [g1]
        show pg.buffer.getD _ 0 = 0
        rw [g2]
        rfl
  · have hd0 : pages.drop P = [] := List.drop_eq_nil_of_le (by omega)
    rw [hd0] at f2 f1
    have hfl : filled.length = 0 := by simpa using f2
    have hafter : after = [] := by rw [f1]; exact List.drop_nil
    have hv0 : vsz = 0 := by
      by_contra hne
      obtain ⟨pg, g1, _⟩ := z1 0 (by omega)
      rw [hafter] at zlen
      have : after' = [] := List.length_eq_zero.mp zlen
      rw [this] at g1
      exact absurd g1 (by simp)
    have hfn : filled = [] := List.length_eq_zero.mp hfl
    have han : after' = [] := by
      rw [hafter] at zlen
      exact List.length_eq_zero.mp zlen
    rw [hfn, han, List.append_nil, List.append_nil, List.take_of_length_le (by omega)]
    refine ⟨fun _ _ => rfl, ?_, ?_⟩
    · intro p hp1 hp2
      omega
    · intro k hk
      omega
/-- The data loop returns when the page table holds the pages it fills and no page starts
behind the end of the raw data. -/
theorem dataPages_isSome (fileData : List Nat) (rawDataEnd sizeOfInitializedPages : Nat)
    (hsize : sizeOfInitializedPages + 4096 ≤ 2 ^ 32) (hd : 4096 ∣ sizeOfInitializedPages) :
    ∀ (pages : List PELIB_FILE_PAGE) (rawDataPtr pageOffset : Nat),
      4096 ∣ pageOffset → pageOffset ≤ sizeOfInitializedPages →
      (sizeOfInitializedPages - pageOffset) / 4096 ≤ pages.length →
      rawDataPtr + (sizeOfInitializedPages - pageOffset) ≤ rawDataEnd + 4096 →
      ∃ r, captureImageSection.dataPages fileData rawDataEnd sizeOfInitializedPages pages
        rawDataPtr pageOffset = some r := by
  obtain ⟨c, hc⟩ := hd
  intro pages
  induction pages with
  | nil =>
    intro rawDataPtr pageOffset ⟨b, hb⟩ hle hlen _
    unfold captureImageSection.dataPages
    rw [if_neg (by
      simp only [List.length_nil] at hlen
      omega)]
    exact ⟨_, rfl⟩
  | cons page rest ih =>
    intro rawDataPtr pageOffset ⟨b, hb⟩ hle hlen hend
    unfold captureImageSection.dataPages
    by_cases hlt : pageOffset < sizeOfInitializedPages
    · rw [if_pos hlt]
      simp only []
      have hu : u32 (pageOffset + PELIB_PAGE_SIZE) = pageOffset + 4096 := by
        unfold u32 PELIB_PAGE_SIZE
        exact Nat.mod_eq_of_lt (by omega)
      rw [hu]
      simp only [List.length_cons] at hlen
      obtain ⟨r, hr⟩ := ih (rawDataPtr + PELIB_PAGE_SIZE) (pageOffset + 4096)
        ⟨b + 1, by omega⟩ (by omega) (by omega) (by
          unfold PELIB_PAGE_SIZE
          omega)
      rw [hr]
      by_cases hin : rawDataPtr < fileData.length
      · rw [if_pos hin, if_neg (by
          unfold PELIB_PAGE_SIZE
          split_ifs <;> omega)]
        exact ⟨_, rfl⟩
      · rw [if_neg hin]
        exact ⟨_, rfl⟩
    · rw [if_neg hlt]
      exact ⟨_, rfl⟩

/-- The zero loop returns when the page table holds the pages it zeroes. -/
theorem zeroPages_isSome (sizeOfValidPages : Nat) (hsize : sizeOfValidPages + 4096 ≤ 2 ^ 32)
    (hd : 4096 ∣ sizeOfValidPages) :
    ∀ (pages : List PELIB_FILE_PAGE) (pageOffset : Nat),
      4096 ∣ pageOffset → (sizeOfValidPages - pageOffset) / 4096 ≤ pages.length →
      ∃ r, captureImageSection.zeroPages sizeOfValidPages pages pageOffset = some r := by
  obtain ⟨c, hc⟩ := hd
  intro pages
  induction pages with
  | nil =>
    intro pageOffset ⟨b, hb⟩ hlen
    unfold captureImageSection.zeroPages
    rw [if_neg (by
      simp only [List.length_nil] at hlen
      omega)]
    exact ⟨_, rfl⟩
  | cons page rest ih =>
    intro pageOffset ⟨b, hb⟩ hlen
    unfold captureImageSection.zeroPages
    by_cases hlt : pageOffset < sizeOfValidPages
    · rw [if_pos hlt]
      have hu : u32 (pageOffset + PELIB_PAGE_SIZE) = pageOffset + 4096 := by
        unfold u32 PELIB_PAGE_SIZE
        exact Nat.mod_eq_of_lt (by omega)
      rw [hu]
      simp only [List.length_cons] at hlen
      obtain ⟨r, hr⟩ := ih (pageOffset + 4096) ⟨b + 1, by omega⟩ (by omega)
      rw [hr]
      exact ⟨_, rfl⟩
    · rw [if_neg hlt]
      exact ⟨_, rfl⟩

/-- The mapping of one section returns when the page table holds the pages of the section and
the raw data, as far as the initialized pages need them, end at or behind the start of the
last of these pages. -/
theorem captureImageSection_run_isSome (optionalHeader : PELIB_IMAGE_OPTIONAL_HEADER)
    (pages : List PELIB_FILE_PAGE) (fileData : List Nat)
    (virtualAddress virtualSize pointerToRawData sizeOfRawData characteristics : Nat)
    (vsz srd : Nat)
    (hv : vsz = AlignToSize (if virtualSize = 0 then sizeOfRawData else virtualSize)
      PELIB_PAGE_SIZE)
    (hs : srd = if sizeOfRawData > vsz then vsz else sizeOfRawData)
    (hpages : virtualAddress / 4096 + vsz / 4096 ≤ pages.length)
    (hend : (pointerToRawData &&& not32 (PELIB_SECTOR_SIZE - 1)) +
        AlignToSize srd PELIB_PAGE_SIZE ≤
      AlignToSize (u32 (pointerToRawData + srd)) optionalHeader.FileAlignment + 4096) :
    ∃ r, captureImageSection.run optionalHeader pages fileData virtualAddress virtualSize
      pointerToRawData sizeOfRawData characteristics false = some r := by
  obtain ⟨hvd, hvlt⟩ := AlignToSize_page (if virtualSize = 0 then sizeOfRawData else virtualSize)
  rw [← hv] at hvd hvlt
  obtain ⟨hid, hilt⟩ := AlignToSize_page srd
  have hsrd : srd ≤ vsz := by
    rw [hs]
    split_ifs <;> omega
  have hile : AlignToSize srd PELIB_PAGE_SIZE ≤ vsz := AlignToSize_page_le srd vsz hsrd hvd hvlt
  unfold captureImageSection.run
  simp only []
  rw [← hv, ← hs]
  have hvv : AlignToSize vsz PELIB_PAGE_SIZE = vsz := by
    have h1 := AlignToSize_pow2 vsz 12 (by omega) (by norm_num)
    have e : AlignToSize vsz PELIB_PAGE_SIZE = alignUp vsz (2 ^ 12) := h1
    rw [e]
    unfold alignUp
    obtain ⟨c, hc⟩ := hvd
    norm_num
    omega
  rw [hvv]
  have hP : virtualAddress / PELIB_PAGE_SIZE = virtualAddress / 4096 := rfl
  rw [hP]
  generalize virtualAddress / 4096 = P at hpages ⊢
  generalize hisz : AlignToSize srd PELIB_PAGE_SIZE = isz at hid hilt hile hend ⊢
  generalize AlignToSize (u32 (pointerToRawData + srd)) optionalHeader.FileAlignment =
    rawDataEnd at hend ⊢
  generalize pointerToRawData &&& not32 (PELIB_SECTOR_SIZE - 1) = ptr at hend ⊢
  by_cases hprot : getImageProtection characteristics ≠ PELIB_PAGE_NOACCESS
  · rw [if_pos hprot]
    have hdl : (pages.drop P).length = pages.length - P := List.length_drop _ _
    obtain ⟨c, hc⟩ := hvd
    obtain ⟨ci, hci⟩ := hid
    have hfill : ∃ filled after po,
        (if pointerToRawData ≠ 0 ∨ false = true then
          captureImageSection.dataPages fileData (if True then rawDataEnd
            else ptr + srd) isz (pages.drop P) ptr 0
        else some ([], pages.drop P, 0)) = some (filled, after, po) ∧
        after.length = pages.length - P - filled.length ∧ po = 4096 * filled.length := by
      by_cases hprd : pointerToRawData ≠ 0
      · rw [if_pos (Or.inl hprd), if_pos trivial]
        obtain ⟨⟨filled, after, po⟩, hr⟩ := dataPages_isSome fileData rawDataEnd isz hilt
          ⟨ci, hci⟩ (pages.drop P) ptr 0 ⟨0, rfl⟩ (Nat.zero_le _) (by rw [hdl]; omega)
          (by omega)
        obtain ⟨i1, i2, i3, _⟩ := dataPages_spec fileData rawDataEnd isz hilt _ _ _ _ _ _ hr
        refine ⟨filled, after, po, hr, ?_, by omega⟩
        rw [i1, List.length_drop, hdl]
      · rw [if_neg (by simp [not_not.mp hprd])]
        exact ⟨[], pages.drop P, 0, rfl, by rw [hdl]; rfl, rfl⟩
    obtain ⟨filled, after, po, hf, hal, hpo⟩ := hfill
    rw [hf]
    simp only []
    obtain ⟨r, hr⟩ := zeroPages_isSome vsz hvlt ⟨c, hc⟩ after po ⟨filled.length, hpo⟩
      (by rw [hal]; omega)
    rw [hr]
    exact ⟨_, rfl⟩
  · rw [if_neg hprot]
    exact ⟨_, rfl⟩
/-- C30, as amended: for every section that `captureImageSection` maps in section-granular
mode with a protection other than `PAGE_NOACCESS`, the mapped region is the
`align(V, 4096) / 4096` pages from the page of `VirtualAddress` on, `V` being `VirtualSize`,
or `SizeOfRawData` when `VirtualSize` is 0: these pages are valid afterwards and every other
page is as before.  Raw data are copied up to the end of the raw data rounded up to the file
alignment: a byte of the region at offset `k` reads as zero when the file offset
`(PointerToRawData & ~511) + k` is not below
`AlignToSize(PointerToRawData + min(SizeOfRawData, align(V, 4096)), FileAlignment)`, when it
is not below the end of the file, when `k` is not below
`align(min(SizeOfRawData, align(V, 4096)), 4096)`, and when `PointerToRawData` is 0.  The
mapping returns when `FileAlignment` is a power of two, `PointerToRawData + SizeOfRawData`
rounded up to it fits 32 bits and the page table holds the pages of the region. -/
theorem captureImageSection_zero_fill (self : ImageLoader) (fileData : List Nat)
    (S : PELIB_SECTION_HEADER)
    (hprot : getImageProtection S.Characteristics ≠ PELIB_PAGE_NOACCESS) :
    (∀ r, captureImageSection self fileData S.VirtualAddress S.VirtualSize S.PointerToRawData
        S.SizeOfRawData S.Characteristics false = some r →
      (∀ p, p < S.VirtualAddress / 4096 ∨
          S.VirtualAddress / 4096 + mappedVirtualSize S / 4096 ≤ p →
        r.2.pages[p]? = self.pages[p]?) ∧
      (∀ p, S.VirtualAddress / 4096 ≤ p →
          p < S.VirtualAddress / 4096 + mappedVirtualSize S / 4096 →
        ∃ pg, r.2.pages[p]? = some pg ∧ pg.isInvalidPage = false) ∧
      ∀ k, k < mappedVirtualSize S →
        S.PointerToRawData = 0 ∨
        mappedRawDataEnd self.optionalHeader S ≤ mappedRawDataPtr S + k ∨
        fileData.length ≤ mappedRawDataPtr S + k ∨
        AlignToSize (mappedRawDataSize S) PELIB_PAGE_SIZE ≤ k →
        imageByte r.2 (S.VirtualAddress / 4096 * 4096 + k) = 0) ∧
    (∀ e, self.optionalHeader.FileAlignment = 2 ^ e → e < 32 →
      S.PointerToRawData + S.SizeOfRawData + 2 ^ e ≤ 2 ^ 32 →
      S.VirtualAddress / 4096 + mappedVirtualSize S / 4096 ≤ self.pages.length →
      ∃ r, captureImageSection self fileData S.VirtualAddress S.VirtualSize
        S.PointerToRawData S.SizeOfRawData S.Characteristics false = some r) := by
  refine ⟨?_, ?_⟩
  · intro r h
    unfold captureImageSection at h
    split at h
    · exact absurd h (by simp)
    · rename_i va' pages' hrun
      simp only [Option.some.injEq] at h
      subst h
      exact captureImageSection_run_spec self.optionalHeader self.pages fileData _ _ _ _ _
        (va', pages') (mappedVirtualSize S) (mappedRawDataSize S) hprot rfl rfl hrun
  · intro e hfa he hfit hpages
    obtain ⟨hvd, hvlt⟩ := AlignToSize_page
      (if S.VirtualSize = 0 then S.SizeOfRawData else S.VirtualSize)
    have hsrd : mappedRawDataSize S ≤ mappedVirtualSize S ∧
        mappedRawDataSize S ≤ S.SizeOfRawData := by
      unfold mappedRawDataSize
      split_ifs <;> omega
    have hv4 : mappedVirtualSize S + 4096 ≤ 2 ^ 32 := hvlt
    have h0 : 0 < 2 ^ e := Nat.pos_pow_of_pos e (by norm_num)
    have hend : mappedRawDataPtr S + AlignToSize (mappedRawDataSize S) PELIB_PAGE_SIZE ≤
        mappedRawDataEnd self.optionalHeader S + 4096 := by
      have h1 : AlignToSize (mappedRawDataSize S) PELIB_PAGE_SIZE =
          alignUp (mappedRawDataSize S) (2 ^ 12) :=
        AlignToSize_pow2 _ 12 (by omega) (by norm_num)
      have h2 : alignUp (mappedRawDataSize S) (2 ^ 12) < mappedRawDataSize S + 4096 :=
        alignUp_lt (mappedRawDataSize S) (2 ^ 12) (by norm_num)
      have h3 : mappedRawDataEnd self.optionalHeader S =
          alignUp (S.PointerToRawData + mappedRawDataSize S) (2 ^ e) := by
        unfold mappedRawDataEnd
        rw [AlignToSize_u32, hfa]
        exact AlignToSize_pow2 _ e (by omega) he
      have h4 := le_alignUp (S.PointerToRawData + mappedRawDataSize S) (2 ^ e) h0
      have h5 : mappedRawDataPtr S ≤ S.PointerToRawData := Nat.and_le_left
      rw [h1, h3]
      omega
    obtain ⟨r, hr⟩ := captureImageSection_run_isSome self.optionalHeader self.pages fileData
      S.VirtualAddress S.VirtualSize S.PointerToRawData S.SizeOfRawData S.Characteristics
      (mappedVirtualSize S) (mappedRawDataSize S) rfl rfl hpages hend
    unfold captureImageSection
    rw [hr]
    exact ⟨_, rfl⟩

set_option maxRecDepth 100000 in
set_option maxHeartbeats 4000000 in
/-- C30, witness: the section `.text` of `textImagePages` has `VirtualSize = 0x50` and
`0x200` bytes of raw data at file offset `0x400`; its mapping from the file `textPe64`
returns, page 1 is valid afterwards, page 0 is as before, and the byte at offset `0x200` of
the region, the file offset `0x600` at which the raw data end, reads as zero. -/
theorem captureImageSection_zero_fill_witness :
    ∃ r, captureImageSection textImagePages textPe64 0x1000 0x50 0x400 0x200 0x60000020
        false = some r ∧
      r.2.pages[0]? = textImagePages.pages[0]? ∧
      (∃ pg, r.2.pages[1]? = some pg ∧ pg.isInvalidPage = false) ∧
      imageByte r.2 0x1200 = 0 := by
  have hthm := captureImageSection_zero_fill textImagePages textPe64 readableTextSection
    (by decide)
  obtain ⟨r, hr⟩ := hthm.2 9 rfl (by norm_num) (by decide) (by decide)
  obtain ⟨h1, h2, h3⟩ := hthm.1 r hr
  exact ⟨r, hr, h1 0 (Or.inl (by decide)), h2 1 (by decide) (by decide),
    h3 0x200 (by decide) (Or.inr (Or.inl (by decide)))⟩

set_option maxRecDepth 100000 in
set_option maxHeartbeats 4000000 in
/-- C30, counterexample: the section `.text` of the loaded file `textPe64` is mapped in
section-granular mode (`SectionAlignment = 0x1000`) at rva `0x1000` with
`VirtualSize = 0x50` and `SizeOfRawData = 0x200`, so `min(SizeOfRawData, VirtualSize)` is
`0x50`; the image bytes at the offsets `0x50` and `0x1FF` of the section are the bytes
`0xCC` of the file, and the byte at offset `0x200` is zero. -/
theorem captureImageSection_copies_beyond_VirtualSize :
    textPe64Loaded.optionalHeader.SectionAlignment = 0x1000 ∧
    textPe64Loaded.sections.map
        (fun s => (s.VirtualAddress, s.VirtualSize, s.PointerToRawData, s.SizeOfRawData)) =
      [(0x1000, 0x50, 0x400, 0x200)] ∧
    imageByte textPe64Loaded (0x1000 + 0x50) = 0xCC ∧
    imageByte textPe64Loaded (0x1000 + 0x1FF) = 0xCC ∧
    imageByte textPe64Loaded (0x1000 + 0x200) = 0 := by
  refine ⟨by decide!, by decide!, by decide!, by decide!, by decide!⟩

/-- C39: for 32-bit values `rva`, `size` and `SizeOfImage`, `isValidImageBlock(rva, size)` is
true if and only if `rva < SizeOfImage`, `size < SizeOfImage` and `rva + size <= SizeOfImage`,
the sum being the sum of the numbers, without 32-bit wrap-around; so a true result says
that every byte of the block `[rva, rva + size)` lies inside `[0, SizeOfImage)`. -/
theorem isValidImageBlock_iff (self : ImageLoader) (rva size : Nat) (hr : rva < 2 ^ 32)
    (hs : size < 2 ^ 32) (hi : self.optionalHeader.SizeOfImage < 2 ^ 32) :
    (isValidImageBlock self rva size = true ↔
      rva < self.optionalHeader.SizeOfImage ∧ size < self.optionalHeader.SizeOfImage ∧
        rva + size ≤ self.optionalHeader.SizeOfImage) ∧
    (isValidImageBlock self rva size = true →
      ∀ x, rva ≤ x → x < rva + size → x < self.optionalHeader.SizeOfImage) := by
  have key : isValidImageBlock self rva size = true ↔
      rva < self.optionalHeader.SizeOfImage ∧ size < self.optionalHeader.SizeOfImage ∧
        rva + size ≤ self.optionalHeader.SizeOfImage := by
    unfold isValidImageBlock u32
    by_cases hw : rva + size < 2 ^ 32
    · rw [Nat.mod_eq_of_lt hw]
      split_ifs <;> simp <;> omega
    · have e : (rva + size) % 2 ^ 32 = rva + size - 2 ^ 32 := by
        rw [Nat.mod_eq_sub_mod (by omega), Nat.mod_eq_of_lt (by omega)]
      rw [e]
      split_ifs <;> simp <;> omega
  refine ⟨key, ?_⟩
  intro h x h1 h2
  have := key.mp h
  omega

/-- C39, witness: in the mapped image `highlowImage` (`SizeOfImage = 0x2000`) the block of
`0x1000` bytes at rva `0x1000` is valid and the block of `0x1001` bytes there is not. -/
theorem isValidImageBlock_iff_witness :
    (isValidImageBlock highlowImage 0x1000 0x1000 = true ↔
      0x1000 < highlowImage.optionalHeader.SizeOfImage ∧
        0x1000 < highlowImage.optionalHeader.SizeOfImage ∧
        0x1000 + 0x1000 ≤ highlowImage.optionalHeader.SizeOfImage) ∧
    isValidImageBlock highlowImage 0x1000 0x1000 = true ∧
    isValidImageBlock highlowImage 0x1000 0x1001 = false :=
  ⟨(isValidImageBlock_iff highlowImage 0x1000 0x1000 (by norm_num) (by norm_num)
      (by decide!)).1, by decide!, by decide!⟩
/-- The protection table gives `PAGE_NOACCESS` exactly when none of `MEM_EXECUTE`, `MEM_READ`
and `MEM_WRITE` is set. -/
theorem getImageProtection_eq_NOACCESS (characteristics : Nat) :
    getImageProtection characteristics = PELIB_PAGE_NOACCESS ↔
      characteristics &&& PELIB_IMAGE_SCN_MEM_EXECUTE = 0 ∧
      characteristics &&& PELIB_IMAGE_SCN_MEM_READ = 0 ∧
      characteristics &&& PELIB_IMAGE_SCN_MEM_WRITE = 0 := by
  unfold getImageProtection
  simp only []
  by_cases h1 : characteristics &&& PELIB_IMAGE_SCN_MEM_EXECUTE = 0 <;>
  by_cases h2 : characteristics &&& PELIB_IMAGE_SCN_MEM_READ = 0 <;>
  by_cases h3 : characteristics &&& PELIB_IMAGE_SCN_MEM_WRITE = 0 <;>
  by_cases h4 : characteristics &&& PELIB_IMAGE_SCN_MEM_SHARED = 0 <;>
  simp only [h1, h2, h3, h4, ne_eq, not_true_eq_false, not_false_eq_true, if_true, if_false,
    and_self, and_true, and_false, true_and, false_and, iff_true, iff_false] <;>
  decide

/-- The virtual address that the mapping of one section returns. -/
theorem captureImageSection_run_fst (optionalHeader : PELIB_IMAGE_OPTIONAL_HEADER)
    (pages : List PELIB_FILE_PAGE) (fileData : List Nat) (va vs p sr ch : Nat) (hdr : Bool)
    (r : Nat × List PELIB_FILE_PAGE)
    (h : captureImageSection.run optionalHeader pages fileData va vs p sr ch hdr = some r) :
    r.1 = u32 (va + AlignToSize (AlignToSize (if vs = 0 then sr else vs) PELIB_PAGE_SIZE)
      optionalHeader.SectionAlignment) := by
  unfold captureImageSection.run at h
  simp only [] at h
  by_cases hprot : getImageProtection ch ≠ PELIB_PAGE_NOACCESS
  · rw [if_pos hprot] at h
    split at h
    · exact absurd h (by simp)
    · split at h
      · exact absurd h (by simp)
      · simp only [Option.some.injEq] at h
        rw [← h]
  · rw [if_neg hprot] at h
    simp only [Option.some.injEq] at h
    rw [← h]

/-- C31: a section whose characteristics give `PAGE_NOACCESS`, which the protection table
does exactly when none of `MEM_EXECUTE`, `MEM_READ` and `MEM_WRITE` is set, whatever
`MEM_SHARED` is.  For such a section `captureImageSection` returns, the loader with its
page table is the one before the call, so that a page which had no buffer has none
afterwards and reads as zero, and the returned next virtual address is
`VirtualAddress` plus the page-aligned virtual size aligned to `SectionAlignment`, in 32
bits, as for any other section. -/
theorem captureImageSection_NOACCESS (self : ImageLoader) (fileData : List Nat)
    (S : PELIB_SECTION_HEADER) (isImageHeader : Bool) :
    (getImageProtection S.Characteristics = PELIB_PAGE_NOACCESS ↔
      S.Characteristics &&& PELIB_IMAGE_SCN_MEM_EXECUTE = 0 ∧
      S.Characteristics &&& PELIB_IMAGE_SCN_MEM_READ = 0 ∧
      S.Characteristics &&& PELIB_IMAGE_SCN_MEM_WRITE = 0) ∧
    (getImageProtection S.Characteristics = PELIB_PAGE_NOACCESS →
      captureImageSection self fileData S.VirtualAddress S.VirtualSize S.PointerToRawData
          S.SizeOfRawData S.Characteristics isImageHeader =
        some (u32 (S.VirtualAddress +
          AlignToSize (mappedVirtualSize S) self.optionalHeader.SectionAlignment), self) ∧
      (∀ p page, self.pages[p]? = some page → page.buffer = [] →
        ∀ o, imageByte self (p * PELIB_PAGE_SIZE + o) = 0 ∨ PELIB_PAGE_SIZE ≤ o)) ∧
    (∀ r, captureImageSection self fileData S.VirtualAddress S.VirtualSize S.PointerToRawData
        S.SizeOfRawData S.Characteristics isImageHeader = some r →
      r.1 = u32 (S.VirtualAddress +
        AlignToSize (mappedVirtualSize S) self.optionalHeader.SectionAlignment)) := by
  refine ⟨getImageProtection_eq_NOACCESS _, ?_, ?_⟩
  · intro h
    refine ⟨?_, ?_⟩
    · unfold captureImageSection captureImageSection.run
      simp only []
      rw [if_neg (not_not.mpr h)]
      rfl
    · intro p page hp hb o
      by_cases ho : o < PELIB_PAGE_SIZE
      · left
        unfold imageByte
        have e1 : (p * PELIB_PAGE_SIZE + o) / PELIB_PAGE_SIZE = p := by
          unfold PELIB_PAGE_SIZE at ho ⊢
          omega
        rw [e1, List.get?_eq_getElem?, hp]
        show page.buffer.getD _ 0 = 0
        rw [hb]
        rfl
      · right
        omega
  · intro r h
    unfold captureImageSection at h
    split at h
    · exact absurd h (by simp)
    · rename_i va pages hrun
      simp only [Option.some.injEq] at h
      subst h
      exact captureImageSection_run_fst _ _ _ _ _ _ _ _ _ _ hrun
/-- C31, witness: the section `noAccessSection` has `MEM_SHARED` set and none of
`MEM_EXECUTE`, `MEM_READ`, `MEM_WRITE`; its mapping into `textImagePages` leaves the loader as
it is and returns `0x1000 + 0x1000 = 0x2000`. -/
theorem captureImageSection_NOACCESS_witness :
    captureImageSection textImagePages textPe64 noAccessSection.VirtualAddress
        noAccessSection.VirtualSize noAccessSection.PointerToRawData
        noAccessSection.SizeOfRawData noAccessSection.Characteristics false =
      some (u32 (noAccessSection.VirtualAddress +
        AlignToSize (mappedVirtualSize noAccessSection)
          textImagePages.optionalHeader.SectionAlignment), textImagePages) ∧
    u32 (noAccessSection.VirtualAddress +
      AlignToSize (mappedVirtualSize noAccessSection)
        textImagePages.optionalHeader.SectionAlignment) = 0x2000 ∧
    noAccessSection.Characteristics &&& PELIB_IMAGE_SCN_MEM_SHARED ≠ 0 :=
  ⟨((captureImageSection_NOACCESS textImagePages textPe64 noAccessSection false).2.1
      (by decide)).1, by decide, by decide⟩
/-- The cut of the number of data-directory entries by the file size. -/
theorem realNumberOfRvaAndSizesOf_spec (N dataDirectoryPtr fileEnd : Nat) :
    realNumberOfRvaAndSizesOf N dataDirectoryPtr fileEnd ≤ min N 16 ∧
    (dataDirectoryPtr < fileEnd →
      (∀ i, i < realNumberOfRvaAndSizesOf N dataDirectoryPtr fileEnd →
        dataDirectoryPtr + 8 * i < fileEnd) ∧
      (∀ i, i + 1 < realNumberOfRvaAndSizesOf N dataDirectoryPtr fileEnd →
        dataDirectoryPtr + 8 * (i + 1) ≤ fileEnd) ∧
      (dataDirectoryPtr + 8 * min N 16 ≤ fileEnd →
        realNumberOfRvaAndSizesOf N dataDirectoryPtr fileEnd = min N 16)) ∧
    (fileEnd ≤ dataDirectoryPtr →
      realNumberOfRvaAndSizesOf N dataDirectoryPtr fileEnd = min N 16) := by
  unfold realNumberOfRvaAndSizesOf PELIB_IMAGE_NUMBEROF_DIRECTORY_ENTRIES
    sizeof_PELIB_IMAGE_DATA_DIRECTORY u32
  simp only []
  have hn : (if N > 16 then 16 else N) = min N 16 := by
    split_ifs <;> omega
  rw [hn]
  by_cases h1 : dataDirectoryPtr < fileEnd
  · rw [if_pos h1]
    by_cases h2 : dataDirectoryPtr + min N 16 * 8 > fileEnd
    · rw [if_pos h2]
      have hlt : (fileEnd - dataDirectoryPtr + 8 - 1) / 8 < 2 ^ 32 := by omega
      rw [Nat.mod_eq_of_lt hlt]
      refine ⟨by omega, fun _ => ⟨fun i hi => by omega, fun i hi => by omega,
        fun h3 => by omega⟩, fun h3 => by omega⟩
    · rw [if_neg h2]
      refine ⟨Nat.le_refl _, fun _ => ⟨fun i hi => by omega, fun i hi => by omega,
        fun _ => rfl⟩, fun _ => rfl⟩
  · rw [if_neg h1]
    exact ⟨Nat.le_refl _, fun h => absurd h h1, fun _ => rfl⟩

/-- C33, as amended: for every file, truncated ones included, and both variants of the
optional header, after the capture of the optional header `realNumberOfRvaAndSizes` is
at most `min(NumberOfRvaAndSizes, 16)`.  When the data directory begins inside the file, it
is cut to the number of entries that begin inside the file: every 8-byte directory entry
with an index below `realNumberOfRvaAndSizes` begins inside the file and every one of them
but the last lies entirely inside it; it is `min(NumberOfRvaAndSizes, 16)` when all these
entries fit.  When the data directory begins at or behind the end of the file, it is not
cut: it is `min(NumberOfRvaAndSizes, 16)`.  (The 64-bit capture that finds another magic
leaves the loader alone but for the loader error.) -/
theorem captureOptionalHeader_realNumberOfRvaAndSizes (self : ImageLoader)
    (fileData : List Nat) (filePtr : Nat) (r : FileError × ImageLoader) :
    (captureOptionalHeader64 self fileData filePtr = some r →
      r = setLoaderError self LoaderError.LDR_ERROR_NO_OPTHDR_MAGIC ∨
      r.2.realNumberOfRvaAndSizes =
        realNumberOfRvaAndSizesOf r.2.optionalHeader.NumberOfRvaAndSizes (filePtr + 112)
          fileData.length) ∧
    (captureOptionalHeader32 self fileData filePtr = some r →
      r.2.realNumberOfRvaAndSizes =
        realNumberOfRvaAndSizesOf r.2.optionalHeader.NumberOfRvaAndSizes (filePtr + 96)
          fileData.length) ∧
    ∀ N dataDirectoryPtr,
      realNumberOfRvaAndSizesOf N dataDirectoryPtr fileData.length ≤ min N 16 ∧
      (dataDirectoryPtr < fileData.length →
        (∀ i, i < realNumberOfRvaAndSizesOf N dataDirectoryPtr fileData.length →
          dataDirectoryPtr + 8 * i < fileData.length) ∧
        (∀ i, i + 1 < realNumberOfRvaAndSizesOf N dataDirectoryPtr fileData.length →
          dataDirectoryPtr + 8 * (i + 1) ≤ fileData.length) ∧
        (dataDirectoryPtr + 8 * min N 16 ≤ fileData.length →
          realNumberOfRvaAndSizesOf N dataDirectoryPtr fileData.length = min N 16)) ∧
      (fileData.length ≤ dataDirectoryPtr →
        realNumberOfRvaAndSizesOf N dataDirectoryPtr fileData.length = min N 16) := by
  refine ⟨?_, ?_, fun N p => realNumberOfRvaAndSizesOf_spec N p fileData.length⟩
  · intro h
    unfold captureOptionalHeader64 at h
    simp only [] at h
    split_ifs at h with c1 c2 c3 c4
    · left
      simp only [Option.some.injEq] at h
      exact h.symm
    · right
      simp only [Option.some.injEq] at h
      rw [← h]
      rfl
    · left
      simp only [Option.some.injEq] at h
      exact h.symm
    · right
      simp only [Option.some.injEq] at h
      rw [← h]
      rfl
  · intro h
    unfold captureOptionalHeader32 at h
    simp only [] at h
    split_ifs at h with c1 c2
    · simp only [Option.some.injEq] at h
      rw [← h]
      rfl
    · simp only [Option.some.injEq] at h
      rw [← h]
      rfl

set_option maxRecDepth 100000 in
/-- C33, witness: the capture of the 64-bit optional header of the file `truncatedPe64 204`,
which ends 4 bytes behind the start of the data directory at `0xC8`, returns with
`NumberOfRvaAndSizes = 16` and `realNumberOfRvaAndSizes = 1`, the value of the cut, and
entry 0 begins inside the file. -/
theorem captureOptionalHeader_realNumberOfRvaAndSizes_witness :
    ∃ r, captureOptionalHeader64 (ImageLoader.new 0xA0) (truncatedPe64 204) 0x58 = some r ∧
      r.2.optionalHeader.NumberOfRvaAndSizes = 16 ∧
      r.2.realNumberOfRvaAndSizes =
        realNumberOfRvaAndSizesOf r.2.optionalHeader.NumberOfRvaAndSizes (0x58 + 112)
          (truncatedPe64 204).length ∧
      r.2.realNumberOfRvaAndSizes = 1 := by
  have h : captureOptionalHeader64 (ImageLoader.new 0xA0) (truncatedPe64 204) 0x58 =
      some ((captureOptionalHeader64 (ImageLoader.new 0xA0) (truncatedPe64 204) 0x58).getD
        (FileError.ERROR_NONE, ImageLoader.new 0xA0)) := by decide
  have hn : ((captureOptionalHeader64 (ImageLoader.new 0xA0) (truncatedPe64 204) 0x58).getD
      (FileError.ERROR_NONE, ImageLoader.new 0xA0)).2.optionalHeader.NumberOfRvaAndSizes =
      16 := by decide
  have hr : ((captureOptionalHeader64 (ImageLoader.new 0xA0) (truncatedPe64 204) 0x58).getD
      (FileError.ERROR_NONE, ImageLoader.new 0xA0)).2.realNumberOfRvaAndSizes = 1 := by decide
  rcases (captureOptionalHeader_realNumberOfRvaAndSizes (ImageLoader.new 0xA0)
    (truncatedPe64 204) 0x58 _).1 h with h1 | h1
  · rw [h1] at hn
    exact absurd hn (by decide)
  · exact ⟨_, h, hn, h1, hr⟩

set_option maxRecDepth 100000 in
/-- C33, counterexample: the file `truncatedPe64 204` ends 4 bytes behind the start of its
data directory at `0xC8`; the capture gives `realNumberOfRvaAndSizes = 1`, yet entry 0,
the bytes `[0xC8, 0xD0)`, does not lie inside the file of `0xCC` bytes.  The file
`truncatedPe64 200` ends where the data directory begins; the capture gives
`realNumberOfRvaAndSizes = 16`, and no byte of any entry lies inside the file. -/
theorem realNumberOfRvaAndSizes_beyond_file :
    (truncatedPe64 204).length = 204 ∧
    (captureOptionalHeader64 (ImageLoader.new 0xA0) (truncatedPe64 204) 0x58).map
        (fun r => (r.1, r.2.optionalHeader.NumberOfRvaAndSizes, r.2.realNumberOfRvaAndSizes)) =
      some (FileError.ERROR_NONE, 16, 1) ∧
    0xC8 + 8 * 0 + 8 > 204 ∧
    (truncatedPe64 200).length = 200 ∧
    (captureOptionalHeader64 (ImageLoader.new 0xA0) (truncatedPe64 200) 0x58).map
        (fun r => (r.1, r.2.optionalHeader.NumberOfRvaAndSizes, r.2.realNumberOfRvaAndSizes)) =
      some (FileError.ERROR_NONE, 16, 16) := by
  refine ⟨by decide, by decide, by decide, by decide, by decide⟩
/-- The entry loop does not depend on the number of passes it is allowed, once that number
covers the entries that are left: every pass moves to a later entry. -/
theorem entries_fuel (buffer : List Nat)
    (bufferEnd typeAndOffset blockVirtualAddress difference numRelocations : Nat) :
    ∀ (passes k i : Nat) (self : ImageLoader), numRelocations ≤ passes + i →
      processImageRelocations.entries buffer bufferEnd typeAndOffset blockVirtualAddress
          difference numRelocations (passes + k) i self =
        processImageRelocations.entries buffer bufferEnd typeAndOffset blockVirtualAddress
          difference numRelocations passes i self := by
  intro passes
  induction passes with
  | zero =>
    intro k i self hfuel
    cases k with
    | zero => rfl
    | succ k =>
      rw [Nat.zero_add]
      unfold processImageRelocations.entries
      rw [if_neg (by omega), if_neg (by omega)]
  | succ n ih =>
    intro k i self hfuel
    have e1 : ∀ s, processImageRelocations.entries buffer bufferEnd typeAndOffset
        blockVirtualAddress difference numRelocations (n + k) (i + 1) s =
        processImageRelocations.entries buffer bufferEnd typeAndOffset
          blockVirtualAddress difference numRelocations n (i + 1) s :=
      fun s => ih k (i + 1) s (by omega)
    have e2 : ∀ s, processImageRelocations.entries buffer bufferEnd typeAndOffset
        blockVirtualAddress difference numRelocations (n + k) (i + 2) s =
        processImageRelocations.entries buffer bufferEnd typeAndOffset
          blockVirtualAddress difference numRelocations n (i + 2) s :=
      fun s => ih k (i + 2) s (by omega)
    rw [show n + 1 + k = n + k + 1 by omega]
    simp only [processImageRelocations.entries, e1, e2]

/-- One pass of the block loop: it ends the loop, or it goes on at a block pointer that is
8 bytes or more behind the one it began with. -/
theorem loop_advances (buffer : List Nat) (bufferEnd difference passes bufferPtr : Nat)
    (self : ImageLoader) :
    processImageRelocations.loop buffer bufferEnd difference (passes + 1) bufferPtr self =
        some (true, self) ∨
    (∃ s, processImageRelocations.loop buffer bufferEnd difference (passes + 1) bufferPtr
        self = some (false, s)) ∨
    processImageRelocations.loop buffer bufferEnd difference (passes + 1) bufferPtr self =
        none ∨
    ∃ bufferPtr' self', bufferPtr + sizeof_PELIB_IMAGE_BASE_RELOCATION ≤ bufferPtr' ∧
      processImageRelocations.loop buffer bufferEnd difference (passes + 1) bufferPtr self =
        processImageRelocations.loop buffer bufferEnd difference passes bufferPtr' self' := by
  rw [processImageRelocations.loop]
  by_cases c0 : bufferPtr + sizeof_PELIB_IMAGE_BASE_RELOCATION ≤ bufferEnd
  · rw [if_pos c0]
    simp only []
    by_cases c1 : isValidImageBlock self (readLE buffer bufferPtr 4)
        (readLE buffer (bufferPtr + 4) 4) = false
    · rw [if_pos c1]
      exact Or.inl rfl
    rw [if_neg c1]
    by_cases c2 : readLE buffer (bufferPtr + 4) 4 ≤ sizeof_PELIB_IMAGE_BASE_RELOCATION
    · rw [if_pos c2]
      exact Or.inr (Or.inr (Or.inr ⟨_, self, Nat.le_refl _, rfl⟩))
    rw [if_neg c2]
    by_cases c3 : isZeroPage self (readLE buffer bufferPtr 4) = true
    · rw [if_pos c3]
      exact Or.inr (Or.inr (Or.inr ⟨_, self, by omega, rfl⟩))
    rw [if_neg c3]
    generalize hS : (if bufferPtr + readLE buffer (bufferPtr + 4) 4 > bufferEnd
      then bufferEnd - bufferPtr else readLE buffer (bufferPtr + 4) 4) = SizeOfBlock
    have hSle : sizeof_PELIB_IMAGE_BASE_RELOCATION ≤ SizeOfBlock := by
      rw [← hS]
      split_ifs <;> omega
    generalize processImageRelocations.entries buffer bufferEnd
      (bufferPtr + sizeof_PELIB_IMAGE_BASE_RELOCATION) (readLE buffer bufferPtr 4) difference
      ((SizeOfBlock - sizeof_PELIB_IMAGE_BASE_RELOCATION) / 2)
      ((SizeOfBlock - sizeof_PELIB_IMAGE_BASE_RELOCATION) / 2) 0 self = q
    match q with
    | none => exact Or.inr (Or.inr (Or.inl rfl))
    | some (false, s) => exact Or.inr (Or.inl ⟨s, rfl⟩)
    | some (true, s) => exact Or.inr (Or.inr (Or.inr ⟨_, s, by omega, rfl⟩))
  · rw [if_neg c0]
    exact Or.inl rfl

/-- The block loop does not depend on the number of passes it is allowed, once that number
covers the bytes between the block pointer and the end of the buffer. -/
theorem loop_fuel (buffer : List Nat) (bufferEnd difference : Nat) :
    ∀ (passes k bufferPtr : Nat) (self : ImageLoader), bufferEnd ≤ passes + bufferPtr →
      processImageRelocations.loop buffer bufferEnd difference (passes + k) bufferPtr self =
        processImageRelocations.loop buffer bufferEnd difference passes bufferPtr self := by
  intro passes
  induction passes with
  | zero =>
    intro k bufferPtr self hfuel
    cases k with
    | zero => rfl
    | succ k =>
      rw [Nat.zero_add]
      unfold processImageRelocations.loop
      rw [if_neg (by unfold sizeof_PELIB_IMAGE_BASE_RELOCATION; omega),
        if_neg (by unfold sizeof_PELIB_IMAGE_BASE_RELOCATION; omega)]
  | succ n ih =>
    intro k bufferPtr self hfuel
    rw [show n + 1 + k = n + k + 1 by omega, processImageRelocations.loop,
      processImageRelocations.loop]
    by_cases c0 : bufferPtr + sizeof_PELIB_IMAGE_BASE_RELOCATION ≤ bufferEnd
    · simp only [if_pos c0]
      by_cases c1 : isValidImageBlock self (readLE buffer bufferPtr 4)
          (readLE buffer (bufferPtr + 4) 4) = false
      · simp only [if_pos c1]
      simp only [if_neg c1]
      by_cases c2 : readLE buffer (bufferPtr + 4) 4 ≤ sizeof_PELIB_IMAGE_BASE_RELOCATION
      · simp only [if_pos c2]
        exact ih k _ self (by unfold sizeof_PELIB_IMAGE_BASE_RELOCATION; omega)
      simp only [if_neg c2]
      by_cases c3 : isZeroPage self (readLE buffer bufferPtr 4) = true
      · simp only [if_pos c3]
        exact ih k _ self (by omega)
      simp only [if_neg c3]
      generalize hS : (if bufferPtr + readLE buffer (bufferPtr + 4) 4 > bufferEnd
        then bufferEnd - bufferPtr else readLE buffer (bufferPtr + 4) 4) = SizeOfBlock
      have hSle : 0 < SizeOfBlock := by
        rw [← hS]
        unfold sizeof_PELIB_IMAGE_BASE_RELOCATION at c0 c2
        split_ifs <;> omega
      generalize processImageRelocations.entries buffer bufferEnd
        (bufferPtr + sizeof_PELIB_IMAGE_BASE_RELOCATION) (readLE buffer bufferPtr 4) difference
        ((SizeOfBlock - sizeof_PELIB_IMAGE_BASE_RELOCATION) / 2)
        ((SizeOfBlock - sizeof_PELIB_IMAGE_BASE_RELOCATION) / 2) 0 self = q
      match q with
      | none => rfl
      | some (false, s) => rfl
      | some (true, s) => exact ih k _ s (by omega)
    · simp only [if_neg c0]
/-- C37: `processImageRelocations` terminates.  One pass of the block loop either ends the
loop (the blocks are used up, the block is invalid, an entry has an unknown type, or a read
leaves the buffer or the page table) or goes on at a block pointer that is at least the 8
bytes of a block header further, whatever `SizeOfBlock` is: 0, less than the header, or more
than what is left of the buffer.  So the loops do not depend on the number of passes they are
allowed once that number covers what is left: the entry loop, whose passes each move to a
later entry, and the block loop; the number of passes that the model of
`processImageRelocations` allows, one per byte that was read, is enough.  For a mapped image
in which the addend of every `HIGHADJ` entry lies in the relocation data, the function
returns a result. -/
theorem processImageRelocations_terminates (self : ImageLoader)
    (oldImageBase newImageBase VirtualAddress Size : Nat) :
    (∀ (buffer : List Nat) (bufferEnd difference passes bufferPtr : Nat) (s : ImageLoader),
      processImageRelocations.loop buffer bufferEnd difference (passes + 1) bufferPtr s =
          some (true, s) ∨
      (∃ t, processImageRelocations.loop buffer bufferEnd difference (passes + 1) bufferPtr
          s = some (false, t)) ∨
      processImageRelocations.loop buffer bufferEnd difference (passes + 1) bufferPtr s =
          none ∨
      ∃ bufferPtr' s', bufferPtr + sizeof_PELIB_IMAGE_BASE_RELOCATION ≤ bufferPtr' ∧
        processImageRelocations.loop buffer bufferEnd difference (passes + 1) bufferPtr s =
          processImageRelocations.loop buffer bufferEnd difference passes bufferPtr' s') ∧
    (∀ (buffer : List Nat) (bufferEnd difference passes k bufferPtr : Nat) (s : ImageLoader),
      bufferEnd ≤ passes + bufferPtr →
      processImageRelocations.loop buffer bufferEnd difference (passes + k) bufferPtr s =
        processImageRelocations.loop buffer bufferEnd difference passes bufferPtr s) ∧
    (∀ (buffer : List Nat) (bufferEnd typeAndOffset blockVirtualAddress difference
        numRelocations passes k i : Nat) (s : ImageLoader), numRelocations ≤ passes + i →
      processImageRelocations.entries buffer bufferEnd typeAndOffset blockVirtualAddress
          difference numRelocations (passes + k) i s =
        processImageRelocations.entries buffer bufferEnd typeAndOffset blockVirtualAddress
          difference numRelocations passes i s) ∧
    (∀ r k, ¬ (Size < sizeof_PELIB_IMAGE_BASE_RELOCATION ∨ Size > PELIB_SIZE_10MB) →
      readImage self (List.replicate Size 0) VirtualAddress Size = some r →
      processImageRelocations self oldImageBase newImageBase VirtualAddress Size =
        processImageRelocations.loop r.buffer r.count
          (u64 (newImageBase + (2 ^ 64 - u64 oldImageBase))) (r.count + k) 0 r.loader) ∧
    (mappedImage self → addendsInside self VirtualAddress Size →
      ∃ r, processImageRelocations self oldImageBase newImageBase VirtualAddress Size =
        some r) := by
  refine ⟨fun buffer bufferEnd difference passes bufferPtr s =>
      loop_advances buffer bufferEnd difference passes bufferPtr s,
    fun buffer bufferEnd difference passes k bufferPtr s h =>
      loop_fuel buffer bufferEnd difference passes k bufferPtr s h,
    fun buffer bufferEnd typeAndOffset blockVirtualAddress difference numRelocations passes k
        i s h =>
      entries_fuel buffer bufferEnd typeAndOffset blockVirtualAddress difference
        numRelocations passes k i s h, ?_, ?_⟩
  · intro r k hsize hr
    unfold processImageRelocations
    simp only []
    rw [if_neg hsize, hr]
    exact (loop_fuel _ _ _ r.count k 0 r.loader (Nat.le_refl _)).symm
  · intro hm hadj
    exact processImageRelocations_isSome self oldImageBase newImageBase VirtualAddress Size
      hm hadj

set_option maxRecDepth 100000 in
set_option maxHeartbeats 4000000 in
/-- C37, witness: the relocation data of the mapped image `highlowImage`, 10 bytes at rva
`0x1000`, hold no `HIGHADJ` entry, and `processImageRelocations` returns a result. -/
theorem processImageRelocations_terminates_witness :
    ∃ r, processImageRelocations highlowImage 0x140000000 0x140010000 0x1000 10 = some r := by
  refine (processImageRelocations_terminates highlowImage 0x140000000 0x140010000 0x1000
    10).2.2.2.2 mappedImage_highlowImage ?_
  intro p k h1 h2
  have htc : transferCount highlowImage 0x1000 10 = 10 := by decide!
  have hty : ¬ (readLE (relocationData highlowImage 0x1000 10) 8 2 >>> 12 =
      PELIB_IMAGE_REL_BASED_HIGHADJ) := by decide!
  rw [htc] at h1
  unfold sizeof_PELIB_IMAGE_BASE_RELOCATION at h1 h2
  have hp : p = 0 := by omega
  have hk : k = 0 := by omega
  subst hp
  subst hk
  exact absurd h2 hty
theorem AlignToSize_lt (x a : Nat) : AlignToSize x a < 2 ^ 32 := by
  unfold AlignToSize
  exact Nat.lt_of_le_of_lt Nat.and_le_left (Nat.mod_lt _ (by norm_num))

/-- `AlignToSize` keeps a 32-bit multiple of the page size. -/
theorem AlignToSize_page_fixed (x : Nat) (hd : 4096 ∣ x) (hx : x < 2 ^ 32) :
    AlignToSize x PELIB_PAGE_SIZE = x := by
  have e : AlignToSize x PELIB_PAGE_SIZE = alignUp x (2 ^ 12) :=
    AlignToSize_pow2 x 12 (by omega) (by norm_num)
  rw [e]
  unfold alignUp
  norm_num
  omega

/-- `AlignToSize` keeps a 32-bit multiple of the sector size. -/
theorem AlignToSize_sector_fixed (x : Nat) (hd : 512 ∣ x) (hx : x < 2 ^ 32) :
    AlignToSize x PELIB_SECTOR_SIZE = x := by
  have e : AlignToSize x PELIB_SECTOR_SIZE = alignUp x (2 ^ 9) :=
    AlignToSize_pow2 x 9 (by omega) (by norm_num)
  rw [e]
  unfold alignUp
  norm_num
  omega

/-- Writing into the header fields of `makeValid` the values they already hold leaves the
loader as it is. -/
theorem headers_update_eq (t : ImageLoader) (sig m n so ch mg nr sa fa sh : Nat)
    (e1 : sig = t.ntSignature) (e2 : m = t.fileHeader.Machine)
    (e3 : n = t.fileHeader.NumberOfSections) (e4 : so = t.fileHeader.SizeOfOptionalHeader)
    (e5 : ch = t.fileHeader.Characteristics) (e6 : mg = t.optionalHeader.Magic)
    (e7 : nr = t.optionalHeader.NumberOfRvaAndSizes)
    (e8 : sa = t.optionalHeader.SectionAlignment) (e9 : fa = t.optionalHeader.FileAlignment)
    (e10 : sh = t.optionalHeader.SizeOfHeaders) :
    ({ t with
      ntSignature := sig,
      fileHeader := { t.fileHeader with
        Machine := m, NumberOfSections := n, SizeOfOptionalHeader := so, Characteristics := ch },
      optionalHeader := { t.optionalHeader with
        Magic := mg, NumberOfRvaAndSizes := nr, SectionAlignment := sa, FileAlignment := fa,
        SizeOfHeaders := sh } } : ImageLoader) = t := by
  subst e1 e2 e3 e4 e5 e6 e7 e8 e9 e10
  rfl

/-- Writing into `SizeOfImage` the value it already holds leaves the loader as it is. -/
theorem withSizeOfImage_eq (t : ImageLoader) (v : Nat) (e : v = t.optionalHeader.SizeOfImage) :
    ({ t with optionalHeader := { t.optionalHeader with SizeOfImage := v } } : ImageLoader) =
      t := by
  subst e
  rfl

/-- The header part of `makeValid` changes nothing in a loader whose header fields already
hold the values that it computes. -/
theorem makeValid_headers_fixed (t : ImageLoader)
    (e1 : t.ntSignature = PELIB_IMAGE_NT_SIGNATURE)
    (e2 : t.fileHeader.Machine =
      if t.optionalHeader.Magic = PELIB_IMAGE_NT_OPTIONAL_HDR64_MAGIC then
        PELIB_IMAGE_FILE_MACHINE_AMD64 else PELIB_IMAGE_FILE_MACHINE_I386)
    (e3 : t.fileHeader.NumberOfSections = u16 t.sections.length)
    (e4 : t.fileHeader.SizeOfOptionalHeader =
      if t.optionalHeader.Magic = PELIB_IMAGE_NT_OPTIONAL_HDR64_MAGIC then
        sizeof_PELIB_IMAGE_OPTIONAL_HEADER64 else sizeof_PELIB_IMAGE_OPTIONAL_HEADER32)
    (e5 : t.fileHeader.Characteristics ≠ 0)
    (e6 : t.optionalHeader.Magic = PELIB_IMAGE_NT_OPTIONAL_HDR64_MAGIC ∨
      t.optionalHeader.Magic = PELIB_IMAGE_NT_OPTIONAL_HDR32_MAGIC)
    (e7 : t.optionalHeader.NumberOfRvaAndSizes = 16)
    (e8 : 4096 ∣ t.optionalHeader.SectionAlignment ∧ t.optionalHeader.SectionAlignment ≠ 0 ∧
      t.optionalHeader.SectionAlignment < 2 ^ 32)
    (e9 : 512 ∣ t.optionalHeader.FileAlignment ∧ t.optionalHeader.FileAlignment ≠ 0 ∧
      t.optionalHeader.FileAlignment < 2 ^ 32)
    (e10 : t.optionalHeader.SizeOfHeaders =
      AlignToSize (t.dosHeader.e_lfanew + 4 + sizeof_PELIB_IMAGE_FILE_HEADER +
        t.fileHeader.SizeOfOptionalHeader +
        t.fileHeader.NumberOfSections * sizeof_PELIB_IMAGE_SECTION_HEADER)
        t.optionalHeader.FileAlignment) :
    makeValid.headers t = t := by
  have hsa : (if AlignToSize t.optionalHeader.SectionAlignment PELIB_PAGE_SIZE ≠ 0 then
      AlignToSize t.optionalHeader.SectionAlignment PELIB_PAGE_SIZE else PELIB_PAGE_SIZE) =
      t.optionalHeader.SectionAlignment := by
    rw [AlignToSize_page_fixed _ e8.1 e8.2.2, if_pos e8.2.1]
  have hfa : (if AlignToSize t.optionalHeader.FileAlignment PELIB_SECTOR_SIZE ≠ 0 then
      AlignToSize t.optionalHeader.FileAlignment PELIB_SECTOR_SIZE else PELIB_SECTOR_SIZE) =
      t.optionalHeader.FileAlignment := by
    rw [AlignToSize_sector_fixed _ e9.1 e9.2.2, if_pos e9.2.1]
  have hso : u16 (getFieldOffset_OPTHDR_sizeof t) = t.fileHeader.SizeOfOptionalHeader := by
    rw [e4]
    unfold getFieldOffset_OPTHDR_sizeof getImageBitability
    by_cases h : t.optionalHeader.Magic = PELIB_IMAGE_NT_OPTIONAL_HDR64_MAGIC
    · rw [if_pos h, if_pos rfl, if_pos h]
      rfl
    · rw [if_neg h, if_neg (by decide), if_neg h]
      rfl
  have hbit : ∀ a b : Nat, (if getImageBitability t = 64 then a else b) =
      if t.optionalHeader.Magic = PELIB_IMAGE_NT_OPTIONAL_HDR64_MAGIC then a else b := by
    intro a b
    unfold getImageBitability
    by_cases h : t.optionalHeader.Magic = PELIB_IMAGE_NT_OPTIONAL_HDR64_MAGIC
    · rw [if_pos h, if_pos rfl, if_pos h]
    · rw [if_neg h, if_neg (by decide), if_neg h]
  refine headers_update_eq t _ _ _ _ _ _ _ _ _ _ e1.symm ?_ e3.symm hso ?_ ?_ e7.symm hsa hfa ?_
  · rw [hbit, e2]
  · rw [if_pos e5]
  · rw [hbit]
    rcases e6 with h | h
    · rw [if_pos h, h]
    · rw [if_neg (by rw [h]; decide), h]
  · rw [hfa, hso, ← e3, AlignToSize_u32, ← e10]
/-- `makeValid` keeps the DOS header. -/
theorem makeValid_dosHeader (self s1 : ImageLoader) (h : makeValid self = some s1) :
    s1.dosHeader = self.dosHeader := by
  obtain ⟨fsec, _, fnum, _⟩ := makeValid_headers_fields self
  have hu16 : u16 self.sections.length ≤ self.sections.length := Nat.mod_le _ _
  unfold makeValid at h
  simp only [] at h
  rw [getSectionHeader_eq] at h
  cases hf : (makeValid.headers self).sections[0]? with
  | none => rw [hf] at h; exact absurd h (by simp)
  | some first =>
    rw [hf] at h
    simp only [] at h
    obtain ⟨_, l2, _, _⟩ := makeValid_loop_spec
      (sub32 (makeValid.headers self).optionalHeader.SizeOfHeaders first.PointerToRawData)
      (makeValid.headers self).fileHeader.NumberOfSections 0
      (AlignToSize (makeValid.headers self).optionalHeader.SizeOfHeaders
        (makeValid.headers self).optionalHeader.SectionAlignment)
      (makeValid.headers self) (by rw [fnum, fsec]; exact hu16) (by omega)
    generalize makeValid.loop
      (sub32 (makeValid.headers self).optionalHeader.SizeOfHeaders first.PointerToRawData)
      (makeValid.headers self).fileHeader.NumberOfSections 0
      (AlignToSize (makeValid.headers self).optionalHeader.SizeOfHeaders
        (makeValid.headers self).optionalHeader.SectionAlignment)
      (makeValid.headers self) = r at h l2
    have hd : r.2.dosHeader = self.dosHeader := by rw [l2]; rfl
    rw [← Option.some.inj h]
    exact hd

theorem foldl_VirtualSize (l1 l2 : List PELIB_SECTION_HEADER)
    (h : l1.map PELIB_SECTION_HEADER.VirtualSize = l2.map PELIB_SECTION_HEADER.VirtualSize)
    (n SA acc : Nat) :
    (l1.take n).foldl (fun a s => u32 (a + AlignToSize s.VirtualSize SA)) acc =
      (l2.take n).foldl (fun a s => u32 (a + AlignToSize s.VirtualSize SA)) acc := by
  have key : ∀ l : List PELIB_SECTION_HEADER,
      l.foldl (fun a s => u32 (a + AlignToSize s.VirtualSize SA)) acc =
        (l.map PELIB_SECTION_HEADER.VirtualSize).foldl
          (fun a v => u32 (a + AlignToSize v SA)) acc := by
    intro l
    rw [List.foldl_map]
  rw [key, key, List.map_take, List.map_take, h]

/-- A loader that `makeValid` produced is a fixed point of `makeValid`. -/
theorem makeValid_fixed (self s1 : ImageLoader) (h : makeValid self = some s1) :
    makeValid s1 = some s1 := by
  have hfirst : ∃ first, self.sections[0]? = some first := by
    cases hf : self.sections[0]? with
    | some first => exact ⟨first, rfl⟩
    | none =>
      unfold makeValid at h
      simp only [] at h
      rw [getSectionHeader_eq, (makeValid_headers_fields self).1, hf] at h
      exact absurd h (by simp)
  obtain ⟨first, hfirst⟩ := hfirst
  obtain ⟨s, hs, m1, m2, m3, m4, m5, m6, m7, m8, m9, m10⟩ := makeValid_eq self first hfirst
  rw [h] at hs
  obtain rfl := Option.some.inj hs
  have hdos := makeValid_dosHeader self s1 h
  obtain ⟨fsec, fsig, fnum, fmach, fso, fmagic, fnr, fsa, ffa, fsh⟩ :=
    makeValid_headers_fields self
  have fch : (makeValid.headers self).fileHeader.Characteristics =
      if self.fileHeader.Characteristics ≠ 0 then self.fileHeader.Characteristics
      else PELIB_IMAGE_FILE_EXECUTABLE_IMAGE ||| PELIB_IMAGE_FILE_32BIT_MACHINE := rfl
  -- the header fields of `s1`
  have c6 : s1.optionalHeader.Magic = PELIB_IMAGE_NT_OPTIONAL_HDR64_MAGIC ∨
      s1.optionalHeader.Magic = PELIB_IMAGE_NT_OPTIONAL_HDR32_MAGIC := by
    rw [m3, fmagic]
    by_cases hm : self.optionalHeader.Magic = PELIB_IMAGE_NT_OPTIONAL_HDR64_MAGIC
    · rw [if_pos hm]; exact Or.inl rfl
    · rw [if_neg hm]; exact Or.inr rfl
  have cmag : (s1.optionalHeader.Magic = PELIB_IMAGE_NT_OPTIONAL_HDR64_MAGIC) ↔
      (self.optionalHeader.Magic = PELIB_IMAGE_NT_OPTIONAL_HDR64_MAGIC) := by
    rw [m3, fmagic]
    by_cases hm : self.optionalHeader.Magic = PELIB_IMAGE_NT_OPTIONAL_HDR64_MAGIC
    · rw [if_pos hm]; exact ⟨fun _ => hm, fun _ => rfl⟩
    · rw [if_neg hm]; exact ⟨fun hc => absurd hc (by decide), fun hc => absurd hc hm⟩
  have c2 : s1.fileHeader.Machine =
      if s1.optionalHeader.Magic = PELIB_IMAGE_NT_OPTIONAL_HDR64_MAGIC then
        PELIB_IMAGE_FILE_MACHINE_AMD64 else PELIB_IMAGE_FILE_MACHINE_I386 := by
    rw [m2, fmach]
    by_cases hm : self.optionalHeader.Magic = PELIB_IMAGE_NT_OPTIONAL_HDR64_MAGIC
    · rw [if_pos hm, if_pos (cmag.2 hm)]
    · rw [if_neg hm, if_neg (fun hc => hm (cmag.1 hc))]
  have c3 : s1.fileHeader.NumberOfSections = u16 s1.sections.length := by
    rw [m2, fnum, m9]
  have c4 : s1.fileHeader.SizeOfOptionalHeader =
      if s1.optionalHeader.Magic = PELIB_IMAGE_NT_OPTIONAL_HDR64_MAGIC then
        sizeof_PELIB_IMAGE_OPTIONAL_HEADER64 else sizeof_PELIB_IMAGE_OPTIONAL_HEADER32 := by
    rw [m2, fso]
    by_cases hm : self.optionalHeader.Magic = PELIB_IMAGE_NT_OPTIONAL_HDR64_MAGIC
    · rw [if_pos hm, if_pos (cmag.2 hm)]
    · rw [if_neg hm, if_neg (fun hc => hm (cmag.1 hc))]
  have c5 : s1.fileHeader.Characteristics ≠ 0 := by
    rw [m2, fch]
    by_cases hc : self.fileHeader.Characteristics ≠ 0
    · rw [if_pos hc]; exact hc
    · rw [if_neg hc]; decide
  have c8 : 4096 ∣ s1.optionalHeader.SectionAlignment ∧
      s1.optionalHeader.SectionAlignment ≠ 0 ∧ s1.optionalHeader.SectionAlignment < 2 ^ 32 := by
    rw [m5, fsa]
    by_cases hc : AlignToSize self.optionalHeader.SectionAlignment PELIB_PAGE_SIZE ≠ 0
    · rw [if_pos hc]
      exact ⟨(AlignToSize_page _).1, hc, AlignToSize_lt _ _⟩
    · rw [if_neg hc]
      exact ⟨by decide, by decide, by decide⟩
  have c9 : 512 ∣ s1.optionalHeader.FileAlignment ∧
      s1.optionalHeader.FileAlignment ≠ 0 ∧ s1.optionalHeader.FileAlignment < 2 ^ 32 := by
    rw [m6, ffa]
    by_cases hc : AlignToSize self.optionalHeader.FileAlignment PELIB_SECTOR_SIZE ≠ 0
    · rw [if_pos hc]
      exact ⟨AlignToSize_dvd _ 9 (by norm_num), hc, AlignToSize_lt _ _⟩
    · rw [if_neg hc]
      exact ⟨by decide, by decide, by decide⟩
  have c10 : s1.optionalHeader.SizeOfHeaders =
      AlignToSize (s1.dosHeader.e_lfanew + 4 + sizeof_PELIB_IMAGE_FILE_HEADER +
        s1.fileHeader.SizeOfOptionalHeader +
        s1.fileHeader.NumberOfSections * sizeof_PELIB_IMAGE_SECTION_HEADER)
        s1.optionalHeader.FileAlignment := by
    rw [m7, fsh, hdos, m2, m6]
  have hfix : makeValid.headers s1 = s1 :=
    makeValid_headers_fixed s1 (m1.trans fsig) c2 c3 c4 c5 c6 (m4.trans fnr) c8 c9 c10
  -- the first section of `s1` and the second offset difference
  have hsoh_even : s1.optionalHeader.SizeOfHeaders % 2 = 0 := by
    rw [c10]
    exact AlignToSize_even _ _ (Dvd.dvd.trans (by decide) c9.1) c9.2.1 c9.2.2
  have hsoh_lt : s1.optionalHeader.SizeOfHeaders < 2 ^ 32 := by
    rw [c10]
    exact AlignToSize_lt _ _
  have hsub0 : ∀ x, x < 2 ^ 32 → sub32 x x = 0 := by
    intro x hx
    unfold sub32
    rw [Nat.mod_eq_of_lt hx]
    omega
  have hfirst1 : ∃ first1, s1.sections[0]? = some first1 ∧
      (sub32 s1.optionalHeader.SizeOfHeaders first1.PointerToRawData = 0 ∨
        s1.fileHeader.NumberOfSections = 0) := by
    have h0 := m10 0
    rw [hfirst, ← m7] at h0
    by_cases hc : 0 < u16 self.sections.length ∧
        sub32 s1.optionalHeader.SizeOfHeaders first.PointerToRawData ≠ 0
    · rw [if_pos hc, Option.map_some'] at h0
      refine ⟨_, h0, Or.inl ?_⟩
      have hp := (setRawDataRange_fields first
        (u32 (first.PointerToRawData +
          sub32 s1.optionalHeader.SizeOfHeaders first.PointerToRawData)) UINT32_MAX).1
      rw [sub32_add_cancel] at hp
      have hu : u32 s1.optionalHeader.SizeOfHeaders = s1.optionalHeader.SizeOfHeaders :=
        Nat.mod_eq_of_lt hsoh_lt
      rw [hu, if_pos (by unfold UINT32_MAX; omega)] at hp
      rw [sub32_add_cancel, hu, hp]
      exact hsub0 _ hsoh_lt
    · rw [if_neg hc] at h0
      refine ⟨first, h0, ?_⟩
      by_cases hd : sub32 s1.optionalHeader.SizeOfHeaders first.PointerToRawData = 0
      · exact Or.inl hd
      · refine Or.inr ?_
        rw [m2, fnum]
        by_contra hne
        exact hc ⟨Nat.pos_of_ne_zero hne, hd⟩
  obtain ⟨first1, hfirst1, hdiff⟩ := hfirst1
  -- the virtual sizes
  have hvs : s1.sections.map PELIB_SECTION_HEADER.VirtualSize =
      self.sections.map PELIB_SECTION_HEADER.VirtualSize := by
    apply List.ext_getElem?
    intro j
    rw [List.getElem?_map, List.getElem?_map, m10 j]
    split_ifs
    · rw [Option.map_map]
      cases self.sections[j]? with
      | none => rfl
      | some T => exact congrArg some (setRawDataRange_fields T _ _).2.2.2.1
    · rfl
  -- the second call
  obtain ⟨l1, l2, l3, l4⟩ := makeValid_loop_spec
    (sub32 s1.optionalHeader.SizeOfHeaders first1.PointerToRawData)
    s1.fileHeader.NumberOfSections 0
    (AlignToSize s1.optionalHeader.SizeOfHeaders s1.optionalHeader.SectionAlignment)
    s1 (by rw [c3]; exact Nat.mod_le _ _) (by omega)
  unfold makeValid
  simp only []
  rw [hfix, getSectionHeader_eq, hfirst1]
  simp only []
  generalize makeValid.loop
    (sub32 s1.optionalHeader.SizeOfHeaders first1.PointerToRawData)
    s1.fileHeader.NumberOfSections 0
    (AlignToSize s1.optionalHeader.SizeOfHeaders s1.optionalHeader.SectionAlignment)
    s1 = r at l1 l2 l3 l4
  have hsec : r.2.sections = s1.sections := by
    apply List.ext_getElem?
    intro j
    rw [l4 j, if_neg]
    rintro ⟨_, hj, hd⟩
    rcases hdiff with h0 | h0
    · exact hd h0
    · omega
  have hr2 : r.2 = s1 := by
    rw [l2, hsec]
  rw [hr2, l1]
  refine congrArg some (withSizeOfImage_eq s1 _ ?_)
  rw [m8, c3, m9, ← m5, ← m7, List.drop_zero]
  exact congrArg (fun x => AlignToSize x s1.optionalHeader.SectionAlignment)
    (foldl_VirtualSize _ _ hvs _ _ _)
/-- C40: `makeValid` is idempotent.  For every loader state with at least one section the
first call of `makeValid` returns a loader `s1`, and a second call on `s1` returns `s1`
itself: the same NT signature, file header, optional header and section table (and the same
rest of the state) as after one call. -/
theorem makeValid_idempotent (self : ImageLoader) (first : PELIB_SECTION_HEADER)
    (hfirst : self.sections[0]? = some first) :
    ∃ s1, makeValid self = some s1 ∧ makeValid s1 = some s1 ∧
      (makeValid self).bind makeValid = makeValid self := by
  obtain ⟨s1, hs1, _⟩ := makeValid_eq self first hfirst
  have h2 := makeValid_fixed self s1 hs1
  refine ⟨s1, hs1, h2, ?_⟩
  rw [hs1]
  exact h2

theorem makeValid_idempotent_witness :
    editImage.sections[0]? = some (rangeSection 0x1000 0x3000 0x400 0x2000) ∧
    ∃ s1, makeValid editImage = some s1 ∧ makeValid s1 = some s1 ∧
      (makeValid editImage).bind makeValid = makeValid editImage :=
  ⟨rfl, makeValid_idempotent editImage _ rfl⟩

/-- A read in page mode whose clipped range the page table covers: it returns the transfer
count, leaves the loader alone and puts the bytes of the image into the buffer. -/
theorem readImage_covered (self : ImageLoader) (buffer : List Nat) (rva n : Nat)
    (hraw : self.rawFileData = []) (hwf : wellFormedPages self.pages)
    (hcover : min (u32 (rva + n)) (getSizeOfImageAligned self) ≤
      self.pages.length * PELIB_PAGE_SIZE) (hbuf : transferCount self rva n ≤ buffer.length)
    (hlen : buffer.length < 2 ^ 32) :
    ∃ buffer', readImage self buffer rva n =
        some { count := transferCount self rva n, loader := self, buffer := buffer' } ∧
      buffer'.length = buffer.length ∧
      ∀ j, buffer'.getD j 0 =
        if j < transferCount self rva n then imageByte self (rva + j) else buffer.getD j 0 := by
  have hS := getSizeOfImageAligned_lt self
  have hu : u32 (rva + n) < 2 ^ 32 := Nat.mod_lt _ (by norm_num)
  unfold readImage
  rw [if_pos (by rw [hraw]; rfl)]
  unfold readWriteImage transferCount at *
  simp only []
  generalize hE : (if u32 (rva + n) > getSizeOfImageAligned self
    then getSizeOfImageAligned self else u32 (rva + n)) = rvaEnd
  have hmin : min (u32 (rva + n)) (getSizeOfImageAligned self) = rvaEnd := by
    rw [← hE]; split_ifs <;> omega
  rw [hmin] at hbuf ⊢
  have hEndS : rvaEnd ≤ getSizeOfImageAligned self := by rw [← hmin]; exact Nat.min_le_right _ _
  by_cases hlt : rva < rvaEnd
  · rw [if_pos hlt]
    simp only [PELIB_PAGE_SIZE] at hcover ⊢
    have hdm := Nat.div_add_mod rva 4096
    have hml := Nat.mod_lt rva (show 0 < 4096 by norm_num)
    have hidx : rva / 4096 < self.pages.length := by
      apply Nat.div_lt_of_lt_mul
      omega
    rw [if_pos hidx]
    obtain ⟨buffer', h, hl, hg⟩ := readFromPage_loop rvaEnd (by omega)
      (self.pages.drop (rva / 4096)) (rva / 4096) buffer 0 rva (wellFormedPages_drop _ _ hwf)
      (by omega) (by omega) (by omega) (by rw [List.length_drop]; omega) (by omega) hlen
    rw [h]
    refine ⟨buffer', ?_, hl, ?_⟩
    · simp only [Nat.zero_add, ImageLoader_pages_eta]
    · intro j
      rw [hg j, pageListByte_drop, imageByte_eq]
      by_cases hj : j < rvaEnd - rva
      · have e : rva / 4096 * 4096 + (rva - rva / 4096 * 4096 + (j - 0)) = rva + j := by omega
        rw [if_pos (by omega), if_pos hj, e]
      · rw [if_neg (by omega), if_neg hj]
  · rw [if_neg hlt]
    have h0 : rvaEnd - rva = 0 := by omega
    refine ⟨buffer, by rw [h0], rfl, ?_⟩
    intro j
    rw [h0, if_neg (by omega)]

/-- A write in page mode whose clipped range the page table covers: it returns the transfer
count, leaves the buffer and everything of the loader but the page buffers alone, and stores
the bytes of the buffer into the image. -/
theorem writeImage_covered (self : ImageLoader) (buffer : List Nat) (rva n : Nat)
    (hraw : self.rawFileData = []) (hwf : wellFormedPages self.pages)
    (hcover : min (u32 (rva + n)) (getSizeOfImageAligned self) ≤
      self.pages.length * PELIB_PAGE_SIZE) (hbuf : transferCount self rva n ≤ buffer.length)
    (hlen : buffer.length < 2 ^ 32) :
    ∃ pages', writeImage self buffer rva n =
        some { count := transferCount self rva n, loader := { self with pages := pages' },
               buffer := buffer } ∧
      pages'.length = self.pages.length ∧ wellFormedPages pages' ∧
      pages'.map (fun page => page.isZeroPage) = self.pages.map (fun page => page.isZeroPage) ∧
      ∀ x, pageListByte pages' x =
        if rva ≤ x ∧ x < rva + transferCount self rva n then buffer.getD (x - rva) 0
        else imageByte self x := by
  have hS := getSizeOfImageAligned_lt self
  have hu : u32 (rva + n) < 2 ^ 32 := Nat.mod_lt _ (by norm_num)
  unfold writeImage
  rw [if_pos (by rw [hraw]; rfl)]
  unfold readWriteImage transferCount at *
  simp only []
  generalize hE : (if u32 (rva + n) > getSizeOfImageAligned self
    then getSizeOfImageAligned self else u32 (rva + n)) = rvaEnd
  have hmin : min (u32 (rva + n)) (getSizeOfImageAligned self) = rvaEnd := by
    rw [← hE]; split_ifs <;> omega
  rw [hmin] at hbuf ⊢
  have hEndS : rvaEnd ≤ getSizeOfImageAligned self := by rw [← hmin]; exact Nat.min_le_right _ _
  by_cases hlt : rva < rvaEnd
  · rw [if_pos hlt]
    simp only [PELIB_PAGE_SIZE] at hcover ⊢
    have hdm := Nat.div_add_mod rva 4096
    have hml := Nat.mod_lt rva (show 0 < 4096 by norm_num)
    have hidx : rva / 4096 < self.pages.length := by
      apply Nat.div_lt_of_lt_mul
      omega
    rw [if_pos hidx]
    obtain ⟨pages', h, hl, hwf', hz, hg⟩ := writeToPage_loop rvaEnd (by omega)
      (self.pages.drop (rva / 4096)) (rva / 4096) buffer 0 rva (wellFormedPages_drop _ _ hwf)
      (by omega) (by omega) (by omega) (by rw [List.length_drop]; omega) (by omega) hlen
    rw [h]
    refine ⟨self.pages.take (rva / 4096) ++ pages', ?_, ?_, ?_, ?_, ?_⟩
    · simp only [Nat.zero_add]
    · rw [List.length_append, List.length_take, hl, List.length_drop]
      omega
    · exact wellFormedPages_append _ _ (wellFormedPages_take _ _ hwf) hwf'
    · rw [List.map_append, hz, ← List.map_append, List.take_append_drop]
    · intro x
      rw [pageListByte_take_append _ _ _ _ (by omega), imageByte_eq]
      by_cases hx : x < rva / 4096 * 4096
      · rw [if_pos hx, if_neg (by omega)]
      · rw [if_neg hx, hg, pageListByte_drop]
        by_cases hx2 : rva ≤ x ∧ x < rva + (rvaEnd - rva)
        · have e : 0 + (x - rva / 4096 * 4096 - (rva - rva / 4096 * 4096)) = x - rva := by omega
          rw [if_pos (by omega), if_pos hx2, e]
        · have e : rva / 4096 * 4096 + (x - rva / 4096 * 4096) = x := by omega
          rw [if_neg (by omega), if_neg hx2, e]
  · rw [if_neg hlt]
    have h0 : rvaEnd - rva = 0 := by omega
    refine ⟨self.pages, by rw [h0], rfl, hwf, rfl, ?_⟩
    intro x
    rw [h0, if_neg (by omega)]
    rfl
/-- A page loop that comes to an end had pages for the whole range: when it starts inside
page `k` below `rvaEnd` and returns, the pages from `k` on reach `rvaEnd`. -/
theorem readWriteImage_loop_covers (ReadWrite : READWRITE) (rvaEnd : Nat)
    (hEnd : rvaEnd < 2 ^ 32) :
    ∀ (pages : List PELIB_FILE_PAGE) (k : Nat) (buffer : List Nat) (bytesRead rva : Nat),
      k * 4096 ≤ rva → rva < (k + 1) * 4096 → rva < rvaEnd →
      (readWriteImage.loop ReadWrite rvaEnd pages buffer bytesRead rva).isSome = true →
      rvaEnd ≤ (k + pages.length) * 4096 := by
  intro pages
  induction pages with
  | nil =>
    intro k buffer bytesRead rva _ _ hlt hs
    simp only [readWriteImage.loop, if_pos hlt] at hs
    exact absurd hs (by simp)
  | cons page rest ih =>
    intro k buffer bytesRead rva h2 h3 hlt hs
    have hoff : rva &&& (4096 - 1) = rva % 4096 := Nat.and_pow_two_sub_one_eq_mod rva 12
    have hmod : rva % 4096 = rva - k * 4096 := by
      have := Nat.div_add_mod rva 4096
      have hk : rva / 4096 = k := by
        apply Nat.div_eq_of_lt_le <;> omega
      rw [hk] at this
      omega
    simp only [readWriteImage.loop, if_pos hlt, PELIB_PAGE_SIZE, hoff] at hs
    simp only [List.length_cons]
    by_cases hlast : 4096 - rva % 4096 > rvaEnd - rva
    · omega
    · rw [if_neg hlast] at hs
      have e1 : u32 (rva + (4096 - rva % 4096)) = (k + 1) * 4096 := by
        unfold u32; rw [Nat.mod_eq_of_lt] <;> omega
      rw [e1] at hs
      by_cases hlt2 : (k + 1) * 4096 < rvaEnd
      · split at hs
        · exact absurd hs (by simp)
        · rename_i heq
          have := ih (k + 1) _ _ ((k + 1) * 4096) (le_refl _) (by omega) hlt2
            (by rw [heq]; rfl)
          omega
      · omega

/-- A read or write in page mode whose clipped range is empty or whose first page is not in
the page table transfers nothing and changes nothing. -/
theorem readWriteImage_outside (self : ImageLoader) (buffer : List Nat) (rva n : Nat)
    (ReadWrite : READWRITE)
    (h : ¬ (rva < min (u32 (rva + n)) (getSizeOfImageAligned self) ∧
      rva / PELIB_PAGE_SIZE < self.pages.length)) :
    readWriteImage self buffer rva n ReadWrite =
      some { count := 0, loader := self, buffer := buffer } := by
  unfold readWriteImage
  simp only []
  have hmin : (if u32 (rva + n) > getSizeOfImageAligned self then getSizeOfImageAligned self
      else u32 (rva + n)) = min (u32 (rva + n)) (getSizeOfImageAligned self) := by
    split_ifs <;> omega
  rw [hmin]
  by_cases h1 : rva < min (u32 (rva + n)) (getSizeOfImageAligned self)
  · rw [if_pos h1, if_neg (fun h2 => h ⟨h1, h2⟩)]
  · rw [if_neg h1]

/-- A read or write in page mode that returns had pages for its whole clipped range. -/
theorem readWriteImage_covers (self : ImageLoader) (buffer : List Nat) (rva n : Nat)
    (ReadWrite : READWRITE)
    (h1 : rva < min (u32 (rva + n)) (getSizeOfImageAligned self))
    (h2 : rva / PELIB_PAGE_SIZE < self.pages.length)
    (hs : (readWriteImage self buffer rva n ReadWrite).isSome = true) :
    min (u32 (rva + n)) (getSizeOfImageAligned self) ≤ self.pages.length * PELIB_PAGE_SIZE := by
  have hS := getSizeOfImageAligned_lt self
  unfold readWriteImage at hs
  simp only [] at hs
  have hmin : (if u32 (rva + n) > getSizeOfImageAligned self then getSizeOfImageAligned self
      else u32 (rva + n)) = min (u32 (rva + n)) (getSizeOfImageAligned self) := by
    split_ifs <;> omega
  rw [hmin, if_pos h1, if_pos h2] at hs
  simp only [PELIB_PAGE_SIZE] at h2 hs ⊢
  have hdm := Nat.div_add_mod rva 4096
  have hml := Nat.mod_lt rva (show 0 < 4096 by norm_num)
  have hc := readWriteImage_loop_covers ReadWrite
    (min (u32 (rva + n)) (getSizeOfImageAligned self)) (by omega)
    (self.pages.drop (rva / 4096)) (rva / 4096) buffer 0 rva (by omega) (by omega) h1
    (by
      split at hs
      · exact absurd hs (by simp)
      · rename_i heq
        rw [heq]; rfl)
  rw [List.length_drop] at hc
  have : rva / 4096 + (self.pages.length - rva / 4096) = self.pages.length := by omega
  rw [this] at hc
  exact hc
/-- The round trip in page mode: a write that returns is read back by the read that follows,
and the bytes of the image outside the written range stay. -/
theorem writeImage_readImage_pages (self : ImageLoader) (buffer : List Nat) (rva n : Nat)
    (hraw : self.rawFileData = []) (hwf : wellFormedPages self.pages)
    (hl : buffer.length = n) (hn : n < 2 ^ 32) (w : Transfer)
    (hw : writeImage self buffer rva n = some w) :
    w.count ≤ n ∧ w.buffer = buffer ∧
    (∃ buffer', readImage w.loader (List.replicate n 0) rva n =
        some { count := w.count, loader := w.loader, buffer := buffer' } ∧
      buffer'.length = n ∧ ∀ j, j < w.count → buffer'.getD j 0 = buffer.getD j 0) ∧
    ∀ x, ¬ (rva ≤ x ∧ x < rva + w.count) → imageByte w.loader x = imageByte self x := by
  have hmode : self.rawFileData.length = 0 := by rw [hraw]; rfl
  by_cases hin : rva < min (u32 (rva + n)) (getSizeOfImageAligned self) ∧
      rva / PELIB_PAGE_SIZE < self.pages.length
  · have hsome : (readWriteImage self buffer rva n writeToPage).isSome = true := by
      unfold writeImage at hw
      rw [if_pos hmode] at hw
      rw [hw]; rfl
    have hcov := readWriteImage_covers self buffer rva n writeToPage hin.1 hin.2 hsome
    obtain ⟨pages', h1, h2, h3, _, h5⟩ := writeImage_covered self buffer rva n hraw hwf hcov
      (by rw [hl]; exact transferCount_le_size self rva n) (by rw [hl]; exact hn)
    rw [h1] at hw
    obtain rfl := Option.some.inj hw
    obtain ⟨buffer', r1, r2, r3⟩ := readImage_covered { self with pages := pages' }
      (List.replicate n 0) rva n hraw h3
      (by
        show min (u32 (rva + n)) (getSizeOfImageAligned self) ≤ pages'.length * PELIB_PAGE_SIZE
        rw [h2]; exact hcov)
      (by rw [List.length_replicate]; exact transferCount_le_size self rva n)
      (by rw [List.length_replicate]; exact hn)
    refine ⟨transferCount_le_size self rva n, rfl, ⟨buffer', r1, ?_, ?_⟩, ?_⟩
    · rw [r2, List.length_replicate]
    · intro j hj
      have hj' : j < transferCount self rva n := hj
      rw [(r3 j).trans (if_pos hj), imageByte_eq]
      have := h5 (rva + j)
      rw [if_pos ⟨by omega, by omega⟩] at this
      rw [show rva + j - rva = j by omega] at this
      exact this
    · intro x hx
      have hx' : ¬ (rva ≤ x ∧ x < rva + transferCount self rva n) := hx
      rw [imageByte_eq]
      have := h5 x
      rw [if_neg hx'] at this
      exact this
  · have hwr : writeImage self buffer rva n =
        some { count := 0, loader := self, buffer := buffer } := by
      unfold writeImage
      rw [if_pos hmode]
      exact readWriteImage_outside self buffer rva n writeToPage hin
    rw [hwr] at hw
    obtain rfl := Option.some.inj hw
    refine ⟨Nat.zero_le _, rfl, ⟨List.replicate n 0, ?_, List.length_replicate _ _, ?_⟩,
      fun _ _ => rfl⟩
    · show readImage self _ rva n = _
      unfold readImage
      rw [if_pos hmode]
      exact readWriteImage_outside self _ rva n readFromPage hin
    · intro j hj
      exact absurd hj (Nat.not_lt_zero _)
theorem getFileOffsetFromRva_loop_lt (optionalHeader : PELIB_IMAGE_OPTIONAL_HEADER) (rva : Nat) :
    ∀ (sections : List PELIB_SECTION_HEADER) (off : Nat),
      getFileOffsetFromRva.loop optionalHeader rva sections = some off → off < 2 ^ 32 := by
  intro sections
  induction sections with
  | nil =>
    intro off h
    simp [getFileOffsetFromRva.loop] at h
  | cons S rest ih =>
    intro off h
    unfold getFileOffsetFromRva.loop at h
    simp only [] at h
    split_ifs at h
    all_goals first
      | exact ih off h
      | (rw [← Option.some.inj h]; exact Nat.mod_lt _ (by norm_num))

/-- The file offset of a 32-bit rva is a 32-bit value. -/
theorem getFileOffsetFromRva_lt (self : ImageLoader) (rva : Nat) (h : rva < 2 ^ 32) :
    getFileOffsetFromRva self rva < 2 ^ 32 := by
  unfold getFileOffsetFromRva
  by_cases h0 : self.sections.length ≠ 0
  · rw [if_pos h0]
    cases hc : getFileOffsetFromRva.loop self.optionalHeader rva self.sections with
    | some off => exact getFileOffsetFromRva_loop_lt _ _ _ _ hc
    | none =>
      show (if rva < _ then rva else UINT32_MAX) < 2 ^ 32
      split_ifs
      · exact h
      · decide
  · rw [if_neg h0]
    exact h

/-- The clipped byte count of a raw access is not above the request. -/
theorem readWriteImageFile_clip_le (self : ImageLoader) (off n : Nat) (ho : off < 2 ^ 32)
    (hn : n < 2 ^ 32) (hle : off ≤ self.rawFileData.length) :
    readWriteImageFile.clip self off n ≤ n := by
  unfold readWriteImageFile.clip u32
  split_ifs with h
  · have h1 := Nat.mod_le (self.rawFileData.length - off) (2 ^ 32)
    by_cases hw : off + n < 2 ^ 32
    · rw [Nat.mod_eq_of_lt hw] at h
      omega
    · have : (off + n) % 2 ^ 32 = off + n - 2 ^ 32 := by
        rw [Nat.mod_eq_sub_mod (by omega), Nat.mod_eq_of_lt (by omega)]
      omega
  · exact le_refl _

/-- The round trip in raw fallback mode: a write that returns is read back by the read that
follows, and the bytes of the raw file outside the written file range stay. -/
theorem writeImage_readImage_file (self : ImageLoader) (buffer : List Nat) (rva n : Nat)
    (hraw : self.rawFileData ≠ []) (hl : buffer.length = n) (hn : rva + n < 2 ^ 32)
    (w : Transfer) (hw : writeImage self buffer rva n = some w) :
    w.count ≤ n ∧ w.buffer = buffer ∧
    (∃ buffer', readImage w.loader (List.replicate n 0) rva n =
        some { count := w.count, loader := w.loader, buffer := buffer' } ∧
      buffer'.length = n ∧ ∀ j, j < w.count → buffer'.getD j 0 = buffer.getD j 0) ∧
    ∃ data', w.loader = { self with rawFileData := data' } ∧
      data'.length = self.rawFileData.length ∧
      ∀ i, ¬ (getFileOffsetFromRva self rva ≤ i ∧
          i < getFileOffsetFromRva self rva + w.count) →
        data'.getD i 0 = self.rawFileData.getD i 0 := by
  have hmode : ¬ self.rawFileData.length = 0 := fun h => hraw (List.length_eq_zero.mp h)
  have hoff := getFileOffsetFromRva_lt self rva (by omega)
  unfold writeImage at hw
  rw [if_neg hmode] at hw
  unfold readWriteImageFile at hw
  simp only [] at hw
  have hread0 : ∀ b : List Nat,
      (getFileOffsetFromRva self rva > self.rawFileData.length ∨
        readWriteImageFile.clip self (getFileOffsetFromRva self rva) n = 0) →
      readImage self b rva n = some { count := 0, loader := self, buffer := b } := by
    intro b hc
    unfold readImage
    rw [if_neg hmode]
    unfold readWriteImageFile
    simp only []
    by_cases h1 : getFileOffsetFromRva self rva > self.rawFileData.length
    · rw [if_pos h1]
    · rw [if_neg h1]
      rcases hc with hc | hc
      · exact absurd hc h1
      · rw [if_neg (by rw [hc]; exact fun h => h rfl), hc]
  by_cases h1 : getFileOffsetFromRva self rva > self.rawFileData.length
  · rw [if_pos h1] at hw
    obtain rfl := Option.some.inj hw
    exact ⟨Nat.zero_le _, rfl,
      ⟨_, hread0 _ (Or.inl h1), List.length_replicate _ _,
        fun j hj => absurd hj (Nat.not_lt_zero _)⟩,
      ⟨self.rawFileData, rfl, rfl, fun _ _ => rfl⟩⟩
  · rw [if_neg h1] at hw
    have hk := readWriteImageFile_clip_le self (getFileOffsetFromRva self rva) n hoff
      (by omega) (by omega)
    generalize hkd : readWriteImageFile.clip self (getFileOffsetFromRva self rva) n = k
      at hw hk hread0
    by_cases h2 : k ≠ 0
    · rw [if_pos h2] at hw
      by_cases h3 : getFileOffsetFromRva self rva + k ≤ self.rawFileData.length
      · rw [if_pos h3] at hw
        simp only [Bool.false_eq_true, if_false] at hw
        obtain rfl := Option.some.inj hw
        have htake : (buffer.take k).length = k := by
          rw [List.length_take, hl]; omega
        have hlen : (copyInto self.rawFileData (getFileOffsetFromRva self rva)
            (buffer.take k)).length = self.rawFileData.length :=
          copyInto_length _ _ _ (by rw [htake]; exact h3)
        have hdata : ∀ i, (copyInto self.rawFileData (getFileOffsetFromRva self rva)
            (buffer.take k)).getD i 0 =
            if getFileOffsetFromRva self rva ≤ i ∧ i < getFileOffsetFromRva self rva + k then
              buffer.getD (i - getFileOffsetFromRva self rva) 0
            else self.rawFileData.getD i 0 := by
          intro i
          rw [copyInto_getD _ _ _ _ (by omega), htake]
          split_ifs with hi
          · simp only [List.getD_eq_getElem?_getD]
            rw [List.getElem?_take_of_lt (by omega)]
          · rfl
        refine ⟨hk, rfl, ?_, ⟨_, rfl, hlen, ?_⟩⟩
        · refine ⟨copyInto (List.replicate n 0) 0
            (copyFrom (copyInto self.rawFileData (getFileOffsetFromRva self rva)
              (buffer.take k)) (getFileOffsetFromRva self rva) k), ?_, ?_, ?_⟩
          · show readImage { self with rawFileData := (copyInto self.rawFileData
              (getFileOffsetFromRva self rva) (buffer.take k)) } _ rva n = _
            unfold readImage
            rw [if_neg (by show ¬ (copyInto _ _ _).length = 0; rw [hlen]; exact hmode)]
            unfold readWriteImageFile
            simp only []
            have e1 : getFileOffsetFromRva { self with rawFileData := (copyInto self.rawFileData
                (getFileOffsetFromRva self rva) (buffer.take k)) } rva =
                getFileOffsetFromRva self rva := rfl
            have e2 : readWriteImageFile.clip { self with rawFileData :=
                (copyInto self.rawFileData (getFileOffsetFromRva self rva) (buffer.take k)) }
                (getFileOffsetFromRva self rva) n = k := by
              refine Eq.trans ?_ hkd
              unfold readWriteImageFile.clip
              show (if _ > (copyInto _ _ _).length then u32 ((copyInto _ _ _).length - _)
                else _) = _
              rw [hlen]
            rw [e1, e2]
            rw [if_neg (by show ¬ _ > (copyInto _ _ _).length; rw [hlen]; exact h1),
              if_pos h2,
              if_pos (by show _ ≤ (copyInto _ _ _).length; rw [hlen]; exact h3)]
            rfl
          · rw [copyInto_length _ _ _ (by
              rw [copyFrom_length _ _ _ (by rw [hlen]; exact h3), List.length_replicate]
              omega), List.length_replicate]
          · intro j hj
            have hj' : j < k := hj
            rw [copyInto_getD _ _ _ _ (Nat.zero_le _),
              copyFrom_length _ _ _ (by rw [hlen]; exact h3),
              if_pos ⟨Nat.zero_le _, by omega⟩, copyFrom_getD, if_pos (by omega), hdata,
              if_pos ⟨by omega, by omega⟩]
            congr 1
            omega
        · intro i hi
          rw [hdata i, if_neg hi]
      · rw [if_neg h3] at hw
        exact absurd hw (by simp)
    · rw [if_neg h2] at hw
      obtain rfl := Option.some.inj hw
      have hk0 : k = 0 := by omega
      exact ⟨hk, rfl,
        ⟨_, by
          have := hread0 (List.replicate n 0) (Or.inr hk0)
          rw [hk0]
          exact this, List.length_replicate _ _,
          fun j hj => absurd hj (by rw [hk0]; exact Nat.not_lt_zero _)⟩,
        ⟨self.rawFileData, rfl, rfl, fun _ _ => rfl⟩⟩
/-- C38, as amended: write/read round trip.  For every loader state in raw fallback mode
(a raw file buffer is retained) or in page mode (every page has no buffer or a buffer of one
page), every rva and every buffer `b` of length `n` with `rva + n` below `2^32`: if
`writeImage(b, rva, n)` returns `k`, then `k ≤ n`, the buffer is as before, and the
`readImage(rva, n)` that follows returns `k` and yields the first `k` bytes of `b`.  In page
mode the bytes of the image outside `[rva, rva + k)` are unchanged by the write.  In raw
fallback mode the write changes nothing but the raw file buffer, which keeps its length, and
in it only the `k` bytes from the file offset of `rva` on: the bytes of the raw file outside
`[getFileOffsetFromRva(rva), getFileOffsetFromRva(rva) + k)` are unchanged. -/
theorem writeImage_readImage_round_trip (self : ImageLoader) (buffer : List Nat) (rva n : Nat)
    (hmode : self.rawFileData = [] → wellFormedPages self.pages)
    (hl : buffer.length = n) (hn : rva + n < 2 ^ 32) (w : Transfer)
    (hw : writeImage self buffer rva n = some w) :
    w.count ≤ n ∧ w.buffer = buffer ∧
    (∃ buffer', readImage w.loader (List.replicate n 0) rva n =
        some { count := w.count, loader := w.loader, buffer := buffer' } ∧
      buffer'.length = n ∧ ∀ j, j < w.count → buffer'.getD j 0 = buffer.getD j 0) ∧
    (self.rawFileData = [] →
      ∀ x, ¬ (rva ≤ x ∧ x < rva + w.count) → imageByte w.loader x = imageByte self x) ∧
    (self.rawFileData ≠ [] →
      ∃ data', w.loader = { self with rawFileData := data' } ∧
        data'.length = self.rawFileData.length ∧
        ∀ i, ¬ (getFileOffsetFromRva self rva ≤ i ∧
            i < getFileOffsetFromRva self rva + w.count) →
          data'.getD i 0 = self.rawFileData.getD i 0) := by
  by_cases hraw : self.rawFileData = []
  · obtain ⟨h1, h2, h3, h4⟩ := writeImage_readImage_pages self buffer rva n hraw (hmode hraw)
      hl (by omega) w hw
    exact ⟨h1, h2, h3, fun _ => h4, fun h => absurd hraw h⟩
  · obtain ⟨h1, h2, h3, h4⟩ := writeImage_readImage_file self buffer rva n hraw hl hn w hw
    exact ⟨h1, h2, h3, fun h => absurd h hraw, fun _ => h4⟩
set_option maxRecDepth 100000 in
set_option maxHeartbeats 4000000 in
theorem writeImage_readImage_round_trip_witness :
    (∃ w, writeImage rawSectionsImage [0xAA, 0xBB] 0x11FF 2 = some w ∧
      w.count ≤ 2 ∧ w.buffer = [0xAA, 0xBB] ∧
      (∃ buffer', readImage w.loader (List.replicate 2 0) 0x11FF 2 =
          some { count := w.count, loader := w.loader, buffer := buffer' } ∧
        buffer'.length = 2 ∧ ∀ j, j < w.count → buffer'.getD j 0 = [0xAA, 0xBB].getD j 0) ∧
      (rawSectionsImage.rawFileData = [] →
        ∀ x, ¬ (0x11FF ≤ x ∧ x < 0x11FF + w.count) →
          imageByte w.loader x = imageByte rawSectionsImage x) ∧
      (rawSectionsImage.rawFileData ≠ [] →
        ∃ data', w.loader = { rawSectionsImage with rawFileData := data' } ∧
          data'.length = rawSectionsImage.rawFileData.length ∧
          ∀ i, ¬ (getFileOffsetFromRva rawSectionsImage 0x11FF ≤ i ∧
              i < getFileOffsetFromRva rawSectionsImage 0x11FF + w.count) →
            data'.getD i 0 = rawSectionsImage.rawFileData.getD i 0)) ∧
    (∃ w, writeImage textImagePages [0xAA, 0xBB] 0x1FFF 2 = some w ∧
      w.count ≤ 2 ∧ w.buffer = [0xAA, 0xBB] ∧
      (∃ buffer', readImage w.loader (List.replicate 2 0) 0x1FFF 2 =
          some { count := w.count, loader := w.loader, buffer := buffer' } ∧
        buffer'.length = 2 ∧ ∀ j, j < w.count → buffer'.getD j 0 = [0xAA, 0xBB].getD j 0) ∧
      (textImagePages.rawFileData = [] →
        ∀ x, ¬ (0x1FFF ≤ x ∧ x < 0x1FFF + w.count) →
          imageByte w.loader x = imageByte textImagePages x) ∧
      (textImagePages.rawFileData ≠ [] →
        ∃ data', w.loader = { textImagePages with rawFileData := data' } ∧
          data'.length = textImagePages.rawFileData.length ∧
          ∀ i, ¬ (getFileOffsetFromRva textImagePages 0x1FFF ≤ i ∧
              i < getFileOffsetFromRva textImagePages 0x1FFF + w.count) →
            data'.getD i 0 = textImagePages.rawFileData.getD i 0)) := by
  have h1 : (writeImage rawSectionsImage [0xAA, 0xBB] 0x11FF 2).isSome = true := by decide!
  have h2 : (writeImage textImagePages [0xAA, 0xBB] 0x1FFF 2).isSome = true := by decide!
  obtain ⟨w1, hw1⟩ := Option.isSome_iff_exists.mp h1
  obtain ⟨w2, hw2⟩ := Option.isSome_iff_exists.mp h2
  exact ⟨⟨w1, hw1, writeImage_readImage_round_trip rawSectionsImage [0xAA, 0xBB] 0x11FF 2
      (fun h => absurd h (by decide)) rfl (by decide) w1 hw1⟩,
    ⟨w2, hw2, writeImage_readImage_round_trip textImagePages [0xAA, 0xBB] 0x1FFF 2
      (fun _ => by unfold wellFormedPages; decide!) rfl (by decide) w2 hw2⟩⟩

set_option maxRecDepth 100000 in
set_option maxHeartbeats 4000000 in
/-- In raw fallback mode a write of two bytes at the rva `0x11FF`, the last byte of the raw
data of the first section of `rawSectionsImage`, returns 2 and stores its second byte at the
file offset `0x400`, where the raw data of the second section begin: the byte of the image at
the rva `0x2000`, which is outside `[0x11FF, 0x1201)`, reads as `0` before the write and as
`0xBB` after it. -/
theorem writeImage_raw_changes_byte_outside :
    rawMode rawSectionsImage ∧
    getFileOffsetFromRva rawSectionsImage 0x11FF = 0x3FF ∧
    getFileOffsetFromRva rawSectionsImage 0x2000 = 0x400 ∧
    ¬ (0x11FF ≤ 0x2000 ∧ 0x2000 < 0x11FF + 2) ∧
    (readImage rawSectionsImage [0] 0x2000 1).map (fun r => (r.count, r.buffer)) =
      some (1, [0]) ∧
    (writeImage rawSectionsImage [0xAA, 0xBB] 0x11FF 2).map
        (fun w => (w.count, (readImage w.loader [0] 0x2000 1).map
          (fun r => (r.count, r.buffer)))) =
      some (2, some (1, [0xBB])) := by
  refine ⟨⟨by decide, rfl⟩, by decide, by decide, by decide, by decide!, by decide!⟩
theorem sameConfig_refl (a : ImageLoader) : SameConfig a a := ⟨rfl, rfl, rfl⟩

theorem sameConfig_trans {a b c : ImageLoader} (h1 : SameConfig a b) (h2 : SameConfig b c) :
    SameConfig a c :=
  ⟨h2.1.trans h1.1, h2.2.1.trans h1.2.1, h2.2.2.trans h1.2.2⟩

theorem sameConfig_setLoaderError (self : ImageLoader) (e : LoaderError) :
    SameConfig self (setLoaderError self e).2 := by
  rw [setLoaderError_eq]
  exact ⟨rfl, rfl, rfl⟩

theorem sameConfig_setLoaderErrorIf (c : Bool) (e : LoaderError) (self : ImageLoader) :
    SameConfig self (setLoaderErrorIf c e self) := by
  rw [setLoaderErrorIf_eq]
  exact ⟨rfl, rfl, rfl⟩

theorem sameConfig_captureDosHeader (self : ImageLoader) (fileData : List Nat) :
    SameConfig self (captureDosHeader self fileData).2 := by
  unfold captureDosHeader verifyDosHeader
  simp only []
  split_ifs
  all_goals first
    | exact sameConfig_refl _
    | exact sameConfig_trans (b := { self with dosHeader := _ }) ⟨rfl, rfl, rfl⟩
        (sameConfig_setLoaderError _ _)

theorem sameConfig_verifyNtHeaders (self : ImageLoader) :
    SameConfig self (verifyNtHeaders self) := by
  unfold verifyNtHeaders
  repeat (first | refine sameConfig_trans ?_ (sameConfig_setLoaderErrorIf _ _ _)
                | exact sameConfig_refl _)

theorem sameConfig_captureFileHeader (self : ImageLoader) (fileData : List Nat) (filePtr : Nat) :
    SameConfig self (captureFileHeader self fileData filePtr) := by
  unfold captureFileHeader
  simp only []
  repeat (first | refine sameConfig_trans ?_ (sameConfig_setLoaderErrorIf _ _ _)
                | exact ⟨rfl, rfl, rfl⟩)

theorem sameConfig_captureOptionalHeader (self : ImageLoader) (fileData : List Nat)
    (filePtr : Nat) (r : FileError × ImageLoader)
    (h : captureOptionalHeader self fileData filePtr = some r) : SameConfig self r.2 := by
  unfold captureOptionalHeader captureOptionalHeader64 captureOptionalHeader32 at h
  simp only [] at h
  split_ifs at h <;> simp only [Option.some.injEq] at h <;> rw [← h]
  all_goals first
    | exact sameConfig_setLoaderError _ _
    | exact ⟨rfl, rfl, rfl⟩
    | exact sameConfig_trans (sameConfig_setLoaderErrorIf _ _ _) ⟨rfl, rfl, rfl⟩

theorem sameConfig_captureNtHeaders (self : ImageLoader) (fileData : List Nat)
    (r : FileError × ImageLoader) (h : captureNtHeaders self fileData = some r) :
    SameConfig self r.2 := by
  unfold captureNtHeaders at h
  simp only [] at h
  split_ifs at h with h1 h2 h3
  · simp only [Option.some.injEq] at h
    rw [← h]
    exact sameConfig_setLoaderError _ _
  · simp only [Option.some.injEq] at h
    rw [← h]
    exact sameConfig_setLoaderError _ _
  · simp only [Option.some.injEq] at h
    rw [← h]
    have h0 := sameConfig_setLoaderError
      { self with ntSignature := readLE fileData self.dosHeader.e_lfanew 4 }
      LoaderError.LDR_ERROR_NO_NT_SIGNATURE
    exact ⟨h0.1, h0.2.1, h0.2.2⟩
  · split at h
    · exact absurd h (by simp)
    · rename_i e captured hcap
      simp only [Option.some.injEq] at h
      rw [← h]
      have hf := sameConfig_captureFileHeader
        { self with ntSignature := readLE fileData self.dosHeader.e_lfanew 4 } fileData
        (self.dosHeader.e_lfanew + 4)
      have ho := sameConfig_trans (sameConfig_captureOptionalHeader _ _ _ _ hcap)
        (sameConfig_verifyNtHeaders captured)
      have := sameConfig_trans hf ho
      exact ⟨this.1, this.2.1, this.2.2⟩

theorem sameConfig_verify (i : Nat) (cap : SectionCapture) (sectHdr : PELIB_SECTION_HEADER) :
    SameConfig cap.loader (captureSectionHeaders.verify i cap sectHdr) := by
  unfold captureSectionHeaders.verify
  simp only []
  split_ifs <;>
    repeat (first | refine sameConfig_trans ?_ (sameConfig_setLoaderErrorIf _ _ _)
                  | exact sameConfig_refl _)

theorem sameConfig_body (i : Nat) (cap : SectionCapture) :
    SameConfig cap.loader (captureSectionHeaders.body i cap).loader := by
  have h := sameConfig_verify i cap
    (decodeSectionHeader (copyFrom cap.fileData cap.filePtr sizeof_PELIB_IMAGE_SECTION_HEADER))
  exact ⟨h.1, h.2.1, h.2.2⟩

theorem sameConfig_loop (remaining : Nat) :
    ∀ (i : Nat) (cap : SectionCapture),
      SameConfig cap.loader (captureSectionHeaders.loop remaining i cap).loader := by
  induction remaining with
  | zero => intro i cap; exact sameConfig_refl _
  | succ n ih =>
    intro i cap
    unfold captureSectionHeaders.loop
    split_ifs
    · exact sameConfig_refl _
    · exact sameConfig_trans (sameConfig_body i cap) (ih _ _)

theorem sameConfig_cutFile (self : ImageLoader) (fileEnd : Nat) :
    SameConfig self (captureSectionHeaders.cutFile self fileEnd) := by
  unfold captureSectionHeaders.cutFile
  simp only []
  split_ifs
  · split
    · split_ifs <;> exact (sameConfig_setLoaderError _ _)
    · exact (sameConfig_setLoaderError _ _)
  · exact (sameConfig_setLoaderError _ _)

theorem sameConfig_init (self : ImageLoader) (fileData : List Nat) (filePtr : Nat) :
    SameConfig self (captureSectionHeaders.init self fileData filePtr).loader := by
  unfold captureSectionHeaders.init
  simp only []
  split_ifs
  · exact sameConfig_trans (sameConfig_setLoaderErrorIf _ _ _) (sameConfig_setLoaderErrorIf _ _ _)
  · exact sameConfig_refl _

theorem sameConfig_finish (cap : SectionCapture) (fileEnd : Nat) :
    SameConfig cap.loader (captureSectionHeaders.finish cap fileEnd) := by
  unfold captureSectionHeaders.finish
  simp only []
  by_cases hb : cap.bRawDataBeyondEOF = true
  · rw [if_pos hb]
    exact sameConfig_trans (sameConfig_setLoaderErrorIf _ _ _) (sameConfig_cutFile _ _)
  · rw [if_neg hb]
    exact sameConfig_setLoaderErrorIf _ _ _

theorem sameConfig_captureSectionHeaders (self : ImageLoader) (fileData : List Nat) :
    SameConfig self (captureSectionHeaders self fileData).2.1 := by
  unfold captureSectionHeaders
  simp only []
  split_ifs
  · exact (sameConfig_setLoaderError _ _)
  · exact sameConfig_trans (sameConfig_trans (sameConfig_init _ _ _) (sameConfig_loop _ _ _))
      (sameConfig_finish _ _)
/-- When `captureNtHeaders` returns `ERROR_NONE` without a loader error, `SizeOfImage` is
neither zero nor above the largest image size. -/
theorem captureNtHeaders_sizeOfImage (self : ImageLoader) (fileData : List Nat)
    (r : FileError × ImageLoader) (h : captureNtHeaders self fileData = some r)
    (he : r.1 = FileError.ERROR_NONE) (hn : r.2.ldrError = LoaderError.LDR_ERROR_NONE) :
    r.2.optionalHeader.SizeOfImage ≠ 0 ∧
      r.2.optionalHeader.SizeOfImage ≤ PELIB_MM_SIZE_OF_LARGEST_IMAGE := by
  refine ⟨?_, (captureNtHeaders_checked self fileData r h).2 he hn⟩
  unfold captureNtHeaders at h
  simp only [] at h
  split_ifs at h with h1 h2 h3
  · simp only [Option.some.injEq] at h
    rw [← h] at hn
    exact absurd hn (setLoaderError_ldrError_ne_none _ _ (by decide))
  · simp only [Option.some.injEq] at h
    rw [← h] at he
    simp at he
  · simp only [Option.some.injEq] at h
    rw [← h] at he
    simp at he
  · split at h
    · exact absurd h (by simp)
    · rename_i e captured hcap
      simp only [Option.some.injEq] at h
      rw [← h] at hn ⊢
      have hpages := (verifyNtHeaders_none captured hn).2.2.2.2.2.2.1
      show (verifyNtHeaders captured).optionalHeader.SizeOfImage ≠ 0
      rw [(verifyNtHeaders_keeps captured).1]
      intro h0
      apply hpages
      rw [h0]
      rfl

theorem processSectionHeader_length (self : ImageLoader) (fileData : List Nat) (filePtr : Nat)
    (h : filePtr + sizeof_PELIB_IMAGE_SECTION_HEADER ≤ fileData.length) :
    (processSectionHeader self fileData filePtr).length = fileData.length := by
  unfold processSectionHeader
  unfold sizeof_PELIB_IMAGE_SECTION_HEADER at h
  split_ifs
  · exact copyInto_length _ _ _ (by simp only [List.length_cons, List.length_nil]; omega)
  · rfl
  · rfl

theorem processSectionHeader_mode_zero (self : ImageLoader) (fileData : List Nat)
    (filePtr : Nat) (h : self.loaderMode = 0) :
    processSectionHeader self fileData filePtr = fileData := by
  unfold processSectionHeader
  rw [if_neg (by rw [h]; exact fun hc => hc rfl)]

/-- The section loop of `captureSectionHeaders` keeps the length of the file data, and the
file data themselves when the loader mode is 0. -/
theorem captureSectionHeaders_loop_fileData (remaining : Nat) :
    ∀ (i : Nat) (cap : SectionCapture),
      (captureSectionHeaders.loop remaining i cap).fileData.length = cap.fileData.length ∧
      (cap.loader.loaderMode = 0 →
        (captureSectionHeaders.loop remaining i cap).fileData = cap.fileData) := by
  induction remaining with
  | zero => intro i cap; exact ⟨rfl, fun _ => rfl⟩
  | succ n ih =>
    intro i cap
    unfold captureSectionHeaders.loop
    by_cases hlt : cap.filePtr + sizeof_PELIB_IMAGE_SECTION_HEADER > cap.fileData.length
    · rw [if_pos hlt]
      exact ⟨rfl, fun _ => rfl⟩
    · rw [if_neg hlt]
      obtain ⟨h1, h2⟩ := ih (i + 1) (captureSectionHeaders.body i cap)
      have hb : (captureSectionHeaders.body i cap).fileData =
          processSectionHeader cap.loader cap.fileData cap.filePtr := rfl
      refine ⟨?_, fun h0 => ?_⟩
      · rw [h1, hb]
        exact processSectionHeader_length _ _ _ (by omega)
      · rw [h2 ((sameConfig_body i cap).1.trans h0), hb]
        exact processSectionHeader_mode_zero _ _ _ h0

/-- The file data after `captureSectionHeaders` are as long as before, and they are the data
before when the loader mode is 0. -/
theorem captureSectionHeaders_fileData (self : ImageLoader) (fileData : List Nat) :
    (captureSectionHeaders self fileData).2.2.length = fileData.length ∧
    (self.loaderMode = 0 → (captureSectionHeaders self fileData).2.2 = fileData) := by
  unfold captureSectionHeaders
  simp only []
  split_ifs
  · exact ⟨rfl, fun _ => rfl⟩
  · obtain ⟨h1, h2⟩ := captureSectionHeaders_loop_fileData self.fileHeader.NumberOfSections 0
      (captureSectionHeaders.init self fileData
        (self.dosHeader.e_lfanew + 4 + sizeof_PELIB_IMAGE_FILE_HEADER +
          self.fileHeader.SizeOfOptionalHeader))
    have hi : (captureSectionHeaders.init self fileData
        (self.dosHeader.e_lfanew + 4 + sizeof_PELIB_IMAGE_FILE_HEADER +
          self.fileHeader.SizeOfOptionalHeader)).fileData = fileData := by
      unfold captureSectionHeaders.init
      simp only []
      split_ifs <;> rfl
    refine ⟨h1.trans (congrArg List.length hi), fun h0 => ?_⟩
    exact (h2 ((sameConfig_init _ _ _).1.trans h0)).trans hi

/-- The configuration of a fresh loader. -/
theorem ImageLoader_new_config (loaderFlags : Nat) :
    (ImageLoader.new loaderFlags).loaderMode = loaderFlags &&& WindowsVerMask ∧
    ((ImageLoader.new loaderFlags).ssiImageAlignment32 = 4096 ∨
      (ImageLoader.new loaderFlags).ssiImageAlignment32 = 512 ∨
      (ImageLoader.new loaderFlags).ssiImageAlignment32 = 1) := by
  unfold ImageLoader.new
  simp only []
  split_ifs
  · exact ⟨rfl, Or.inr (Or.inl rfl)⟩
  · exact ⟨rfl, Or.inr (Or.inr rfl)⟩
  · exact ⟨rfl, Or.inr (Or.inr rfl)⟩
  · exact ⟨rfl, Or.inl rfl⟩

/-- The page table after `captureImageSections` of an image with
`SectionAlignment < PELIB_PAGE_SIZE`. -/
theorem captureImageSections_length_single (self : ImageLoader) (fileData : List Nat)
    (r : FileError × ImageLoader) (h : captureImageSections self fileData = some r)
    (hSA : ¬ self.optionalHeader.SectionAlignment ≥ PELIB_PAGE_SIZE) :
    r.2.pages.length =
      u32 ((if (if self.is64BitWindows then
              AlignToSize (AlignToSize self.optionalHeader.SizeOfImage self.ssiImageAlignment32)
                PELIB_PAGE_SIZE
            else AlignToSize self.optionalHeader.SizeOfImage self.ssiImageAlignment32) <
            PELIB_PAGE_SIZE then PELIB_PAGE_SIZE
          else (if self.is64BitWindows then
              AlignToSize (AlignToSize self.optionalHeader.SizeOfImage self.ssiImageAlignment32)
                PELIB_PAGE_SIZE
            else AlignToSize self.optionalHeader.SizeOfImage self.ssiImageAlignment32)) +
        PELIB_PAGE_SIZE - 1) / PELIB_PAGE_SIZE := by
  unfold captureImageSections at h
  simp only [] at h
  rw [if_neg hSA] at h
  split at h
  · exact absurd h (by simp)
  · rename_i va self' hcap
    have h1 := captureImageSection_length _ _ _ _ _ _ _ _ _ hcap
    simp only [resizePages_length] at h1
    split_ifs at h <;> simp only [Option.some.injEq] at h <;> rw [← h] <;> exact h1
/-- The bounds of `AlignToSize` for the alignment `2^k`. -/
theorem AlignToSize_bounds (x k : Nat) (h : x + 2 ^ k ≤ 2 ^ 32) (hk : k < 32) :
    x ≤ AlignToSize x (2 ^ k) ∧ AlignToSize x (2 ^ k) < x + 2 ^ k := by
  have h0 : 0 < 2 ^ k := Nat.pos_pow_of_pos k (by norm_num)
  rw [AlignToSize_pow2 x k h hk]
  exact ⟨le_alignUp x _ h0, alignUp_lt x _ h0⟩

/-- The mapping of an image whose `SizeOfImage` is neither zero nor above the largest image
size, on a loader with one of the alignments of a fresh loader, leaves at least one page. -/
theorem captureImageSections_pages_ne (self : ImageLoader) (fileData : List Nat)
    (r : FileError × ImageLoader) (h : captureImageSections self fileData = some r)
    (h0 : self.optionalHeader.SizeOfImage ≠ 0)
    (hL : self.optionalHeader.SizeOfImage ≤ PELIB_MM_SIZE_OF_LARGEST_IMAGE)
    (hssi : self.ssiImageAlignment32 = 4096 ∨ self.ssiImageAlignment32 = 512 ∨
      self.ssiImageAlignment32 = 1) :
    r.2.pages.length ≠ 0 := by
  by_cases hSA : self.optionalHeader.SectionAlignment ≥ PELIB_PAGE_SIZE
  · rw [captureImageSections_length self fileData r h hSA, AlignToSize_page_div _ hL]
    have : 4096 ≤ self.optionalHeader.SizeOfImage + 4095 := by omega
    have := Nat.div_le_div_right (c := 4096) this
    norm_num at this
    omega
  · rw [captureImageSections_length_single self fileData r h hSA]
    unfold PELIB_MM_SIZE_OF_LARGEST_IMAGE at hL
    have ha : self.optionalHeader.SizeOfImage ≤
        AlignToSize self.optionalHeader.SizeOfImage self.ssiImageAlignment32 ∧
        AlignToSize self.optionalHeader.SizeOfImage self.ssiImageAlignment32 <
          self.optionalHeader.SizeOfImage + 4096 := by
      rcases hssi with hs | hs | hs
      · rw [hs]
        have := AlignToSize_bounds self.optionalHeader.SizeOfImage 12 (by omega) (by norm_num)
        norm_num at this
        exact this
      · rw [hs]
        have := AlignToSize_bounds self.optionalHeader.SizeOfImage 9 (by omega) (by norm_num)
        norm_num at this
        omega
      · rw [hs]
        have := AlignToSize_bounds self.optionalHeader.SizeOfImage 0 (by omega) (by norm_num)
        norm_num at this
        omega
    generalize AlignToSize self.optionalHeader.SizeOfImage self.ssiImageAlignment32 = a at ha ⊢
    have hb : a ≤ AlignToSize a PELIB_PAGE_SIZE ∧ AlignToSize a PELIB_PAGE_SIZE < a + 4096 := by
      have := AlignToSize_bounds a 12 (by omega) (by norm_num)
      norm_num at this
      exact this
    generalize AlignToSize a PELIB_PAGE_SIZE = b at hb ⊢
    simp only [PELIB_PAGE_SIZE]
    unfold u32
    split_ifs <;> rw [Nat.mod_eq_of_lt (by omega)] <;> omega
/-- A `Load` of the headers only leaves the page table and the raw file buffer alone. -/
theorem Load_headersOnly_sameImage (self : ImageLoader) (fileData : List Nat)
    (r : FileError × ImageLoader × List Nat) (h : Load self fileData true = some r) :
    SameImage self r.2.1 := by
  unfold Load at h
  simp only [] at h
  have hd := (untouched_captureDosHeader self fileData).sameImage
  by_cases h1 : (captureDosHeader self fileData).1 ≠ FileError.ERROR_NONE
  · rw [if_pos h1] at h
    simp only [Option.some.injEq] at h
    rw [← h]
    exact hd
  · rw [if_neg h1] at h
    split at h
    · exact absurd h (by simp)
    · rename_i e2 s2 hnt
      have hn := sameImage_trans hd (untouched_captureNtHeaders _ _ _ hnt).sameImage
      by_cases h2 : e2 ≠ FileError.ERROR_NONE
      · rw [if_pos h2] at h
        simp only [Option.some.injEq] at h
        rw [← h]
        exact hn
      · rw [if_neg h2] at h
        have hs := sameImage_trans hn (sameImage_captureSectionHeaders s2 fileData)
        by_cases h3 : (captureSectionHeaders s2 fileData).1 ≠ FileError.ERROR_NONE
        · rw [if_pos h3] at h
          simp only [Option.some.injEq] at h
          rw [← h]
          exact hs
        · rw [if_neg h3, if_neg (by decide)] at h
          simp only [Option.some.injEq] at h
          rw [← h]
          exact hs

/-- The page table and the raw file buffer after a `Load` that maps the image and returns
`ERROR_NONE`, on a fresh loader. -/
theorem Load_pages_rawFileData (loaderFlags : Nat) (fileData fd' : List Nat)
    (loader : ImageLoader)
    (hload : Load (ImageLoader.new loaderFlags) fileData false =
      some (FileError.ERROR_NONE, loader, fd')) :
    ∃ headers s3,
      captureNtHeaders (captureDosHeader (ImageLoader.new loaderFlags) fileData).2 fileData =
        some (FileError.ERROR_NONE, headers) ∧
      captureSectionHeaders headers fileData = (FileError.ERROR_NONE, s3, fd') ∧
      (loader.pages ≠ [] ↔ isImageLoadable s3 = true) ∧
      (loader.pages ≠ [] → loader.rawFileData = []) ∧
      (loader.pages = [] → loader.rawFileData = fd' ∧ loader.rawFileData ≠ []) ∧
      fd'.length = fileData.length ∧
      (loaderFlags &&& WindowsVerMask = 0 → fd' = fileData) := by
  have h64 : 64 ≤ fileData.length := by
    by_contra hc
    have hshort := captureDosHeader_short (ImageLoader.new loaderFlags) fileData (by omega)
    unfold Load at hload
    rw [hshort] at hload
    simp at hload
  rcases Load_cases _ _ _ _ _ hload with ⟨he, _⟩ | ⟨headers, s3, s4, e4, hnt, hsh, hmap, hraw, hpg⟩
  · exact absurd rfl he
  · have hnew := ImageLoader_new_empty loaderFlags
    have hcfg0 := ImageLoader_new_config loaderFlags
    have hu : Untouched (ImageLoader.new loaderFlags) headers :=
      untouched_trans (untouched_captureDosHeader _ _) (untouched_captureNtHeaders _ _ _ hnt)
    have hc : SameConfig (ImageLoader.new loaderFlags) headers :=
      sameConfig_trans (sameConfig_captureDosHeader _ _) (sameConfig_captureNtHeaders _ _ _ hnt)
    have hs3 : SameImage headers s3 := by
      have := sameImage_captureSectionHeaders headers fileData
      rw [hsh] at this
      exact this
    have hc3 : SameConfig headers s3 := by
      have := sameConfig_captureSectionHeaders headers fileData
      rw [hsh] at this
      exact this
    have hk3 : Keeps headers s3 := by
      have := keeps_captureSectionHeaders headers fileData
      rw [hsh] at this
      exact this
    have hfd : fd'.length = fileData.length ∧ (headers.loaderMode = 0 → fd' = fileData) := by
      have := captureSectionHeaders_fileData headers fileData
      rw [hsh] at this
      exact this
    have hp3 : s3.pages = [] := hs3.1.trans (hu.1.trans hnew.1)
    have hr3 : s3.rawFileData = [] := hs3.2.trans (hu.2.1.trans hnew.2.1)
    have hfdne : fd' ≠ [] := by
      intro h0
      have := hfd.1
      rw [h0] at this
      simp at this
      omega
    have key : (isImageLoadable s3 = true ∧ loader.pages ≠ [] ∧ loader.rawFileData = []) ∨
        (isImageLoadable s3 = false ∧ loader.pages = [] ∧ loader.rawFileData = fd') := by
      rcases hmap with ⟨hl, hcap⟩ | ⟨hbad, hs4, _⟩
      · left
        have hfresh : NotCut (ImageLoader.new loaderFlags) := by
          unfold NotCut
          rw [ImageLoader_new_ldrError]
          decide
        have hcut : NotCut headers :=
          (captureNtHeaders_checked _ _ _ hnt).1 (notCut_captureDosHeader _ _ hfresh)
        have hnone : headers.ldrError = LoaderError.LDR_ERROR_NONE := by
          by_contra hne
          have hl3 := hk3.2 hne
          unfold isImageLoadable at hl
          rw [hl3] at hl
          unfold NotCut at hcut
          simp [hne, hcut] at hl
        have hsz := captureNtHeaders_sizeOfImage _ _ _ hnt rfl hnone
        have hpne := captureImageSections_pages_ne s3 fd' (e4, s4) hcap
          (by rw [hk3.1]; exact hsz.1) (by rw [hk3.1]; exact hsz.2)
          (by rw [hc3.2.1, hc.2.1]; exact hcfg0.2)
        obtain ⟨_, hloader⟩ := hpg hpne
        rw [hloader]
        refine ⟨hl, fun h0 => hpne (by rw [h0]; rfl), ?_⟩
        exact ((captureImageSections_sections s3 fd' (e4, s4) hcap).2).trans hr3
      · right
        have hp4 : s4.pages.length = 0 := by rw [hs4, hp3]; rfl
        obtain ⟨_, hloader⟩ := hraw hp4
        rw [hloader, hs4]
        exact ⟨hbad, hp3, rfl⟩
    refine ⟨headers, s3, hnt, hsh, ?_, ?_, ?_, hfd.1,
      fun h0 => hfd.2 (by rw [hc.1, hcfg0.1]; exact h0)⟩
    · rcases key with ⟨k1, k2, _⟩ | ⟨k1, k2, _⟩
      · exact ⟨fun _ => k1, fun _ => k2⟩
      · exact ⟨fun h0 => absurd k2 h0, fun h0 => by rw [k1] at h0; exact absurd h0 (by decide)⟩
    · rcases key with ⟨_, _, k3⟩ | ⟨_, k2, _⟩
      · exact fun _ => k3
      · exact fun h0 => absurd k2 h0
    · rcases key with ⟨_, k2, _⟩ | ⟨_, _, k3⟩
      · exact fun h0 => absurd h0 k2
      · exact fun _ => ⟨k3, by rw [k3]; exact hfdne⟩
/-- C36, as amended: the page table and the raw file buffer after `Load`.  For every file and
configuration, after `Load(data, false)` on a fresh loader returns `ERROR_NONE`, exactly one
of the page table and the retained raw file buffer is non-empty: the pages are non-empty
exactly when the image was loadable after the capture of the section headers (it was then
mapped), and otherwise `rawFileData` is the file data as the capture of the section headers
left them: as many bytes as the input, and the input bytes themselves when the loader mode
is 0 (in another loader mode `processSectionHeader` has zeroed the `PointerToRawData` of the
section headers with `SizeOfRawData = 0` in these data).  So `readImage` and `writeImage`
select page mode exactly when pages exist.  After `Load(data, true)` both are empty. -/
theorem Load_pages_xor_rawFileData (loaderFlags : Nat) (fileData : List Nat) :
    (∀ loader fd', Load (ImageLoader.new loaderFlags) fileData false =
        some (FileError.ERROR_NONE, loader, fd') →
      ∃ headers s3,
        captureNtHeaders (captureDosHeader (ImageLoader.new loaderFlags) fileData).2 fileData =
          some (FileError.ERROR_NONE, headers) ∧
        captureSectionHeaders headers fileData = (FileError.ERROR_NONE, s3, fd') ∧
        (loader.pages ≠ [] ↔ isImageLoadable s3 = true) ∧
        (loader.pages ≠ [] ↔ loader.rawFileData = []) ∧
        (loader.pages = [] → loader.rawFileData = fd') ∧
        fd'.length = fileData.length ∧
        (loaderFlags &&& WindowsVerMask = 0 → fd' = fileData) ∧
        (loader.pages ≠ [] → ∀ buffer rva n,
          readImage loader buffer rva n = readWriteImage loader buffer rva n readFromPage ∧
          writeImage loader buffer rva n = readWriteImage loader buffer rva n writeToPage) ∧
        (loader.pages = [] → ∀ buffer rva n,
          readImage loader buffer rva n = readWriteImageFile loader buffer rva n true ∧
          writeImage loader buffer rva n = readWriteImageFile loader buffer rva n false)) ∧
    (∀ r, Load (ImageLoader.new loaderFlags) fileData true = some r →
      r.2.1.pages = [] ∧ r.2.1.rawFileData = []) := by
  constructor
  · intro loader fd' hload
    obtain ⟨headers, s3, hnt, hsh, h1, h2, h3, h4, h5⟩ :=
      Load_pages_rawFileData loaderFlags fileData fd' loader hload
    refine ⟨headers, s3, hnt, hsh, h1, ⟨h2, fun h0 hp => ?_⟩, fun hp => (h3 hp).1, h4, h5,
      fun hp buffer rva n => ?_, fun hp buffer rva n => ?_⟩
    · exact (h3 hp).2 h0
    · have hr : loader.rawFileData.length = 0 := by rw [h2 hp]; rfl
      unfold readImage writeImage
      rw [if_pos hr, if_pos hr]
      exact ⟨rfl, rfl⟩
    · have hr : ¬ loader.rawFileData.length = 0 :=
        fun h0 => (h3 hp).2 (List.length_eq_zero.mp h0)
      unfold readImage writeImage
      rw [if_neg hr, if_neg hr]
      exact ⟨rfl, rfl⟩
  · intro r hload
    have hs := Load_headersOnly_sameImage _ _ _ hload
    have hnew := ImageLoader_new_empty loaderFlags
    exact ⟨hs.1.trans hnew.1, hs.2.trans hnew.2.1⟩

theorem Load_pages_xor_rawFileData_witness :
    Load (ImageLoader.new 0xA0) bssPe64 false =
      some (FileError.ERROR_NONE, mappedBssImage, bssPe64) ∧
    Load (ImageLoader.new 0xA0) brokenPe64 false =
      some (FileError.ERROR_NONE, rawFallback, brokenPe64) ∧
    (mappedBssImage.pages ≠ [] ↔ mappedBssImage.rawFileData = []) ∧
    (rawFallback.pages ≠ [] ↔ rawFallback.rawFileData = []) ∧
    (rawFallback.pages = [] → rawFallback.rawFileData = brokenPe64) := by
  obtain ⟨_, _, _, _, _, h1, _⟩ :=
    (Load_pages_xor_rawFileData 0xA0 bssPe64).1 _ _ Load_bssPe64
  obtain ⟨_, _, _, _, _, h2, h3, _⟩ :=
    (Load_pages_xor_rawFileData 0xA0 brokenPe64).1 _ _ Load_brokenPe64
  exact ⟨Load_bssPe64, Load_brokenPe64, h1, h2, h3⟩

set_option maxRecDepth 100000 in
set_option maxHeartbeats 4000000 in
/-- The file `emptyRawPe64` on a Windows 10 loader: `Load` returns `ERROR_NONE`, the image is
not loadable and has no pages, and the retained raw file buffer is not the input: the
`PointerToRawData` of the section header, `0x200` in the input at the file offset `0x15C`,
is `0` in `rawFileData`. -/
theorem Load_rawFileData_not_input :
    readLE emptyRawPe64 0x15C 4 = 0x200 ∧
    (Load (ImageLoader.new 0xA0) emptyRawPe64 false).map
        (fun r => (r.1, isImageLoadable r.2.1, r.2.1.pages.length,
          decide (r.2.1.rawFileData = emptyRawPe64), r.2.1.rawFileData.length,
          readLE r.2.1.rawFileData 0x15C 4)) =
      some (FileError.ERROR_NONE, false, 0, false, 512, 0) := by
  refine ⟨by decide!, by decide!⟩

set_option maxRecDepth 100000 in
set_option maxHeartbeats 4000000 in
/-- C34, the code at a failing input: the mapped image `mappedBssImage`, which `Load` makes
of the file `bssPe64`, has two pages and `SizeOfImage = 0x2000`, so its pages cover
`getSizeOfImageAligned()`, and a read of two bytes at rva `0x1FFF` is clipped and returns 1.
`enlargeLastSection(0x2000)` leaves the page table alone and sets `SizeOfImage` to `0x3000`:
the two pages no longer cover `getSizeOfImageAligned() = 0x3000`, and the same read or
write of two bytes at rva `0x1FFF` runs on to the page index 2, which the page table does
not have.  The same happens after `addSection` of `0x1000` bytes followed by `makeValid`. -/
theorem enlargeLastSection_breaks_page_coverage :
    Load (ImageLoader.new 0xA0) bssPe64 false =
      some (FileError.ERROR_NONE, mappedBssImage, bssPe64) ∧
    getSizeOfImageAligned mappedBssImage ≤ mappedBssImage.pages.length * PELIB_PAGE_SIZE ∧
    (readImage mappedBssImage [0, 0] 0x1FFF 2).map Transfer.count = some 1 ∧
    (enlargeLastSection mappedBssImage 0x2000).pages = mappedBssImage.pages ∧
    (enlargeLastSection mappedBssImage 0x2000).pages.length * PELIB_PAGE_SIZE = 0x2000 ∧
    getSizeOfImageAligned (enlargeLastSection mappedBssImage 0x2000) = 0x3000 ∧
    readImage (enlargeLastSection mappedBssImage 0x2000) [0, 0] 0x1FFF 2 = none ∧
    writeImage (enlargeLastSection mappedBssImage 0x2000) [1, 2] 0x1FFF 2 = none ∧
    (makeValid (addSection mappedBssImage [0x2E, 0x78] 0x1000).2).map
        (fun s => (s.pages.length, getSizeOfImageAligned s, readImage s [0, 0] 0x1FFF 2)) =
      some (2, 0x3000, none) := by
  refine ⟨Load_bssPe64, by decide!, by decide!, rfl, by decide!, by decide!, by decide!,
    by decide!, by decide!⟩
/-- The flag `bRawDataBeyondEOF` after the section loop of `captureSectionHeaders`: the loop
appends the captured sections to the section table, and the flag is set when it was set
before or the raw data of a captured section end beyond the end of the file. -/
theorem captureSectionHeaders_loop_flag (remaining : Nat) :
    ∀ (i : Nat) (cap : SectionCapture),
      ∃ new, (captureSectionHeaders.loop remaining i cap).loader.sections =
          cap.loader.sections ++ new ∧
        ((captureSectionHeaders.loop remaining i cap).bRawDataBeyondEOF = true ↔
          cap.bRawDataBeyondEOF = true ∨
            ∃ S ∈ new, rawPointerOf S ≠ 0 ∧
              u32 (rawPointerOf S + S.SizeOfRawData) > cap.fileData.length) := by
  induction remaining with
  | zero =>
    intro i cap
    refine ⟨[], (List.append_nil _).symm, ?_⟩
    simp [captureSectionHeaders.loop]
  | succ n ih =>
    intro i cap
    unfold captureSectionHeaders.loop
    by_cases hlt : cap.filePtr + sizeof_PELIB_IMAGE_SECTION_HEADER > cap.fileData.length
    · rw [if_pos hlt]
      refine ⟨[], (List.append_nil _).symm, ?_⟩
      simp
    · rw [if_neg hlt]
      obtain ⟨new, h1, h2⟩ := ih (i + 1) (captureSectionHeaders.body i cap)
      have hlen : (captureSectionHeaders.body i cap).fileData.length = cap.fileData.length :=
        processSectionHeader_length _ _ _ (by omega)
      have hsec : ∃ S0, (captureSectionHeaders.body i cap).loader.sections =
          cap.loader.sections ++ [S0] ∧
          ((captureSectionHeaders.body i cap).bRawDataBeyondEOF = true ↔
            cap.bRawDataBeyondEOF = true ∨ (rawPointerOf S0 ≠ 0 ∧
              u32 (rawPointerOf S0 + S0.SizeOfRawData) > cap.fileData.length)) := by
        refine ⟨{ decodeSectionHeader
            (copyFrom cap.fileData cap.filePtr sizeof_PELIB_IMAGE_SECTION_HEADER) with
          sectionName := captureSectionName cap.loader
            (processSectionHeader cap.loader cap.fileData cap.filePtr)
            (decodeSectionHeader
              (copyFrom cap.fileData cap.filePtr sizeof_PELIB_IMAGE_SECTION_HEADER)).Name },
          ?_, ?_⟩
        · show (captureSectionHeaders.verify i cap _).sections ++ [_] = _
          rw [(untouched_verify i cap _).2.2]
        · have key : ∀ (c : Prop) [Decidable c] (b : Bool),
              ((if c then true else b) = true ↔ b = true ∨ c) := by
            intro c _ b
            by_cases hc : c
            · rw [if_pos hc]
              exact ⟨fun _ => Or.inr hc, fun _ => rfl⟩
            · rw [if_neg hc]
              exact ⟨fun h => Or.inl h, fun h => h.resolve_right hc⟩
          exact key _ _
      obtain ⟨S0, hs0, hf0⟩ := hsec
      refine ⟨S0 :: new, ?_, ?_⟩
      · rw [h1, hs0, List.append_assoc]
        rfl
      · rw [h2, hf0, hlen]
        simp only [List.mem_cons, exists_eq_or_imp]
        exact or_assoc
/-- The decision about a trimmed file on a loader without a recorded error. -/
theorem cutFile_ldrError (c : ImageLoader) (fileEnd : Nat)
    (h : c.ldrError = LoaderError.LDR_ERROR_NONE) :
    ((captureSectionHeaders.cutFile c fileEnd).ldrError =
        LoaderError.LDR_ERROR_FILE_IS_CUT_LOADABLE ∨
      (captureSectionHeaders.cutFile c fileEnd).ldrError = LoaderError.LDR_ERROR_FILE_IS_CUT) ∧
    ((captureSectionHeaders.cutFile c fileEnd).ldrError =
        LoaderError.LDR_ERROR_FILE_IS_CUT_LOADABLE ↔
      (c.optionalHeader.SectionAlignment < PELIB_PAGE_SIZE ∨
        ∃ last, c.sections.getLast? = some last ∧
          (last.SizeOfRawData = 0 ∨
            u32 (rawPointerOf last + last.SizeOfRawData) ≤ fileEnd))) := by
  have hset : ∀ e, (setLoaderError c e).2.ldrError = e := by
    intro e
    rw [setLoaderError_eq]
    show (if c.ldrError = LoaderError.LDR_ERROR_NONE then e else c.ldrError) = e
    rw [if_pos h]
  unfold captureSectionHeaders.cutFile
  simp only []
  by_cases hSA : c.optionalHeader.SectionAlignment < PELIB_PAGE_SIZE
  · rw [if_neg (by simp [hSA]), hset]
    exact ⟨Or.inl rfl, fun _ => Or.inl hSA, fun _ => rfl⟩
  · rw [if_pos (by simp [hSA])]
    cases hl : c.sections.getLast? with
    | none =>
      simp only []
      rw [hset]
      refine ⟨Or.inr rfl, fun hc => absurd hc (by decide), fun hc => ?_⟩
      rcases hc with hc | ⟨last, hc, _⟩
      · exact absurd hc hSA
      · exact absurd hc (by simp)
    | some last =>
      simp only []
      by_cases hin : last.SizeOfRawData = 0 ∨
          u32 ((if last.SizeOfRawData ≠ 0 then last.PointerToRawData else 0) +
            last.SizeOfRawData) ≤ fileEnd
      · rw [if_pos hin, hset]
        exact ⟨Or.inl rfl, fun _ => Or.inr ⟨last, rfl, hin⟩, fun _ => rfl⟩
      · rw [if_neg hin, hset]
        refine ⟨Or.inr rfl, fun hc => absurd hc (by decide), fun hc => ?_⟩
        rcases hc with hc | ⟨last', hc, hc2⟩
        · exact absurd hc hSA
        · rw [← Option.some.inj hc] at hc2
          exact absurd hc2 hin

/-- C32: the cut-file decision.  For every loader whose headers are captured and every file:
when the raw data of some section that `captureSectionHeaders` captures end beyond the end
of the file (`PointerToRawData != 0`, taken as 0 for a section without raw data, and
`PointerToRawData + SizeOfRawData > fileSize` in 32 bits) and no loader error is recorded
when the section loop and the check of the image size are done, then
`captureSectionHeaders` returns `ERROR_NONE` and records `LDR_ERROR_FILE_IS_CUT_LOADABLE` or
`LDR_ERROR_FILE_IS_CUT`: it is `LDR_ERROR_FILE_IS_CUT_LOADABLE`, and the image is loadable,
exactly when the image is single-subsection (`SectionAlignment < 4096`) or the last section
of the table has `SizeOfRawData = 0` or its raw data end inside the file; otherwise it is
`LDR_ERROR_FILE_IS_CUT` and the image is not loadable. -/
theorem captureSectionHeaders_cut_file_decision (self : ImageLoader) (fileData : List Nat)
    (hbeyond : ∃ S ∈ (captureSectionHeaders self fileData).2.1.sections.drop
        self.sections.length,
      rawPointerOf S ≠ 0 ∧ u32 (rawPointerOf S + S.SizeOfRawData) > fileData.length)
    (hnone : (captureSectionHeaders.checked self fileData).ldrError =
      LoaderError.LDR_ERROR_NONE) :
    (captureSectionHeaders self fileData).1 = FileError.ERROR_NONE ∧
    ((captureSectionHeaders self fileData).2.1.ldrError =
        LoaderError.LDR_ERROR_FILE_IS_CUT_LOADABLE ∨
      (captureSectionHeaders self fileData).2.1.ldrError =
        LoaderError.LDR_ERROR_FILE_IS_CUT) ∧
    ((captureSectionHeaders self fileData).2.1.ldrError =
        LoaderError.LDR_ERROR_FILE_IS_CUT_LOADABLE ↔
      (self.optionalHeader.SectionAlignment < PELIB_PAGE_SIZE ∨
        ∃ last, (captureSectionHeaders self fileData).2.1.sections.getLast? = some last ∧
          (last.SizeOfRawData = 0 ∨
            u32 (rawPointerOf last + last.SizeOfRawData) ≤ fileData.length))) ∧
    (isImageLoadable (captureSectionHeaders self fileData).2.1 = true ↔
      (captureSectionHeaders self fileData).2.1.ldrError =
        LoaderError.LDR_ERROR_FILE_IS_CUT_LOADABLE) := by
  have hstatus := captureSectionHeaders_status self fileData
  by_cases hp : self.dosHeader.e_lfanew + 4 + sizeof_PELIB_IMAGE_FILE_HEADER +
      self.fileHeader.SizeOfOptionalHeader > fileData.length
  · exfalso
    obtain ⟨S, hS, _⟩ := hbeyond
    unfold captureSectionHeaders at hS
    simp only [] at hS
    rw [if_pos hp] at hS
    have hsec := (untouched_setLoaderError self
      LoaderError.LDR_ERROR_SECTION_HEADERS_OUT_OF_IMAGE).2.2
    simp only [hsec, List.drop_length] at hS
    exact absurd hS (List.not_mem_nil _)
  · obtain ⟨new, hnew, hflag⟩ := captureSectionHeaders_loop_flag self.fileHeader.NumberOfSections
      0 (captureSectionHeaders.init self fileData
        (self.dosHeader.e_lfanew + 4 + sizeof_PELIB_IMAGE_FILE_HEADER +
          self.fileHeader.SizeOfOptionalHeader))
    have hinit_sec := (untouched_init self fileData
      (self.dosHeader.e_lfanew + 4 + sizeof_PELIB_IMAGE_FILE_HEADER +
        self.fileHeader.SizeOfOptionalHeader)).2.2
    have hinit : (captureSectionHeaders.init self fileData
        (self.dosHeader.e_lfanew + 4 + sizeof_PELIB_IMAGE_FILE_HEADER +
          self.fileHeader.SizeOfOptionalHeader)).bRawDataBeyondEOF = false ∧
        (captureSectionHeaders.init self fileData
          (self.dosHeader.e_lfanew + 4 + sizeof_PELIB_IMAGE_FILE_HEADER +
            self.fileHeader.SizeOfOptionalHeader)).fileData = fileData := by
      unfold captureSectionHeaders.init
      simp only []
      split_ifs <;> exact ⟨rfl, rfl⟩
    rw [hinit.1, hinit.2] at hflag
    rw [hinit_sec] at hnew
    generalize hcap : captureSectionHeaders.loop self.fileHeader.NumberOfSections 0
      (captureSectionHeaders.init self fileData
        (self.dosHeader.e_lfanew + 4 + sizeof_PELIB_IMAGE_FILE_HEADER +
          self.fileHeader.SizeOfOptionalHeader)) = cap at hnew hflag
    have hres : (captureSectionHeaders self fileData).2.1 =
        captureSectionHeaders.finish cap fileData.length := by
      unfold captureSectionHeaders
      simp only []
      rw [if_neg hp, hcap]
    have hfin_sec : (captureSectionHeaders.finish cap fileData.length).sections =
        self.sections ++ new := (untouched_finish cap fileData.length).2.2.trans hnew
    rw [hres] at hbeyond ⊢
    rw [hfin_sec, List.drop_left] at hbeyond
    have hb : cap.bRawDataBeyondEOF = true := hflag.2 (Or.inr hbeyond)
    have hchk : captureSectionHeaders.checked self fileData =
        setLoaderErrorIf
          (decide (cap.loader.sizeofImageMustMatch = true ∧ cap.NumberOfPTEs ≥
            (if (decide (cap.loader.optionalHeader.SectionAlignment < PELIB_PAGE_SIZE)) = false
              then cap.loader.optionalHeader.SectionAlignment / PELIB_PAGE_SIZE else 1)))
          LoaderError.LDR_ERROR_INVALID_SIZE_OF_IMAGE cap.loader := by
      unfold captureSectionHeaders.checked
      simp only []
      rw [hcap]
    have hfin : captureSectionHeaders.finish cap fileData.length =
        captureSectionHeaders.cutFile (captureSectionHeaders.checked self fileData)
          fileData.length := by
      rw [hchk]
      unfold captureSectionHeaders.finish
      simp only []
      rw [if_pos hb]
    have hk : Keeps self (captureSectionHeaders.checked self fileData) := by
      rw [hchk, ← hcap]
      exact Keeps.trans (Keeps.trans (keeps_init _ _ _) (keeps_loop _ _ _))
        (keeps_setLoaderErrorIf _ _ _)
    have hcsec : (captureSectionHeaders.checked self fileData).sections =
        (captureSectionHeaders.finish cap fileData.length).sections := by
      rw [hfin]
      exact (untouched_cutFile _ _).2.2.symm
    obtain ⟨d1, d2⟩ := cutFile_ldrError (captureSectionHeaders.checked self fileData)
      fileData.length hnone
    rw [← hfin, hk.1, hcsec] at d2
    rw [← hfin] at d1
    refine ⟨hstatus, d1, d2, ?_⟩
    unfold isImageLoadable
    rcases d1 with d | d
    · rw [d]
      simp
    · rw [d]
      simp
set_option maxRecDepth 100000 in
set_option maxHeartbeats 4000000 in
theorem captureSectionHeaders_cut_file_decision_witness :
    (∃ S ∈ (captureSectionHeaders (capturedHeaders cutLoadablePe64)
          cutLoadablePe64).2.1.sections.drop (capturedHeaders cutLoadablePe64).sections.length,
        rawPointerOf S ≠ 0 ∧
          u32 (rawPointerOf S + S.SizeOfRawData) > cutLoadablePe64.length) ∧
    (captureSectionHeaders.checked (capturedHeaders cutLoadablePe64) cutLoadablePe64).ldrError =
      LoaderError.LDR_ERROR_NONE ∧
    (captureSectionHeaders (capturedHeaders cutLoadablePe64) cutLoadablePe64).2.1.ldrError =
      LoaderError.LDR_ERROR_FILE_IS_CUT_LOADABLE ∧
    ((capturedHeaders cutLoadablePe64).optionalHeader.SectionAlignment < PELIB_PAGE_SIZE ∨
      ∃ last, (captureSectionHeaders (capturedHeaders cutLoadablePe64)
          cutLoadablePe64).2.1.sections.getLast? = some last ∧
        (last.SizeOfRawData = 0 ∨
          u32 (rawPointerOf last + last.SizeOfRawData) ≤ cutLoadablePe64.length)) ∧
    (∃ S ∈ (captureSectionHeaders (capturedHeaders hardCutPe64)
          hardCutPe64).2.1.sections.drop (capturedHeaders hardCutPe64).sections.length,
        rawPointerOf S ≠ 0 ∧ u32 (rawPointerOf S + S.SizeOfRawData) > hardCutPe64.length) ∧
    (captureSectionHeaders.checked (capturedHeaders hardCutPe64) hardCutPe64).ldrError =
      LoaderError.LDR_ERROR_NONE ∧
    (captureSectionHeaders (capturedHeaders hardCutPe64) hardCutPe64).2.1.ldrError =
      LoaderError.LDR_ERROR_FILE_IS_CUT ∧
    isImageLoadable (captureSectionHeaders (capturedHeaders hardCutPe64) hardCutPe64).2.1 =
      false := by
  have a1 : ∃ S ∈ (captureSectionHeaders (capturedHeaders cutLoadablePe64)
        cutLoadablePe64).2.1.sections.drop (capturedHeaders cutLoadablePe64).sections.length,
      rawPointerOf S ≠ 0 ∧
        u32 (rawPointerOf S + S.SizeOfRawData) > cutLoadablePe64.length := by decide!
  have a2 : (captureSectionHeaders.checked (capturedHeaders cutLoadablePe64)
      cutLoadablePe64).ldrError = LoaderError.LDR_ERROR_NONE := by decide!
  have a3 : (captureSectionHeaders (capturedHeaders cutLoadablePe64)
      cutLoadablePe64).2.1.ldrError = LoaderError.LDR_ERROR_FILE_IS_CUT_LOADABLE := by decide!
  have b1 : ∃ S ∈ (captureSectionHeaders (capturedHeaders hardCutPe64)
        hardCutPe64).2.1.sections.drop (capturedHeaders hardCutPe64).sections.length,
      rawPointerOf S ≠ 0 ∧ u32 (rawPointerOf S + S.SizeOfRawData) > hardCutPe64.length := by
    decide!
  have b2 : (captureSectionHeaders.checked (capturedHeaders hardCutPe64)
      hardCutPe64).ldrError = LoaderError.LDR_ERROR_NONE := by decide!
  have b3 : (captureSectionHeaders (capturedHeaders hardCutPe64) hardCutPe64).2.1.ldrError =
      LoaderError.LDR_ERROR_FILE_IS_CUT := by decide!
  obtain ⟨_, _, h3, _⟩ := captureSectionHeaders_cut_file_decision
    (capturedHeaders cutLoadablePe64) cutLoadablePe64 a1 a2
  obtain ⟨_, _, _, g4⟩ := captureSectionHeaders_cut_file_decision
    (capturedHeaders hardCutPe64) hardCutPe64 b1 b2
  refine ⟨a1, a2, a3, h3.1 a3, b1, b2, b3, ?_⟩
  cases hl : isImageLoadable (captureSectionHeaders (capturedHeaders hardCutPe64)
      hardCutPe64).2.1 with
  | false => rfl
  | true =>
    have := g4.1 hl
    rw [b3] at this
    exact absurd this (by decide)
set_option maxRecDepth 100000 in
set_option maxHeartbeats 4000000 in
/-- C35, the code at a failing input: the file `wrappedSizePe64` on a Windows 10 loader.  The
capture of the headers and of the section headers records no loader error, so the image is
loadable: for the section `.bss` with `VirtualSize = 0xFFFFF000` the number of pages that
the section loop counts, `AlignToSize(VirtualSize, SectionAlignment) / 4096` with
`SectionAlignment = 0x2000`, wraps around to 0.  `captureImageSections` gives the page table
`AlignToSize(SizeOfImage, 4096) / 4096 = 3` pages, and `captureImageSection` then sets
`AlignToSize(VirtualSize, 4096) / 4096 = 0xFFFFF` zero pages from the page index 2 on: it
leaves the page table, and so does `Load`. -/
theorem captureImageSections_wrapped_VirtualSize :
    (capturedHeaders wrappedSizePe64).ldrError = LoaderError.LDR_ERROR_NONE ∧
    (captureSectionHeaders (capturedHeaders wrappedSizePe64) wrappedSizePe64).1 =
      FileError.ERROR_NONE ∧
    (captureSectionHeaders (capturedHeaders wrappedSizePe64) wrappedSizePe64).2.1.ldrError =
      LoaderError.LDR_ERROR_NONE ∧
    isImageLoadable
      (captureSectionHeaders (capturedHeaders wrappedSizePe64) wrappedSizePe64).2.1 = true ∧
    ((captureSectionHeaders (capturedHeaders wrappedSizePe64) wrappedSizePe64).2.1.sections.map
      fun S => (S.VirtualAddress, S.VirtualSize, S.PointerToRawData, S.SizeOfRawData,
        decide (getImageProtection S.Characteristics = PELIB_PAGE_NOACCESS))) =
      [(0x2000, 0xFFFFF000, 0, 0, false)] ∧
    (capturedHeaders wrappedSizePe64).optionalHeader.SectionAlignment = 0x2000 ∧
    AlignToSize 0xFFFFF000 0x2000 / PELIB_PAGE_SIZE = 0 ∧
    AlignToSize (capturedHeaders wrappedSizePe64).optionalHeader.SizeOfImage PELIB_PAGE_SIZE /
      PELIB_PAGE_SIZE = 3 ∧
    AlignToSize 0xFFFFF000 PELIB_PAGE_SIZE / PELIB_PAGE_SIZE = 0xFFFFF ∧
    captureImageSections
      (captureSectionHeaders (capturedHeaders wrappedSizePe64) wrappedSizePe64).2.1
      (captureSectionHeaders (capturedHeaders wrappedSizePe64) wrappedSizePe64).2.2 = none ∧
    Load (ImageLoader.new 0xA0) wrappedSizePe64 false = none := by
  refine ⟨by decide!, by decide!, by decide!, by decide!, by decide!, by decide!, by decide!,
    by decide!, by decide!, by decide!, by decide!⟩

end PeLib
